import Mathlib

/-!
# vtkSV NURBS utilities: knot vectors, parameter samples, basis functions

A shallow embedding of the numerical core of `Modules/NURBS/vtkNURBSUtils.cxx`.

* `double` values are elements of an arbitrary linearly ordered field `α`
  (exact arithmetic); every definition is computable and can be run at `α := ℚ`.
* a `vtkDoubleArray` / `vtkIntArray` is a `List`; `GetTuple1` reads with default `0`,
  `SetTuple1` is `List.set`.
* a C `for (int i = lo; i < hi; i++)` loop is `forLoop lo hi body`.
-/

set_option linter.unusedSectionVars false
set_option linter.unusedVariables false

namespace vtkNURBSUtils

/-! ## Loops and arrays -/

/-- Runs `body i` for `n` consecutive values of `i`, starting at the given index. -/
def forLoopAux {σ : Type} (body : ℕ → σ → σ) : ℕ → ℕ → σ → σ
  | 0, _, s => s
  | n + 1, i, s => forLoopAux body n (i + 1) (body i s)

/-- The C loop `for (int i = lo; i < hi; i++) s = body i s`. -/
def forLoop {σ : Type} (lo hi : ℕ) (body : ℕ → σ → σ) (s : σ) : σ :=
  forLoopAux body (hi - lo) lo s

section Arrays

variable {α : Type} [LinearOrderedField α]

/-- `arr->SetNumberOfTuples(n)`: an array of `n` entries. The C++ leaves the entries
unspecified; every function below writes each entry before reading it. -/
def SetNumberOfTuples (n : ℕ) : List α := List.replicate n 0

/-- `arr->GetTuple1(i)`. -/
def GetTuple1 (arr : List α) (i : ℕ) : α := arr.getD i 0

/-- `arr->SetTuple1(i, v)`. -/
def SetTuple1 (arr : List α) (i : ℕ) (v : α) : List α := arr.set i v

/-- `arr->InsertTuple1(i, v)`: like `SetTuple1`, but the array grows when `i` is past its
end. -/
def InsertTuple1 (arr : List α) (i : ℕ) (v : α) : List α :=
  if i < arr.length then arr.set i v
  else arr ++ List.replicate (i - arr.length) 0 ++ [v]

/-- `xyz->GetPoint(i, pt)` on a `vtkPoints`, a list of coordinate triples. -/
def GetPoint (xyz : List (α × α × α)) (i : ℕ) : α × α × α := xyz.getD i (0, 0, 0)

/-! ## Parameter samples -/

/-- `vtkNURBSUtils::LinSpace(min, max, num, result)`; always returns 1. -/
def LinSpace (min max : α) (num : ℕ) : List α :=
  let result : List α := SetNumberOfTuples num
  let div : α := (max - min) / (((num : ℤ) - 1 : ℤ) : α)
  forLoop 0 num (fun i r => SetTuple1 r i (min + div * (i : α))) result

/-- `vtkNURBSUtils::GetChordSpacedUs(xyz, num, U)`; always returns 1. `sqrt` stands for
`std::sqrt`, and `std::pow(x, 2)` is `x ^ 2`. The count `num - 1` is truncated at `0`, which
differs from the C `int` only for `num = 0`, where the C++ already writes out of bounds. -/
def GetChordSpacedUs (sqrt : α → α) (xyz : List (α × α × α)) (num : ℕ) : List α :=
  let dists : List α := SetNumberOfTuples (num - 1)
  let dd := forLoop 1 num (fun i (dd : α × List α) =>
    let pt0 := GetPoint xyz (i - 1)
    let pt1 := GetPoint xyz i
    let dist := sqrt ((pt1.1 - pt0.1) ^ 2 + (pt1.2.1 - pt0.2.1) ^ 2 + (pt1.2.2 - pt0.2.2) ^ 2)
    (dd.1 + dist, InsertTuple1 dd.2 (i - 1) dist)) (0, dists)
  let d := dd.1
  let dists := dd.2
  let U : List α := SetNumberOfTuples num
  let U := SetTuple1 U 0 0
  let un := forLoop 1 (num - 1) (fun i (un : List α × α) =>
    let dist := GetTuple1 dists (i - 1)
    let new_u := un.2 + dist / d
    (SetTuple1 un.1 i new_u, new_u)) (U, 0)
  SetTuple1 un.1 (num - 1) 1

/-- `vtkNURBSUtils::GetCentripetalSpacedUs(xyz, num, U)`; always returns 1. As in
`GetChordSpacedUs`, the count `num - 1` is truncated at `0`, which differs from the C `int`
only for `num = 0`, where the C++ already writes out of bounds. -/
def GetCentripetalSpacedUs (sqrt : α → α) (xyz : List (α × α × α)) (num : ℕ) : List α :=
  let dists : List α := SetNumberOfTuples (num - 1)
  let dd := forLoop 1 num (fun i (dd : α × List α) =>
    let pt0 := GetPoint xyz (i - 1)
    let pt1 := GetPoint xyz i
    let dist := sqrt ((pt1.1 - pt0.1) ^ 2 + (pt1.2.1 - pt0.2.1) ^ 2 + (pt1.2.2 - pt0.2.2) ^ 2)
    (dd.1 + sqrt dist, InsertTuple1 dd.2 (i - 1) dist)) (0, dists)
  let d := dd.1
  let dists := dd.2
  let U : List α := SetNumberOfTuples num
  let U := SetTuple1 U 0 0
  let un := forLoop 1 (num - 1) (fun i (un : List α × α) =>
    let dist := GetTuple1 dists (i - 1)
    let new_u := un.2 + sqrt dist / d
    (SetTuple1 un.1 i new_u, new_u)) (U, 0)
  SetTuple1 un.1 (num - 1) 1

/-- `strncmp(type.c_str(), name, strlen(name)) == 0`: the string starts with `name`. -/
def strncmpEq (type name : String) : Bool := name.data.isPrefixOf type.data

/-- `vtkNURBSUtils::GetUs(xyz, type, U)`: the returned status and the contents of `U`
afterwards. -/
def GetUs (sqrt : α → α) (xyz : List (α × α × α)) (type : String) (U : List α) :
    ℤ × List α :=
  let nCon := xyz.length
  if strncmpEq type "equal" then
    (1, LinSpace 0 1 nCon)
  else if strncmpEq type "chord" then
    (1, GetChordSpacedUs sqrt xyz nCon)
  else if strncmpEq type "centripetal" then
    (1, GetCentripetalSpacedUs sqrt xyz nCon)
  else
    (0, U)

/-- Euclidean length of the segment from point `k` to point `k + 1`. -/
def segLength (sqrt : α → α) (xyz : List (α × α × α)) (k : ℕ) : α :=
  sqrt (((GetPoint xyz (k + 1)).1 - (GetPoint xyz k).1) ^ 2
    + ((GetPoint xyz (k + 1)).2.1 - (GetPoint xyz k).2.1) ^ 2
    + ((GetPoint xyz (k + 1)).2.2 - (GetPoint xyz k).2.2) ^ 2)

/-! ## Knot vectors -/

/-- `vtkNURBSUtils::LinSpaceClamp(min, max, num, p, result)`; always returns 1.
`numinterior` is a C `int` and may be negative, so it is computed in `ℤ`; a loop bound
computed in `ℤ` is turned into the first index the loop does not reach by `Int.toNat`. -/
def LinSpaceClamp (min max : α) (num p : ℕ) : List α :=
  let result : List α := SetNumberOfTuples num
  let numinterior : ℤ := (num : ℤ) - 2 * ((p : ℤ) + 1)
  let div : α := (max - min) / ((numinterior + 1 : ℤ) : α)
  let result := forLoop 0 num (fun i r =>
    if (i : ℤ) < numinterior + p + 1 then SetTuple1 r i 0 else SetTuple1 r i 1) result
  let rc := forLoop (p + 1) (numinterior + p + 1).toNat
    (fun i (rc : List α × ℕ) => (SetTuple1 rc.1 i (div * (rc.2 : α)), rc.2 + 1)) (result, 1)
  rc.1

/-- `vtkNURBSUtils::GetAvgKnots(min, max, num, p, U, knots)`; always returns 1.
The local `div` of the C++ is computed but never used and is omitted. -/
def GetAvgKnots (_min _max : α) (num p : ℕ) (U : List α) : List α :=
  let nCon := U.length
  let knots : List α := SetNumberOfTuples num
  let numinterior : ℤ := (num : ℤ) - 2 * ((p : ℤ) + 1)
  let knots := forLoop 0 num (fun i k =>
    if (i : ℤ) < numinterior + p + 1 then SetTuple1 k i 0 else SetTuple1 k i 1) knots
  forLoop 1 ((nCon : ℤ) - p).toNat (fun i k =>
    let k := forLoop i (i + p) (fun j k =>
      let val0 := GetTuple1 k (i + p) + GetTuple1 U j
      SetTuple1 k (i + p) val0) k
    let val1 := (1 / (p : α)) * GetTuple1 k (i + p)
    SetTuple1 k (i + p) val1) knots

/-- `vtkNURBSUtils::GetEndDerivKnots(min, max, num, p, U, knots)`; always returns 1.
The local `div` of the C++ is computed but never used and is omitted. -/
def GetEndDerivKnots (_min _max : α) (num p : ℕ) (U : List α) : List α :=
  let nCon := U.length
  let knots : List α := SetNumberOfTuples num
  let numinterior : ℤ := (num : ℤ) - 2 * ((p : ℤ) + 1)
  let knots := forLoop 0 num (fun i k =>
    if (i : ℤ) < numinterior + p + 1 then SetTuple1 k i 0 else SetTuple1 k i 1) knots
  let knots := forLoop 0 ((nCon : ℤ) - p + 1).toNat (fun i k =>
    let k := forLoop i (i + p) (fun j k =>
      let val0 := GetTuple1 k (i + p + 1) + GetTuple1 U j
      SetTuple1 k (i + p + 1) val0) k
    let val1 := (1 / (p : α)) * GetTuple1 k (i + p + 1)
    SetTuple1 k (i + p + 1) val1) knots
  forLoop 0 num (fun i k =>
    if (i : ℤ) ≥ numinterior + p + 1 then SetTuple1 k i 1 else k) knots

/-- `vtkNURBSUtils::GetKnots(U, p, type, knots)`: the returned status and the contents of
`knots` afterwards. -/
def GetKnots (U : List α) (p : ℕ) (type : String) (knots : List α) : ℤ × List α :=
  let nCon := U.length
  let nKnot := nCon + p + 1
  if strncmpEq type "equal" then
    (1, LinSpaceClamp 0 1 nKnot p)
  else if strncmpEq type "average" then
    (1, GetAvgKnots 0 1 nKnot p U)
  else if strncmpEq type "derivative" then
    let nKnot := nKnot + 2
    (1, GetEndDerivKnots 0 1 nKnot p U)
  else
    (0, knots)

/-! ## Basis functions -/

/-- A two-dimensional `vtkTypedArray<double>` (dense or sparse): its extents and the value
stored at each coordinate pair. -/
structure TypedArray (α : Type) where
  nr : ℕ
  nc : ℕ
  val : ℕ → ℕ → α

/-- `mat->GetValue(i, j)`. -/
def TypedArray.GetValue (mat : TypedArray α) (i j : ℕ) : α := mat.val i j

/-- `mat->SetValue(i, j, v)`. -/
def TypedArray.SetValue (mat : TypedArray α) (i j : ℕ) (v : α) : TypedArray α :=
  { mat with val := fun a b => if a = i ∧ b = j then v else mat.val a b }

/-- `vtkNURBSUtils::WhereLessEqual(val, in, out)`: the contents of `out` afterwards. -/
def WhereLessEqual (val : α) (inp : List α) : List ℤ :=
  let numVals := inp.length
  let out : List ℤ := List.replicate numVals 0
  forLoop 0 numVals (fun i out =>
    if val ≤ GetTuple1 inp i then out.set i 1 else out.set i 0) out

/-- `vtkNURBSUtils::WhereGreater(val, in, out)`: the contents of `out` afterwards. -/
def WhereGreater (val : α) (inp : List α) : List ℤ :=
  let numVals := inp.length
  let out : List ℤ := List.replicate numVals 0
  forLoop 0 numVals (fun i out =>
    if val > GetTuple1 inp i then out.set i 1 else out.set i 0) out

/-- `vtkNURBSUtils::Intersect1D(v0, v1, result)`: the status and the contents of `result`
afterwards. -/
def Intersect1D (v0 v1 result : List ℤ) : ℤ × List ℤ :=
  let numVals0 := v0.length
  let numVals1 := v1.length
  if numVals0 ≠ numVals1 then (0, result)
  else
    let result : List ℤ := List.replicate numVals1 0
    (1, forLoop 0 numVals1 (fun i result =>
      let val0 := v0.getD i 0
      let val1 := v1.getD i 0
      if val0 ≠ 0 ∧ val1 ≠ 0 then result.set i 1 else result.set i 0) result)

/-- `vtkNURBSUtils::AddVal1D(v0, val, scalar, result)` (array first): `v0[i] + scalar*val`. -/
def AddVal1DArrVal (v0 : List α) (val scalar : α) : List α :=
  let numVals := v0.length
  let result : List α := SetNumberOfTuples numVals
  forLoop 0 numVals (fun i result =>
    let val0 := GetTuple1 v0 i
    SetTuple1 result i (val0 + scalar * val)) result

/-- `vtkNURBSUtils::AddVal1D(val, v0, scalar, result)` (value first): `val + scalar*v0[i]`. -/
def AddVal1DValArr (val : α) (v0 : List α) (scalar : α) : List α :=
  let numVals := v0.length
  let result : List α := SetNumberOfTuples numVals
  forLoop 0 numVals (fun i result =>
    let val0 := GetTuple1 v0 i
    SetTuple1 result i (val + scalar * val0)) result

/-- A division of doubles: `none` when the divisor is zero, in which case the C++ produces
an infinity or a NaN, which has no counterpart in exact arithmetic. -/
def divChecked (x y : α) : Option α := if y = 0 then none else some (x / y)

/-- Runs a body that may fail for `n` consecutive indices. -/
def forLoopMAux {σ : Type} (body : ℕ → σ → Option σ) : ℕ → ℕ → σ → Option σ
  | 0, _, s => some s
  | n + 1, i, s => (body i s).bind (forLoopMAux body n (i + 1))

/-- The C loop `for (int i = lo; i < hi; i++)` with a body that may fail. -/
def forLoopM {σ : Type} (lo hi : ℕ) (body : ℕ → σ → Option σ) (s : σ) : Option σ :=
  forLoopMAux body (hi - lo) lo s

/-- First loop nest of `BasisEvaluationVec` (lines 1036-1045): column `i` of `Nus` receives
the indicator of `knots[kEval+i] ≤ u < knots[kEval+i+1]`. The state is `Nus` and
`fillspots`. -/
def basisInitLoop (knots : List α) (p kEval : ℕ) (uEvals : List α) (Nus : TypedArray α) :
    TypedArray α :=
  let nU := uEvals.length
  (forLoop 0 (p + 1) (fun i (st : TypedArray α × List ℤ) =>
    let less := WhereLessEqual (GetTuple1 knots (kEval + i)) uEvals
    let greater := WhereGreater (GetTuple1 knots (kEval + i + 1)) uEvals
    let fillspots := (Intersect1D greater less st.2).2
    (forLoop 0 nU (fun j Nus => Nus.SetValue j i ((fillspots.getD j 0 : ℤ) : α)) st.1,
      fillspots)) (Nus, [])).1

/-- The loop of lines 1056-1067 of `BasisEvaluationVec`: the first term of the recurrence,
`saved[j] = (u_j - knots[kEval]) * Nus(j,0) / denom` where `Nus(j,0) ≠ 0`, else `0`. -/
def basisSavedLoop (knots : List α) (kEval : ℕ) (uEvals : List α) (denom : α)
    (Nus : TypedArray α) (saved : List α) : Option (List α) :=
  forLoopM 0 uEvals.length (fun j saved =>
    if Nus.GetValue j 0 ≠ 0 then
      let numer := (GetTuple1 uEvals j - GetTuple1 knots kEval) * Nus.GetValue j 0
      (divChecked numer denom).map (fun q => SetTuple1 saved j q)
    else
      some (SetTuple1 saved j 0)) saved

/-- The loop of lines 1074-1085: `tempVec[k] = Nus(k,j+1) / (uRight - uLeft)` where
`Nus(k,j+1) ≠ 0`, else the sentinel `-1`. -/
def basisTempLoop (nU j : ℕ) (uLeft uRight : α) (Nus : TypedArray α) (tempVec : List α) :
    Option (List α) :=
  forLoopM 0 nU (fun k tempVec =>
    if Nus.GetValue k (j + 1) ≠ 0 then
      (divChecked (Nus.GetValue k (j + 1)) (uRight - uLeft)).map
        (fun temp => SetTuple1 tempVec k temp)
    else
      some (SetTuple1 tempVec k (-1))) tempVec

/-- The loop of lines 1086-1100: where `tempVec[k]` is not the sentinel, `Nus(k,j)` becomes
`saved[k] + uRights[k]*temp` and `saved[k]` becomes `uLefts[k]*temp`; otherwise `Nus(k,j)`
becomes `saved[k]` and `saved[k]` becomes `0`. The state is `Nus` and `saved`. -/
def basisUpdateLoop (nU j : ℕ) (tempVec uRights uLefts : List α)
    (st : TypedArray α × List α) : TypedArray α × List α :=
  forLoop 0 nU (fun k (st : TypedArray α × List α) =>
    let temp := GetTuple1 tempVec k
    if temp ≠ -1 then
      let newVal := GetTuple1 st.2 k + GetTuple1 uRights k * temp
      (st.1.SetValue k j newVal, SetTuple1 st.2 k (GetTuple1 uLefts k * temp))
    else
      (st.1.SetValue k j (GetTuple1 st.2 k), SetTuple1 st.2 k 0)) st

/-- Body of the loop over `j` of `BasisEvaluationVec` (lines 1068-1101) at level `i`. The
state is `Nus`, `saved` and `tempVec`; `uRights` and `uLefts` are rebuilt by `AddVal1D`. -/
def basisInnerStep (knots : List α) (kEval : ℕ) (uEvals : List α) (i j : ℕ)
    (st : TypedArray α × List α × List α) : Option (TypedArray α × List α × List α) :=
  let nU := uEvals.length
  let uLeft := GetTuple1 knots (kEval + j + 1)
  let uRight := GetTuple1 knots (kEval + i + j + 1)
  let uRights := AddVal1DValArr uRight uEvals (-1)
  let uLefts := AddVal1DArrVal uEvals uLeft (-1)
  (basisTempLoop nU j uLeft uRight st.1 st.2.2).map (fun tempVec =>
    let ns := basisUpdateLoop nU j tempVec uRights uLefts (st.1, st.2.1)
    (ns.1, ns.2, tempVec))

/-- Body of the loop over the level `i = 1..p` of `BasisEvaluationVec` (lines 1053-1102). -/
def basisLevelStep (knots : List α) (p kEval : ℕ) (uEvals : List α) (i : ℕ)
    (st : TypedArray α × List α × List α) : Option (TypedArray α × List α × List α) :=
  let denom := GetTuple1 knots (kEval + i) - GetTuple1 knots kEval
  (basisSavedLoop knots kEval uEvals denom st.1 st.2.1).bind (fun saved =>
    forLoopM 0 (p - i + 1) (basisInnerStep knots kEval uEvals i) (st.1, saved, st.2.2))

/-- `vtkNURBSUtils::BasisEvaluationVec(knots, p, kEval, uEvals, Nus)`: the contents of `Nus`
afterwards, or `none` when a division by zero is executed. The function returns 1 on every
path. -/
def BasisEvaluationVec (knots : List α) (p kEval : ℕ) (uEvals : List α) (Nus : TypedArray α) :
    Option (TypedArray α) :=
  let nU := uEvals.length
  let Nus := basisInitLoop knots p kEval uEvals Nus
  let saved : List α := SetNumberOfTuples nU
  let tempVec : List α := SetNumberOfTuples nU
  (forLoopM 1 (p + 1) (basisLevelStep knots p kEval uEvals) (Nus, saved, tempVec)).map
    (fun st => st.1)

/-- What can go wrong in a run of `BasisEvaluation`: a read or write outside a heap buffer, a
read of a buffer entry that was never written, a division by zero. -/
inductive Fault where
  | outOfBounds
  | uninitialized
  | divisionByZero
  deriving DecidableEq, Repr

/-- Reads entry `i` of a buffer allocated by `new double[n]`, whose entries hold no value
until they are written. -/
def readBuf (buf : List (Option α)) (i : ℕ) : Except Fault α :=
  match buf.get? i with
  | none => Except.error Fault.outOfBounds
  | some none => Except.error Fault.uninitialized
  | some (some v) => Except.ok v

/-- Writes entry `i` of a buffer allocated by `new double[n]`. -/
def writeBuf (buf : List (Option α)) (i : ℕ) (v : α) : Except Fault (List (Option α)) :=
  if i < buf.length then Except.ok (buf.set i (some v)) else Except.error Fault.outOfBounds

/-- Runs a body that may fault for `n` consecutive indices. -/
def forLoopEAux {σ : Type} (body : ℕ → σ → Except Fault σ) : ℕ → ℕ → σ → Except Fault σ
  | 0, _, s => Except.ok s
  | n + 1, i, s =>
    match body i s with
    | Except.ok t => forLoopEAux body n (i + 1) t
    | Except.error e => Except.error e

/-- The C loop `for (int i = lo; i < hi; i++)` with a body that may fault. -/
def forLoopE {σ : Type} (lo hi : ℕ) (body : ℕ → σ → Except Fault σ) (s : σ) :
    Except Fault σ :=
  forLoopEAux body (hi - lo) lo s

/-- `vtkNURBSUtils::BasisEvaluation(knots, p, kEval, uEval, Nu)`: the contents of `Nu`
afterwards, or the first fault. `uLeft` and `uRight` are the `new double[p+1]` buffers.
The index `kEval+1-i` is truncated at `0`; it is non-negative whenever `p ≤ kEval + 1`. -/
def BasisEvaluation (knots : List α) (p kEval : ℕ) (uEval : α) : Except Fault (List α) :=
  let Nu : List α := SetNumberOfTuples (p + 2)
  let uLeft : List (Option α) := List.replicate (p + 1) none
  let uRight : List (Option α) := List.replicate (p + 1) none
  let Nu := forLoop 0 (p + 1) (fun i Nu => SetTuple1 Nu i 0) Nu
  let Nu := SetTuple1 Nu 0 1
  (forLoopE 1 (p + 1) (fun i (st : List α × List (Option α) × List (Option α)) =>
    (writeBuf st.2.1 i (uEval - GetTuple1 knots (kEval + 1 - i))).bind (fun uLeft =>
    (writeBuf st.2.2 i (GetTuple1 knots (kEval + i) - uEval)).bind (fun uRight =>
    (forLoopE 0 i (fun j (ns : List α × α) =>
      (readBuf uRight (j + 1)).bind (fun r =>
      (readBuf uLeft (i + j)).bind (fun l =>
      (if r + l = 0 then Except.error Fault.divisionByZero
        else Except.ok (GetTuple1 ns.1 j / (r + l))).bind (fun temp =>
      (readBuf uLeft (i - j)).bind (fun l2 =>
        Except.ok (SetTuple1 ns.1 j (ns.2 + r * temp), l2 * temp)))))) (st.1, 0)).bind
      (fun ns => Except.ok (SetTuple1 ns.1 i ns.2, uLeft, uRight)))))
    (Nu, uLeft, uRight)).map (fun st => st.1)

deriving instance DecidableEq for Except

/-- The Cox-de Boor recurrence for the degree-`d` B-spline basis function `N_{i,d}(u)` over
the knots `U`, a term with a zero-width knot interval contributing `0`. -/
def coxDeBoor (U : ℕ → α) : ℕ → ℕ → α → α
  | 0, i, u => if U i ≤ u ∧ u < U (i + 1) then 1 else 0
  | d + 1, i, u =>
    (if U (i + d + 1) - U i = 0 then 0
      else (u - U i) / (U (i + d + 1) - U i) * coxDeBoor U d i u) +
    (if U (i + d + 2) - U (i + 1) = 0 then 0
      else (U (i + d + 2) - u) / (U (i + d + 2) - U (i + 1)) * coxDeBoor U d (i + 1) u)

/-- First term of the recurrence for `N_{i,d+1}(u)`: the share of `N_{i,d}(u)`. -/
def cdbLeft (U : ℕ → α) (d i : ℕ) (u : α) : α :=
  if U (i + d + 1) - U i = 0 then 0
  else (u - U i) / (U (i + d + 1) - U i) * coxDeBoor U d i u

/-- Second term of the recurrence for `N_{i,d+1}(u)`: the share of `N_{i+1,d}(u)`. -/
def cdbRight (U : ℕ → α) (d i : ℕ) (u : α) : α :=
  if U (i + d + 2) - U (i + 1) = 0 then 0
  else (U (i + d + 2) - u) / (U (i + d + 2) - U (i + 1)) * coxDeBoor U d (i + 1) u

/-- The knot vector `K` is clamped with end multiplicity exactly `p + 1`: entries `0..p`
are `0` and the next entry is positive; the last `p + 1` entries are `1` and the entry
before them is below `1`. -/
def ClampedExactly (K : List α) (p : ℕ) : Prop :=
  (∀ i, i ≤ p → K[i]? = some 0) ∧ 0 < GetTuple1 K (p + 1) ∧
  (∀ i, K.length ≤ i + (p + 1) → i < K.length → K[i]? = some 1) ∧
  GetTuple1 K (K.length - p - 2) < 1

end Arrays

/-! ## Knot spans and mesh connectivity -/

section SpanDefs

variable {α : Type} [LinearOrderedField α]

/-- A C `while (cond) body` loop. The result is `none` when the loop has not been left after
`fuel` evaluations of its condition. -/
def whileLoop {σ : Type} (cond : σ → Bool) (body : σ → σ) : ℕ → σ → Option σ
  | 0, _ => none
  | fuel + 1, s => if cond s then whileLoop cond body fuel (body s) else some s

/-- `vtkNURBSUtils::FindSpan(p, u, knots, span)`: the value left in `span` (the function
returns 1 on every path), or `none` when the search loop is still running after `fuel`
evaluations of its condition. The state of the loop is `(low, high, mid)`. The count
`nCon = nKnot - p - 1` is truncated at `0`; it is exact for every knot vector of at least
`p + 1` entries. -/
def FindSpan (fuel p : ℕ) (u : α) (knots : List α) : Option ℤ :=
  let nKnot := knots.length
  let nCon := nKnot - p - 1
  if u = GetTuple1 knots nCon then some ((nCon : ℤ) - 1)
  else
    let low := p
    let high := nCon
    let mid := (low + high) / 2
    (whileLoop
      (fun (st : ℕ × ℕ × ℕ) =>
        decide (u < GetTuple1 knots st.2.2 ∨ u ≥ GetTuple1 knots (st.2.2 + 1)))
      (fun (st : ℕ × ℕ × ℕ) =>
        let lh : ℕ × ℕ := if u < GetTuple1 knots st.2.2 then (st.1, st.2.2)
          else (st.2.2, st.2.1)
        (lh.1, lh.2, (lh.1 + lh.2) / 2))
      fuel (low, high, mid)).map (fun st => (st.2.2 : ℤ))

end SpanDefs


section MeshDefs

/-- `vtkStructuredData::ComputePointId(dim, pos)` of the VTK library: the id of the point at
position `pos` of a structured grid of dimensions `dim`. -/
def ComputePointId (dim pos : ℕ × ℕ × ℕ) : ℕ :=
  (pos.2.2 * dim.2.1 + pos.2.1) * dim.1 + pos.1

/-- `vtkNURBSSurface::GetStructuredGridConnectivity(numXPoints, numYPoints, connectivity)`:
the cells of `connectivity` afterwards, each the list of its four point ids; always returns
1. `connectivity->Reset()` empties the cell array and `InsertNextCell` appends to it. -/
def GetStructuredGridConnectivity (numXPoints numYPoints : ℤ)
    (_connectivity : List (List ℤ)) : List (List ℤ) :=
  let connectivity : List (List ℤ) := []
  forLoop 0 (numXPoints - 1).toNat (fun i connectivity =>
    forLoop 0 (numYPoints - 1).toNat (fun j connectivity =>
      let ptId : ℤ := (i : ℤ) + (j : ℤ) * numXPoints
      let ptIds : List ℤ := [ptId, ptId + 1, ptId + numXPoints + 1, ptId + numXPoints]
      connectivity ++ [ptIds]) connectivity) connectivity

end MeshDefs


/-! ## Dense matrix operations -/

section MatrixDefs

variable {α : Type} [LinearOrderedField α]

/-- A `vtkTypedArray<double>` of one to three dimensions: its extents and the value stored
at each coordinate triple. A one- or two-dimensional array uses `0` for the coordinates it
does not have. -/
structure NArray (α : Type) where
  extents : List ℕ
  val : ℕ → ℕ → ℕ → α

/-- `arr->GetExtents()[d].GetSize()`. -/
def NArray.GetExtent (arr : NArray α) (d : ℕ) : ℕ := arr.extents.getD d 0

/-- `arr->GetDimensions()`. -/
def NArray.GetDimensions (arr : NArray α) : ℕ := arr.extents.length

/-- `arr->Resize(n0)`, `arr->Resize(n0, n1)`, `arr->Resize(n0, n1, n2)`: an array of the
given extents. The C++ leaves the entries unspecified; every function below writes each
entry inside the extents before it is read. -/
def NArray.Resize (ext : List ℕ) : NArray α := { extents := ext, val := fun _ _ _ => 0 }

/-- `arr->GetValue(i)`. -/
def NArray.GetValue1 (arr : NArray α) (i : ℕ) : α := arr.val i 0 0

/-- `arr->GetValue(i, j)`. -/
def NArray.GetValue2 (arr : NArray α) (i j : ℕ) : α := arr.val i j 0

/-- `arr->GetValue(i, j, k)`. -/
def NArray.GetValue3 (arr : NArray α) (i j k : ℕ) : α := arr.val i j k

/-- `arr->SetValue(i, j, k, v)`. -/
def NArray.SetValue3 (arr : NArray α) (i j k : ℕ) (v : α) : NArray α :=
  { arr with val := fun a b c => if a = i ∧ b = j ∧ c = k then v else arr.val a b c }

/-- `arr->SetValue(i, j, v)`. -/
def NArray.SetValue2 (arr : NArray α) (i j : ℕ) (v : α) : NArray α := arr.SetValue3 i j 0 v

/-- `arr->SetValue(i, v)`. -/
def NArray.SetValue1 (arr : NArray α) (i : ℕ) (v : α) : NArray α := arr.SetValue3 i 0 0 v

/-- `buf[idx] = v` on a heap buffer `double *buf`. -/
def bufSet (buf : ℕ → α) (idx : ℕ) (v : α) : ℕ → α :=
  fun x => if x = idx then v else buf x

/-- `bufs[k][idx] = v` on an array of heap buffers `double *bufs[3]`. -/
def bufSet2 (bufs : ℕ → ℕ → α) (k idx : ℕ) (v : α) : ℕ → ℕ → α :=
  fun c x => if c = k ∧ x = idx then v else bufs c x

/-- A heap buffer fresh from `new double[n]`, whose entries the C++ leaves unspecified. -/
def newBuf : ℕ → α := fun _ => 0

/-- `vtkNURBSUtils::MatrixToVector(mat, matVec)`: the buffer afterwards (column-major
flattening); always returns 1. -/
def MatrixToVector (mat : NArray α) (matVec : ℕ → α) : ℕ → α :=
  let nr := mat.GetExtent 0
  let nc := mat.GetExtent 1
  forLoop 0 nc (fun i matVec =>
    forLoop 0 nr (fun j matVec => bufSet matVec (i * nr + j) (mat.GetValue2 j i)) matVec) matVec

/-- `vtkNURBSUtils::VectorToMatrix(matVec, nr, nc, mat)`: the matrix afterwards; always
returns 1. -/
def VectorToMatrix (matVec : ℕ → α) (nr nc : ℕ) (_mat : NArray α) : NArray α :=
  let mat : NArray α := NArray.Resize [nr, nc]
  forLoop 0 nc (fun i mat =>
    forLoop 0 nr (fun j mat =>
      let val := matVec (i * nr + j)
      mat.SetValue2 j i val) mat) mat

/-- `vtkNURBSUtils::PointMatrixToVectors(mat, matVecs)`: the status and the three buffers
afterwards. -/
def PointMatrixToVectors (mat : NArray α) (matVecs : ℕ → ℕ → α) : ℤ × (ℕ → ℕ → α) :=
  let nr := mat.GetExtent 0
  let nc := mat.GetExtent 1
  let np := mat.GetExtent 2
  if np ≠ 3 then (0, matVecs)
  else
    (1, forLoop 0 nc (fun i matVecs =>
      forLoop 0 nr (fun j matVecs =>
        forLoop 0 3 (fun k matVecs =>
          bufSet2 matVecs k (i * nr + j) (mat.GetValue3 j i k)) matVecs) matVecs) matVecs)

/-- `vtkNURBSUtils::VectorsToPointMatrix(matVecs, nr, nc, mat)`: the matrix afterwards;
always returns 1. The matrix is not resized here. -/
def VectorsToPointMatrix (matVecs : ℕ → ℕ → α) (nr nc : ℕ) (mat : NArray α) : NArray α :=
  forLoop 0 nc (fun i mat =>
    forLoop 0 nr (fun j mat =>
      forLoop 0 3 (fun k mat =>
        let val := matVecs k (i * nr + j)
        mat.SetValue3 j i k val) mat) mat) mat

/-- `vtkNURBSUtils::DGEMM(A, nrA, ncA, B, nrB, ncB, C)`: the status and the buffer `C`
afterwards. -/
def DGEMM (A : ℕ → α) (nrA ncA : ℕ) (B : ℕ → α) (nrB ncB : ℕ) (C : ℕ → α) : ℤ × (ℕ → α) :=
  if ncA ≠ nrB then (0, C)
  else
    let C := forLoop 0 ncB (fun i C =>
      forLoop 0 nrA (fun j C => bufSet C (i + ncB * j) 0) C) C
    (1, forLoop 0 nrA (fun i C =>
      forLoop 0 ncB (fun j C =>
        let cij := C (i + j * nrA)
        let cij := forLoop 0 ncA (fun k cij => cij + A (i + k * nrA) * B (k + j * nrB)) cij
        bufSet C (i + j * nrA) cij) C) C)

/-- `vtkNURBSUtils::MatrixMatrixForDGEMM(mat0, mat1, output)`: the status and `output`
afterwards. -/
def MatrixMatrixForDGEMM (mat0 mat1 output : NArray α) : ℤ × NArray α :=
  let nrM0 := mat0.GetExtent 0
  let ncM0 := mat0.GetExtent 1
  let nrM1 := mat1.GetExtent 0
  let ncM1 := mat1.GetExtent 1
  if ncM0 ≠ nrM1 then (0, output)
  else
    let mat0Vec := MatrixToVector mat0 newBuf
    let mat1Vec := MatrixToVector mat1 newBuf
    let r := DGEMM mat0Vec nrM0 ncM0 mat1Vec nrM1 ncM1 newBuf
    if r.1 ≠ 1 then (0, output)
    else (1, VectorToMatrix r.2 nrM0 ncM1 output)

/-- The loop `for (int i=0; i<3; i++) if (DGEMM(A[i], ..., B[i], ..., out[i]) != 1) return 0;`
shared by the three point-valued multiplies: the status (`0` once a call has failed) and
the three output buffers. -/
def dgemmComponents (A : ℕ → ℕ → α) (nrA ncA : ℕ) (B : ℕ → ℕ → α) (nrB ncB : ℕ)
    (outVecs : ℕ → ℕ → α) : ℤ × (ℕ → ℕ → α) :=
  forLoop 0 3 (fun i (st : ℤ × (ℕ → ℕ → α)) =>
    if st.1 ≠ 1 then st
    else
      let r := DGEMM (A i) nrA ncA (B i) nrB ncB (st.2 i)
      if r.1 ≠ 1 then (0, st.2)
      else (1, fun c x => if c = i then r.2 x else st.2 c x)) (1, outVecs)

/-- `vtkNURBSUtils::PointMatrixPointMatrixForDGEMM(mat0, mat1, output)`. -/
def PointMatrixPointMatrixForDGEMM (mat0 mat1 output : NArray α) : ℤ × NArray α :=
  let nrM0 := mat0.GetExtent 0
  let ncM0 := mat0.GetExtent 1
  let nrM1 := mat1.GetExtent 0
  let ncM1 := mat1.GetExtent 1
  if mat0.GetExtent 2 ≠ 3 then (0, output)
  else if ncM0 ≠ nrM1 then (0, output)
  else
    let mat0Vecs := (PointMatrixToVectors mat0 (fun _ => newBuf)).2
    let mat1Vecs := (PointMatrixToVectors mat1 (fun _ => newBuf)).2
    let r := dgemmComponents mat0Vecs nrM0 ncM0 mat1Vecs nrM1 ncM1 (fun _ => newBuf)
    if r.1 ≠ 1 then (0, output)
    else (1, VectorsToPointMatrix r.2 nrM0 ncM1 output)

/-- `vtkNURBSUtils::PointMatrixMatrixForDGEMM(mat0, mat1, output)`. -/
def PointMatrixMatrixForDGEMM (mat0 mat1 output : NArray α) : ℤ × NArray α :=
  let nrM0 := mat0.GetExtent 0
  let ncM0 := mat0.GetExtent 1
  let nrM1 := mat1.GetExtent 0
  let ncM1 := mat1.GetExtent 1
  if mat0.GetExtent 2 ≠ 3 then (0, output)
  else if ncM0 ≠ nrM1 then (0, output)
  else
    let mat0Vecs := (PointMatrixToVectors mat0 (fun _ => newBuf)).2
    let mat1Vec := MatrixToVector mat1 newBuf
    let r := dgemmComponents mat0Vecs nrM0 ncM0 (fun _ => mat1Vec) nrM1 ncM1 (fun _ => newBuf)
    if r.1 ≠ 1 then (0, output)
    else (1, VectorsToPointMatrix r.2 nrM0 ncM1 output)

/-- `vtkNURBSUtils::MatrixPointMatrixForDGEMM(mat0, mat1, output)`. -/
def MatrixPointMatrixForDGEMM (mat0 mat1 output : NArray α) : ℤ × NArray α :=
  let nrM0 := mat0.GetExtent 0
  let ncM0 := mat0.GetExtent 1
  let nrM1 := mat1.GetExtent 0
  let ncM1 := mat1.GetExtent 1
  if mat1.GetExtent 2 ≠ 3 then (0, output)
  else if ncM0 ≠ nrM1 then (0, output)
  else
    let mat0Vec := MatrixToVector mat0 newBuf
    let mat1Vecs := (PointMatrixToVectors mat1 (fun _ => newBuf)).2
    let r := dgemmComponents (fun _ => mat0Vec) nrM0 ncM0 mat1Vecs nrM1 ncM1 (fun _ => newBuf)
    if r.1 ≠ 1 then (0, output)
    else (1, VectorsToPointMatrix r.2 nrM0 ncM1 output)

/-- `vtkNURBSUtils::MatrixMatrixMultiply(mat0, mat0IsPoints, mat1, mat1IsPoints, output)`:
the status and `output` afterwards. The statuses of the four `...ForDGEMM` helpers are not
looked at by the C++. -/
def MatrixMatrixMultiply (mat0 : NArray α) (mat0IsPoints : ℤ) (mat1 : NArray α)
    (mat1IsPoints : ℤ) (output : NArray α) : ℤ × NArray α :=
  let nrM0 := mat0.GetExtent 0
  let ncM0 := mat0.GetExtent 1
  if mat0IsPoints ≠ 0 ∧ mat0.GetExtent 2 ≠ 3 then (0, output)
  else
    let nrM1 := mat1.GetExtent 0
    let ncM1 := mat1.GetExtent 1
    if mat1IsPoints ≠ 0 ∧ mat1.GetExtent 2 ≠ 3 then (0, output)
    else if ncM0 ≠ nrM1 then (0, output)
    else
      let output : NArray α :=
        if mat0IsPoints ≠ 0 ∨ mat1IsPoints ≠ 0 then NArray.Resize [nrM0, ncM1, 3]
        else NArray.Resize [nrM0, ncM1]
      if ¬ mat0IsPoints ≠ 0 ∧ ¬ mat1IsPoints ≠ 0 then
        (1, (MatrixMatrixForDGEMM mat0 mat1 output).2)
      else if mat0IsPoints ≠ 0 ∧ mat1IsPoints ≠ 0 then
        (1, (PointMatrixPointMatrixForDGEMM mat0 mat1 output).2)
      else if mat0IsPoints ≠ 0 then
        (1, (PointMatrixMatrixForDGEMM mat0 mat1 output).2)
      else
        (1, (MatrixPointMatrixForDGEMM mat0 mat1 output).2)

/-- `vtkNURBSUtils::MatrixVecMultiply(mat, matIsPoints, vec, vecIsPoints, output)`: the
status and `output` afterwards. `updateVal`, `matVal` and `vecVal` are the local
`double[3]` arrays. -/
def MatrixVecMultiply (mat : NArray α) (matIsPoints : ℤ) (vec : NArray α) (vecIsPoints : ℤ)
    (output : NArray α) : ℤ × NArray α :=
  let nrM := mat.GetExtent 0
  let ncM := mat.GetExtent 1
  if matIsPoints ≠ 0 ∧ mat.GetExtent 2 ≠ 3 then (0, output)
  else
    let nrV := vec.GetExtent 0
    if vecIsPoints ≠ 0 ∧ vec.GetExtent 1 ≠ 3 then (0, output)
    else if ncM ≠ nrV then (0, output)
    else
      let either : ℤ := 0
      let output : NArray α := NArray.Resize [nrM]
      let eo : ℤ × NArray α :=
        if matIsPoints ≠ 0 then (1, NArray.Resize [nrM, 3]) else (either, output)
      let eo : ℤ × NArray α :=
        if vecIsPoints ≠ 0 then (1, NArray.Resize [nrM, 3]) else eo
      let either := eo.1
      (1, forLoop 0 nrM (fun i output =>
        let updateVal : ℕ → α := forLoop 0 3 (fun j updateVal => bufSet updateVal j 0) newBuf
        let updateVal := forLoop 0 ncM (fun j updateVal =>
          let mv : (ℕ → α) × (ℕ → α) := forLoop 0 3 (fun k (mv : (ℕ → α) × (ℕ → α)) =>
            let matVal :=
              if matIsPoints ≠ 0 then bufSet mv.1 k (mat.GetValue3 i j k)
              else bufSet mv.1 k (mat.GetValue2 i j)
            let vecVal :=
              if vecIsPoints ≠ 0 then bufSet mv.2 k (vec.GetValue2 j k)
              else bufSet mv.2 k (vec.GetValue1 j)
            (matVal, vecVal)) (newBuf, newBuf)
          forLoop 0 3 (fun k updateVal =>
            bufSet updateVal k (updateVal k + mv.1 k * mv.2 k)) updateVal) updateVal
        if either = 1 then
          forLoop 0 3 (fun j output => output.SetValue2 i j (updateVal j)) output
        else
          output.SetValue1 i (updateVal 0)) eo.2)

/-- `vtkNURBSUtils::MatrixTranspose(mat, matIsPoints, newMat)`: the status and `newMat`
afterwards. -/
def MatrixTranspose (mat : NArray α) (matIsPoints : ℤ) (newMat : NArray α) : ℤ × NArray α :=
  let nr := mat.GetExtent 0
  let nc := mat.GetExtent 1
  let np := mat.GetExtent 2
  if matIsPoints ≠ 0 ∧ np ≠ 3 then (0, newMat)
  else
    let newMat : NArray α :=
      if matIsPoints ≠ 0 then NArray.Resize [nc, nr, 3] else NArray.Resize [nc, nr]
    (1, forLoop 0 nr (fun i newMat =>
      forLoop 0 nc (fun j newMat =>
        if matIsPoints ≠ 0 then
          forLoop 0 3 (fun k newMat =>
            let val := mat.GetValue3 i j k
            newMat.SetValue3 j i k val) newMat
        else
          let val := mat.GetValue2 i j
          newMat.SetValue2 j i val) newMat) newMat)

/-- `vtkNURBSUtils::DeepCopy(input, output)`: `output` afterwards; always returns 1. An
array of more than three dimensions is left without resizing by the C++; arrays here have at
most three. -/
def DeepCopy (input : NArray α) (output : NArray α) : NArray α :=
  let dims := input.GetDimensions
  let output : NArray α :=
    if dims = 1 then NArray.Resize [input.GetExtent 0]
    else if dims = 2 then NArray.Resize [input.GetExtent 0, input.GetExtent 1]
    else if dims = 3 then
      NArray.Resize [input.GetExtent 0, input.GetExtent 1, input.GetExtent 2]
    else output
  forLoop 0 (input.GetExtent 0) (fun i output =>
    if dims = 1 then
      let val := input.GetValue1 i
      output.SetValue1 i val
    else
      forLoop 0 (input.GetExtent 1) (fun j output =>
        if dims = 2 then
          let val := input.GetValue2 i j
          output.SetValue2 i j val
        else
          forLoop 0 (input.GetExtent 2) (fun k output =>
            let val := input.GetValue3 i j k
            output.SetValue3 i j k val) output) output) output

/-- `vtkNURBSUtils::InvertSystem(NP, NPinv)`: the status and `NPinv` afterwards.
`InvertMatrix` stands for `vtkMath::InvertMatrix(inMat, outMat, nr)` of the VTK library:
`none` when it returns 0, else the contents of `outMat`. `inMat` and `outMat` are the
`double **` work arrays. -/
def InvertSystem (InvertMatrix : (ℕ → ℕ → α) → ℕ → Option (ℕ → ℕ → α)) (NP NPinv : NArray α) :
    ℤ × NArray α :=
  let nr := NP.GetExtent 0
  let nc := NP.GetExtent 1
  if nr ≠ nc then (0, NPinv)
  else
    let inMat : ℕ → ℕ → α := forLoop 0 nr (fun i inMat =>
      forLoop 0 nc (fun j inMat => bufSet2 inMat i j (NP.GetValue2 i j)) inMat) (fun _ => newBuf)
    match InvertMatrix inMat nr with
    | none => (0, NPinv)
    | some outMat =>
      let NPinv : NArray α := NArray.Resize [nr, nc]
      (1, forLoop 0 nr (fun i NPinv =>
        forLoop 0 nc (fun j NPinv => NPinv.SetValue2 i j (outMat i j)) NPinv) NPinv)

end MatrixDefs


/-! ## Basis matrices and the curve fit -/

section FitDefs

variable {α : Type} [LinearOrderedField α]

/-- `vtkNURBSUtils::WhereGreaterEqual(val, in, out)`: the contents of `out` afterwards. -/
def WhereGreaterEqual (val : α) (inp : List α) : List ℤ :=
  let numVals := inp.length
  let out : List ℤ := List.replicate numVals 0
  forLoop 0 numVals (fun i out =>
    if val ≥ GetTuple1 inp i then out.set i 1 else out.set i 0) out

/-- `vtkNURBSUtils::WhereLess(val, in, out)`: the contents of `out` afterwards. -/
def WhereLess (val : α) (inp : List α) : List ℤ :=
  let numVals := inp.length
  let out : List ℤ := List.replicate numVals 0
  forLoop 0 numVals (fun i out =>
    if val < GetTuple1 inp i then out.set i 1 else out.set i 0) out

/-- `vtkNURBSUtils::MultiplyVal1D(v0, val, result)`: `v0[i] * val`. -/
def MultiplyVal1D (v0 : List α) (val : α) : List α :=
  let numVals := v0.length
  let result : List α := SetNumberOfTuples numVals
  forLoop 0 numVals (fun i result =>
    let val0 := GetTuple1 v0 i
    SetTuple1 result i (val0 * val)) result

/-- `vtkNURBSUtils::GetZeroBasisFunctions(U, knots, N0)`: the status and `N0` afterwards.
The state of the outer loop carries the work array `spots`. -/
def GetZeroBasisFunctions (U knots : List α) (N0 : NArray α) : ℤ × NArray α :=
  let nCon := U.length
  let nKnot := knots.length
  let knotsShift : List α := SetNumberOfTuples nKnot
  let knotsShift := SetTuple1 knotsShift (nKnot - 1) (-1)
  let knotsShift := forLoop 0 (nKnot - 1) (fun i knotsShift =>
    SetTuple1 knotsShift i (GetTuple1 knots (i + 1))) knotsShift
  (1, (forLoop 0 nCon (fun i (st : List ℤ × NArray α) =>
    let val := GetTuple1 U i
    let greater := WhereGreaterEqual val knots
    let less := WhereLess val knotsShift
    let spots := (Intersect1D greater less st.1).2
    (spots, forLoop 0 (nKnot - 1) (fun j N0 =>
      N0.SetValue2 i j ((spots.getD j 0 : ℤ) : α)) st.2)) ([], N0)).2)

/-- `vtkNURBSUtils::GetPBasisFunctions(U, knots, p, NP)`: the status and `NP` afterwards.
`tmpN` is the `double **` work matrix and `blength` the C `int` that shrinks by one per
degree; both divisions are guarded by the tests `denom != 0.0`. -/
def GetPBasisFunctions (U knots : List α) (p : ℕ) (NP : NArray α) : ℤ × NArray α :=
  let nCon := U.length
  let nKnot := knots.length
  let N0 : NArray α := NArray.Resize [nCon, nKnot - 1]
  let r0 := GetZeroBasisFunctions U knots N0
  if r0.1 ≠ 1 then (0, NP)
  else
    let N0 := r0.2
    let tmpN : ℕ → ℕ → α := forLoop 0 nCon (fun i tmpN =>
      forLoop 0 (nKnot - 1) (fun j tmpN => bufSet2 tmpN i j (N0.GetValue2 i j)) tmpN)
      (fun _ => newBuf)
    let blength : ℤ := (nKnot : ℤ)
    let st := forLoop 1 (p + 1) (fun i (st : ℤ × (ℕ → ℕ → α)) =>
      let blength := st.1 - 1
      (blength, forLoop 0 (blength - 1).toNat (fun j tmpN =>
        let k0 := GetTuple1 knots (i + j)
        let k1 := GetTuple1 knots j
        let k2 := GetTuple1 knots (i + j + 1)
        let k3 := GetTuple1 knots (j + 1)
        let denom0 := k0 - k1
        let denom1 := k2 - k3
        let term0 : List α :=
          if denom0 ≠ 0 then MultiplyVal1D (AddVal1DArrVal U k1 (-1)) (1 / denom0)
          else List.replicate (blength - 1).toNat 0
        let term1 : List α :=
          if denom1 ≠ 0 then MultiplyVal1D (AddVal1DValArr k2 U (-1)) (1 / denom1)
          else List.replicate (blength - 1).toNat 0
        forLoop 0 nCon (fun k tmpN =>
          let final0 := GetTuple1 term0 k * tmpN k j
          let final1 := GetTuple1 term1 k * tmpN k (j + 1)
          bufSet2 tmpN k j (final0 + final1)) tmpN) st.2)) (blength, tmpN)
    let blength := st.1
    let tmpN := st.2
    let NP : NArray α := NArray.Resize [nCon, (blength - 1).toNat]
    (1, forLoop 0 nCon (fun i NP =>
      forLoop 0 (blength - 1).toNat (fun j NP => NP.SetValue2 i j (tmpN i j)) NP) NP)

/-- A C `int` used as an array index or as an array size: `none` when it is negative,
which is an access outside the array, or an invalid size, in the C++. -/
def idxChecked (i : ℤ) : Option ℕ := if i < 0 then none else some i.toNat

/-- `vtkNURBSUtils::AddDerivativeRows(NP, newNP, p, knots)`: `newNP` afterwards, or `none`
when a row or column index is negative. -/
def AddDerivativeRows (NP _newNP : NArray α) (p : ℕ) (knots : List α) : Option (NArray α) :=
  let nKnot := knots.length
  let n : ℤ := (nKnot : ℤ) - ((p : ℤ) + 1)
  let newNP : NArray α := NArray.Resize [n.toNat, n.toNat]
  let newNP := forLoop 0 n.toNat (fun i newNP =>
    let val := NP.GetValue2 0 i
    newNP.SetValue2 0 i val) newNP
  let newNP := newNP.SetValue2 1 0 (-1)
  let newNP := newNP.SetValue2 1 1 1
  let newNP := forLoop 2 (n - 2).toNat (fun i newNP =>
    forLoop 0 n.toNat (fun j newNP =>
      let val := NP.GetValue2 (i - 1) j
      newNP.SetValue2 i j val) newNP) newNP
  (idxChecked (n - 2)).bind (fun n2 =>
  (idxChecked (n - 1)).bind (fun n1 =>
    let newNP := newNP.SetValue2 n2 n2 (-1)
    let newNP := newNP.SetValue2 n2 n1 1
    (idxChecked (n - 3)).bind (fun n3 =>
      some (forLoop 0 n.toNat (fun i newNP =>
        let val := NP.GetValue2 n3 i
        newNP.SetValue2 n1 i val) newNP))))

/-- `vtkNURBSUtils::AddDerivativePoints(points, p, D0, DN, U, knots, newPoints)`:
`newPoints` afterwards, or `none` when the division by `p` is a division by zero or an
index is negative. -/
def AddDerivativePoints (points : NArray α) (p : ℕ) (D0 DN : ℕ → α) (U knots : List α)
    (_newPoints : NArray α) : Option (NArray α) :=
  let nKnot := knots.length
  let n : ℤ := (nKnot : ℤ) - ((p : ℤ) + 1)
  let newPoints : NArray α := NArray.Resize [n.toNat, 3]
  (divChecked (GetTuple1 U (p + 1)) (p : α)).bind (fun d0val =>
  (idxChecked (n - (p : ℤ) - 4)).bind (fun iN =>
  (divChecked (1 - GetTuple1 U iN) (p : α)).bind (fun dNval =>
    let newPoints := forLoop 0 3 (fun i newPoints =>
      let val := points.GetValue2 0 i
      newPoints.SetValue2 0 i val) newPoints
    let newPoints := forLoop 0 3 (fun i newPoints =>
      let val := d0val * D0 i
      newPoints.SetValue2 1 i val) newPoints
    let newPoints := forLoop 2 (n - 2).toNat (fun i newPoints =>
      forLoop 0 3 (fun j newPoints =>
        let val := points.GetValue2 (i - 1) j
        newPoints.SetValue2 i j val) newPoints) newPoints
    (idxChecked (n - 2)).bind (fun n2 =>
      let newPoints := forLoop 0 3 (fun i newPoints =>
        let val := dNval * DN i
        newPoints.SetValue2 n2 i val) newPoints
      (idxChecked (n - 3)).bind (fun n3 =>
      (idxChecked (n - 1)).bind (fun n1 =>
        some (forLoop 0 3 (fun i newPoints =>
          let val := points.GetValue2 n3 i
          newPoints.SetValue2 n1 i val) newPoints)))))))

/-- `vtkNURBSUtils::SetCurveEndDerivatives(NP, points, p, D0, DN, U, knots, newNP,
newPoints)`: `newNP` and `newPoints` afterwards. -/
def SetCurveEndDerivatives (NP points : NArray α) (p : ℕ) (D0 DN : ℕ → α) (U knots : List α)
    (newNP newPoints : NArray α) : Option (NArray α × NArray α) :=
  (AddDerivativeRows NP newNP p knots).bind (fun newNP =>
  (AddDerivativePoints points p D0 DN U knots newPoints).bind (fun newPoints =>
    some (newNP, newPoints)))

/-- Component `j` of a point `double pt[3]`. -/
def ptComp (pt : α × α × α) (j : ℕ) : α :=
  if j = 0 then pt.1 else if j = 1 then pt.2.1 else pt.2.2

/-- `vtkNURBSUtils::PointsToTypedArray(points, output)`: `output` afterwards; always
returns 1. -/
def PointsToTypedArray (points : List (α × α × α)) (_output : NArray α) : NArray α :=
  let numPoints := points.length
  let output : NArray α := NArray.Resize [numPoints, 3]
  forLoop 0 numPoints (fun i output =>
    let pt := GetPoint points i
    forLoop 0 3 (fun j output => output.SetValue2 i j (ptComp pt j)) output) output

/-- `vtkNURBSUtils::TypedArrayToPoints(array, output)`: `output` afterwards; always
returns 1. -/
def TypedArrayToPoints (array : NArray α) (_output : List (α × α × α)) : List (α × α × α) :=
  let numVals := array.GetExtent 0
  let output : List (α × α × α) := List.replicate numVals (0, 0, 0)
  forLoop 0 numVals (fun i output =>
    let pt : ℕ → α := forLoop 0 3 (fun j pt => bufSet pt j (array.GetValue2 i j)) newBuf
    output.set i (pt 0, pt 1, pt 2)) output

/-- `vtkNURBSUtils::GetControlPointsOfCurve(points, U, weights, knots, p, ktype, D0, DN,
cPoints)`: the status and `cPoints` afterwards, or `none` when the derivative branch divides
by zero or uses a negative index. `InvertMatrix` is `vtkMath::InvertMatrix`, see
`InvertSystem`. -/
def GetControlPointsOfCurve (InvertMatrix : (ℕ → ℕ → α) → ℕ → Option (ℕ → ℕ → α))
    (points : List (α × α × α)) (U _weights knots : List α) (p : ℕ) (ktype : String)
    (D0 DN : ℕ → α) (cPoints : List (α × α × α)) : Option (ℤ × List (α × α × α)) :=
  let NPTmp : NArray α := NArray.Resize []
  let NPFinal : NArray α := NArray.Resize []
  let r := GetPBasisFunctions U knots p NPTmp
  if r.1 ≠ 1 then some (0, cPoints)
  else
    let NPTmp := r.2
    let NPTmp := NPTmp.SetValue2 (NPTmp.GetExtent 0 - 1) (NPTmp.GetExtent 1 - 1) 1
    let pointArrayTmp : NArray α := NArray.Resize []
    let pointArrayFinal : NArray α := NArray.Resize []
    let cPointArray : NArray α := NArray.Resize []
    let pointArrayTmp := PointsToTypedArray points pointArrayTmp
    let sys : Option (NArray α × NArray α) :=
      if strncmpEq ktype "derivative" then
        SetCurveEndDerivatives NPTmp pointArrayTmp p D0 DN U knots NPFinal pointArrayFinal
      else
        some (DeepCopy NPTmp NPFinal, DeepCopy pointArrayTmp pointArrayFinal)
    sys.bind (fun sys =>
      let NPFinal := sys.1
      let pointArrayFinal := sys.2
      let NPinv : NArray α := NArray.Resize []
      let ri := InvertSystem InvertMatrix NPFinal NPinv
      if ri.1 ≠ 1 then some (0, cPoints)
      else
        let rm := MatrixVecMultiply ri.2 0 pointArrayFinal 1 cPointArray
        if rm.1 ≠ 1 then some (0, cPoints)
        else some (1, TypedArrayToPoints rm.2 cPoints))

end FitDefs


section ExampleDefs

variable {α : Type} [LinearOrderedField α]

/-- A stand-in for `vtkMath::InvertMatrix` in the worked examples: the adjugate formula for
a 2 x 2 matrix, failure for a zero determinant and for any other size. -/
def InvertMatrix2 (inMat : ℕ → ℕ → α) (n : ℕ) : Option (ℕ → ℕ → α) :=
  if n = 2 then
    let det := inMat 0 0 * inMat 1 1 - inMat 0 1 * inMat 1 0
    if det = 0 then none
    else some (fun i j =>
      if i = 0 then (if j = 0 then inMat 1 1 / det else -inMat 0 1 / det)
      else (if j = 0 then -inMat 1 0 / det else inMat 0 0 / det))
  else none

end ExampleDefs


/-! ## The surface fit -/

section SurfaceFitDefs

variable {α : Type} [LinearOrderedField α]

/-- A `vtkStructuredGrid`: its dimensions and its points, point `(i, j, k)` being stored at
`ComputePointId`. -/
structure StructuredGrid (α : Type) where
  dims : ℕ × ℕ × ℕ
  points : List (α × α × α)
deriving DecidableEq

/-- A `vtkDoubleArray` with several components per tuple. -/
structure TupleArray (α : Type) where
  numberOfTuples : ℕ
  numberOfComponents : ℕ
  GetComponent : ℕ → ℕ → α

/-- `vtkNURBSUtils::StructuredGridToTypedArray(grid, output)`: the status and `output`
afterwards. -/
def StructuredGridToTypedArray (grid : StructuredGrid α) (output : NArray α) : ℤ × NArray α :=
  let dim := grid.dims
  if dim.2.2 ≠ 1 then (0, output)
  else
    let output : NArray α := NArray.Resize [dim.1, dim.2.1, 3]
    (1, forLoop 0 dim.1 (fun i output =>
      forLoop 0 dim.2.1 (fun j output =>
        let pos : ℕ × ℕ × ℕ := (i, j, 0)
        let ptId := ComputePointId dim pos
        let pt := GetPoint grid.points ptId
        forLoop 0 3 (fun k output => output.SetValue3 i j k (ptComp pt k)) output) output) output)

/-- `vtkNURBSUtils::DoubleArrayToTypedArray(input, output)`: `output` afterwards; always
returns 1. -/
def DoubleArrayToTypedArray (input : TupleArray α) (_output : NArray α) : NArray α :=
  let numVals := input.numberOfTuples
  let numComps := input.numberOfComponents
  let output : NArray α := NArray.Resize [numVals, numComps]
  forLoop 0 numVals (fun i output =>
    forLoop 0 numComps (fun j output =>
      let val := input.GetComponent i j
      output.SetValue2 i j val) output) output

/-- `vtkNURBSUtils::TypedArrayToStructuredGrid(array, output)`: the status and `output`
afterwards. -/
def TypedArrayToStructuredGrid (array : NArray α) (output : StructuredGrid α) :
    ℤ × StructuredGrid α :=
  let dims := array.GetDimensions
  let dim : ℕ × ℕ × ℕ := (array.GetExtent 0, array.GetExtent 1, array.GetExtent 2)
  if dims > 3 then (0, output)
  else if dim.2.2 ≠ 3 then (0, output)
  else
    let output : StructuredGrid α :=
      { dims := (dim.1, dim.2.1, 1), points := List.replicate (dim.1 * dim.2.1) (0, 0, 0) }
    (1, forLoop 0 dim.1 (fun i output =>
      forLoop 0 dim.2.1 (fun j (output : StructuredGrid α) =>
        let pos : ℕ × ℕ × ℕ := (i, j, 0)
        let ptId := ComputePointId dim pos
        let pt : ℕ → α := forLoop 0 3 (fun k pt => bufSet pt k (array.GetValue3 i j k)) newBuf
        { output with points := output.points.set ptId (pt 0, pt 1, pt 2) }) output) output)

/-- `vtkNURBSUtils::GetMatrixComp(mat, loc, comp, matIsPoints, vec)`: the status and `vec`
afterwards. `val` is the local `double[3]`. -/
def GetMatrixComp (mat : NArray α) (loc comp : ℕ) (matIsPoints : ℤ) (vec : NArray α) :
    ℤ × NArray α :=
  let numVals := mat.GetExtent comp
  let check := mat.GetExtent 2
  if matIsPoints ≠ 0 ∧ check ≠ 3 then (0, vec)
  else
    let vec : NArray α :=
      if matIsPoints ≠ 0 then NArray.Resize [numVals, 3] else NArray.Resize [numVals]
    (1, forLoop 0 numVals (fun i vec =>
      let val : ℕ → α := newBuf
      let val : ℕ → α :=
        if comp = 0 then
          if matIsPoints ≠ 0 then
            forLoop 0 3 (fun j val => bufSet val j (mat.GetValue3 i loc j)) val
          else bufSet val 0 (mat.GetValue2 i loc)
        else if comp = 1 then
          if matIsPoints ≠ 0 then
            forLoop 0 3 (fun j val => bufSet val j (mat.GetValue3 loc i j)) val
          else bufSet val 0 (mat.GetValue2 loc i)
        else val
      if matIsPoints ≠ 0 then
        forLoop 0 3 (fun j vec => vec.SetValue2 i j (val j)) vec
      else vec.SetValue1 i (val 0)) vec)

/-- `vtkNURBSUtils::SetMatrixComp(vec, loc, comp, matIsPoints, mat)`: the status and `mat`
afterwards. -/
def SetMatrixComp (vec : NArray α) (loc comp : ℕ) (matIsPoints : ℤ) (mat : NArray α) :
    ℤ × NArray α :=
  let numVals := vec.GetExtent 0
  let cSize := mat.GetExtent comp
  let check := mat.GetExtent 2
  if cSize ≠ numVals then (0, mat)
  else if matIsPoints ≠ 0 ∧ check ≠ 3 then (0, mat)
  else
    (1, forLoop 0 numVals (fun i mat =>
      let val : ℕ → α := newBuf
      let val : ℕ → α :=
        if matIsPoints ≠ 0 then
          forLoop 0 3 (fun j val => bufSet val j (vec.GetValue2 i j)) val
        else bufSet val 0 (vec.GetValue1 i)
      if comp = 0 then
        if matIsPoints ≠ 0 then
          forLoop 0 3 (fun j mat => mat.SetValue3 i loc j (val j)) mat
        else mat.SetValue2 i loc (val 0)
      else if comp = 1 then
        if matIsPoints ≠ 0 then
          forLoop 0 3 (fun j mat => mat.SetValue3 loc i j (val j)) mat
        else mat.SetValue2 loc i (val 0)
      else mat) mat)

/-- `vtkNURBSUtils::SetSurfaceEndDerivatives(...)`: `newNPU`, `newNPV` and `newPoints`
afterwards, or `none` when `AddDerivativeRows` or `AddDerivativePoints` divides by zero or
uses a negative index. The loop states carry the work arrays `tmp0Points`, `tmp1Points`,
`tmp2Points` (first loop) and `count`, `tmp3Points`, `tmp4Points`, `newPoints` (second
loop). -/
def SetSurfaceEndDerivatives (NPU NPV points : NArray α) (p q : ℕ) (kutype kvtype : String)
    (DU0 DUN DV0 DVN : NArray α) (U V uKnots vKnots : List α)
    (newNPU newNPV _newPoints : NArray α) : Option (NArray α × NArray α × NArray α) :=
  (if strncmpEq kutype "derivative" then AddDerivativeRows NPU newNPU p uKnots
    else some (DeepCopy NPU newNPU)).bind (fun newNPU =>
  (if strncmpEq kvtype "derivative" then AddDerivativeRows NPV newNPV q vKnots
    else some (DeepCopy NPV newNPV)).bind (fun newNPV =>
    let nUKnot := uKnots.length
    let nVKnot := vKnots.length
    let nu : ℤ := (nUKnot : ℤ) - ((p : ℤ) + 1)
    let nv : ℤ := (nVKnot : ℤ) - ((q : ℤ) + 1)
    let newPoints : NArray α := NArray.Resize [nu.toNat, nv.toNat, 3]
    let npu := points.GetExtent 0
    let npv := points.GetExtent 1
    let tmp0Points : NArray α := NArray.Resize []
    let tmp1Points : NArray α := NArray.Resize []
    let tmp2Points : NArray α := NArray.Resize []
    let tmp3Points : NArray α := NArray.Resize []
    let tmp4Points : NArray α := NArray.Resize []
    (if strncmpEq kutype "derivative" then
      let tmp2Points : NArray α := NArray.Resize [nu.toNat, npv, 3]
      (forLoopM 0 npv (fun i (st : NArray α × NArray α × NArray α) =>
        let tmp0Points := (GetMatrixComp points i 0 1 st.1).2
        let du : (ℕ → α) × (ℕ → α) := forLoop 0 3 (fun j (du : (ℕ → α) × (ℕ → α)) =>
          (bufSet du.1 j (DU0.GetValue2 i j), bufSet du.2 j (DUN.GetValue2 i j)))
          (newBuf, newBuf)
        (AddDerivativePoints tmp0Points p du.1 du.2 U uKnots st.2.1).bind (fun tmp1Points =>
          some (tmp0Points, tmp1Points, (SetMatrixComp tmp1Points i 0 1 st.2.2).2)))
        (tmp0Points, tmp1Points, tmp2Points)).map (fun st => (npu + 2, st.2.2))
    else some (npu, DeepCopy points tmp2Points)).bind (fun r =>
      let npu := r.1
      let tmp2Points := r.2
      if strncmpEq kvtype "derivative" then
        let count : ℕ := 0
        (forLoopM 0 npu (fun i (st : ℕ × NArray α × NArray α × NArray α) =>
          let count := st.1
          let dvc : (ℕ → α) × (ℕ → α) × ℕ :=
            if ((i : ℤ) = 1 ∨ (i : ℤ) = nu - 2) ∧ strncmpEq kutype "derivative" then
              let dv : (ℕ → α) × (ℕ → α) := forLoop 0 3 (fun j (dv : (ℕ → α) × (ℕ → α)) =>
                (bufSet dv.1 j 0, bufSet dv.2 j 0)) (newBuf, newBuf)
              (dv.1, dv.2, count)
            else
              let dv : (ℕ → α) × (ℕ → α) := forLoop 0 3 (fun j (dv : (ℕ → α) × (ℕ → α)) =>
                (bufSet dv.1 j (DV0.GetValue2 count j), bufSet dv.2 j (DVN.GetValue2 count j)))
                (newBuf, newBuf)
              (dv.1, dv.2, count + 1)
          let tmp3Points := (GetMatrixComp tmp2Points i 1 1 st.2.1).2
          (AddDerivativePoints tmp3Points q dvc.1 dvc.2.1 V vKnots st.2.2.1).bind
            (fun tmp4Points =>
              some (dvc.2.2, tmp3Points, tmp4Points,
                (SetMatrixComp tmp4Points i 1 1 st.2.2.2).2)))
          (count, tmp3Points, tmp4Points, newPoints)).map
          (fun st => (newNPU, newNPV, st.2.2.2))
      else some (newNPU, newNPV, DeepCopy tmp2Points newPoints))))

/-- `vtkNURBSUtils::GetControlPointsOfSurface(points, U, V, uWeights, vWeights, uKnots,
vKnots, p, q, kutype, kvtype, DU0, DUN, DV0, DVN, cPoints)`: the status and `cPoints`
afterwards, or `none` when the derivative branch divides by zero or uses a negative index.
`InvertMatrix` is `vtkMath::InvertMatrix`, see `InvertSystem`. -/
def GetControlPointsOfSurface (InvertMatrix : (ℕ → ℕ → α) → ℕ → Option (ℕ → ℕ → α))
    (points : StructuredGrid α) (U V _uWeights _vWeights uKnots vKnots : List α) (p q : ℕ)
    (kutype kvtype : String) (DU0 DUN DV0 DVN : TupleArray α) (cPoints : StructuredGrid α) :
    Option (ℤ × StructuredGrid α) :=
  let NPUTmp : NArray α := NArray.Resize []
  let NPUFinal : NArray α := NArray.Resize []
  let ru := GetPBasisFunctions U uKnots p NPUTmp
  if ru.1 ≠ 1 then some (0, cPoints)
  else
    let NPUTmp := ru.2
    let NPUTmp := NPUTmp.SetValue2 (NPUTmp.GetExtent 0 - 1) (NPUTmp.GetExtent 1 - 1) 1
    let NPVTmp : NArray α := NArray.Resize []
    let NPVFinal : NArray α := NArray.Resize []
    let rv := GetPBasisFunctions V vKnots q NPVTmp
    if rv.1 ≠ 1 then some (0, cPoints)
    else
      let NPVTmp := rv.2
      let NPVTmp := NPVTmp.SetValue2 (NPVTmp.GetExtent 0 - 1) (NPVTmp.GetExtent 1 - 1) 1
      let pointMatTmp : NArray α := NArray.Resize []
      let pointMatFinal : NArray α := NArray.Resize []
      let pointMatTmp := (StructuredGridToTypedArray points pointMatTmp).2
      let sys : Option (NArray α × NArray α × NArray α) :=
        if strncmpEq kvtype "derivative" ∨ strncmpEq kutype "derivative" then
          let DU0Vec := DoubleArrayToTypedArray DU0 (NArray.Resize [])
          let DUNVec := DoubleArrayToTypedArray DUN (NArray.Resize [])
          let DV0Vec := DoubleArrayToTypedArray DV0 (NArray.Resize [])
          let DVNVec := DoubleArrayToTypedArray DVN (NArray.Resize [])
          SetSurfaceEndDerivatives NPUTmp NPVTmp pointMatTmp p q kutype kvtype
            DU0Vec DUNVec DV0Vec DVNVec U V uKnots vKnots NPUFinal NPVFinal pointMatFinal
        else
          some (DeepCopy NPUTmp NPUFinal, DeepCopy NPVTmp NPVFinal,
            DeepCopy pointMatTmp pointMatFinal)
      sys.bind (fun sys =>
        let NPUFinal := sys.1
        let NPVFinal := sys.2.1
        let pointMatFinal := sys.2.2
        let NPUinv : NArray α := NArray.Resize []
        let riu := InvertSystem InvertMatrix NPUFinal NPUinv
        if riu.1 ≠ 1 then some (0, cPoints)
        else
          let NPVinv : NArray α := NArray.Resize []
          let riv := InvertSystem InvertMatrix NPVFinal NPVinv
          if riv.1 ≠ 1 then some (0, cPoints)
          else
            let tmpUGrid : NArray α := NArray.Resize []
            let rmu := MatrixMatrixMultiply riu.2 0 pointMatFinal 1 tmpUGrid
            if rmu.1 ≠ 1 then some (0, cPoints)
            else
              let tmpUGridT : NArray α := NArray.Resize []
              let tmpUGridT := (MatrixTranspose rmu.2 1 tmpUGridT).2
              let tmpVGrid : NArray α := NArray.Resize []
              let rmv := MatrixMatrixMultiply riv.2 0 tmpUGridT 1 tmpVGrid
              if rmv.1 ≠ 1 then some (0, cPoints)
              else
                let cPoints : StructuredGrid α := { cPoints with points := [] }
                let tmpVGridT : NArray α := NArray.Resize []
                let tmpVGridT := (MatrixTranspose rmv.2 1 tmpVGridT).2
                some (1, (TypedArrayToStructuredGrid tmpVGridT cPoints).2))

end SurfaceFitDefs


section ExampleGridDefs

/-- A 2 x 2 grid of sample points for the worked examples of the surface fit. -/
def exampleGrid : StructuredGrid ℚ :=
  { dims := (2, 2, 1), points := [(0, 0, 0), (2, 0, 4), (0, 2, 2), (2, 4, 6)] }

/-- An empty array of end derivatives, for fits that do not use them. -/
def noDerivatives : TupleArray ℚ :=
  { numberOfTuples := 0, numberOfComponents := 0, GetComponent := fun _ _ => 0 }

end ExampleGridDefs


/-! ## Tessellation of a surface -/

section TessellationDefs

variable {α : Type} [LinearOrderedField α] [FloorRing α]

/-- A `vtkPolyData` as far as the tessellation uses it: the vertices and the polygons. -/
structure PolyData (α : Type) where
  points : List (α × α × α)
  polys : List (List ℤ)
deriving DecidableEq

/-- The members of a `vtkNURBSSurface`, as the constructor in `vtkNURBSSurface.cxx`
initialises them; `UVKnotVectors` and `UVWeights` are the arrays that `UKnotVector`,
`VKnotVector`, `UWeights` and `VWeights` point to. -/
structure NURBSSurface (α : Type) where
  NumberOfUControlPoints : ℕ
  NumberOfVControlPoints : ℕ
  NumberOfUKnotPoints : ℕ
  NumberOfVKnotPoints : ℕ
  UDegree : ℤ
  VDegree : ℤ
  UClamped : ℤ
  UClosed : ℤ
  VClosed : ℤ
  ControlPointGrid : StructuredGrid α
  UKnotVector : List α
  VKnotVector : List α
  UWeights : List α
  VWeights : List α
  SurfaceRepresentation : PolyData α
deriving DecidableEq

/-- `vtkNURBSUtils::LinSpace(min, max, num, result)` with its division checked: `none` for
`num = 1`, where the C++ divides by `num - 1 = 0`. -/
def LinSpaceChecked (min max : α) (num : ℕ) : Option (List α) :=
  let result : List α := SetNumberOfTuples num
  (divChecked (max - min) (((num : ℤ) - 1 : ℤ) : α)).map (fun div =>
    forLoop 0 num (fun i r => SetTuple1 r i (min + div * (i : α))) result)

/-- Lines 240-264 (U direction) and 291-316 (V direction) of
`vtkNURBSSurface::GeneratePolyDataRepresentation`, which differ in the names only: the
number of samples `numDiv = ceil(1.0/spacing)` and the matrix of basis values at the samples
with its last entry set to 1. `none` stands for a division by zero or a negative count or
index. For `p < 0` no loop of `BasisEvaluationVec` runs. The state of the loop over the
control points is `Nus` and `Nfinal`. -/
def sampledBasis (knots : List α) (nCon : ℕ) (p : ℤ) (spacing : α) : Option (ℕ × NArray α) :=
  (divChecked 1 spacing).bind (fun inv =>
  (idxChecked (Int.ceil inv)).bind (fun numDiv =>
  (LinSpaceChecked 0 1 numDiv).bind (fun evals =>
    let Nus : TypedArray α := { nr := numDiv, nc := (p + 2).toNat, val := fun _ _ => 0 }
    let Nfinal : NArray α := NArray.Resize [numDiv, nCon]
    (forLoopM 0 nCon (fun i (st : TypedArray α × NArray α) =>
      (if p < 0 then some st.1 else BasisEvaluationVec knots p.toNat i evals st.1).bind
        (fun Nus =>
          some (Nus, forLoop 0 numDiv (fun j Nfinal =>
            Nfinal.SetValue2 j i (Nus.GetValue j 0)) st.2))) (Nus, Nfinal)).bind (fun st =>
      (idxChecked ((numDiv : ℤ) - 1)).bind (fun last =>
        some (numDiv, st.2.SetValue2 last (nCon - 1) 1))))))

/-- Lines 266-276 (U direction) and 319-328 (V direction): the weighted sum of each row,
`Nrational[i] = sum_j Nfinal(i,j) * weights[j]`. -/
def rationalSums (weights : List α) (nCon numDiv : ℕ) (Nfinal : NArray α) : List α :=
  let Nrational : List α := List.replicate numDiv 0
  forLoop 0 numDiv (fun i Nrational =>
    let ratVal : α := forLoop 0 nCon (fun j ratVal =>
      let val := Nfinal.GetValue2 i j
      let ratWeight := GetTuple1 weights j
      ratVal + val * ratWeight) 0
    SetTuple1 Nrational i ratVal) Nrational

/-- Lines 277-286 (U direction) and 329-339 (V direction): every entry is multiplied by its
weight and divided by the weighted sum of its row; `none` when that sum is zero. -/
def rationalNormalize (weights : List α) (nCon numDiv : ℕ) (Nrational : List α)
    (Nfinal : NArray α) : Option (NArray α) :=
  forLoopM 0 numDiv (fun i Nfinal =>
    forLoopM 0 nCon (fun j Nfinal =>
      let val := Nfinal.GetValue2 i j
      let ratVal := GetTuple1 Nrational i
      let ratWeight := GetTuple1 weights j
      (divChecked (val * ratWeight) ratVal).map (fun v => Nfinal.SetValue2 i j v)) Nfinal) Nfinal

/-- Lines 240-287 (U direction) and 291-339 (V direction): the number of samples and the
rational basis matrix. -/
def rationalBasis (knots weights : List α) (nCon : ℕ) (p : ℤ) (spacing : α) :
    Option (ℕ × NArray α) :=
  (sampledBasis knots nCon p spacing).bind (fun r =>
    (rationalNormalize weights nCon r.1 (rationalSums weights nCon r.1 r.2) r.2).map
      (fun Nfinal => (r.1, Nfinal)))

/-- `vtkNURBSSurface::GeneratePolyDataRepresentation(uSpacing, vSpacing)`: the status and
the surface afterwards, or `none` when a division by zero or a negative count or index
occurs. -/
def GeneratePolyDataRepresentation (self : NURBSSurface α) (uSpacing vSpacing : α) :
    Option (ℤ × NURBSSurface α) :=
  let nUCon := self.NumberOfUControlPoints
  let nVCon := self.NumberOfVControlPoints
  let nUKnot := self.NumberOfUKnotPoints
  let nVKnot := self.NumberOfVKnotPoints
  if nUCon = 0 ∨ nVCon = 0 then some (0, self)
  else if nUKnot = 0 ∨ nVKnot = 0 then some (0, self)
  else
    let p : ℤ := (nUKnot : ℤ) - (nUCon : ℤ) - 1
    let q : ℤ := (nVKnot : ℤ) - (nVCon : ℤ) - 1
    (rationalBasis self.UKnotVector self.UWeights nUCon p uSpacing).bind (fun ru =>
    (rationalBasis self.VKnotVector self.VWeights nVCon q vSpacing).bind (fun rv =>
      let numUDiv := ru.1
      let NUfinal := ru.2
      let numVDiv := rv.1
      let NVfinal := rv.2
      let NVfinalT := (MatrixTranspose NVfinal 0 (NArray.Resize [])).2
      let tmpControlGrid := (StructuredGridToTypedArray self.ControlPointGrid
        (NArray.Resize [])).2
      let r1 := MatrixMatrixMultiply NUfinal 0 tmpControlGrid 1 (NArray.Resize [])
      if r1.1 ≠ 1 then some (0, self)
      else
        let r2 := MatrixMatrixMultiply r1.2 1 NVfinalT 0 (NArray.Resize [])
        if r2.1 ≠ 1 then some (0, self)
        else
          let finalGrid : StructuredGrid α := { dims := (0, 0, 0), points := [] }
          let finalGrid := (TypedArrayToStructuredGrid r2.2 finalGrid).2
          let surfaceCells := GetStructuredGridConnectivity (numUDiv : ℤ) (numVDiv : ℤ) []
          some (1, { self with
            SurfaceRepresentation := { points := finalGrid.points, polys := surfaceCells } })))

end TessellationDefs


section ScenarioBDefs

/-- The surface of Scenario B: a 4 x 4 control grid with the points `(i, j, i*j)`, unit
weights and the clamped uniform knot vector `[0,0,1/3,2/3,1,1]` of degree 1 in both
directions. -/
def scenarioBSurface : NURBSSurface ℚ :=
  { NumberOfUControlPoints := 4
    NumberOfVControlPoints := 4
    NumberOfUKnotPoints := 6
    NumberOfVKnotPoints := 6
    UDegree := 1
    VDegree := 1
    UClamped := 1
    UClosed := 0
    VClosed := 0
    ControlPointGrid :=
      { dims := (4, 4, 1)
        points := [(0, 0, 0), (1, 0, 0), (2, 0, 0), (3, 0, 0), (0, 1, 0), (1, 1, 1), (2, 1, 2),
          (3, 1, 3), (0, 2, 0), (1, 2, 2), (2, 2, 4), (3, 2, 6), (0, 3, 0), (1, 3, 3), (2, 3, 6),
          (3, 3, 9)] }
    UKnotVector := [0, 0, 1 / 3, 2 / 3, 1, 1]
    VKnotVector := [0, 0, 1 / 3, 2 / 3, 1, 1]
    UWeights := [1, 1, 1, 1]
    VWeights := [1, 1, 1, 1]
    SurfaceRepresentation := { points := [], polys := [] } }

end ScenarioBDefs


section TraceDefs

variable {α : Type} [LinearOrderedField α]

/-- The run of a C `while (cond) body` loop: the states at which its condition is evaluated,
in order, the last one being the state that leaves the loop. The result is `none` when the
loop has not been left after `fuel` evaluations of its condition. -/
def whileTrace {σ : Type} (cond : σ → Bool) (body : σ → σ) : ℕ → σ → Option (List σ)
  | 0, _ => none
  | fuel + 1, s =>
    if cond s then (whileTrace cond body fuel (body s)).map (fun tr => s :: tr) else some [s]

/-- The run of the search loop of `vtkNURBSUtils::FindSpan(p, u, knots, span)`: the states
`(low, high, mid)` at which the loop condition is evaluated, in order; no state when the
early return for `u == knots[nCon]` is taken. The early test reads `knots[nCon]`; each
evaluation of the condition reads `knots[mid]` and `knots[mid+1]`, and the loop body reads
`knots[mid]`. -/
def FindSpanTrace (fuel p : ℕ) (u : α) (knots : List α) : Option (List (ℕ × ℕ × ℕ)) :=
  let nKnot := knots.length
  let nCon := nKnot - p - 1
  if u = GetTuple1 knots nCon then some []
  else
    let low := p
    let high := nCon
    let mid := (low + high) / 2
    whileTrace
      (fun (st : ℕ × ℕ × ℕ) =>
        decide (u < GetTuple1 knots st.2.2 ∨ u ≥ GetTuple1 knots (st.2.2 + 1)))
      (fun (st : ℕ × ℕ × ℕ) =>
        let lh : ℕ × ℕ := if u < GetTuple1 knots st.2.2 then (st.1, st.2.2)
          else (st.2.2, st.2.1)
        (lh.1, lh.2, (lh.1 + lh.2) / 2))
      fuel (low, high, mid)

end TraceDefs

section TransposeDefs

variable {α : Type} [LinearOrderedField α]

/-- `points->SetPoint(id, pt)` on a `vtkPoints` that holds `points.length` points: `none`
when `id` is past the end, where the C++ writes outside the storage. -/
def SetPointChecked (points : List (α × α × α)) (id : ℕ) (pt : α × α × α) :
    Option (List (α × α × α)) :=
  if id < points.length then some (points.set id pt) else none

/-- `vtkNURBSUtils::StructuredGridTranspose(sg, newSg)`: `newSg` afterwards (the function
returns 1 on every path), or `none` when a point is written past the end of `tmpPoints`.
`tmpPoints->SetNumberOfPoints(n)` leaves the `n` points unspecified, here `(0, 0, 0)`. Both
point ids are computed with the dimensions `dim` of the input grid. -/
def StructuredGridTranspose (sg : StructuredGrid α) (_newSg : StructuredGrid α) :
    Option (StructuredGrid α) :=
  let dim := sg.dims
  let tmpPoints : List (α × α × α) := List.replicate sg.points.length (0, 0, 0)
  (forLoopM 0 dim.1 (fun i tmpPoints =>
    forLoopM 0 dim.2.1 (fun j tmpPoints =>
      let pos : ℕ × ℕ × ℕ := (i, j, 0)
      let ptId := ComputePointId dim pos
      let pt := GetPoint sg.points ptId
      let pos : ℕ × ℕ × ℕ := (j, i, 0)
      let newPtId := ComputePointId dim pos
      SetPointChecked tmpPoints newPtId pt) tmpPoints) tmpPoints).map (fun tmpPoints =>
    { dims := (dim.2.1, dim.1, 1), points := tmpPoints })

/-- A grid of dimensions `(2, 3, 1)` with six distinct points, point `(i, j)` being
`(i, j, 0)`. -/
def grid2x3 : StructuredGrid ℚ :=
  { dims := (2, 3, 1)
    points := [(0, 0, 0), (1, 0, 0), (0, 1, 0), (1, 1, 0), (0, 2, 0), (1, 2, 0)] }

/-- A grid of dimensions `(3, 2, 1)` with six distinct points, point `(i, j)` being
`(i, j, 0)`. -/
def grid3x2 : StructuredGrid ℚ :=
  { dims := (3, 2, 1)
    points := [(0, 0, 0), (1, 0, 0), (2, 0, 0), (0, 1, 0), (1, 1, 0), (2, 1, 0)] }

end TransposeDefs

section DerivativeExampleDefs

/-- The parameters of four data points, equally spaced. -/
def derivExampleU : List ℚ := [0, 1 / 3, 2 / 3, 1]

/-- The knot vector that the "derivative" strategy of `GetKnots` gives for `derivExampleU`
and the degree 1. -/
def derivExampleKnots : List ℚ := [0, 0, 0, 1 / 3, 2 / 3, 1, 1, 1]

/-- Four data points on a line, as the `4 x 3` array of `PointsToTypedArray`. -/
def derivExamplePoints : NArray ℚ :=
  PointsToTypedArray [(0, 0, 0), (1, 0, 0), (2, 0, 0), (3, 0, 0)] (NArray.Resize [])

/-- The basis matrix of the example as `GetControlPointsOfCurve` hands it to
`SetCurveEndDerivatives`: the matrix of `GetPBasisFunctions` with its last entry set to 1. -/
def derivExampleNP : NArray ℚ :=
  let NPTmp := (GetPBasisFunctions derivExampleU derivExampleKnots 1 (NArray.Resize [])).2
  NPTmp.SetValue2 (NPTmp.GetExtent 0 - 1) (NPTmp.GetExtent 1 - 1) 1

/-- The end derivative `(1, 0, 0)` as a `double[3]`. -/
def derivExampleD : ℕ → ℚ := fun i => if i = 0 then 1 else 0

end DerivativeExampleDefs

section CheckedBasisDefs

variable {α : Type} [LinearOrderedField α]

/-- `term->GetTuple1(k)` inside `GetPBasisFunctions`. The branch for a zero denominator
gives `term` only `blength - 1` tuples, while the loop over the samples reads it for every
`k < nCon`; a read past the end returns whatever the memory holds, the value `stale`. -/
def readTerm (term : List α) (stale : α) (k : ℕ) : α := term.getD k stale

/-- `vtkNURBSUtils::GetPBasisFunctions(U, knots, p, NP)` with its two divisions checked and
its reads past the end of `term0` and `term1` made explicit: the status and `NP` afterwards,
or `none` when a division by zero is executed. `stale0 i j k` and `stale1 i j k` are the
values that `term0->GetTuple1(k)` and `term1->GetTuple1(k)` return at level `i` and column
`j` when `k` is past the end of the array. -/
def GetPBasisFunctionsChecked (stale0 stale1 : ℕ → ℕ → ℕ → α) (U knots : List α) (p : ℕ)
    (NP : NArray α) : Option (ℤ × NArray α) :=
  let nCon := U.length
  let nKnot := knots.length
  let N0 : NArray α := NArray.Resize [nCon, nKnot - 1]
  let r0 := GetZeroBasisFunctions U knots N0
  if r0.1 ≠ 1 then some (0, NP)
  else
    let N0 := r0.2
    let tmpN : ℕ → ℕ → α := forLoop 0 nCon (fun i tmpN =>
      forLoop 0 (nKnot - 1) (fun j tmpN => bufSet2 tmpN i j (N0.GetValue2 i j)) tmpN)
      (fun _ => newBuf)
    let blength : ℤ := (nKnot : ℤ)
    (forLoopM 1 (p + 1) (fun i (st : ℤ × (ℕ → ℕ → α)) =>
      let blength := st.1 - 1
      (forLoopM 0 (blength - 1).toNat (fun j tmpN =>
        let k0 := GetTuple1 knots (i + j)
        let k1 := GetTuple1 knots j
        let k2 := GetTuple1 knots (i + j + 1)
        let k3 := GetTuple1 knots (j + 1)
        let denom0 := k0 - k1
        let denom1 := k2 - k3
        let term0 : Option (List α) :=
          if denom0 ≠ 0 then
            (divChecked 1 denom0).map (fun q => MultiplyVal1D (AddVal1DArrVal U k1 (-1)) q)
          else some (List.replicate (blength - 1).toNat 0)
        let term1 : Option (List α) :=
          if denom1 ≠ 0 then
            (divChecked 1 denom1).map (fun q => MultiplyVal1D (AddVal1DValArr k2 U (-1)) q)
          else some (List.replicate (blength - 1).toNat 0)
        term0.bind (fun term0 =>
        term1.bind (fun term1 =>
          some (forLoop 0 nCon (fun k tmpN =>
            let final0 := readTerm term0 (stale0 i j k) k * tmpN k j
            let final1 := readTerm term1 (stale1 i j k) k * tmpN k (j + 1)
            bufSet2 tmpN k j (final0 + final1)) tmpN)))) st.2).map
        (fun tmpN => (blength, tmpN))) (blength, tmpN)).map (fun st =>
      let blength := st.1
      let tmpN := st.2
      let NP : NArray α := NArray.Resize [nCon, (blength - 1).toNat]
      (1, forLoop 0 nCon (fun i NP =>
        forLoop 0 (blength - 1).toNat (fun j NP => NP.SetValue2 i j (tmpN i j)) NP) NP))

end CheckedBasisDefs

/-! ## Loop and array lemmas -/

theorem forLoopAux_inv {σ : Type} (body : ℕ → σ → σ) (Inv : ℕ → σ → Prop) :
    ∀ (n i : ℕ) (s : σ), Inv i s →
      (∀ j t, i ≤ j → j < i + n → Inv j t → Inv (j + 1) (body j t)) →
      Inv (i + n) (forLoopAux body n i s) := by
  intro n
  induction n with
  | zero => intro i s h _; simpa [forLoopAux] using h
  | succ n ih =>
    intro i s h hstep
    have h1 : Inv (i + 1) (body i s) := hstep i s (le_refl _) (by omega) h
    have h2 := ih (i + 1) (body i s) h1 (fun j t hj hj2 hI => hstep j t (by omega) (by omega) hI)
    have e : i + (n + 1) = i + 1 + n := by omega
    rw [e]
    simpa [forLoopAux] using h2

/-- Invariant rule for `forLoop`. -/
theorem forLoop_inv {σ : Type} (lo hi : ℕ) (body : ℕ → σ → σ) (s : σ) (Inv : ℕ → σ → Prop)
    (hle : lo ≤ hi) (h0 : Inv lo s)
    (hstep : ∀ j t, lo ≤ j → j < hi → Inv j t → Inv (j + 1) (body j t)) :
    Inv hi (forLoop lo hi body s) := by
  have h := forLoopAux_inv body Inv (hi - lo) lo s h0
    (fun j t hj hj2 hI => hstep j t hj (by omega) hI)
  have e : lo + (hi - lo) = hi := by omega
  rw [e] at h
  exact h

theorem forLoop_empty {σ : Type} {lo hi : ℕ} (body : ℕ → σ → σ) (s : σ) (h : hi ≤ lo) :
    forLoop lo hi body s = s := by
  have e : hi - lo = 0 := by omega
  simp [forLoop, e, forLoopAux]

/-- Invariant rule for a `forLoop` whose invariant does not mention the index. -/
theorem forLoop_pres {σ : Type} {lo hi : ℕ} {body : ℕ → σ → σ} {s : σ} (P : σ → Prop)
    (h0 : P s) (hstep : ∀ j t, lo ≤ j → j < hi → P t → P (body j t)) :
    P (forLoop lo hi body s) := by
  rcases Nat.lt_or_ge hi lo with h | h
  · rw [forLoop_empty body s (Nat.le_of_lt h)]; exact h0
  · exact forLoop_inv lo hi body s (fun _ t => P t) h h0 hstep

section ArrayLemmas

variable {α : Type} [LinearOrderedField α]

@[simp] theorem length_SetNumberOfTuples (n : ℕ) :
    (SetNumberOfTuples n : List α).length = n := by
  simp [SetNumberOfTuples]

@[simp] theorem length_SetTuple1 (a : List α) (i : ℕ) (v : α) :
    (SetTuple1 a i v).length = a.length := by
  simp [SetTuple1]

theorem GetTuple1_SetTuple1 (a : List α) (i j : ℕ) (v : α) :
    GetTuple1 (SetTuple1 a i v) j = if i = j ∧ i < a.length then v else GetTuple1 a j := by
  unfold GetTuple1 SetTuple1
  by_cases h : i = j
  · subst h
    by_cases h2 : i < a.length
    · simp [List.getD_eq_getElem?_getD, h2]
    · have e : a.set i v = a := List.set_eq_of_length_le (by omega)
      simp [e, h2]
  · simp [List.getD_eq_getElem?_getD, h, List.getElem?_set_ne h]

theorem GetTuple1_SetTuple1_self (a : List α) (i : ℕ) (v : α) (h : i < a.length) :
    GetTuple1 (SetTuple1 a i v) i = v := by
  simp [GetTuple1_SetTuple1, h]

theorem GetTuple1_SetTuple1_ne (a : List α) (i j : ℕ) (v : α) (h : i ≠ j) :
    GetTuple1 (SetTuple1 a i v) j = GetTuple1 a j := by
  simp [GetTuple1_SetTuple1, h]

theorem getElem?_eq_GetTuple1 (a : List α) (i : ℕ) (h : i < a.length) :
    a[i]? = some (GetTuple1 a i) := by
  simp [GetTuple1, List.getD_eq_getElem?_getD, List.getElem?_eq_getElem h]

end ArrayLemmas

/-! ## Closed forms of the knot builders -/

section KnotLemmas

variable {α : Type} [LinearOrderedField α]

/-- The clamping loop shared by the three knot builders: zeros below the threshold,
ones from the threshold on. -/
theorem clampLoop_spec (num : ℕ) (t : ℤ) :
    (forLoop 0 num (fun i r =>
        if (i : ℤ) < t then SetTuple1 r i 0 else SetTuple1 r i 1)
        (SetNumberOfTuples num : List α)).length = num ∧
    ∀ m, m < num →
      GetTuple1 (forLoop 0 num (fun i r =>
        if (i : ℤ) < t then SetTuple1 r i 0 else SetTuple1 r i 1)
        (SetNumberOfTuples num : List α)) m = if (m : ℤ) < t then 0 else 1 := by
  have h := forLoop_inv (0) (num)
    (fun i (r : List α) => if (i : ℤ) < t then SetTuple1 r i 0 else SetTuple1 r i 1)
    ((SetNumberOfTuples num : List α))
    (fun i r => r.length = num ∧ ∀ m, m < i → GetTuple1 r m = if (m : ℤ) < t then 0 else 1)
    (Nat.zero_le _) ⟨by simp, fun m hm => absurd hm (Nat.not_lt_zero _)⟩
    (by
      rintro j r - hj ⟨hl, hr⟩
      dsimp only
      refine ⟨by by_cases hc : (j : ℤ) < t <;> simp [hc, hl], fun m hm => ?_⟩
      by_cases hmj : m = j
      · subst hmj
        by_cases hc : (m : ℤ) < t <;> simp [hc, GetTuple1_SetTuple1, hl, hj]
      · have hne : j ≠ m := fun e => hmj e.symm
        have := hr m (by omega)
        by_cases hc : (j : ℤ) < t <;> simp [hc, GetTuple1_SetTuple1, hne, this])
  exact h

theorem length_LinSpaceClamp (min max : α) (num p : ℕ) :
    (LinSpaceClamp min max num p).length = num := by
  unfold LinSpaceClamp
  refine forLoop_pres (fun (rc : List α × ℕ) => rc.1.length = num) ?_ ?_
  · exact (clampLoop_spec num _).1
  · intro j t _ _ ht
    simpa using ht

/-- Closed form of `LinSpaceClamp` for a knot vector of `n + p + 1` entries, `p < n`. -/
theorem LinSpaceClamp_spec (min max : α) (n p : ℕ) (hp : p < n) (m : ℕ) (hm : m < n + p + 1) :
    GetTuple1 (LinSpaceClamp min max (n + p + 1) p) m =
      if m ≤ p then 0
      else if m < n then (max - min) / ((n : α) - (p : α)) * ((m : α) - (p : α))
      else 1 := by
  unfold LinSpaceClamp
  have ht : (((n + p + 1 : ℕ) : ℤ) - 2 * ((p : ℤ) + 1) + (p : ℤ) + 1) = (n : ℤ) := by
    push_cast; ring
  have hd : (((((n + p + 1 : ℕ) : ℤ) - 2 * ((p : ℤ) + 1) + 1 : ℤ)) : α) = (n : α) - (p : α) := by
    push_cast; ring
  simp only [ht, hd, Int.toNat_ofNat]
  obtain ⟨hl0, h0⟩ := @clampLoop_spec α _ (n + p + 1) (n : ℤ)
  have h := forLoop_inv (p + 1) (n)
    (fun i (rc : List α × ℕ) =>
      (SetTuple1 rc.1 i ((max - min) / ((n : α) - (p : α)) * (rc.2 : α)), rc.2 + 1))
    ((forLoop 0 (n + p + 1) (fun i r =>
        if (i : ℤ) < (n : ℤ) then SetTuple1 r i 0 else SetTuple1 r i 1)
        (SetNumberOfTuples (n + p + 1) : List α), 1))
    (fun i rc => rc.1.length = n + p + 1 ∧ rc.2 = i - p ∧
      ∀ k, k < n + p + 1 → GetTuple1 rc.1 k =
        if p + 1 ≤ k ∧ k < i then (max - min) / ((n : α) - (p : α)) * ((k : α) - (p : α))
        else if (k : ℤ) < (n : ℤ) then 0 else 1)
    (by omega)
    ⟨hl0, by simp, fun k hk => by
      rw [h0 k hk]
      have : ¬ (p + 1 ≤ k ∧ k < p + 1) := by omega
      simp [this]⟩
    (by
      rintro j ⟨r, c⟩ hj1 hj2 ⟨hl, hc, hr⟩
      simp only at hl hc hr ⊢
      refine ⟨by simp [hl], by omega, fun k hk => ?_⟩
      by_cases hkj : k = j
      · subst hkj
        rw [GetTuple1_SetTuple1_self _ _ _ (by omega)]
        have e1 : p + 1 ≤ k ∧ k < k + 1 := ⟨hj1, by omega⟩
        have e2 : (c : α) = (k : α) - (p : α) := by
          rw [hc, Nat.cast_sub (by omega)]
        simp [e1, e2]
      · rw [GetTuple1_SetTuple1_ne _ _ _ _ (fun e => hkj e.symm), hr k hk]
        have e1 : (p + 1 ≤ k ∧ k < j + 1) ↔ (p + 1 ≤ k ∧ k < j) := by omega
        simp only [e1])
  obtain ⟨-, -, hfin⟩ := h
  rw [hfin m hm]
  by_cases h1 : m ≤ p
  · have e1 : ¬ (p + 1 ≤ m ∧ m < n) := by omega
    have e2 : (m : ℤ) < (n : ℤ) := by omega
    simp [h1, e1, e2]
  · by_cases h2 : m < n
    · have e1 : p + 1 ≤ m ∧ m < n := by omega
      simp [h1, e1, h2]
    · have e1 : ¬ (p + 1 ≤ m ∧ m < n) := by omega
      have e2 : ¬ (m : ℤ) < (n : ℤ) := by omega
      simp [h1, e1, e2, h2]

/-- The accumulation loop `for j in i..i+p: k[idx] += U[j]`. -/
theorem accumLoop_spec (U : List α) (i p idx : ℕ) (k0 : List α) (hidx : idx < k0.length) :
    (forLoop i (i + p) (fun j k =>
        SetTuple1 k idx (GetTuple1 k idx + GetTuple1 U j)) k0).length = k0.length ∧
    GetTuple1 (forLoop i (i + p) (fun j k =>
        SetTuple1 k idx (GetTuple1 k idx + GetTuple1 U j)) k0) idx
      = GetTuple1 k0 idx + ∑ l in Finset.range p, GetTuple1 U (i + l) ∧
    ∀ m, m ≠ idx → GetTuple1 (forLoop i (i + p) (fun j k =>
        SetTuple1 k idx (GetTuple1 k idx + GetTuple1 U j)) k0) m = GetTuple1 k0 m := by
  have h := forLoop_inv (i) (i + p)
    (fun j (k : List α) => SetTuple1 k idx (GetTuple1 k idx + GetTuple1 U j))
    (k0)
    (fun j k => k.length = k0.length ∧
      GetTuple1 k idx = GetTuple1 k0 idx + ∑ l in Finset.range (j - i), GetTuple1 U (i + l) ∧
      ∀ m, m ≠ idx → GetTuple1 k m = GetTuple1 k0 m)
    (by omega) ⟨rfl, by simp, fun _ _ => rfl⟩
    (by
      rintro j k hj1 hj2 ⟨hl, hs, ho⟩
      refine ⟨by simp [hl], ?_, fun m hm => ?_⟩
      · rw [GetTuple1_SetTuple1_self _ _ _ (by omega), hs]
        have e : j + 1 - i = (j - i) + 1 := by omega
        have e2 : i + (j - i) = j := by omega
        rw [e, Finset.sum_range_succ, e2, add_assoc]
      · rw [GetTuple1_SetTuple1_ne _ _ _ _ (fun e => hm e.symm), ho m hm])
  simpa using h

/-- The averaging loop shared by `GetAvgKnots` (`c = p`) and `GetEndDerivKnots`
(`c = p + 1`): entry `i + c` becomes `(1/p) * (old + U[i] + ... + U[i+p-1])`. -/
theorem avgLoop_spec (U : List α) (p c lo hi : ℕ) (hle : lo ≤ hi) (k0 : List α)
    (hlen : hi + c ≤ k0.length) :
    (forLoop lo hi (fun i k =>
        SetTuple1 (forLoop i (i + p) (fun j k =>
            SetTuple1 k (i + c) (GetTuple1 k (i + c) + GetTuple1 U j)) k) (i + c)
          ((1 / (p : α)) * GetTuple1 (forLoop i (i + p) (fun j k =>
            SetTuple1 k (i + c) (GetTuple1 k (i + c) + GetTuple1 U j)) k) (i + c))) k0).length
      = k0.length ∧
    ∀ m, GetTuple1 (forLoop lo hi (fun i k =>
        SetTuple1 (forLoop i (i + p) (fun j k =>
            SetTuple1 k (i + c) (GetTuple1 k (i + c) + GetTuple1 U j)) k) (i + c)
          ((1 / (p : α)) * GetTuple1 (forLoop i (i + p) (fun j k =>
            SetTuple1 k (i + c) (GetTuple1 k (i + c) + GetTuple1 U j)) k) (i + c))) k0) m
      = if lo + c ≤ m ∧ m < hi + c then
          (1 / (p : α)) * (GetTuple1 k0 m + ∑ l in Finset.range p, GetTuple1 U (m - c + l))
        else GetTuple1 k0 m := by
  have h := forLoop_inv (lo) (hi)
    (fun i (k : List α) =>
        SetTuple1 (forLoop i (i + p) (fun j k =>
            SetTuple1 k (i + c) (GetTuple1 k (i + c) + GetTuple1 U j)) k) (i + c)
          ((1 / (p : α)) * GetTuple1 (forLoop i (i + p) (fun j k =>
            SetTuple1 k (i + c) (GetTuple1 k (i + c) + GetTuple1 U j)) k) (i + c)))
    (k0)
    (fun i k => k.length = k0.length ∧
      ∀ m, GetTuple1 k m = if lo + c ≤ m ∧ m < i + c then
          (1 / (p : α)) * (GetTuple1 k0 m + ∑ l in Finset.range p, GetTuple1 U (m - c + l))
        else GetTuple1 k0 m)
    hle ⟨rfl, fun m => by
      have : ¬ (lo + c ≤ m ∧ m < lo + c) := by omega
      simp [this]⟩
    (by
      rintro i k hi1 hi2 ⟨hl, hk⟩
      obtain ⟨al, as, ao⟩ := accumLoop_spec U i p (i + c) k (by omega)
      refine ⟨by simp [al, hl], fun m => ?_⟩
      by_cases hm : m = i + c
      · subst hm
        rw [GetTuple1_SetTuple1_self _ _ _ (by omega), as, hk (i + c)]
        have e1 : ¬ (lo + c ≤ i + c ∧ i + c < i + c) := by omega
        have e2 : lo + c ≤ i + c ∧ i + c < i + 1 + c := by omega
        simp [e1, e2]
      · rw [GetTuple1_SetTuple1_ne _ _ _ _ (fun e => hm e.symm), ao m hm, hk m]
        have e : (lo + c ≤ m ∧ m < i + 1 + c) ↔ (lo + c ≤ m ∧ m < i + c) := by omega
        simp only [e])
  exact h

theorem length_GetAvgKnots (mn mx : α) (num p : ℕ) (U : List α) :
    (GetAvgKnots mn mx num p U).length = num := by
  unfold GetAvgKnots
  refine forLoop_pres (fun (k : List α) => k.length = num) (clampLoop_spec num _).1 ?_
  intro i k _ _ hk
  dsimp only
  rw [length_SetTuple1]
  exact forLoop_pres (fun (k : List α) => k.length = num) hk (fun j t _ _ ht => by simpa using ht)

theorem length_GetEndDerivKnots (mn mx : α) (num p : ℕ) (U : List α) :
    (GetEndDerivKnots mn mx num p U).length = num := by
  unfold GetEndDerivKnots
  refine forLoop_pres (fun (k : List α) => k.length = num) ?_ ?_
  · refine forLoop_pres (fun (k : List α) => k.length = num) (clampLoop_spec num _).1 ?_
    intro i k _ _ hk
    dsimp only
    rw [length_SetTuple1]
    exact forLoop_pres (fun (k : List α) => k.length = num) hk
      (fun j t _ _ ht => by simpa using ht)
  · intro i k _ _ hk
    dsimp only
    split
    · simpa using hk
    · exact hk

/-- Closed form of `GetAvgKnots` for a knot vector of `n + p + 1` entries. -/
theorem GetAvgKnots_spec (mn mx : α) (p : ℕ) (U : List α) (hp : p < U.length)
    (m : ℕ) (hm : m < U.length + p + 1) :
    GetTuple1 (GetAvgKnots mn mx (U.length + p + 1) p U) m =
      if m ≤ p then 0
      else if m < U.length then
        (1 / (p : α)) * ∑ l in Finset.range p, GetTuple1 U (m - p + l)
      else 1 := by
  unfold GetAvgKnots
  have ht : (((U.length + p + 1 : ℕ) : ℤ) - 2 * ((p : ℤ) + 1) + (p : ℤ) + 1)
      = (U.length : ℤ) := by push_cast; ring
  have hhi : ((U.length : ℤ) - (p : ℤ)).toNat = U.length - p := by omega
  simp only [ht, hhi]
  obtain ⟨hl0, h0⟩ := @clampLoop_spec α _ (U.length + p + 1) (U.length : ℤ)
  obtain ⟨-, hk⟩ := avgLoop_spec U p p 1 (U.length - p) (by omega) _
    (le_of_le_of_eq (by omega) hl0.symm)
  rw [hk m, h0 m hm]
  simp only [Nat.cast_lt]
  by_cases h1 : m ≤ p
  · have e1 : ¬ (1 + p ≤ m ∧ m < U.length - p + p) := by omega
    have e2 : m < U.length := by omega
    simp [h1, e1, e2]
  · by_cases h2 : m < U.length
    · have e1 : 1 + p ≤ m ∧ m < U.length - p + p := by omega
      simp [h1, h2, e1]
    · have e1 : ¬ (1 + p ≤ m ∧ m < U.length - p + p) := by omega
      simp [h1, h2, e1]

/-- Closed form of `GetEndDerivKnots` for a knot vector of `n + p + 3` entries. -/
theorem GetEndDerivKnots_spec (mn mx : α) (p : ℕ) (U : List α) (hp : p ≤ U.length)
    (m : ℕ) (hm : m < U.length + p + 1 + 2) :
    GetTuple1 (GetEndDerivKnots mn mx (U.length + p + 1 + 2) p U) m =
      if m ≤ p then 0
      else if m < U.length + 2 then
        (1 / (p : α)) * ∑ l in Finset.range p, GetTuple1 U (m - (p + 1) + l)
      else 1 := by
  unfold GetEndDerivKnots
  have ht : (((U.length + p + 1 + 2 : ℕ) : ℤ) - 2 * ((p : ℤ) + 1) + (p : ℤ) + 1)
      = ((U.length + 2 : ℕ) : ℤ) := by push_cast; ring
  have hhi : ((U.length : ℤ) - (p : ℤ) + 1).toNat = U.length - p + 1 := by omega
  simp only [ht, hhi]
  obtain ⟨hl0, h0⟩ := @clampLoop_spec α _ (U.length + p + 1 + 2) ((U.length + 2 : ℕ) : ℤ)
  obtain ⟨hl1, hk⟩ := avgLoop_spec U p (p + 1) 0 (U.length - p + 1) (by omega) _
    (le_of_le_of_eq (by omega) hl0.symm)
  have h := forLoop_inv (0) (U.length + p + 1 + 2)
    (fun i (k : List α) =>
      if (i : ℤ) ≥ ((U.length + 2 : ℕ) : ℤ) then SetTuple1 k i 1 else k)
    (forLoop 0 (U.length - p + 1) (fun i k =>
        SetTuple1 (forLoop i (i + p) (fun j k =>
            SetTuple1 k (i + (p + 1)) (GetTuple1 k (i + (p + 1)) + GetTuple1 U j)) k)
          (i + (p + 1))
          ((1 / (p : α)) * GetTuple1 (forLoop i (i + p) (fun j k =>
            SetTuple1 k (i + (p + 1)) (GetTuple1 k (i + (p + 1)) + GetTuple1 U j)) k)
            (i + (p + 1))))
        (forLoop 0 (U.length + p + 1 + 2) (fun i r =>
          if (i : ℤ) < ((U.length + 2 : ℕ) : ℤ) then SetTuple1 r i 0 else SetTuple1 r i 1)
          (SetNumberOfTuples (U.length + p + 1 + 2) : List α)))
    (fun i k => k.length = U.length + p + 1 + 2 ∧
      ∀ m, m < U.length + p + 1 + 2 → GetTuple1 k m =
        if m ≤ p then 0
        else if m < U.length + 2 then
          (1 / (p : α)) * ∑ l in Finset.range p, GetTuple1 U (m - (p + 1) + l)
        else 1)
    (Nat.zero_le _)
    ⟨by rw [hl1, hl0], fun m hm => by
      rw [hk m, h0 m hm]
      simp only [Nat.cast_lt]
      by_cases h1 : m ≤ p
      · have e1 : ¬ (0 + (p + 1) ≤ m ∧ m < U.length - p + 1 + (p + 1)) := by omega
        have e2 : m < U.length + 2 := by omega
        rw [if_neg e1, if_pos e2, if_pos h1]
      · by_cases h2 : m < U.length + 2
        · have e1 : 0 + (p + 1) ≤ m ∧ m < U.length - p + 1 + (p + 1) := by omega
          rw [if_pos e1, if_pos h2, if_neg h1, if_pos h2, zero_add]
        · have e1 : ¬ (0 + (p + 1) ≤ m ∧ m < U.length - p + 1 + (p + 1)) := by omega
          rw [if_neg e1, if_neg h2, if_neg h1, if_neg h2]⟩
    (by
      rintro i k - hi2 ⟨hl, hr⟩
      dsimp only
      by_cases hc : (i : ℤ) ≥ ((U.length + 2 : ℕ) : ℤ)
      · simp only [hc, if_true]
        refine ⟨by simp [hl], fun m hm => ?_⟩
        by_cases hmi : m = i
        · subst hmi
          rw [GetTuple1_SetTuple1_self _ _ _ (by omega)]
          have e1 : ¬ m ≤ p := by omega
          have e2 : ¬ m < U.length + 2 := by omega
          simp [e1, e2]
        · rw [GetTuple1_SetTuple1_ne _ _ _ _ (fun e => hmi e.symm), hr m hm]
      · simp only [hc, if_false]
        exact ⟨hl, hr⟩)
  exact h.2 m hm

/-! ### Averages of consecutive parameter samples -/

theorem sum_window_nonneg (U : List α) (p i : ℕ) (h0 : ∀ j, 0 ≤ GetTuple1 U j) :
    0 ≤ ∑ l in Finset.range p, GetTuple1 U (i + l) :=
  Finset.sum_nonneg (fun l _ => h0 (i + l))

theorem avg_window_nonneg (U : List α) (p i : ℕ) (h0 : ∀ j, 0 ≤ GetTuple1 U j) :
    0 ≤ (1 / (p : α)) * ∑ l in Finset.range p, GetTuple1 U (i + l) :=
  mul_nonneg (by positivity) (sum_window_nonneg U p i h0)

theorem avg_window_le_one (U : List α) (p i : ℕ) (hp : 1 ≤ p) (h1 : ∀ j, GetTuple1 U j ≤ 1) :
    (1 / (p : α)) * ∑ l in Finset.range p, GetTuple1 U (i + l) ≤ 1 := by
  have hpos : (0 : α) < (p : α) := by exact_mod_cast hp
  have hs : ∑ l in Finset.range p, GetTuple1 U (i + l) ≤ ∑ _l in Finset.range p, (1 : α) :=
    Finset.sum_le_sum (fun l _ => h1 (i + l))
  simp only [Finset.sum_const, Finset.card_range, nsmul_eq_mul, mul_one] at hs
  rw [one_div, inv_mul_le_iff₀ hpos]
  simpa using hs

theorem avg_window_mono (U : List α) (p i : ℕ)
    (hm : ∀ l, l < p → GetTuple1 U (i + l) ≤ GetTuple1 U (i + 1 + l)) :
    (1 / (p : α)) * ∑ l in Finset.range p, GetTuple1 U (i + l) ≤
      (1 / (p : α)) * ∑ l in Finset.range p, GetTuple1 U (i + 1 + l) :=
  mul_le_mul_of_nonneg_left
    (Finset.sum_le_sum (fun l hl => hm l (Finset.mem_range.mp hl))) (by positivity)

theorem avg_window_pos (U : List α) (p i l0 : ℕ) (hl0 : l0 < p)
    (h0 : ∀ j, 0 ≤ GetTuple1 U j) (hpos : 0 < GetTuple1 U (i + l0)) :
    0 < (1 / (p : α)) * ∑ l in Finset.range p, GetTuple1 U (i + l) := by
  have hp : (0 : α) < (p : α) := by exact_mod_cast (Nat.lt_of_le_of_lt (Nat.zero_le _) hl0)
  have hs : 0 < ∑ l in Finset.range p, GetTuple1 U (i + l) :=
    Finset.sum_pos' (fun l _ => h0 (i + l)) ⟨l0, Finset.mem_range.mpr hl0, hpos⟩
  positivity

theorem avg_window_lt_one (U : List α) (p i l0 : ℕ) (hl0 : l0 < p)
    (h1 : ∀ j, GetTuple1 U j ≤ 1) (hlt : GetTuple1 U (i + l0) < 1) :
    (1 / (p : α)) * ∑ l in Finset.range p, GetTuple1 U (i + l) < 1 := by
  have hp : (0 : α) < (p : α) := by exact_mod_cast (Nat.lt_of_le_of_lt (Nat.zero_le _) hl0)
  have hs : ∑ l in Finset.range p, GetTuple1 U (i + l) < ∑ _l in Finset.range p, (1 : α) :=
    Finset.sum_lt_sum (fun l _ => h1 (i + l)) ⟨l0, Finset.mem_range.mpr hl0, hlt⟩
  simp only [Finset.sum_const, Finset.card_range, nsmul_eq_mul, mul_one] at hs
  rw [one_div, inv_mul_lt_iff₀ hp]
  simpa using hs

/-- A parameter array that is non-decreasing on adjacent entries is non-decreasing. -/
theorem adjacent_mono (U : List α)
    (hU : ∀ i, i + 1 < U.length → GetTuple1 U i ≤ GetTuple1 U (i + 1)) :
    ∀ i j, i ≤ j → j < U.length → GetTuple1 U i ≤ GetTuple1 U j := by
  intro i j hij
  induction j with
  | zero =>
    intro _
    have : i = 0 := by omega
    subst this; exact le_refl _
  | succ j ih =>
    intro hj
    rcases Nat.eq_or_lt_of_le hij with h | h
    · subst h; exact le_refl _
    · exact le_trans (ih (by omega) (by omega)) (hU j hj)

theorem GetTuple1_of_length_le (U : List α) (j : ℕ) (h : U.length ≤ j) : GetTuple1 U j = 0 := by
  simp [GetTuple1, List.getD_eq_getElem?_getD, List.getElem?_eq_none h]

/-- Entries of a non-decreasing parameter array with `U[0] = 0`, `U[n-1] = 1` lie in `[0,1]`
(reads past the end give the default `0`). -/
theorem params_bounds (U : List α)
    (hU : ∀ i, i + 1 < U.length → GetTuple1 U i ≤ GetTuple1 U (i + 1))
    (h0 : GetTuple1 U 0 = 0) (h1 : GetTuple1 U (U.length - 1) = 1) :
    (∀ j, 0 ≤ GetTuple1 U j) ∧ (∀ j, GetTuple1 U j ≤ 1) := by
  have hm := adjacent_mono U hU
  constructor
  · intro j
    rcases Nat.lt_or_ge j U.length with h | h
    · rw [← h0]; exact hm 0 j (Nat.zero_le _) h
    · rw [GetTuple1_of_length_le U j h]
  · intro j
    rcases Nat.lt_or_ge j U.length with h | h
    · rw [← h1]; exact hm j (U.length - 1) (by omega) (by omega)
    · rw [GetTuple1_of_length_le U j h]; exact zero_le_one

/-! ### Monotonicity of the three knot vectors -/

theorem LinSpaceClamp_mono (n p : ℕ) (hp : p < n) (i : ℕ) (hi : i + 1 < n + p + 1) :
    GetTuple1 (LinSpaceClamp (0 : α) 1 (n + p + 1) p) i ≤
      GetTuple1 (LinSpaceClamp (0 : α) 1 (n + p + 1) p) (i + 1) := by
  rw [LinSpaceClamp_spec 0 1 n p hp i (by omega), LinSpaceClamp_spec 0 1 n p hp (i + 1) hi]
  have hnp : (0 : α) < (n : α) - (p : α) := by
    have : (p : α) < (n : α) := by exact_mod_cast hp
    linarith
  by_cases h1 : i + 1 ≤ p
  · have h2 : i ≤ p := by omega
    simp [h1, h2]
  · by_cases h2 : i ≤ p
    · rw [if_pos h2, if_neg h1]
      split
      · have : (p : α) ≤ ((i + 1 : ℕ) : α) := by exact_mod_cast (by omega : p ≤ i + 1)
        have h3 : (0 : α) ≤ ((i + 1 : ℕ) : α) - (p : α) := by linarith
        positivity
      · exact zero_le_one
    · rw [if_neg h2, if_neg h1]
      by_cases h3 : i + 1 < n
      · have h4 : i < n := by omega
        rw [if_pos h3, if_pos h4]
        apply mul_le_mul_of_nonneg_left _ (by positivity)
        push_cast; linarith
      · rw [if_neg h3]
        by_cases h4 : i < n
        · rw [if_pos h4, sub_zero, one_div, inv_mul_le_iff₀ hnp, mul_one]
          have : (i : α) < (n : α) := by exact_mod_cast h4
          linarith
        · rw [if_neg h4]

theorem GetAvgKnots_mono (mn mx : α) (p : ℕ) (U : List α) (hp1 : 1 ≤ p) (hp : p < U.length)
    (hU : ∀ i, i + 1 < U.length → GetTuple1 U i ≤ GetTuple1 U (i + 1))
    (h0 : GetTuple1 U 0 = 0) (h1 : GetTuple1 U (U.length - 1) = 1)
    (i : ℕ) (hi : i + 1 < U.length + p + 1) :
    GetTuple1 (GetAvgKnots mn mx (U.length + p + 1) p U) i ≤
      GetTuple1 (GetAvgKnots mn mx (U.length + p + 1) p U) (i + 1) := by
  rw [GetAvgKnots_spec mn mx p U hp i (by omega), GetAvgKnots_spec mn mx p U hp (i + 1) hi]
  obtain ⟨hnn, hle⟩ := params_bounds U hU h0 h1
  by_cases c1 : i + 1 ≤ p
  · have c2 : i ≤ p := by omega
    simp [c1, c2]
  · by_cases c2 : i ≤ p
    · rw [if_pos c2, if_neg c1]
      split
      · exact avg_window_nonneg U p _ hnn
      · exact zero_le_one
    · rw [if_neg c2, if_neg c1]
      by_cases c3 : i + 1 < U.length
      · have c4 : i < U.length := by omega
        rw [if_pos c3, if_pos c4]
        have e : i + 1 - p = i - p + 1 := by omega
        rw [e]
        exact avg_window_mono U p (i - p) (fun l hl => by
          have e2 : i - p + 1 + l = i - p + l + 1 := by omega
          rw [e2]
          exact hU _ (by omega))
      · rw [if_neg c3]
        split
        · exact avg_window_le_one U p _ hp1 hle
        · exact le_refl _

theorem GetEndDerivKnots_mono (mn mx : α) (p : ℕ) (U : List α) (hp1 : 1 ≤ p)
    (hp : p ≤ U.length)
    (hU : ∀ i, i + 1 < U.length → GetTuple1 U i ≤ GetTuple1 U (i + 1))
    (h0 : GetTuple1 U 0 = 0) (h1 : GetTuple1 U (U.length - 1) = 1)
    (i : ℕ) (hi : i + 1 < U.length + p + 1 + 2) :
    GetTuple1 (GetEndDerivKnots mn mx (U.length + p + 1 + 2) p U) i ≤
      GetTuple1 (GetEndDerivKnots mn mx (U.length + p + 1 + 2) p U) (i + 1) := by
  rw [GetEndDerivKnots_spec mn mx p U hp i (by omega),
    GetEndDerivKnots_spec mn mx p U hp (i + 1) hi]
  obtain ⟨hnn, hle⟩ := params_bounds U hU h0 h1
  by_cases c1 : i + 1 ≤ p
  · have c2 : i ≤ p := by omega
    simp [c1, c2]
  · by_cases c2 : i ≤ p
    · rw [if_pos c2, if_neg c1]
      split
      · exact avg_window_nonneg U p _ hnn
      · exact zero_le_one
    · rw [if_neg c2, if_neg c1]
      by_cases c3 : i + 1 < U.length + 2
      · have c4 : i < U.length + 2 := by omega
        rw [if_pos c3, if_pos c4]
        have e : i + 1 - (p + 1) = i - (p + 1) + 1 := by omega
        rw [e]
        exact avg_window_mono U p (i - (p + 1)) (fun l hl => by
          have e2 : i - (p + 1) + 1 + l = i - (p + 1) + l + 1 := by omega
          rw [e2]
          exact hU _ (by omega))
      · rw [if_neg c3]
        split
        · exact avg_window_le_one U p _ hp1 hle
        · exact le_refl _

theorem strncmpEq_facts :
    strncmpEq "equal" "equal" = true ∧
    strncmpEq "average" "equal" = false ∧ strncmpEq "average" "average" = true ∧
    strncmpEq "derivative" "equal" = false ∧ strncmpEq "derivative" "average" = false ∧
    strncmpEq "derivative" "derivative" = true := by decide

theorem GetKnots_equal (U : List α) (p : ℕ) (knots : List α) :
    GetKnots U p "equal" knots = (1, LinSpaceClamp 0 1 (U.length + p + 1) p) := by
  simp [GetKnots, strncmpEq_facts]

theorem GetKnots_average (U : List α) (p : ℕ) (knots : List α) :
    GetKnots U p "average" knots = (1, GetAvgKnots 0 1 (U.length + p + 1) p U) := by
  simp [GetKnots, strncmpEq_facts]

theorem GetKnots_derivative (U : List α) (p : ℕ) (knots : List α) :
    GetKnots U p "derivative" knots = (1, GetEndDerivKnots 0 1 (U.length + p + 1 + 2) p U) := by
  simp [GetKnots, strncmpEq_facts]

end KnotLemmas

/-! ## Closed forms of the parameter samplers -/

section SamplerLemmas

variable {α : Type} [LinearOrderedField α]

theorem InsertTuple1_eq_SetTuple1 (a : List α) (i : ℕ) (v : α) (h : i < a.length) :
    InsertTuple1 a i v = SetTuple1 a i v := by
  simp [InsertTuple1, SetTuple1, h]

/-- Closed form of `LinSpace(0, 1, n)` for `n ≥ 2`: entry `i` is `i / (n - 1)`. -/
theorem LinSpace_spec (n : ℕ) :
    (LinSpace (0 : α) 1 n).length = n ∧
    ∀ m, m < n → GetTuple1 (LinSpace (0 : α) 1 n) m = (m : α) / ((n : α) - 1) := by
  unfold LinSpace
  have h := forLoop_inv 0 n
    (fun i (r : List α) => SetTuple1 r i (0 + (1 - 0) / (((n : ℤ) - 1 : ℤ) : α) * (i : α)))
    (SetNumberOfTuples n : List α)
    (fun i r => r.length = n ∧ ∀ m, m < i → GetTuple1 r m = (m : α) / ((n : α) - 1))
    (Nat.zero_le _) ⟨by simp, fun m hm => absurd hm (Nat.not_lt_zero _)⟩
    (by
      rintro j r - hj ⟨hl, hr⟩
      refine ⟨by simp [hl], fun m hm => ?_⟩
      by_cases hmj : m = j
      · subst hmj
        rw [GetTuple1_SetTuple1_self _ _ _ (by omega)]
        push_cast
        ring
      · rw [GetTuple1_SetTuple1_ne _ _ _ _ (fun e => hmj e.symm)]
        exact hr m (by omega))
  exact h

/-- The first loop of both samplers: `d` accumulates `f dist`, `dists` stores `dist`. -/
theorem distLoop_spec (sqrt f : α → α) (xyz : List (α × α × α)) (num : ℕ) (hnum : 1 ≤ num) :
    (forLoop 1 num (fun i (dd : α × List α) =>
      (dd.1 + f (sqrt (((GetPoint xyz i).1 - (GetPoint xyz (i - 1)).1) ^ 2
          + ((GetPoint xyz i).2.1 - (GetPoint xyz (i - 1)).2.1) ^ 2
          + ((GetPoint xyz i).2.2 - (GetPoint xyz (i - 1)).2.2) ^ 2)),
        InsertTuple1 dd.2 (i - 1)
          (sqrt (((GetPoint xyz i).1 - (GetPoint xyz (i - 1)).1) ^ 2
          + ((GetPoint xyz i).2.1 - (GetPoint xyz (i - 1)).2.1) ^ 2
          + ((GetPoint xyz i).2.2 - (GetPoint xyz (i - 1)).2.2) ^ 2))))
      ((0 : α), (SetNumberOfTuples (num - 1) : List α))).1
      = ∑ k in Finset.range (num - 1), f (segLength sqrt xyz k) ∧
    ∀ k, k < num - 1 →
      GetTuple1 (forLoop 1 num (fun i (dd : α × List α) =>
      (dd.1 + f (sqrt (((GetPoint xyz i).1 - (GetPoint xyz (i - 1)).1) ^ 2
          + ((GetPoint xyz i).2.1 - (GetPoint xyz (i - 1)).2.1) ^ 2
          + ((GetPoint xyz i).2.2 - (GetPoint xyz (i - 1)).2.2) ^ 2)),
        InsertTuple1 dd.2 (i - 1)
          (sqrt (((GetPoint xyz i).1 - (GetPoint xyz (i - 1)).1) ^ 2
          + ((GetPoint xyz i).2.1 - (GetPoint xyz (i - 1)).2.1) ^ 2
          + ((GetPoint xyz i).2.2 - (GetPoint xyz (i - 1)).2.2) ^ 2))))
      ((0 : α), (SetNumberOfTuples (num - 1) : List α))).2 k = segLength sqrt xyz k := by
  have h := forLoop_inv 1 num
    (fun i (dd : α × List α) =>
      (dd.1 + f (sqrt (((GetPoint xyz i).1 - (GetPoint xyz (i - 1)).1) ^ 2
          + ((GetPoint xyz i).2.1 - (GetPoint xyz (i - 1)).2.1) ^ 2
          + ((GetPoint xyz i).2.2 - (GetPoint xyz (i - 1)).2.2) ^ 2)),
        InsertTuple1 dd.2 (i - 1)
          (sqrt (((GetPoint xyz i).1 - (GetPoint xyz (i - 1)).1) ^ 2
          + ((GetPoint xyz i).2.1 - (GetPoint xyz (i - 1)).2.1) ^ 2
          + ((GetPoint xyz i).2.2 - (GetPoint xyz (i - 1)).2.2) ^ 2))))
    ((0 : α), (SetNumberOfTuples (num - 1) : List α))
    (fun i dd => dd.1 = ∑ k in Finset.range (i - 1), f (segLength sqrt xyz k) ∧
      dd.2.length = num - 1 ∧ ∀ k, k < i - 1 → GetTuple1 dd.2 k = segLength sqrt xyz k)
    hnum ⟨by simp, by simp, fun k hk => absurd hk (by omega)⟩
    (by
      rintro i ⟨d, ds⟩ hi1 hi2 ⟨hd, hl, hk⟩
      simp only at hd hl hk ⊢
      have e : i + 1 - 1 = (i - 1) + 1 := by omega
      have e2 : i - 1 + 1 = i := by omega
      have hseg : segLength sqrt xyz (i - 1)
          = sqrt (((GetPoint xyz i).1 - (GetPoint xyz (i - 1)).1) ^ 2
          + ((GetPoint xyz i).2.1 - (GetPoint xyz (i - 1)).2.1) ^ 2
          + ((GetPoint xyz i).2.2 - (GetPoint xyz (i - 1)).2.2) ^ 2) := by
        simp only [segLength, e2]
      rw [InsertTuple1_eq_SetTuple1 _ _ _ (by omega)]
      refine ⟨?_, by simp [hl], fun k hk2 => ?_⟩
      · rw [e, Finset.sum_range_succ, hd, hseg]
      · by_cases hki : k = i - 1
        · subst hki
          rw [GetTuple1_SetTuple1_self _ _ _ (by omega), hseg]
        · rw [GetTuple1_SetTuple1_ne _ _ _ _ (fun e => hki e.symm)]
          exact hk k (by omega))
  exact ⟨h.1, h.2.2⟩

/-- The second loop of both samplers: `U[i]` becomes the running sum of `g dist / d`. -/
theorem cumLoop_spec (g : α → α) (dists : List α) (d : α) (num : ℕ) (hnum : 2 ≤ num)
    (U0 : List α) (hlen : U0.length = num) :
    (forLoop 1 (num - 1) (fun i (un : List α × α) =>
      (SetTuple1 un.1 i (un.2 + g (GetTuple1 dists (i - 1)) / d),
        un.2 + g (GetTuple1 dists (i - 1)) / d)) (U0, 0)).1.length = num ∧
    ∀ m, GetTuple1 (forLoop 1 (num - 1) (fun i (un : List α × α) =>
      (SetTuple1 un.1 i (un.2 + g (GetTuple1 dists (i - 1)) / d),
        un.2 + g (GetTuple1 dists (i - 1)) / d)) (U0, 0)).1 m
      = if 1 ≤ m ∧ m < num - 1 then ∑ k in Finset.range m, g (GetTuple1 dists k) / d
        else GetTuple1 U0 m := by
  have h := forLoop_inv 1 (num - 1)
    (fun i (un : List α × α) =>
      (SetTuple1 un.1 i (un.2 + g (GetTuple1 dists (i - 1)) / d),
        un.2 + g (GetTuple1 dists (i - 1)) / d))
    (U0, 0)
    (fun i un => un.1.length = num ∧
      un.2 = ∑ k in Finset.range (i - 1), g (GetTuple1 dists k) / d ∧
      ∀ m, GetTuple1 un.1 m
        = if 1 ≤ m ∧ m < i then ∑ k in Finset.range m, g (GetTuple1 dists k) / d
          else GetTuple1 U0 m)
    (by omega) ⟨hlen, by simp, fun m => by
      have : ¬ (1 ≤ m ∧ m < 1) := by omega
      rw [if_neg this]⟩
    (by
      rintro i ⟨U, nu⟩ hi1 hi2 ⟨hl, hnu, hU⟩
      simp only at hl hnu hU ⊢
      have e : i + 1 - 1 = (i - 1) + 1 := by omega
      have e2 : i - 1 + 1 = i := by omega
      have hsum : nu + g (GetTuple1 dists (i - 1)) / d
          = ∑ k in Finset.range i, g (GetTuple1 dists k) / d := by
        rw [hnu, ← Finset.sum_range_succ, e2]
      refine ⟨by simp [hl], ?_, fun m => ?_⟩
      · rw [hsum, e, e2]
      · by_cases hmi : m = i
        · subst hmi
          rw [GetTuple1_SetTuple1_self _ _ _ (by omega), hsum, if_pos (by omega)]
        · rw [GetTuple1_SetTuple1_ne _ _ _ _ (fun e => hmi e.symm), hU m]
          have e3 : (1 ≤ m ∧ m < i + 1) ↔ (1 ≤ m ∧ m < i) := by omega
          simp only [e3])
  exact ⟨h.1, h.2.2⟩

/-- Common closed form of the chord (`f = id`) and centripetal (`f = sqrt`) samplers:
entry `m` is the running sum of `f dist` up to `m`, divided by the total. -/
theorem spaced_spec (sqrt f : α → α) (xyz : List (α × α × α)) (n : ℕ) (hn : 2 ≤ n)
    (hd : ∑ k in Finset.range (n - 1), f (segLength sqrt xyz k) ≠ 0) :
    (SetTuple1 (forLoop 1 (n - 1) (fun i (un : List α × α) =>
      (SetTuple1 un.1 i (un.2 + f (GetTuple1 (forLoop 1 n (fun i (dd : α × List α) =>
      (dd.1 + f (sqrt (((GetPoint xyz i).1 - (GetPoint xyz (i - 1)).1) ^ 2
          + ((GetPoint xyz i).2.1 - (GetPoint xyz (i - 1)).2.1) ^ 2
          + ((GetPoint xyz i).2.2 - (GetPoint xyz (i - 1)).2.2) ^ 2)),
        InsertTuple1 dd.2 (i - 1)
          (sqrt (((GetPoint xyz i).1 - (GetPoint xyz (i - 1)).1) ^ 2
          + ((GetPoint xyz i).2.1 - (GetPoint xyz (i - 1)).2.1) ^ 2
          + ((GetPoint xyz i).2.2 - (GetPoint xyz (i - 1)).2.2) ^ 2))))
      ((0 : α), (SetNumberOfTuples (n - 1) : List α))).2 (i - 1)) /
        (forLoop 1 n (fun i (dd : α × List α) =>
      (dd.1 + f (sqrt (((GetPoint xyz i).1 - (GetPoint xyz (i - 1)).1) ^ 2
          + ((GetPoint xyz i).2.1 - (GetPoint xyz (i - 1)).2.1) ^ 2
          + ((GetPoint xyz i).2.2 - (GetPoint xyz (i - 1)).2.2) ^ 2)),
        InsertTuple1 dd.2 (i - 1)
          (sqrt (((GetPoint xyz i).1 - (GetPoint xyz (i - 1)).1) ^ 2
          + ((GetPoint xyz i).2.1 - (GetPoint xyz (i - 1)).2.1) ^ 2
          + ((GetPoint xyz i).2.2 - (GetPoint xyz (i - 1)).2.2) ^ 2))))
      ((0 : α), (SetNumberOfTuples (n - 1) : List α))).1),
        un.2 + f (GetTuple1 (forLoop 1 n (fun i (dd : α × List α) =>
      (dd.1 + f (sqrt (((GetPoint xyz i).1 - (GetPoint xyz (i - 1)).1) ^ 2
          + ((GetPoint xyz i).2.1 - (GetPoint xyz (i - 1)).2.1) ^ 2
          + ((GetPoint xyz i).2.2 - (GetPoint xyz (i - 1)).2.2) ^ 2)),
        InsertTuple1 dd.2 (i - 1)
          (sqrt (((GetPoint xyz i).1 - (GetPoint xyz (i - 1)).1) ^ 2
          + ((GetPoint xyz i).2.1 - (GetPoint xyz (i - 1)).2.1) ^ 2
          + ((GetPoint xyz i).2.2 - (GetPoint xyz (i - 1)).2.2) ^ 2))))
      ((0 : α), (SetNumberOfTuples (n - 1) : List α))).2 (i - 1)) /
        (forLoop 1 n (fun i (dd : α × List α) =>
      (dd.1 + f (sqrt (((GetPoint xyz i).1 - (GetPoint xyz (i - 1)).1) ^ 2
          + ((GetPoint xyz i).2.1 - (GetPoint xyz (i - 1)).2.1) ^ 2
          + ((GetPoint xyz i).2.2 - (GetPoint xyz (i - 1)).2.2) ^ 2)),
        InsertTuple1 dd.2 (i - 1)
          (sqrt (((GetPoint xyz i).1 - (GetPoint xyz (i - 1)).1) ^ 2
          + ((GetPoint xyz i).2.1 - (GetPoint xyz (i - 1)).2.1) ^ 2
          + ((GetPoint xyz i).2.2 - (GetPoint xyz (i - 1)).2.2) ^ 2))))
      ((0 : α), (SetNumberOfTuples (n - 1) : List α))).1))
      (SetTuple1 (SetNumberOfTuples n : List α) 0 0, 0)).1 (n - 1) 1).length = n ∧
    ∀ m, m < n → GetTuple1 (SetTuple1 (forLoop 1 (n - 1) (fun i (un : List α × α) =>
      (SetTuple1 un.1 i (un.2 + f (GetTuple1 (forLoop 1 n (fun i (dd : α × List α) =>
      (dd.1 + f (sqrt (((GetPoint xyz i).1 - (GetPoint xyz (i - 1)).1) ^ 2
          + ((GetPoint xyz i).2.1 - (GetPoint xyz (i - 1)).2.1) ^ 2
          + ((GetPoint xyz i).2.2 - (GetPoint xyz (i - 1)).2.2) ^ 2)),
        InsertTuple1 dd.2 (i - 1)
          (sqrt (((GetPoint xyz i).1 - (GetPoint xyz (i - 1)).1) ^ 2
          + ((GetPoint xyz i).2.1 - (GetPoint xyz (i - 1)).2.1) ^ 2
          + ((GetPoint xyz i).2.2 - (GetPoint xyz (i - 1)).2.2) ^ 2))))
      ((0 : α), (SetNumberOfTuples (n - 1) : List α))).2 (i - 1)) /
        (forLoop 1 n (fun i (dd : α × List α) =>
      (dd.1 + f (sqrt (((GetPoint xyz i).1 - (GetPoint xyz (i - 1)).1) ^ 2
          + ((GetPoint xyz i).2.1 - (GetPoint xyz (i - 1)).2.1) ^ 2
          + ((GetPoint xyz i).2.2 - (GetPoint xyz (i - 1)).2.2) ^ 2)),
        InsertTuple1 dd.2 (i - 1)
          (sqrt (((GetPoint xyz i).1 - (GetPoint xyz (i - 1)).1) ^ 2
          + ((GetPoint xyz i).2.1 - (GetPoint xyz (i - 1)).2.1) ^ 2
          + ((GetPoint xyz i).2.2 - (GetPoint xyz (i - 1)).2.2) ^ 2))))
      ((0 : α), (SetNumberOfTuples (n - 1) : List α))).1),
        un.2 + f (GetTuple1 (forLoop 1 n (fun i (dd : α × List α) =>
      (dd.1 + f (sqrt (((GetPoint xyz i).1 - (GetPoint xyz (i - 1)).1) ^ 2
          + ((GetPoint xyz i).2.1 - (GetPoint xyz (i - 1)).2.1) ^ 2
          + ((GetPoint xyz i).2.2 - (GetPoint xyz (i - 1)).2.2) ^ 2)),
        InsertTuple1 dd.2 (i - 1)
          (sqrt (((GetPoint xyz i).1 - (GetPoint xyz (i - 1)).1) ^ 2
          + ((GetPoint xyz i).2.1 - (GetPoint xyz (i - 1)).2.1) ^ 2
          + ((GetPoint xyz i).2.2 - (GetPoint xyz (i - 1)).2.2) ^ 2))))
      ((0 : α), (SetNumberOfTuples (n - 1) : List α))).2 (i - 1)) /
        (forLoop 1 n (fun i (dd : α × List α) =>
      (dd.1 + f (sqrt (((GetPoint xyz i).1 - (GetPoint xyz (i - 1)).1) ^ 2
          + ((GetPoint xyz i).2.1 - (GetPoint xyz (i - 1)).2.1) ^ 2
          + ((GetPoint xyz i).2.2 - (GetPoint xyz (i - 1)).2.2) ^ 2)),
        InsertTuple1 dd.2 (i - 1)
          (sqrt (((GetPoint xyz i).1 - (GetPoint xyz (i - 1)).1) ^ 2
          + ((GetPoint xyz i).2.1 - (GetPoint xyz (i - 1)).2.1) ^ 2
          + ((GetPoint xyz i).2.2 - (GetPoint xyz (i - 1)).2.2) ^ 2))))
      ((0 : α), (SetNumberOfTuples (n - 1) : List α))).1))
      (SetTuple1 (SetNumberOfTuples n : List α) 0 0, 0)).1 (n - 1) 1) m
      = (∑ k in Finset.range m, f (segLength sqrt xyz k)) /
          (∑ k in Finset.range (n - 1), f (segLength sqrt xyz k)) := by
  obtain ⟨h1, h2⟩ := distLoop_spec sqrt f xyz n (by omega)
  generalize (forLoop 1 n (fun i (dd : α × List α) =>
      (dd.1 + f (sqrt (((GetPoint xyz i).1 - (GetPoint xyz (i - 1)).1) ^ 2
          + ((GetPoint xyz i).2.1 - (GetPoint xyz (i - 1)).2.1) ^ 2
          + ((GetPoint xyz i).2.2 - (GetPoint xyz (i - 1)).2.2) ^ 2)),
        InsertTuple1 dd.2 (i - 1)
          (sqrt (((GetPoint xyz i).1 - (GetPoint xyz (i - 1)).1) ^ 2
          + ((GetPoint xyz i).2.1 - (GetPoint xyz (i - 1)).2.1) ^ 2
          + ((GetPoint xyz i).2.2 - (GetPoint xyz (i - 1)).2.2) ^ 2))))
      ((0 : α), (SetNumberOfTuples (n - 1) : List α))) = dd at h1 h2 ⊢
  obtain ⟨dn, ds⟩ := dd
  simp only at h1 h2 ⊢
  obtain ⟨c1, c2⟩ := cumLoop_spec f ds dn n hn (SetTuple1 (SetNumberOfTuples n : List α) 0 0)
    (by simp)
  refine ⟨by rw [length_SetTuple1]; exact c1, fun m hm => ?_⟩
  by_cases hm1 : m = n - 1
  · subst hm1
    rw [GetTuple1_SetTuple1_self _ _ _ (by rw [c1]; omega), div_self hd]
  · rw [GetTuple1_SetTuple1_ne _ _ _ _ (fun e => hm1 e.symm), c2 m]
    by_cases hm0 : 1 ≤ m
    · rw [if_pos ⟨hm0, by omega⟩, ← h1, Finset.sum_div]
      refine Finset.sum_congr rfl (fun k hk => ?_)
      rw [h2 k (by have := Finset.mem_range.mp hk; omega)]
    · have e : m = 0 := by omega
      subst e
      rw [if_neg (by omega), GetTuple1_SetTuple1_self _ _ _ (by simp; omega)]
      simp

/-- Closed form of `GetChordSpacedUs`. -/
theorem GetChordSpacedUs_spec (sqrt : α → α) (xyz : List (α × α × α)) (n : ℕ) (hn : 2 ≤ n)
    (hd : ∑ k in Finset.range (n - 1), segLength sqrt xyz k ≠ 0) :
    (GetChordSpacedUs sqrt xyz n).length = n ∧
    ∀ m, m < n → GetTuple1 (GetChordSpacedUs sqrt xyz n) m
      = (∑ k in Finset.range m, segLength sqrt xyz k) /
          (∑ k in Finset.range (n - 1), segLength sqrt xyz k) :=
  spaced_spec sqrt (fun x => x) xyz n hn hd

theorem strncmpEq_sampler_facts :
    strncmpEq "chord" "equal" = false ∧ strncmpEq "chord" "chord" = true ∧
    strncmpEq "centripetal" "equal" = false ∧ strncmpEq "centripetal" "chord" = false ∧
    strncmpEq "centripetal" "centripetal" = true := by decide

theorem GetUs_chord (sqrt : α → α) (xyz : List (α × α × α)) (U : List α) :
    GetUs sqrt xyz "chord" U = (1, GetChordSpacedUs sqrt xyz xyz.length) := by
  simp [GetUs, strncmpEq_sampler_facts]

theorem GetUs_centripetal (sqrt : α → α) (xyz : List (α × α × α)) (U : List α) :
    GetUs sqrt xyz "centripetal" U = (1, GetCentripetalSpacedUs sqrt xyz xyz.length) := by
  simp [GetUs, strncmpEq_sampler_facts]

end SamplerLemmas

/-! ## The Cox-de Boor recurrence -/

section CoxDeBoor

variable {α : Type} [LinearOrderedField α]

theorem coxDeBoor_zero (U : ℕ → α) (i : ℕ) (u : α) :
    coxDeBoor U 0 i u = if U i ≤ u ∧ u < U (i + 1) then 1 else 0 := rfl

theorem coxDeBoor_succ (U : ℕ → α) (d i : ℕ) (u : α) :
    coxDeBoor U (d + 1) i u = cdbLeft U d i u + cdbRight U d i u := rfl

/-- Local support: `N_{i,d}(u) ≠ 0` only for `U i ≤ u < U (i+d+1)`. -/
theorem coxDeBoor_support (U : ℕ → α) (K : ℕ) (hU : ∀ a b, a ≤ b → b ≤ K → U a ≤ U b)
    (u : α) : ∀ d i, i + d + 1 ≤ K → coxDeBoor U d i u ≠ 0 → U i ≤ u ∧ u < U (i + d + 1) := by
  intro d
  induction d with
  | zero =>
    intro i _ h
    rw [coxDeBoor_zero] at h
    by_contra hc
    exact h (if_neg hc)
  | succ d ih =>
    intro i hi h
    rw [coxDeBoor_succ] at h
    by_cases h1 : coxDeBoor U d i u = 0
    · have h2 : coxDeBoor U d (i + 1) u ≠ 0 := by
        intro h2
        apply h
        simp [cdbLeft, cdbRight, h1, h2]
      obtain ⟨a, b⟩ := ih (i + 1) (by omega) h2
      have e : i + 1 + d + 1 = i + (d + 1) + 1 := by omega
      rw [e] at b
      exact ⟨le_trans (hU i (i + 1) (by omega) (by omega)) a, b⟩
    · obtain ⟨a, b⟩ := ih i (by omega) h1
      exact ⟨a, lt_of_lt_of_le b (hU (i + d + 1) (i + (d + 1) + 1) (by omega) (by omega))⟩

theorem coxDeBoor_eq_zero_of_lt (U : ℕ → α) (K : ℕ) (hU : ∀ a b, a ≤ b → b ≤ K → U a ≤ U b)
    (u : α) (d i : ℕ) (hi : i + d + 1 ≤ K) (h : u < U i) : coxDeBoor U d i u = 0 := by
  by_contra hc
  exact absurd (coxDeBoor_support U K hU u d i hi hc).1 (not_le.mpr h)

theorem coxDeBoor_eq_zero_of_ge (U : ℕ → α) (K : ℕ) (hU : ∀ a b, a ≤ b → b ≤ K → U a ≤ U b)
    (u : α) (d i : ℕ) (hi : i + d + 1 ≤ K) (h : U (i + d + 1) ≤ u) : coxDeBoor U d i u = 0 := by
  by_contra hc
  exact absurd (coxDeBoor_support U K hU u d i hi hc).2 (not_lt.mpr h)

/-- Both terms of the recurrence lie between `0` and the basis value they scale. -/
theorem cdb_terms_bounds (U : ℕ → α) (K : ℕ) (hU : ∀ a b, a ≤ b → b ≤ K → U a ≤ U b)
    (u : α) (d : ℕ) (hN : ∀ i, i + d + 1 ≤ K → 0 ≤ coxDeBoor U d i u) (i : ℕ)
    (hi : i + d + 2 ≤ K) :
    (0 ≤ cdbLeft U d i u ∧ cdbLeft U d i u ≤ coxDeBoor U d i u) ∧
    (0 ≤ cdbRight U d i u ∧ cdbRight U d i u ≤ coxDeBoor U d (i + 1) u) := by
  constructor
  · unfold cdbLeft
    by_cases hden : U (i + d + 1) - U i = 0
    · rw [if_pos hden]; exact ⟨le_refl _, hN i (by omega)⟩
    · rw [if_neg hden]
      by_cases h0 : coxDeBoor U d i u = 0
      · simp [h0]
      · obtain ⟨a, b⟩ := coxDeBoor_support U K hU u d i (by omega) h0
        have hN0 := hN i (by omega)
        have hdpos : 0 < U (i + d + 1) - U i := by linarith
        have hq0 : 0 ≤ (u - U i) / (U (i + d + 1) - U i) :=
          div_nonneg (by linarith) (le_of_lt hdpos)
        have hq1 : (u - U i) / (U (i + d + 1) - U i) ≤ 1 := by
          rw [div_le_one hdpos]; linarith
        exact ⟨mul_nonneg hq0 hN0, by nlinarith⟩
  · unfold cdbRight
    by_cases hden : U (i + d + 2) - U (i + 1) = 0
    · rw [if_pos hden]; exact ⟨le_refl _, hN (i + 1) (by omega)⟩
    · rw [if_neg hden]
      by_cases h0 : coxDeBoor U d (i + 1) u = 0
      · simp [h0]
      · obtain ⟨a, b⟩ := coxDeBoor_support U K hU u d (i + 1) (by omega) h0
        have e : i + 1 + d + 1 = i + d + 2 := by omega
        rw [e] at b
        have hN0 := hN (i + 1) (by omega)
        have hdpos : 0 < U (i + d + 2) - U (i + 1) := by linarith
        have hq0 : 0 ≤ (U (i + d + 2) - u) / (U (i + d + 2) - U (i + 1)) :=
          div_nonneg (by linarith) (le_of_lt hdpos)
        have hq1 : (U (i + d + 2) - u) / (U (i + d + 2) - U (i + 1)) ≤ 1 := by
          rw [div_le_one hdpos]; linarith
        exact ⟨mul_nonneg hq0 hN0, by nlinarith⟩

/-- Basis values are non-negative. -/
theorem coxDeBoor_nonneg (U : ℕ → α) (K : ℕ) (hU : ∀ a b, a ≤ b → b ≤ K → U a ≤ U b)
    (u : α) : ∀ d i, i + d + 1 ≤ K → 0 ≤ coxDeBoor U d i u := by
  intro d
  induction d with
  | zero =>
    intro i _
    rw [coxDeBoor_zero]
    split
    · exact zero_le_one
    · exact le_refl _
  | succ d ih =>
    intro i hi
    rw [coxDeBoor_succ]
    obtain ⟨⟨a, -⟩, ⟨b, -⟩⟩ := cdb_terms_bounds U K hU u d ih i (by omega)
    exact add_nonneg a b

/-- The second term for index `i` and the first term for index `i + 1` add up to
`N_{i+1,d}(u)`. -/
theorem cdbRight_add_cdbLeft (U : ℕ → α) (K : ℕ) (hU : ∀ a b, a ≤ b → b ≤ K → U a ≤ U b)
    (u : α) (d i : ℕ) (hi : i + d + 2 ≤ K) :
    cdbRight U d i u + cdbLeft U d (i + 1) u = coxDeBoor U d (i + 1) u := by
  unfold cdbRight cdbLeft
  have e : i + 1 + d + 1 = i + d + 2 := by omega
  rw [e]
  by_cases hden : U (i + d + 2) - U (i + 1) = 0
  · rw [if_pos hden, if_pos hden, add_zero]
    symm
    by_contra hc
    obtain ⟨a, b⟩ := coxDeBoor_support U K hU u d (i + 1) (by omega) hc
    rw [e] at b
    linarith
  · rw [if_neg hden, if_neg hden]
    field_simp
    ring

/-- Telescoping of one level of the recurrence over consecutive indices. -/
theorem sum_coxDeBoor_succ (U : ℕ → α) (K : ℕ) (hU : ∀ a b, a ≤ b → b ≤ K → U a ≤ U b)
    (u : α) (d lo : ℕ) : ∀ n, lo + n + d + 2 ≤ K →
      ∑ j in Finset.range (n + 1), coxDeBoor U (d + 1) (lo + j) u
        = cdbLeft U d lo u + ∑ j in Finset.range n, coxDeBoor U d (lo + 1 + j) u
          + cdbRight U d (lo + n) u := by
  intro n
  induction n with
  | zero =>
    intro _
    simp [coxDeBoor_succ]
  | succ n ih =>
    intro h
    rw [Finset.sum_range_succ, ih (by omega), coxDeBoor_succ, Finset.sum_range_succ]
    have key := cdbRight_add_cdbLeft U K hU u d (lo + n) (by omega)
    have e1 : lo + (n + 1) = lo + n + 1 := by omega
    have e2 : lo + 1 + n = lo + n + 1 := by omega
    rw [e1, e2, ← key]
    ring

/-- Partition of unity on the span `U m ≤ u < U (m+1)`: the `d + 1` basis functions
`N_{m-d,d}, ..., N_{m,d}` sum to `1`. -/
theorem coxDeBoor_partition (U : ℕ → α) (K : ℕ) (hU : ∀ a b, a ≤ b → b ≤ K → U a ≤ U b)
    (u : α) (m : ℕ) (hspan : U m ≤ u ∧ u < U (m + 1)) :
    ∀ d, d ≤ m → m + d + 1 ≤ K →
      ∑ j in Finset.range (d + 1), coxDeBoor U d (m - d + j) u = 1 := by
  intro d
  induction d with
  | zero =>
    intro _ _
    rw [Finset.sum_range_one, coxDeBoor_zero]
    simp only [Nat.sub_zero, Nat.add_zero]
    rw [if_pos hspan]
  | succ d ih =>
    intro hd hK
    rw [sum_coxDeBoor_succ U K hU u d (m - (d + 1)) (d + 1) (by omega)]
    have e1 : m - (d + 1) + 1 = m - d := by omega
    have e2 : m - (d + 1) + (d + 1) = m := by omega
    rw [e1, e2, ih (by omega) (by omega)]
    have hl : cdbLeft U d (m - (d + 1)) u = 0 := by
      have h0 : coxDeBoor U d (m - (d + 1)) u = 0 := by
        apply coxDeBoor_eq_zero_of_ge U K hU u d _ (by omega)
        have e3 : m - (d + 1) + d + 1 = m := by omega
        rw [e3]
        exact hspan.1
      simp [cdbLeft, h0]
    have hr : cdbRight U d m u = 0 := by
      have h0 : coxDeBoor U d (m + 1) u = 0 :=
        coxDeBoor_eq_zero_of_lt U K hU u d _ (by omega) hspan.2
      simp [cdbRight, h0]
    rw [hl, hr]
    ring

end CoxDeBoor

/-! ## The loops of `BasisEvaluationVec` -/

section BasisLoops

variable {α : Type} [LinearOrderedField α]

theorem forLoopMAux_inv {σ : Type} (body : ℕ → σ → Option σ) (Inv : ℕ → σ → Prop) :
    ∀ (n i : ℕ) (s : σ), Inv i s →
      (∀ j t, i ≤ j → j < i + n → Inv j t → ∃ t', body j t = some t' ∧ Inv (j + 1) t') →
      ∃ t, forLoopMAux body n i s = some t ∧ Inv (i + n) t := by
  intro n
  induction n with
  | zero => intro i s h _; exact ⟨s, rfl, by simpa using h⟩
  | succ n ih =>
    intro i s h hstep
    obtain ⟨t1, hb, h1⟩ := hstep i s (le_refl _) (by omega) h
    obtain ⟨t, ht, hI⟩ := ih (i + 1) t1 h1
      (fun j t hj hj2 hI => hstep j t (by omega) (by omega) hI)
    refine ⟨t, ?_, ?_⟩
    · simp [forLoopMAux, hb, ht]
    · have e : i + (n + 1) = i + 1 + n := by omega
      rw [e]; exact hI

/-- Invariant rule for `forLoopM`: every iteration succeeds and re-establishes the
invariant, so the loop succeeds and the invariant holds at the end. -/
theorem forLoopM_inv {σ : Type} (lo hi : ℕ) (body : ℕ → σ → Option σ) (s : σ)
    (Inv : ℕ → σ → Prop) (hle : lo ≤ hi) (h0 : Inv lo s)
    (hstep : ∀ j t, lo ≤ j → j < hi → Inv j t → ∃ t', body j t = some t' ∧ Inv (j + 1) t') :
    ∃ t, forLoopM lo hi body s = some t ∧ Inv hi t := by
  obtain ⟨t, ht, hI⟩ := forLoopMAux_inv body Inv (hi - lo) lo s h0
    (fun j t hj hj2 hI => hstep j t hj (by omega) hI)
  have e : lo + (hi - lo) = hi := by omega
  rw [e] at hI
  exact ⟨t, ht, hI⟩

/-- A loop writing `f i` to entry `i` of an integer array of `n` entries. -/
theorem setLoop_spec (n : ℕ) (f : ℕ → ℤ) (body : ℕ → List ℤ → List ℤ)
    (hbody : ∀ i r, body i r = r.set i (f i)) (init : List ℤ) (hlen : init.length = n) :
    (forLoop 0 n body init).length = n ∧
    ∀ j, j < n → (forLoop 0 n body init).getD j 0 = f j := by
  have h := forLoop_inv 0 n body init
    (fun i r => r.length = n ∧ ∀ j, j < i → r.getD j 0 = f j)
    (Nat.zero_le _) ⟨hlen, fun j hj => absurd hj (Nat.not_lt_zero _)⟩
    (by
      rintro i r - hi ⟨hl, hr⟩
      rw [hbody]
      refine ⟨by simp [hl], fun j hj => ?_⟩
      by_cases hji : j = i
      · subst hji
        simp [List.getD_eq_getElem?_getD, hl, hi]
      · have hne : i ≠ j := fun e => hji e.symm
        have := hr j (by omega)
        simp only [List.getD_eq_getElem?_getD] at this ⊢
        rw [List.getElem?_set_ne hne]
        exact this)
  exact h

theorem WhereLessEqual_spec (val : α) (inp : List α) :
    (WhereLessEqual val inp).length = inp.length ∧
    ∀ j, j < inp.length →
      (WhereLessEqual val inp).getD j 0 = if val ≤ GetTuple1 inp j then 1 else 0 := by
  unfold WhereLessEqual
  exact setLoop_spec inp.length (fun j => if val ≤ GetTuple1 inp j then 1 else 0) _
    (fun i r => by dsimp only; split <;> rfl) _ (by simp)

theorem WhereGreater_spec (val : α) (inp : List α) :
    (WhereGreater val inp).length = inp.length ∧
    ∀ j, j < inp.length →
      (WhereGreater val inp).getD j 0 = if val > GetTuple1 inp j then 1 else 0 := by
  unfold WhereGreater
  exact setLoop_spec inp.length (fun j => if val > GetTuple1 inp j then 1 else 0) _
    (fun i r => by dsimp only; split <;> rfl) _ (by simp)

theorem Intersect1D_spec (v0 v1 result : List ℤ) (h : v0.length = v1.length) :
    (Intersect1D v0 v1 result).2.length = v1.length ∧
    ∀ j, j < v1.length →
      (Intersect1D v0 v1 result).2.getD j 0
        = if v0.getD j 0 ≠ 0 ∧ v1.getD j 0 ≠ 0 then 1 else 0 := by
  unfold Intersect1D
  simp only [h, ne_eq, not_true_eq_false, if_false]
  exact setLoop_spec v1.length
    (fun j => if v0.getD j 0 ≠ 0 ∧ v1.getD j 0 ≠ 0 then 1 else 0) _
    (fun i r => by dsimp only; split <;> rfl) _ (by simp)

/-- A loop writing `f i` to entry `i` of a double array of `n` entries. -/
theorem setLoopD_spec (n : ℕ) (f : ℕ → α) (init : List α) (hlen : init.length = n) :
    (forLoop 0 n (fun i r => SetTuple1 r i (f i)) init).length = n ∧
    ∀ j, j < n → GetTuple1 (forLoop 0 n (fun i r => SetTuple1 r i (f i)) init) j = f j := by
  have h := forLoop_inv 0 n (fun i (r : List α) => SetTuple1 r i (f i)) init
    (fun i r => r.length = n ∧ ∀ j, j < i → GetTuple1 r j = f j)
    (Nat.zero_le _) ⟨hlen, fun j hj => absurd hj (Nat.not_lt_zero _)⟩
    (by
      rintro i r - hi ⟨hl, hr⟩
      refine ⟨by simp [hl], fun j hj => ?_⟩
      by_cases hji : j = i
      · subst hji
        rw [GetTuple1_SetTuple1_self _ _ _ (by omega)]
      · rw [GetTuple1_SetTuple1_ne _ _ _ _ (fun e => hji e.symm)]
        exact hr j (by omega))
  exact h

theorem AddVal1DArrVal_spec (v0 : List α) (val scalar : α) :
    (AddVal1DArrVal v0 val scalar).length = v0.length ∧
    ∀ j, j < v0.length →
      GetTuple1 (AddVal1DArrVal v0 val scalar) j = GetTuple1 v0 j + scalar * val := by
  unfold AddVal1DArrVal
  exact setLoopD_spec v0.length (fun j => GetTuple1 v0 j + scalar * val) _ (by simp)

theorem AddVal1DValArr_spec (val : α) (v0 : List α) (scalar : α) :
    (AddVal1DValArr val v0 scalar).length = v0.length ∧
    ∀ j, j < v0.length →
      GetTuple1 (AddVal1DValArr val v0 scalar) j = val + scalar * GetTuple1 v0 j := by
  unfold AddVal1DValArr
  exact setLoopD_spec v0.length (fun j => val + scalar * GetTuple1 v0 j) _ (by simp)

theorem val_SetValue (M : TypedArray α) (i j : ℕ) (v : α) (a b : ℕ) :
    (M.SetValue i j v).val a b = if a = i ∧ b = j then v else M.val a b := rfl

/-- A loop writing `f j` to entry `(j, c)` of a typed array for every `j < n`. -/
theorem setColumnLoop_spec (n c : ℕ) (f : ℕ → α) (M : TypedArray α) (a b : ℕ) :
    (forLoop 0 n (fun j (M : TypedArray α) => M.SetValue j c (f j)) M).val a b
      = if a < n ∧ b = c then f a else M.val a b := by
  have h := forLoop_inv 0 n (fun j (M : TypedArray α) => M.SetValue j c (f j)) M
    (fun i T => ∀ a b, T.val a b = if a < i ∧ b = c then f a else M.val a b)
    (Nat.zero_le _) (fun a b => by simp)
    (by
      intro i T _ _ hT a b
      rw [val_SetValue, hT a b]
      by_cases hb : b = c
      · by_cases hai : a = i
        · subst hai; simp [hb]
        · have e : (a < i + 1) ↔ (a < i) := by omega
          simp [hb, hai, e]
      · simp [hb])
  exact h a b

/-- The first loop nest of `BasisEvaluationVec` stores the degree-0 basis functions. -/
theorem basisInitLoop_spec (knots : List α) (p kEval : ℕ) (uEvals : List α)
    (Nus : TypedArray α) (k c : ℕ) :
    (basisInitLoop knots p kEval uEvals Nus).val k c
      = if k < uEvals.length ∧ c ≤ p then
          coxDeBoor (fun i => GetTuple1 knots i) 0 (kEval + c) (GetTuple1 uEvals k)
        else Nus.val k c := by
  unfold basisInitLoop
  have h := forLoop_inv 0 (p + 1)
    (fun i (st : TypedArray α × List ℤ) =>
      (forLoop 0 uEvals.length (fun j (Nus : TypedArray α) => Nus.SetValue j i
          ((((Intersect1D (WhereGreater (GetTuple1 knots (kEval + i + 1)) uEvals)
            (WhereLessEqual (GetTuple1 knots (kEval + i)) uEvals) st.2).2.getD j 0 : ℤ)) : α))
          st.1,
        (Intersect1D (WhereGreater (GetTuple1 knots (kEval + i + 1)) uEvals)
            (WhereLessEqual (GetTuple1 knots (kEval + i)) uEvals) st.2).2))
    (Nus, [])
    (fun i st => ∀ k c, st.1.val k c
      = if k < uEvals.length ∧ c < i then
          coxDeBoor (fun i => GetTuple1 knots i) 0 (kEval + c) (GetTuple1 uEvals k)
        else Nus.val k c)
    (Nat.zero_le _) (fun k c => by simp)
    (by
      rintro i ⟨T, fs⟩ - hi hT k c
      dsimp only at hT ⊢
      rw [setColumnLoop_spec, hT k c]
      obtain ⟨gl, gv⟩ := WhereGreater_spec (GetTuple1 knots (kEval + i + 1)) uEvals
      obtain ⟨ll, lv⟩ := WhereLessEqual_spec (GetTuple1 knots (kEval + i)) uEvals
      obtain ⟨-, iv⟩ := Intersect1D_spec
        (WhereGreater (GetTuple1 knots (kEval + i + 1)) uEvals)
        (WhereLessEqual (GetTuple1 knots (kEval + i)) uEvals) fs (by rw [gl, ll])
      by_cases hk : k < uEvals.length
      · by_cases hci : c = i
        · subst hci
          rw [if_pos ⟨hk, rfl⟩, if_pos ⟨hk, by omega⟩, iv k (by rw [ll]; exact hk),
            gv k hk, lv k hk, coxDeBoor_zero]
          by_cases h1 : GetTuple1 knots (kEval + c) ≤ GetTuple1 uEvals k
          · by_cases h2 : GetTuple1 knots (kEval + c + 1) > GetTuple1 uEvals k
            · have h3 : GetTuple1 uEvals k < GetTuple1 knots (kEval + c + 1) := h2
              simp [h1, h2, h3]
            · have h3 : ¬ GetTuple1 uEvals k < GetTuple1 knots (kEval + c + 1) := h2
              simp [h1, h2, h3]
          · simp [h1]
        · have e : (k < uEvals.length ∧ c < i + 1) ↔ (k < uEvals.length ∧ c < i) := by omega
          rw [if_neg (fun hc => hci hc.2)]
          simp only [e]
      · rw [if_neg (fun hc => hk hc.1), if_neg (fun hc => hk hc.1), if_neg (fun hc => hk hc.1)])
  have h2 := h k c
  have e : (k < uEvals.length ∧ c < p + 1) ↔ (k < uEvals.length ∧ c ≤ p) := by omega
  simp only [e] at h2
  exact h2

theorem divChecked_of_ne (x y : α) (h : y ≠ 0) : divChecked x y = some (x / y) := by
  simp [divChecked, h]

theorem basisSavedLoop_spec (knots : List α) (kEval : ℕ) (uEvals : List α) (denom : α)
    (Nus : TypedArray α) (saved : List α) (hlen : saved.length = uEvals.length)
    (hpre : ∀ j, j < uEvals.length → Nus.val j 0 ≠ 0 → denom ≠ 0) :
    ∃ s', basisSavedLoop knots kEval uEvals denom Nus saved = some s' ∧
      s'.length = uEvals.length ∧
      ∀ j, j < uEvals.length → GetTuple1 s' j
        = if Nus.val j 0 ≠ 0 then
            (GetTuple1 uEvals j - GetTuple1 knots kEval) * Nus.val j 0 / denom
          else 0 := by
  unfold basisSavedLoop
  refine forLoopM_inv 0 uEvals.length _ saved
    (fun i s => s.length = uEvals.length ∧ ∀ j, j < i → GetTuple1 s j
        = if Nus.val j 0 ≠ 0 then
            (GetTuple1 uEvals j - GetTuple1 knots kEval) * Nus.val j 0 / denom
          else 0)
    (Nat.zero_le _) ⟨hlen, fun j hj => absurd hj (Nat.not_lt_zero _)⟩ ?_
  rintro i s - hi ⟨hl, hs⟩
  dsimp only [TypedArray.GetValue]
  by_cases hN : Nus.val i 0 ≠ 0
  · rw [if_pos hN, divChecked_of_ne _ _ (hpre i hi hN)]
    refine ⟨_, rfl, by simp [hl], fun j hj => ?_⟩
    by_cases hji : j = i
    · subst hji
      rw [GetTuple1_SetTuple1_self _ _ _ (by omega), if_pos hN]
    · rw [GetTuple1_SetTuple1_ne _ _ _ _ (fun e => hji e.symm)]
      exact hs j (by omega)
  · rw [if_neg hN]
    refine ⟨_, rfl, by simp [hl], fun j hj => ?_⟩
    by_cases hji : j = i
    · subst hji
      rw [GetTuple1_SetTuple1_self _ _ _ (by omega), if_neg hN]
    · rw [GetTuple1_SetTuple1_ne _ _ _ _ (fun e => hji e.symm)]
      exact hs j (by omega)

theorem basisTempLoop_spec (nU j : ℕ) (uLeft uRight : α) (Nus : TypedArray α)
    (tempVec : List α) (hlen : tempVec.length = nU)
    (hpre : ∀ k, k < nU → Nus.val k (j + 1) ≠ 0 → uRight - uLeft ≠ 0) :
    ∃ t', basisTempLoop nU j uLeft uRight Nus tempVec = some t' ∧ t'.length = nU ∧
      ∀ k, k < nU → GetTuple1 t' k
        = if Nus.val k (j + 1) ≠ 0 then Nus.val k (j + 1) / (uRight - uLeft) else -1 := by
  unfold basisTempLoop
  refine forLoopM_inv 0 nU _ tempVec
    (fun i t => t.length = nU ∧ ∀ k, k < i → GetTuple1 t k
        = if Nus.val k (j + 1) ≠ 0 then Nus.val k (j + 1) / (uRight - uLeft) else -1)
    (Nat.zero_le _) ⟨hlen, fun k hk => absurd hk (Nat.not_lt_zero _)⟩ ?_
  rintro i t - hi ⟨hl, ht⟩
  dsimp only [TypedArray.GetValue]
  by_cases hN : Nus.val i (j + 1) ≠ 0
  · rw [if_pos hN, divChecked_of_ne _ _ (hpre i hi hN)]
    refine ⟨_, rfl, by simp [hl], fun k hk => ?_⟩
    by_cases hki : k = i
    · subst hki
      rw [GetTuple1_SetTuple1_self _ _ _ (by omega), if_pos hN]
    · rw [GetTuple1_SetTuple1_ne _ _ _ _ (fun e => hki e.symm)]
      exact ht k (by omega)
  · rw [if_neg hN]
    refine ⟨_, rfl, by simp [hl], fun k hk => ?_⟩
    by_cases hki : k = i
    · subst hki
      rw [GetTuple1_SetTuple1_self _ _ _ (by omega), if_neg hN]
    · rw [GetTuple1_SetTuple1_ne _ _ _ _ (fun e => hki e.symm)]
      exact ht k (by omega)

theorem basisUpdateLoop_spec (nU j : ℕ) (tempVec uRights uLefts : List α)
    (N0 : TypedArray α) (s0 : List α) (hlen : s0.length = nU) :
    (basisUpdateLoop nU j tempVec uRights uLefts (N0, s0)).2.length = nU ∧
    (∀ a b, (basisUpdateLoop nU j tempVec uRights uLefts (N0, s0)).1.val a b
      = if a < nU ∧ b = j then
          (if GetTuple1 tempVec a ≠ -1 then
            GetTuple1 s0 a + GetTuple1 uRights a * GetTuple1 tempVec a
          else GetTuple1 s0 a)
        else N0.val a b) ∧
    (∀ a, a < nU → GetTuple1 (basisUpdateLoop nU j tempVec uRights uLefts (N0, s0)).2 a
      = if GetTuple1 tempVec a ≠ -1 then GetTuple1 uLefts a * GetTuple1 tempVec a else 0) := by
  unfold basisUpdateLoop
  have h := forLoop_inv 0 nU
    (fun k (st : TypedArray α × List α) =>
      if GetTuple1 tempVec k ≠ -1 then
        (st.1.SetValue k j (GetTuple1 st.2 k + GetTuple1 uRights k * GetTuple1 tempVec k),
          SetTuple1 st.2 k (GetTuple1 uLefts k * GetTuple1 tempVec k))
      else
        (st.1.SetValue k j (GetTuple1 st.2 k), SetTuple1 st.2 k 0))
    (N0, s0)
    (fun i st => st.2.length = nU ∧
      (∀ a b, st.1.val a b
        = if a < i ∧ b = j then
            (if GetTuple1 tempVec a ≠ -1 then
              GetTuple1 s0 a + GetTuple1 uRights a * GetTuple1 tempVec a
            else GetTuple1 s0 a)
          else N0.val a b) ∧
      (∀ a, GetTuple1 st.2 a
        = if a < i then
            (if GetTuple1 tempVec a ≠ -1 then GetTuple1 uLefts a * GetTuple1 tempVec a else 0)
          else GetTuple1 s0 a))
    (Nat.zero_le _) ⟨hlen, fun a b => by simp, fun a => by simp⟩
    (by
      rintro i ⟨N, sv⟩ - hi ⟨hl, hN, hs⟩
      dsimp only at hl hN hs ⊢
      have hsi : GetTuple1 sv i = GetTuple1 s0 i := by rw [hs i, if_neg (lt_irrefl _)]
      by_cases hT : GetTuple1 tempVec i ≠ -1
      · rw [if_pos hT]
        refine ⟨by simp [hl], fun a b => ?_, fun a => ?_⟩
        · rw [val_SetValue, hN a b, hsi]
          by_cases hai : a = i
          · subst hai
            by_cases hb : b = j
            · simp [hb, hT]
            · simp [hb]
          · have e : (a < i + 1) ↔ (a < i) := by omega
            simp [hai, e]
        · by_cases hai : a = i
          · subst hai
            rw [GetTuple1_SetTuple1_self _ _ _ (by omega), if_pos (by omega), if_pos hT]
          · have e : (a < i + 1) ↔ (a < i) := by omega
            rw [GetTuple1_SetTuple1_ne _ _ _ _ (fun e => hai e.symm), hs a]
            simp only [e]
      · rw [if_neg hT]
        refine ⟨by simp [hl], fun a b => ?_, fun a => ?_⟩
        · rw [val_SetValue, hN a b, hsi]
          by_cases hai : a = i
          · subst hai
            by_cases hb : b = j
            · simp [hb, hT]
            · simp [hb]
          · have e : (a < i + 1) ↔ (a < i) := by omega
            simp [hai, e]
        · by_cases hai : a = i
          · subst hai
            rw [GetTuple1_SetTuple1_self _ _ _ (by omega), if_pos (by omega), if_neg hT]
          · have e : (a < i + 1) ↔ (a < i) := by omega
            rw [GetTuple1_SetTuple1_ne _ _ _ _ (fun e => hai e.symm), hs a]
            simp only [e])
  refine ⟨h.1, h.2.1, fun a ha => ?_⟩
  rw [h.2.2 a, if_pos ha]

/-! ### Refinement: `BasisEvaluationVec` computes the Cox-de Boor recurrence -/

/-- The value stored in `saved` before the loop over `j` is the first term of the
recurrence, and its division is by a non-zero denominator. -/
theorem savedInit_value (U : ℕ → α) (K : ℕ) (hU : ∀ a b, a ≤ b → b ≤ K → U a ≤ U b)
    (u : α) (d m iR : ℕ) (hR : iR = m + d + 1) (hK : m + d + 1 ≤ K) :
    (coxDeBoor U d m u ≠ 0 → U iR - U m ≠ 0) ∧
    (if coxDeBoor U d m u ≠ 0 then (u - U m) * coxDeBoor U d m u / (U iR - U m) else 0)
      = cdbLeft U d m u := by
  subst hR
  constructor
  · intro h
    obtain ⟨a, b⟩ := coxDeBoor_support U K hU u d m hK h
    exact ne_of_gt (by linarith)
  · unfold cdbLeft
    by_cases h : coxDeBoor U d m u = 0
    · simp [h]
    · obtain ⟨a, b⟩ := coxDeBoor_support U K hU u d m hK h
      have hne : U (m + d + 1) - U m ≠ 0 := ne_of_gt (by linarith)
      rw [if_pos h, if_neg hne]
      field_simp

/-- One step of the loop over `j`: the division is by a non-zero denominator, the sentinel
`-1` is stored exactly where the basis value is zero, the new entry of `Nus` is the basis
value of the next degree and the new `saved` is the first term for the next index. -/
theorem update_value (U : ℕ → α) (K : ℕ) (hU : ∀ a b, a ≤ b → b ≤ K → U a ≤ U b)
    (u : α) (d m iL iR : ℕ) (hL : iL = m + 1) (hR : iR = m + d + 2) (hK : m + d + 2 ≤ K) :
    (coxDeBoor U d (m + 1) u ≠ 0 → U iR - U iL ≠ 0) ∧
    (if (if coxDeBoor U d (m + 1) u ≠ 0 then coxDeBoor U d (m + 1) u / (U iR - U iL)
          else -1) ≠ -1
      then cdbLeft U d m u + (U iR + -1 * u) *
        (if coxDeBoor U d (m + 1) u ≠ 0 then coxDeBoor U d (m + 1) u / (U iR - U iL) else -1)
      else cdbLeft U d m u) = coxDeBoor U (d + 1) m u ∧
    (if (if coxDeBoor U d (m + 1) u ≠ 0 then coxDeBoor U d (m + 1) u / (U iR - U iL)
          else -1) ≠ -1
      then (u + -1 * U iL) *
        (if coxDeBoor U d (m + 1) u ≠ 0 then coxDeBoor U d (m + 1) u / (U iR - U iL) else -1)
      else 0) = cdbLeft U d (m + 1) u := by
  subst hL hR
  have e : m + 1 + d + 1 = m + d + 2 := by omega
  by_cases h : coxDeBoor U d (m + 1) u = 0
  · refine ⟨fun hc => absurd h hc, ?_, ?_⟩
    · simp [h, coxDeBoor_succ, cdbRight]
    · simp [h, cdbLeft]
  · obtain ⟨a, b⟩ := coxDeBoor_support U K hU u d (m + 1) (by omega) h
    rw [e] at b
    have hpos : 0 < U (m + d + 2) - U (m + 1) := by linarith
    have hne : U (m + d + 2) - U (m + 1) ≠ 0 := ne_of_gt hpos
    have hN : 0 < coxDeBoor U d (m + 1) u :=
      lt_of_le_of_ne (coxDeBoor_nonneg U K hU u d (m + 1) (by omega)) (Ne.symm h)
    have hT : coxDeBoor U d (m + 1) u / (U (m + d + 2) - U (m + 1)) ≠ -1 := by
      have : 0 < coxDeBoor U d (m + 1) u / (U (m + d + 2) - U (m + 1)) := div_pos hN hpos
      intro hc
      rw [hc] at this
      linarith
    refine ⟨fun _ => hne, ?_, ?_⟩
    · rw [if_pos h, if_pos hT, coxDeBoor_succ]
      unfold cdbRight
      rw [if_neg hne]
      ring
    · rw [if_pos h, if_pos hT]
      unfold cdbLeft
      rw [e, if_neg hne]
      ring

/-- One iteration of the loop over `j` at level `d + 1`. -/
theorem basisInnerStep_spec (knots : List α) (K : ℕ)
    (hU : ∀ a b, a ≤ b → b ≤ K → GetTuple1 knots a ≤ GetTuple1 knots b)
    (p kEval : ℕ) (uEvals : List α) (hK : kEval + p + 1 ≤ K) (d j : ℕ) (hj : j + d + 1 ≤ p)
    (st : TypedArray α × List α × List α)
    (hl1 : st.2.1.length = uEvals.length) (hl2 : st.2.2.length = uEvals.length)
    (hlo : ∀ k, k < uEvals.length → ∀ c, c < j → st.1.val k c
      = coxDeBoor (fun i => GetTuple1 knots i) (d + 1) (kEval + c) (GetTuple1 uEvals k))
    (hhi : ∀ k, k < uEvals.length → ∀ c, j ≤ c → c + d ≤ p → st.1.val k c
      = coxDeBoor (fun i => GetTuple1 knots i) d (kEval + c) (GetTuple1 uEvals k))
    (hsv : ∀ k, k < uEvals.length → GetTuple1 st.2.1 k
      = cdbLeft (fun i => GetTuple1 knots i) d (kEval + j) (GetTuple1 uEvals k)) :
    ∃ st', basisInnerStep knots kEval uEvals (d + 1) j st = some st' ∧
      st'.2.1.length = uEvals.length ∧ st'.2.2.length = uEvals.length ∧
      (∀ k, k < uEvals.length → ∀ c, c < j + 1 → st'.1.val k c
        = coxDeBoor (fun i => GetTuple1 knots i) (d + 1) (kEval + c) (GetTuple1 uEvals k)) ∧
      (∀ k, k < uEvals.length → ∀ c, j + 1 ≤ c → c + d ≤ p → st'.1.val k c
        = coxDeBoor (fun i => GetTuple1 knots i) d (kEval + c) (GetTuple1 uEvals k)) ∧
      (∀ k, k < uEvals.length → GetTuple1 st'.2.1 k
        = cdbLeft (fun i => GetTuple1 knots i) d (kEval + (j + 1)) (GetTuple1 uEvals k)) := by
  obtain ⟨N, sv, tv⟩ := st
  dsimp only at hl1 hl2 hlo hhi hsv
  have hval : ∀ k, k < uEvals.length →
      N.val k (j + 1) = coxDeBoor (fun i => GetTuple1 knots i) d (kEval + j + 1)
        (GetTuple1 uEvals k) := fun k hk => hhi k hk (j + 1) (by omega) (by omega)
  have hupd := fun k => update_value (fun i => GetTuple1 knots i) K hU (GetTuple1 uEvals k) d
    (kEval + j) (kEval + j + 1) (kEval + (d + 1) + j + 1) rfl (by omega) (by omega)
  obtain ⟨tv', htv, htl, htval⟩ := basisTempLoop_spec uEvals.length j
    (GetTuple1 knots (kEval + j + 1)) (GetTuple1 knots (kEval + (d + 1) + j + 1)) N tv hl2
    (fun k hk hne => (hupd k).1 (by rw [← hval k hk]; exact hne))
  obtain ⟨ul, uv, usv⟩ := basisUpdateLoop_spec uEvals.length j tv'
    (AddVal1DValArr (GetTuple1 knots (kEval + (d + 1) + j + 1)) uEvals (-1))
    (AddVal1DArrVal uEvals (GetTuple1 knots (kEval + j + 1)) (-1)) N sv hl1
  obtain ⟨-, hR⟩ := AddVal1DValArr_spec (GetTuple1 knots (kEval + (d + 1) + j + 1)) uEvals (-1)
  obtain ⟨-, hLf⟩ := AddVal1DArrVal_spec uEvals (GetTuple1 knots (kEval + j + 1)) (-1)
  refine ⟨((basisUpdateLoop uEvals.length j tv'
      (AddVal1DValArr (GetTuple1 knots (kEval + (d + 1) + j + 1)) uEvals (-1))
      (AddVal1DArrVal uEvals (GetTuple1 knots (kEval + j + 1)) (-1)) (N, sv)).1,
    (basisUpdateLoop uEvals.length j tv'
      (AddVal1DValArr (GetTuple1 knots (kEval + (d + 1) + j + 1)) uEvals (-1))
      (AddVal1DArrVal uEvals (GetTuple1 knots (kEval + j + 1)) (-1)) (N, sv)).2, tv'),
    by simp only [basisInnerStep, htv, Option.map_some'], ul, htl, ?_, ?_, ?_⟩
  · intro k hk c hc
    dsimp only
    rw [uv k c]
    by_cases hcj : c = j
    · subst hcj
      rw [if_pos ⟨hk, rfl⟩, htval k hk, hval k hk, hsv k hk, hR k hk]
      exact (hupd k).2.1
    · rw [if_neg (fun h => hcj h.2)]
      exact hlo k hk c (by omega)
  · intro k hk c hc1 hc2
    dsimp only
    rw [uv k c, if_neg (fun h => by omega)]
    exact hhi k hk c (by omega) hc2
  · intro k hk
    dsimp only
    rw [usv k hk, htval k hk, hval k hk, hLf k hk]
    exact (hupd k).2.2

/-- One level of `BasisEvaluationVec`: from the basis values of degree `d` in columns
`0..p-d` to those of degree `d + 1` in columns `0..p-d-1`. -/
theorem basisLevelStep_spec (knots : List α) (K : ℕ)
    (hU : ∀ a b, a ≤ b → b ≤ K → GetTuple1 knots a ≤ GetTuple1 knots b)
    (p kEval : ℕ) (uEvals : List α) (hK : kEval + p + 1 ≤ K) (d : ℕ) (hd : d + 1 ≤ p)
    (st : TypedArray α × List α × List α)
    (hl1 : st.2.1.length = uEvals.length) (hl2 : st.2.2.length = uEvals.length)
    (hN : ∀ k, k < uEvals.length → ∀ c, c + d ≤ p → st.1.val k c
      = coxDeBoor (fun i => GetTuple1 knots i) d (kEval + c) (GetTuple1 uEvals k)) :
    ∃ st', basisLevelStep knots p kEval uEvals (d + 1) st = some st' ∧
      st'.2.1.length = uEvals.length ∧ st'.2.2.length = uEvals.length ∧
      ∀ k, k < uEvals.length → ∀ c, c + (d + 1) ≤ p → st'.1.val k c
        = coxDeBoor (fun i => GetTuple1 knots i) (d + 1) (kEval + c) (GetTuple1 uEvals k) := by
  obtain ⟨N, sv, tv⟩ := st
  dsimp only at hl1 hl2 hN
  have hinit := fun k => savedInit_value (fun i => GetTuple1 knots i) K hU (GetTuple1 uEvals k) d
    kEval (kEval + (d + 1)) (by omega) (by omega)
  have hval0 : ∀ k, k < uEvals.length →
      N.val k 0 = coxDeBoor (fun i => GetTuple1 knots i) d kEval (GetTuple1 uEvals k) :=
    fun k hk => hN k hk 0 (by omega)
  obtain ⟨sv', hsv, hsl, hsval⟩ := basisSavedLoop_spec knots kEval uEvals
    (GetTuple1 knots (kEval + (d + 1)) - GetTuple1 knots kEval) N sv hl1
    (fun k hk hne => (hinit k).1 (by rw [← hval0 k hk]; exact hne))
  obtain ⟨st', hst, hI⟩ := forLoopM_inv 0 (p - (d + 1) + 1)
    (basisInnerStep knots kEval uEvals (d + 1)) (N, sv', tv)
    (fun j st => st.2.1.length = uEvals.length ∧ st.2.2.length = uEvals.length ∧
      (∀ k, k < uEvals.length → ∀ c, c < j → st.1.val k c
        = coxDeBoor (fun i => GetTuple1 knots i) (d + 1) (kEval + c) (GetTuple1 uEvals k)) ∧
      (∀ k, k < uEvals.length → ∀ c, j ≤ c → c + d ≤ p → st.1.val k c
        = coxDeBoor (fun i => GetTuple1 knots i) d (kEval + c) (GetTuple1 uEvals k)) ∧
      (∀ k, k < uEvals.length → GetTuple1 st.2.1 k
        = cdbLeft (fun i => GetTuple1 knots i) d (kEval + j) (GetTuple1 uEvals k)))
    (Nat.zero_le _)
    ⟨hsl, hl2, fun k _ c hc => absurd hc (Nat.not_lt_zero _),
      fun k hk c _ hc => hN k hk c hc,
      fun k hk => by
        dsimp only
        rw [hsval k hk, hval0 k hk]
        exact (hinit k).2⟩
    (fun j st _ hj ⟨a1, a2, a3, a4, a5⟩ =>
      basisInnerStep_spec knots K hU p kEval uEvals hK d j (by omega) st a1 a2 a3 a4 a5)
  refine ⟨st', ?_, hI.1, hI.2.1, fun k hk c hc => hI.2.2.1 k hk c (by omega)⟩
  simp only [basisLevelStep, hsv, Option.some_bind]
  exact hst

/-- `BasisEvaluationVec` executes no division by zero and leaves in column 0 of `Nus` the
Cox-de Boor basis value `N_{kEval,p}(u_k)` of every sample. -/
theorem BasisEvaluationVec_spec (knots : List α) (K : ℕ)
    (hU : ∀ a b, a ≤ b → b ≤ K → GetTuple1 knots a ≤ GetTuple1 knots b)
    (p kEval : ℕ) (uEvals : List α) (Nus : TypedArray α) (hK : kEval + p + 1 ≤ K) :
    ∃ out, BasisEvaluationVec knots p kEval uEvals Nus = some out ∧
      ∀ k, k < uEvals.length → out.val k 0
        = coxDeBoor (fun i => GetTuple1 knots i) p kEval (GetTuple1 uEvals k) := by
  obtain ⟨st', hst, hI⟩ := forLoopM_inv 1 (p + 1) (basisLevelStep knots p kEval uEvals)
    (basisInitLoop knots p kEval uEvals Nus, (SetNumberOfTuples uEvals.length : List α),
      (SetNumberOfTuples uEvals.length : List α))
    (fun i st => st.2.1.length = uEvals.length ∧ st.2.2.length = uEvals.length ∧
      ∀ k, k < uEvals.length → ∀ c, c + (i - 1) ≤ p → st.1.val k c
        = coxDeBoor (fun i => GetTuple1 knots i) (i - 1) (kEval + c) (GetTuple1 uEvals k))
    (by omega)
    ⟨by simp, by simp, fun k hk c hc => by
      dsimp only
      rw [basisInitLoop_spec, if_pos ⟨hk, by omega⟩]⟩
    (fun i st hi1 hi2 ⟨a1, a2, a3⟩ => by
      obtain ⟨st', h1, h2, h3, h4⟩ := basisLevelStep_spec knots K hU p kEval uEvals hK (i - 1)
        (by omega) st a1 a2 a3
      have e : i - 1 + 1 = i := by omega
      rw [e] at h1 h4
      refine ⟨st', h1, h2, h3, fun k hk c hc => ?_⟩
      have e2 : i + 1 - 1 = i := by omega
      rw [e2] at hc ⊢
      exact h4 k hk c hc)
  refine ⟨st'.1, ?_, fun k hk => ?_⟩
  · simp only [BasisEvaluationVec, hst, Option.map_some']
  · have := hI.2.2 k hk 0 (by omega)
    simpa using this

/-- A value inside the knot domain lies in some knot span. -/
theorem exists_span (U : ℕ → α) (p : ℕ) (u : α) (hp : U p ≤ u) :
    ∀ n, p ≤ n → u < U n → ∃ m, p ≤ m ∧ m < n ∧ U m ≤ u ∧ u < U (m + 1) := by
  intro n hn
  induction n, hn using Nat.le_induction with
  | base => intro h; exact absurd hp (not_le.mpr h)
  | succ n hpn ih =>
    intro h
    by_cases h1 : u < U n
    · obtain ⟨m, a, b, c, d⟩ := ih h1
      exact ⟨m, a, by omega, c, d⟩
    · exact ⟨n, hpn, by omega, not_lt.mp h1, h⟩

/-- The basis functions of all control points sum to `1` inside the knot domain. -/
theorem sum_coxDeBoor_all (U : ℕ → α) (p nCon : ℕ)
    (hU : ∀ a b, a ≤ b → b ≤ nCon + p → U a ≤ U b) (u : α)
    (hu : U p ≤ u ∧ u < U nCon) :
    ∑ i in Finset.range nCon, coxDeBoor U p i u = 1 := by
  have hpn : p ≤ nCon := by
    by_contra hc
    have := hU nCon p (by omega) (by omega)
    linarith [hu.1, hu.2]
  obtain ⟨m, hm1, hm2, hspan⟩ := exists_span U p u hu.1 nCon hpn hu.2
  have hsub : Finset.Ico (m - p) (m + 1) ⊆ Finset.range nCon := by
    intro x hx
    rw [Finset.mem_Ico] at hx
    rw [Finset.mem_range]
    omega
  rw [← Finset.sum_subset hsub, Finset.sum_Ico_eq_sum_range]
  · have e : m + 1 - (m - p) = p + 1 := by omega
    rw [e]
    exact coxDeBoor_partition U (nCon + p) hU u m hspan p hm1 (by omega)
  · intro x hx hnx
    rw [Finset.mem_range] at hx
    rw [Finset.mem_Ico] at hnx
    by_cases h1 : x < m - p
    · apply coxDeBoor_eq_zero_of_ge U (nCon + p) hU u p x (by omega)
      exact le_trans (hU (x + p + 1) m (by omega) (by omega)) hspan.1
    · have h2 : m + 1 ≤ x := by omega
      apply coxDeBoor_eq_zero_of_lt U (nCon + p) hU u p x (by omega)
      exact lt_of_lt_of_le hspan.2 (hU (m + 1) x h2 (by omega))

theorem knots_window_mono (knots : List α) (K : ℕ) (hK : K + 1 = knots.length)
    (hmono : ∀ i, i + 1 < knots.length → GetTuple1 knots i ≤ GetTuple1 knots (i + 1)) :
    ∀ a b, a ≤ b → b ≤ K → GetTuple1 knots a ≤ GetTuple1 knots b :=
  fun a b hab hb => adjacent_mono knots hmono a b hab (by omega)

end BasisLoops

/-! ## Knot-vector claims -/

section KnotClaims

variable {α : Type} [LinearOrderedField α]

/-- C1 (knot length invariant): for every parameter array `U` of length `n` and every degree
`p`, `GetKnots` succeeds and leaves a knot vector of exactly `n + p + 1` entries for the
strategies "equal" and "average", and of exactly `n + p + 3` entries for "derivative". -/
theorem C1_knot_length_invariant (U : List α) (p : ℕ) (knots : List α) :
    ((GetKnots U p "equal" knots).1 = 1 ∧
      (GetKnots U p "equal" knots).2.length = U.length + p + 1) ∧
    ((GetKnots U p "average" knots).1 = 1 ∧
      (GetKnots U p "average" knots).2.length = U.length + p + 1) ∧
    ((GetKnots U p "derivative" knots).1 = 1 ∧
      (GetKnots U p "derivative" knots).2.length = U.length + p + 3) := by
  rw [GetKnots_equal, GetKnots_average, GetKnots_derivative]
  dsimp only
  exact ⟨⟨rfl, length_LinSpaceClamp 0 1 _ _⟩, ⟨rfl, length_GetAvgKnots 0 1 _ _ _⟩,
    ⟨rfl, length_GetEndDerivKnots 0 1 _ _ _⟩⟩

/-- C2 (equal-strategy knots): for `p < n`, `GetKnots(U, p, "equal")` is the vector of
`n + p + 1` entries whose entries `0..p` are `0`, whose entry `p + k` is `k / (n - p)` for
`k = 1..n-p-1`, and whose entries `n..n+p` are `1`. -/
theorem C2_equal_knots (U : List α) (p : ℕ) (knots : List α) (hp : p < U.length) :
    (GetKnots U p "equal" knots).2.length = U.length + p + 1 ∧
    (∀ i, i ≤ p → (GetKnots U p "equal" knots).2[i]? = some 0) ∧
    (∀ k, 1 ≤ k → k ≤ U.length - p - 1 →
      (GetKnots U p "equal" knots).2[p + k]? = some ((k : α) / ((U.length : α) - (p : α)))) ∧
    (∀ i, U.length ≤ i → i ≤ U.length + p → (GetKnots U p "equal" knots).2[i]? = some 1) := by
  rw [GetKnots_equal]
  dsimp only
  have hl := length_LinSpaceClamp (0 : α) 1 (U.length + p + 1) p
  refine ⟨hl, fun i hi => ?_, fun k hk1 hk2 => ?_, fun i hi1 hi2 => ?_⟩
  · rw [getElem?_eq_GetTuple1 _ _ (by omega), LinSpaceClamp_spec 0 1 _ p hp i (by omega),
      if_pos hi]
  · rw [getElem?_eq_GetTuple1 _ _ (by omega),
      LinSpaceClamp_spec 0 1 _ p hp (p + k) (by omega), if_neg (by omega), if_pos (by omega)]
    congr 1
    push_cast
    ring
  · rw [getElem?_eq_GetTuple1 _ _ (by omega), LinSpaceClamp_spec 0 1 _ p hp i (by omega),
      if_neg (by omega), if_neg (by omega)]

/-- Scenario A: four parameters, degree 2, equal knots give `[0,0,0,1/2,1,1,1]`. -/
theorem scenarioA_equal_knots :
    GetKnots ([0, 1/3, 2/3, 1] : List ℚ) 2 "equal" [] = (1, [0, 0, 0, 1/2, 1, 1, 1]) := by
  decide!

/-- Witness of C2 at Scenario A (`n = 4`, `p = 2`). -/
theorem C2_equal_knots_witness :
    2 < ([0, 1/3, 2/3, 1] : List ℚ).length ∧
    ((GetKnots ([0, 1/3, 2/3, 1] : List ℚ) 2 "equal" []).2.length
        = ([0, 1/3, 2/3, 1] : List ℚ).length + 2 + 1 ∧
    (∀ i, i ≤ 2 → (GetKnots ([0, 1/3, 2/3, 1] : List ℚ) 2 "equal" []).2[i]? = some 0) ∧
    (∀ k, 1 ≤ k → k ≤ ([0, 1/3, 2/3, 1] : List ℚ).length - 2 - 1 →
      (GetKnots ([0, 1/3, 2/3, 1] : List ℚ) 2 "equal" []).2[2 + k]?
        = some ((k : ℚ) / ((([0, 1/3, 2/3, 1] : List ℚ).length : ℚ) - ((2 : ℕ) : ℚ)))) ∧
    (∀ i, ([0, 1/3, 2/3, 1] : List ℚ).length ≤ i → i ≤ ([0, 1/3, 2/3, 1] : List ℚ).length + 2 →
      (GetKnots ([0, 1/3, 2/3, 1] : List ℚ) 2 "equal" []).2[i]? = some 1)) :=
  ⟨by decide, C2_equal_knots ([0, 1/3, 2/3, 1] : List ℚ) 2 [] (by decide)⟩

/-- C3 (average-strategy knots, de Boor averaging): for `1 ≤ p < n`, `GetAvgKnots` on a knot
vector of `n + p + 1` entries yields `knots[i+p] = (U[i] + ... + U[i+p-1]) / p` for every
`1 ≤ i ≤ n-p-1`, entries `0..p` equal to `0` and entries `n..n+p` equal to `1`. -/
theorem C3_average_knots (mn mx : α) (U : List α) (p : ℕ) (hp1 : 1 ≤ p) (hp : p < U.length) :
    (GetAvgKnots mn mx (U.length + p + 1) p U).length = U.length + p + 1 ∧
    (∀ i, 1 ≤ i → i ≤ U.length - p - 1 →
      (GetAvgKnots mn mx (U.length + p + 1) p U)[i + p]?
        = some ((∑ l in Finset.range p, GetTuple1 U (i + l)) / (p : α))) ∧
    (∀ i, i ≤ p → (GetAvgKnots mn mx (U.length + p + 1) p U)[i]? = some 0) ∧
    (∀ i, U.length ≤ i → i ≤ U.length + p →
      (GetAvgKnots mn mx (U.length + p + 1) p U)[i]? = some 1) := by
  have hl := length_GetAvgKnots mn mx (U.length + p + 1) p U
  refine ⟨hl, fun i hi1 hi2 => ?_, fun i hi => ?_, fun i hi1 hi2 => ?_⟩
  · rw [getElem?_eq_GetTuple1 _ _ (by omega), GetAvgKnots_spec mn mx p U hp (i + p) (by omega),
      if_neg (by omega), if_pos (by omega)]
    have e : i + p - p = i := by omega
    rw [e, one_div, div_eq_inv_mul]
  · rw [getElem?_eq_GetTuple1 _ _ (by omega), GetAvgKnots_spec mn mx p U hp i (by omega),
      if_pos hi]
  · rw [getElem?_eq_GetTuple1 _ _ (by omega), GetAvgKnots_spec mn mx p U hp i (by omega),
      if_neg (by omega), if_neg (by omega)]

/-- Witness of C3: parameters `[0, 1/3, 2/3, 1]`, degree 2. -/
theorem C3_average_knots_witness :
    1 ≤ 2 ∧ 2 < ([0, 1/3, 2/3, 1] : List ℚ).length ∧
    ((GetAvgKnots (0 : ℚ) 1 (([0, 1/3, 2/3, 1] : List ℚ).length + 2 + 1) 2
        [0, 1/3, 2/3, 1]).length = ([0, 1/3, 2/3, 1] : List ℚ).length + 2 + 1 ∧
    (∀ i, 1 ≤ i → i ≤ ([0, 1/3, 2/3, 1] : List ℚ).length - 2 - 1 →
      (GetAvgKnots (0 : ℚ) 1 (([0, 1/3, 2/3, 1] : List ℚ).length + 2 + 1) 2
          [0, 1/3, 2/3, 1])[i + 2]?
        = some ((∑ l in Finset.range 2, GetTuple1 ([0, 1/3, 2/3, 1] : List ℚ) (i + l))
            / ((2 : ℕ) : ℚ))) ∧
    (∀ i, i ≤ 2 →
      (GetAvgKnots (0 : ℚ) 1 (([0, 1/3, 2/3, 1] : List ℚ).length + 2 + 1) 2
          [0, 1/3, 2/3, 1])[i]? = some 0) ∧
    (∀ i, ([0, 1/3, 2/3, 1] : List ℚ).length ≤ i →
      i ≤ ([0, 1/3, 2/3, 1] : List ℚ).length + 2 →
      (GetAvgKnots (0 : ℚ) 1 (([0, 1/3, 2/3, 1] : List ℚ).length + 2 + 1) 2
          [0, 1/3, 2/3, 1])[i]? = some 1)) :=
  ⟨by decide, by decide, C3_average_knots 0 1 ([0, 1/3, 2/3, 1] : List ℚ) 2 (by decide)
    (by decide)⟩

/-- C4 (knot vectors are non-decreasing): for each strategy "equal", "average",
"derivative", every degree `1 ≤ p < n` and every non-decreasing parameter array `U` of
length `n` with `U[0] = 0` and `U[n-1] = 1`, adjacent entries of the knot vector left by
`GetKnots` satisfy `knots[i] ≤ knots[i+1]`. -/
theorem C4_knots_nondecreasing (U : List α) (p : ℕ) (type : String) (knots : List α)
    (htype : type = "equal" ∨ type = "average" ∨ type = "derivative")
    (hp1 : 1 ≤ p) (hp : p < U.length)
    (hU : ∀ i, i + 1 < U.length → GetTuple1 U i ≤ GetTuple1 U (i + 1))
    (h0 : GetTuple1 U 0 = 0) (h1 : GetTuple1 U (U.length - 1) = 1) :
    ∀ i, i + 1 < (GetKnots U p type knots).2.length →
      GetTuple1 (GetKnots U p type knots).2 i ≤ GetTuple1 (GetKnots U p type knots).2 (i + 1) := by
  intro i hi
  rcases htype with h | h | h
  · subst h
    rw [GetKnots_equal] at hi ⊢
    dsimp only at hi ⊢
    rw [length_LinSpaceClamp] at hi
    exact LinSpaceClamp_mono U.length p hp i hi
  · subst h
    rw [GetKnots_average] at hi ⊢
    dsimp only at hi ⊢
    rw [length_GetAvgKnots] at hi
    exact GetAvgKnots_mono 0 1 p U hp1 hp hU h0 h1 i hi
  · subst h
    rw [GetKnots_derivative] at hi ⊢
    dsimp only at hi ⊢
    rw [length_GetEndDerivKnots] at hi
    exact GetEndDerivKnots_mono 0 1 p U hp1 (le_of_lt hp) hU h0 h1 i hi

/-- Witness of C4: parameters `[0, 1/3, 2/3, 1]`, degree 2, averaged knots. -/
theorem C4_knots_nondecreasing_witness :
    (("average" : String) = "equal" ∨ ("average" : String) = "average" ∨
      ("average" : String) = "derivative") ∧ 1 ≤ 2 ∧ 2 < ([0, 1/3, 2/3, 1] : List ℚ).length ∧
    (∀ i, i + 1 < ([0, 1/3, 2/3, 1] : List ℚ).length →
      GetTuple1 ([0, 1/3, 2/3, 1] : List ℚ) i ≤ GetTuple1 ([0, 1/3, 2/3, 1] : List ℚ) (i + 1)) ∧
    GetTuple1 ([0, 1/3, 2/3, 1] : List ℚ) 0 = 0 ∧
    GetTuple1 ([0, 1/3, 2/3, 1] : List ℚ) (([0, 1/3, 2/3, 1] : List ℚ).length - 1) = 1 ∧
    ∀ i, i + 1 < (GetKnots ([0, 1/3, 2/3, 1] : List ℚ) 2 "average" []).2.length →
      GetTuple1 (GetKnots ([0, 1/3, 2/3, 1] : List ℚ) 2 "average" []).2 i ≤
        GetTuple1 (GetKnots ([0, 1/3, 2/3, 1] : List ℚ) 2 "average" []).2 (i + 1) :=
  have hU : ∀ i, i + 1 < ([0, 1/3, 2/3, 1] : List ℚ).length →
      GetTuple1 ([0, 1/3, 2/3, 1] : List ℚ) i ≤ GetTuple1 ([0, 1/3, 2/3, 1] : List ℚ) (i + 1) := by
    intro i hi
    have hi3 : i < 3 := by simp at hi; omega
    interval_cases i <;> decide!
  ⟨Or.inr (Or.inl rfl), by decide, by decide, hU, by decide!, by decide!,
    C4_knots_nondecreasing ([0, 1/3, 2/3, 1] : List ℚ) 2 "average" [] (Or.inr (Or.inl rfl))
      (by decide) (by decide) hU (by decide!) (by decide!)⟩

/-- C5, counterexample to the claim as stated: with the "derivative" strategy and degree
`p = 1`, the strictly increasing parameters `[0, 1/2, 1]` (`n = 3 = p + 2`) give the knot
vector `[0,0,0,1/2,1,1,1]`, whose end values repeat `p + 2 = 3` times. -/
theorem C5_counterexample_derivative_degree_one :
    (1 ≤ 1 ∧ 1 + 2 ≤ ([0, 1/2, 1] : List ℚ).length ∧
      (∀ i, i + 1 < ([0, 1/2, 1] : List ℚ).length →
        GetTuple1 ([0, 1/2, 1] : List ℚ) i < GetTuple1 ([0, 1/2, 1] : List ℚ) (i + 1)) ∧
      GetTuple1 ([0, 1/2, 1] : List ℚ) 0 = 0 ∧
      GetTuple1 ([0, 1/2, 1] : List ℚ) (([0, 1/2, 1] : List ℚ).length - 1) = 1) ∧
    GetKnots ([0, 1/2, 1] : List ℚ) 1 "derivative" [] = (1, [0, 0, 0, 1/2, 1, 1, 1]) ∧
    ¬ ClampedExactly (GetKnots ([0, 1/2, 1] : List ℚ) 1 "derivative" []).2 1 := by
  refine ⟨⟨by decide, by decide, ?_, by decide!, by decide!⟩, by decide!, ?_⟩
  · intro i hi
    have hi2 : i < 2 := by simp at hi; omega
    interval_cases i <;> decide!
  · intro h
    exact absurd h.2.1 (by decide!)

/-- C5 as amended (clamping): for the strategies "equal" and "average" with `p ≥ 1`, and for
"derivative" with `p ≥ 2`, every strictly increasing parameter array `U` (`U[0] = 0`,
`U[n-1] = 1`, `n ≥ p + 2`) gives a knot vector whose first `p + 1` entries are `0` with the
next entry `> 0`, and whose last `p + 1` entries are `1` with the entry before them `< 1`. -/
theorem C5_clamping_amended (U : List α) (p : ℕ) (type : String) (knots : List α)
    (htype : ((type = "equal" ∨ type = "average") ∧ 1 ≤ p) ∨ (type = "derivative" ∧ 2 ≤ p))
    (hn : p + 2 ≤ U.length)
    (hU : ∀ i, i + 1 < U.length → GetTuple1 U i < GetTuple1 U (i + 1))
    (h0 : GetTuple1 U 0 = 0) (h1 : GetTuple1 U (U.length - 1) = 1) :
    ClampedExactly (GetKnots U p type knots).2 p := by
  have hU2 : ∀ i, i + 1 < U.length → GetTuple1 U i ≤ GetTuple1 U (i + 1) :=
    fun i hi => le_of_lt (hU i hi)
  obtain ⟨hnn, hle⟩ := params_bounds U hU2 h0 h1
  have hmono := adjacent_mono U hU2
  have hU1 : 0 < GetTuple1 U 1 := by
    have := hU 0 (by omega)
    rwa [h0] at this
  have hUn2 : GetTuple1 U (U.length - 2) < 1 := by
    have := hU (U.length - 2) (by omega)
    have e : U.length - 2 + 1 = U.length - 1 := by omega
    rwa [e, h1] at this
  rcases htype with ⟨h | h, hp1⟩ | ⟨h, hp2⟩
  · subst h
    rw [GetKnots_equal]
    dsimp only
    have hl := length_LinSpaceClamp (0 : α) 1 (U.length + p + 1) p
    have hnp : (0 : α) < (U.length : α) - (p : α) := by
      have : (p : α) < (U.length : α) := by exact_mod_cast (by omega : p < U.length)
      linarith
    refine ⟨fun i hi => ?_, ?_, fun i hi1 hi2 => ?_, ?_⟩
    · rw [getElem?_eq_GetTuple1 _ _ (by omega),
        LinSpaceClamp_spec 0 1 _ p (by omega) i (by omega), if_pos hi]
    · rw [LinSpaceClamp_spec 0 1 _ p (by omega) (p + 1) (by omega), if_neg (by omega),
        if_pos (by omega)]
      have : (((p + 1 : ℕ) : α) - (p : α)) = 1 := by push_cast; ring
      rw [this]
      positivity
    · rw [getElem?_eq_GetTuple1 _ _ (by omega),
        LinSpaceClamp_spec 0 1 _ p (by omega) i (by omega), if_neg (by omega),
        if_neg (by omega)]
    · rw [hl, LinSpaceClamp_spec 0 1 _ p (by omega) _ (by omega), if_neg (by omega),
        if_pos (by omega), sub_zero, one_div, inv_mul_lt_iff₀ hnp, mul_one]
      have e : U.length + p + 1 - p - 2 = U.length - 1 := by omega
      rw [e, Nat.cast_sub (by omega)]
      push_cast
      linarith
  · subst h
    rw [GetKnots_average]
    dsimp only
    have hl := length_GetAvgKnots (0 : α) 1 (U.length + p + 1) p U
    refine ⟨fun i hi => ?_, ?_, fun i hi1 hi2 => ?_, ?_⟩
    · rw [getElem?_eq_GetTuple1 _ _ (by omega),
        GetAvgKnots_spec 0 1 p U (by omega) i (by omega), if_pos hi]
    · rw [GetAvgKnots_spec 0 1 p U (by omega) (p + 1) (by omega), if_neg (by omega),
        if_pos (by omega)]
      have e : p + 1 - p = 1 := by omega
      rw [e]
      exact avg_window_pos U p 1 0 (by omega) hnn hU1
    · rw [getElem?_eq_GetTuple1 _ _ (by omega),
        GetAvgKnots_spec 0 1 p U (by omega) i (by omega), if_neg (by omega),
        if_neg (by omega)]
    · rw [hl, GetAvgKnots_spec 0 1 p U (by omega) _ (by omega), if_neg (by omega),
        if_pos (by omega)]
      refine avg_window_lt_one U p _ (p - 1) (by omega) hle ?_
      have e : U.length + p + 1 - p - 2 - p + (p - 1) = U.length - 2 := by omega
      rw [e]
      exact hUn2
  · subst h
    rw [GetKnots_derivative]
    dsimp only
    have hl := length_GetEndDerivKnots (0 : α) 1 (U.length + p + 1 + 2) p U
    refine ⟨fun i hi => ?_, ?_, fun i hi1 hi2 => ?_, ?_⟩
    · rw [getElem?_eq_GetTuple1 _ _ (by omega),
        GetEndDerivKnots_spec 0 1 p U (by omega) i (by omega), if_pos hi]
    · rw [GetEndDerivKnots_spec 0 1 p U (by omega) (p + 1) (by omega), if_neg (by omega),
        if_pos (by omega)]
      have e : p + 1 - (p + 1) = 0 := by omega
      rw [e]
      refine avg_window_pos U p 0 1 (by omega) hnn ?_
      simpa using hU1
    · rw [getElem?_eq_GetTuple1 _ _ (by omega),
        GetEndDerivKnots_spec 0 1 p U (by omega) i (by omega), if_neg (by omega),
        if_neg (by omega)]
    · rw [hl, GetEndDerivKnots_spec 0 1 p U (by omega) _ (by omega), if_neg (by omega),
        if_pos (by omega)]
      refine avg_window_lt_one U p _ 0 (by omega) hle ?_
      have e : U.length + p + 1 + 2 - p - 2 - (p + 1) + 0 = U.length - p := by omega
      rw [e]
      exact lt_of_le_of_lt (hmono (U.length - p) (U.length - 2) (by omega) (by omega)) hUn2

/-- Witness of C5 as amended: parameters `[0, 1/3, 2/3, 1]`, degree 2, "derivative". -/
theorem C5_clamping_amended_witness :
    (((("derivative" : String) = "equal" ∨ ("derivative" : String) = "average") ∧ 1 ≤ 2) ∨
      (("derivative" : String) = "derivative" ∧ 2 ≤ 2)) ∧
    2 + 2 ≤ ([0, 1/3, 2/3, 1] : List ℚ).length ∧
    (∀ i, i + 1 < ([0, 1/3, 2/3, 1] : List ℚ).length →
      GetTuple1 ([0, 1/3, 2/3, 1] : List ℚ) i < GetTuple1 ([0, 1/3, 2/3, 1] : List ℚ) (i + 1)) ∧
    GetTuple1 ([0, 1/3, 2/3, 1] : List ℚ) 0 = 0 ∧
    GetTuple1 ([0, 1/3, 2/3, 1] : List ℚ) (([0, 1/3, 2/3, 1] : List ℚ).length - 1) = 1 ∧
    ClampedExactly (GetKnots ([0, 1/3, 2/3, 1] : List ℚ) 2 "derivative" []).2 2 :=
  have hU : ∀ i, i + 1 < ([0, 1/3, 2/3, 1] : List ℚ).length →
      GetTuple1 ([0, 1/3, 2/3, 1] : List ℚ) i < GetTuple1 ([0, 1/3, 2/3, 1] : List ℚ) (i + 1) := by
    intro i hi
    have hi3 : i < 3 := by simp at hi; omega
    interval_cases i <;> decide!
  ⟨Or.inr ⟨rfl, by decide⟩, by decide, hU, by decide!, by decide!,
    C5_clamping_amended ([0, 1/3, 2/3, 1] : List ℚ) 2 "derivative" []
      (Or.inr ⟨rfl, by decide⟩) (by decide) hU (by decide!) (by decide!)⟩

end KnotClaims

/-! ## Parameter-sample claims -/

section SamplerClaims

variable {α : Type} [LinearOrderedField α]

/-- The chord sampler on `(0,0,0), (3,4,0), (3,4,12)` (segment lengths 5 and 12). -/
theorem chord_example :
    GetChordSpacedUs Rat.sqrt ([(0, 0, 0), (3, 4, 0), (3, 4, 12)] : List (ℚ × ℚ × ℚ)) 3
      = [0, 5/17, 1] := by
  decide!

/-- C7 (chord-length parameterization): for `n ≥ 2` points with total polyline length
`d > 0`, `GetChordSpacedUs` yields `U[i] = (sum over k < i of |P[k+1] - P[k]|) / d` for every
`i` in `0..n-1`; in particular the hard-coded last value `1` agrees with the formula. -/
theorem C7_chord_length_parameterization (sqrt : α → α) (xyz : List (α × α × α))
    (hn : 2 ≤ xyz.length)
    (hd : 0 < ∑ k in Finset.range (xyz.length - 1), segLength sqrt xyz k) :
    (GetChordSpacedUs sqrt xyz xyz.length).length = xyz.length ∧
    (∀ i, i < xyz.length →
      (GetChordSpacedUs sqrt xyz xyz.length)[i]?
        = some ((∑ k in Finset.range i, segLength sqrt xyz k) /
            (∑ k in Finset.range (xyz.length - 1), segLength sqrt xyz k))) ∧
    (GetChordSpacedUs sqrt xyz xyz.length)[xyz.length - 1]? = some 1 := by
  obtain ⟨hl, hU⟩ := GetChordSpacedUs_spec sqrt xyz xyz.length hn (ne_of_gt hd)
  refine ⟨hl, fun i hi => ?_, ?_⟩
  · rw [getElem?_eq_GetTuple1 _ _ (by omega), hU i hi]
  · rw [getElem?_eq_GetTuple1 _ _ (by omega), hU _ (by omega), div_self (ne_of_gt hd)]

/-- Witness of C7: the points `(0,0,0), (3,4,0), (3,4,12)` with the rational square root. -/
theorem C7_chord_length_parameterization_witness :
    2 ≤ ([(0, 0, 0), (3, 4, 0), (3, 4, 12)] : List (ℚ × ℚ × ℚ)).length ∧
    0 < ∑ k in Finset.range (([(0, 0, 0), (3, 4, 0), (3, 4, 12)] : List (ℚ × ℚ × ℚ)).length - 1),
      segLength Rat.sqrt ([(0, 0, 0), (3, 4, 0), (3, 4, 12)] : List (ℚ × ℚ × ℚ)) k ∧
    ((GetChordSpacedUs Rat.sqrt ([(0, 0, 0), (3, 4, 0), (3, 4, 12)] : List (ℚ × ℚ × ℚ))
        ([(0, 0, 0), (3, 4, 0), (3, 4, 12)] : List (ℚ × ℚ × ℚ)).length).length
      = ([(0, 0, 0), (3, 4, 0), (3, 4, 12)] : List (ℚ × ℚ × ℚ)).length ∧
    (∀ i, i < ([(0, 0, 0), (3, 4, 0), (3, 4, 12)] : List (ℚ × ℚ × ℚ)).length →
      (GetChordSpacedUs Rat.sqrt ([(0, 0, 0), (3, 4, 0), (3, 4, 12)] : List (ℚ × ℚ × ℚ))
        ([(0, 0, 0), (3, 4, 0), (3, 4, 12)] : List (ℚ × ℚ × ℚ)).length)[i]?
        = some ((∑ k in Finset.range i,
            segLength Rat.sqrt ([(0, 0, 0), (3, 4, 0), (3, 4, 12)] : List (ℚ × ℚ × ℚ)) k) /
          (∑ k in Finset.range
              (([(0, 0, 0), (3, 4, 0), (3, 4, 12)] : List (ℚ × ℚ × ℚ)).length - 1),
            segLength Rat.sqrt ([(0, 0, 0), (3, 4, 0), (3, 4, 12)] : List (ℚ × ℚ × ℚ)) k))) ∧
    (GetChordSpacedUs Rat.sqrt ([(0, 0, 0), (3, 4, 0), (3, 4, 12)] : List (ℚ × ℚ × ℚ))
        ([(0, 0, 0), (3, 4, 0), (3, 4, 12)] : List (ℚ × ℚ × ℚ)).length)[
      ([(0, 0, 0), (3, 4, 0), (3, 4, 12)] : List (ℚ × ℚ × ℚ)).length - 1]? = some 1) :=
  ⟨by decide, by decide!,
    C7_chord_length_parameterization Rat.sqrt
      ([(0, 0, 0), (3, 4, 0), (3, 4, 12)] : List (ℚ × ℚ × ℚ)) (by decide) (by decide!)⟩

end SamplerClaims


/-! ## Basis-function claims -/

section BasisClaims

variable {α : Type} [LinearOrderedField α]

/-- C8 (partition of unity): for every non-decreasing knot vector of length `nCon + p + 1`
and every `u` with `knots[p] ≤ u < knots[nCon]`, each call
`BasisEvaluationVec(knots, p, i, [u], Nus)` for `i = 0..nCon-1` succeeds (whatever `Nus`
holds on entry), and the values it leaves in entry `(0, 0)` of its output sum to exactly
`1`. -/
theorem C8_partition_of_unity (knots : List α) (p nCon : ℕ) (u : α)
    (hlen : knots.length = nCon + p + 1)
    (hmono : ∀ i, i + 1 < knots.length → GetTuple1 knots i ≤ GetTuple1 knots (i + 1))
    (hu : GetTuple1 knots p ≤ u ∧ u < GetTuple1 knots nCon) :
    ∃ vals : ℕ → α,
      (∀ i, i < nCon → ∀ Nus : TypedArray α,
        ∃ out, BasisEvaluationVec knots p i [u] Nus = some out ∧ out.val 0 0 = vals i) ∧
      ∑ i in Finset.range nCon, vals i = 1 := by
  have hU := knots_window_mono knots (nCon + p) (by omega) hmono
  refine ⟨fun i => coxDeBoor (fun i => GetTuple1 knots i) p i u, fun i hi Nus => ?_, ?_⟩
  · obtain ⟨out, h1, h2⟩ := BasisEvaluationVec_spec knots (nCon + p) hU p i [u] Nus (by omega)
    refine ⟨out, h1, ?_⟩
    have := h2 0 (by simp)
    simpa [GetTuple1] using this
  · exact sum_coxDeBoor_all (fun i => GetTuple1 knots i) p nCon hU u hu

/-- The knot vector `[0,0,0,1/2,1,1,1]` is non-decreasing. -/
theorem scenarioA_knots_mono :
    ∀ i, i + 1 < ([0, 0, 0, 1/2, 1, 1, 1] : List ℚ).length →
      GetTuple1 ([0, 0, 0, 1/2, 1, 1, 1] : List ℚ) i ≤
        GetTuple1 ([0, 0, 0, 1/2, 1, 1, 1] : List ℚ) (i + 1) := by
  intro i hi
  have hi6 : i < 6 := by simp at hi; omega
  interval_cases i <;> decide!

/-- The four degree-2 basis functions on `[0,0,0,1/2,1,1,1]` at `u = 1/4`, as left in
entry `(0,0)` by `BasisEvaluationVec`. -/
theorem basis_example :
    (List.range 4).map (fun i =>
      (BasisEvaluationVec ([0, 0, 0, 1/2, 1, 1, 1] : List ℚ) 2 i [1/4]
        ⟨1, 4, fun _ _ => 0⟩).map (fun out => out.val 0 0))
      = [some (1/4), some (5/8), some (1/8), some 0] := by
  decide!

/-- Witness of C8: knots `[0,0,0,1/2,1,1,1]`, degree 2, four control points, `u = 1/4`. -/
theorem C8_partition_of_unity_witness :
    ([0, 0, 0, 1/2, 1, 1, 1] : List ℚ).length = 4 + 2 + 1 ∧
    (∀ i, i + 1 < ([0, 0, 0, 1/2, 1, 1, 1] : List ℚ).length →
      GetTuple1 ([0, 0, 0, 1/2, 1, 1, 1] : List ℚ) i ≤
        GetTuple1 ([0, 0, 0, 1/2, 1, 1, 1] : List ℚ) (i + 1)) ∧
    (GetTuple1 ([0, 0, 0, 1/2, 1, 1, 1] : List ℚ) 2 ≤ 1/4 ∧
      (1/4 : ℚ) < GetTuple1 ([0, 0, 0, 1/2, 1, 1, 1] : List ℚ) 4) ∧
    ∃ vals : ℕ → ℚ,
      (∀ i, i < 4 → ∀ Nus : TypedArray ℚ,
        ∃ out, BasisEvaluationVec ([0, 0, 0, 1/2, 1, 1, 1] : List ℚ) 2 i [1/4] Nus = some out ∧
          out.val 0 0 = vals i) ∧
      ∑ i in Finset.range 4, vals i = 1 :=
  ⟨by decide, scenarioA_knots_mono, by decide!,
    C8_partition_of_unity ([0, 0, 0, 1/2, 1, 1, 1] : List ℚ) 2 4 (1/4) (by decide)
      scenarioA_knots_mono (by decide!)⟩

/-- C10, the code at a failing input: with degree `p = 2`, knots `[0,0,0,1,2,3,3,3]`, span
`k = 3` and `u = 3/2` (so `p ≤ k` and `knots[k] ≤ u < knots[k+1]`), the iteration `i = 2`,
`j = 1` of `BasisEvaluation` reads `uLeft[i+j] = uLeft[3]`, past the end of the buffer of
`p + 1 = 3` doubles; with degree `p = 3`, knots `[0,0,0,0,1,2,3,3,3,3]`, span `k = 4`, the
same read is inside the buffer of 4 doubles but happens before `uLeft[3]` is written. For
degree 1 no such read occurs and the values are the Cox-de Boor ones. -/
theorem C10_BasisEvaluation_reads_unwritten_uLeft :
    (2 ≤ 3 ∧ GetTuple1 ([0, 0, 0, 1, 2, 3, 3, 3] : List ℚ) 3 ≤ 3/2 ∧
      (3/2 : ℚ) < GetTuple1 ([0, 0, 0, 1, 2, 3, 3, 3] : List ℚ) (3 + 1)) ∧
    BasisEvaluation ([0, 0, 0, 1, 2, 3, 3, 3] : List ℚ) 2 3 (3/2)
      = Except.error Fault.outOfBounds ∧
    BasisEvaluation ([0, 0, 0, 0, 1, 2, 3, 3, 3, 3] : List ℚ) 3 4 (3/2)
      = Except.error Fault.uninitialized ∧
    BasisEvaluation ([0, 0, 1, 2, 3, 3] : List ℚ) 1 2 (3/2) = Except.ok [1/2, 1/2, 0] ∧
    [coxDeBoor (fun i => GetTuple1 ([0, 0, 1, 2, 3, 3] : List ℚ) i) 1 1 (3/2),
      coxDeBoor (fun i => GetTuple1 ([0, 0, 1, 2, 3, 3] : List ℚ) i) 1 2 (3/2)] = [1/2, 1/2] := by
  decide!

end BasisClaims

/-! ## `FindSpan` -/

section FindSpanLemmas

variable {α : Type} [LinearOrderedField α]

/-- Total-correctness rule for `whileLoop`: an invariant and a measure that strictly
decreases in every iteration give termination within `fuel` steps, with the invariant and
the negated condition at the exit. -/
theorem whileLoop_inv {σ : Type} (cond : σ → Bool) (body : σ → σ) (Inv : σ → Prop)
    (measure : σ → ℕ)
    (hstep : ∀ s, Inv s → cond s = true → Inv (body s) ∧ measure (body s) < measure s) :
    ∀ (fuel : ℕ) (s : σ), Inv s → measure s < fuel →
      ∃ t, whileLoop cond body fuel s = some t ∧ Inv t ∧ cond t = false := by
  intro fuel
  induction fuel with
  | zero => intro s _ h; exact absurd h (Nat.not_lt_zero _)
  | succ fuel ih =>
    intro s hI hm
    by_cases hc : cond s = true
    · obtain ⟨h1, h2⟩ := hstep s hI hc
      obtain ⟨t, ht, hIt, hct⟩ := ih (body s) h1 (by omega)
      exact ⟨t, by simp [whileLoop, hc, ht], hIt, hct⟩
    · have hc2 : cond s = false := by simpa using hc
      exact ⟨s, by simp [whileLoop, hc2], hI, hc2⟩

/-- The binary search of `FindSpan` leaves its loop with a span containing `u`. -/
theorem FindSpan_interior (knots : List α) (p nCon : ℕ) (u : α) (fuel : ℕ)
    (hlen : knots.length = nCon + p + 1) (hpn : p < nCon) (hfuel : nCon - p < fuel)
    (h1 : GetTuple1 knots p ≤ u) (h2 : u < GetTuple1 knots nCon) :
    ∃ span : ℕ, FindSpan fuel p u knots = some (span : ℤ) ∧ p ≤ span ∧ span < nCon ∧
      GetTuple1 knots span ≤ u ∧ u < GetTuple1 knots (span + 1) := by
  have hn : knots.length - p - 1 = nCon := by omega
  obtain ⟨t, ht, hI, hc⟩ := whileLoop_inv
    (fun (st : ℕ × ℕ × ℕ) =>
      decide (u < GetTuple1 knots st.2.2 ∨ u ≥ GetTuple1 knots (st.2.2 + 1)))
    (fun (st : ℕ × ℕ × ℕ) =>
      ((if u < GetTuple1 knots st.2.2 then (st.1, st.2.2) else (st.2.2, st.2.1) : ℕ × ℕ).1,
        (if u < GetTuple1 knots st.2.2 then (st.1, st.2.2) else (st.2.2, st.2.1) : ℕ × ℕ).2,
        ((if u < GetTuple1 knots st.2.2 then (st.1, st.2.2) else (st.2.2, st.2.1) : ℕ × ℕ).1 +
          (if u < GetTuple1 knots st.2.2 then (st.1, st.2.2)
            else (st.2.2, st.2.1) : ℕ × ℕ).2) / 2))
    (fun st => p ≤ st.1 ∧ st.1 < st.2.1 ∧ st.2.1 ≤ nCon ∧ st.2.2 = (st.1 + st.2.1) / 2 ∧
      GetTuple1 knots st.1 ≤ u ∧ u < GetTuple1 knots st.2.1)
    (fun st => st.2.1 - st.1)
    (by
      rintro ⟨low, high, mid⟩ ⟨a1, a2, a3, a4, a5, a6⟩ hc
      dsimp only at a1 a2 a3 a4 a5 a6 hc ⊢
      have hc2 : u < GetTuple1 knots mid ∨ u ≥ GetTuple1 knots (mid + 1) := by
        simpa using hc
      by_cases hlt : u < GetTuple1 knots mid
      · rw [if_pos hlt]
        have hne : mid ≠ low := by
          intro e
          rw [e] at hlt
          exact absurd a5 (not_le.mpr hlt)
        refine ⟨⟨a1, by omega, by omega, rfl, a5, hlt⟩, by omega⟩
      · rw [if_neg hlt]
        have hge : GetTuple1 knots (mid + 1) ≤ u := by
          rcases hc2 with h | h
          · exact absurd h hlt
          · exact h
        have hne : mid ≠ low := by
          intro e
          have e2 : high = low + 1 := by omega
          rw [e, ← e2] at hge
          exact absurd hge (not_le.mpr a6)
        refine ⟨⟨by omega, by omega, a3, rfl, not_lt.mp hlt, a6⟩, by omega⟩)
    fuel (p, nCon, (p + nCon) / 2) ⟨le_refl _, hpn, le_refl _, rfl, h1, h2⟩ hfuel
  obtain ⟨low, high, mid⟩ := t
  obtain ⟨a1, a2, a3, a4, a5, a6⟩ := hI
  dsimp only at a1 a2 a3 a4 a5 a6 hc
  have hc2 : ¬ (u < GetTuple1 knots mid ∨ u ≥ GetTuple1 knots (mid + 1)) := by
    simpa using hc
  push_neg at hc2
  refine ⟨mid, ?_, by omega, by omega, hc2.1, hc2.2⟩
  unfold FindSpan
  simp only [hn]
  rw [if_neg (ne_of_lt h2)]
  exact congrArg (Option.map (fun st : ℕ × ℕ × ℕ => (st.2.2 : ℤ))) ht

/-- `FindSpan` at the end of the knot domain. -/
theorem FindSpan_last (knots : List α) (p nCon : ℕ) (u : α) (fuel : ℕ)
    (hlen : knots.length = nCon + p + 1) (hu : u = GetTuple1 knots nCon) :
    FindSpan fuel p u knots = some ((nCon : ℤ) - 1) := by
  have hn : knots.length - p - 1 = nCon := by omega
  unfold FindSpan
  simp only [hn]
  rw [if_pos hu]

end FindSpanLemmas


/-! ## `FindSpan` claims -/

section FindSpanClaims

variable {α : Type} [LinearOrderedField α]

/-- C11 (FindSpan postcondition): for every non-decreasing knot vector of length
`nCon + p + 1`, the search loop of `FindSpan` ends within `nCon - p + 1` evaluations of its
condition; for `knots[p] ≤ u < knots[nCon]` the span returned satisfies `p ≤ span < nCon` and
`knots[span] ≤ u < knots[span+1]`, and for `u = knots[nCon]` it is `nCon - 1`. -/
theorem C11_FindSpan_postcondition (knots : List α) (p nCon : ℕ) (u : α) (fuel : ℕ)
    (hlen : knots.length = nCon + p + 1)
    (hmono : ∀ i, i + 1 < knots.length → GetTuple1 knots i ≤ GetTuple1 knots (i + 1))
    (hfuel : nCon - p < fuel) :
    (GetTuple1 knots p ≤ u → u < GetTuple1 knots nCon →
      ∃ span : ℕ, FindSpan fuel p u knots = some (span : ℤ) ∧ p ≤ span ∧ span < nCon ∧
        GetTuple1 knots span ≤ u ∧ u < GetTuple1 knots (span + 1)) ∧
    (u = GetTuple1 knots nCon → FindSpan fuel p u knots = some ((nCon : ℤ) - 1)) := by
  refine ⟨fun h1 h2 => ?_, fun hu => FindSpan_last knots p nCon u fuel hlen hu⟩
  have hU := knots_window_mono knots (nCon + p) (by omega) hmono
  have hpn : p < nCon := by
    by_contra hc
    have := hU nCon p (by omega) (by omega)
    linarith
  exact FindSpan_interior knots p nCon u fuel hlen hpn hfuel h1 h2

/-- `FindSpan` on the knots `[0,0,0,1/2,1,1,1]` with degree 2: the spans of `0`, `1/4`,
`1/2`, `3/4` and `1`. -/
theorem FindSpan_example :
    [FindSpan 3 2 (0 : ℚ) [0, 0, 0, 1/2, 1, 1, 1], FindSpan 3 2 (1/4 : ℚ) [0, 0, 0, 1/2, 1, 1, 1],
      FindSpan 3 2 (1/2 : ℚ) [0, 0, 0, 1/2, 1, 1, 1], FindSpan 3 2 (3/4 : ℚ) [0, 0, 0, 1/2, 1, 1, 1],
      FindSpan 3 2 (1 : ℚ) [0, 0, 0, 1/2, 1, 1, 1]]
      = [some 2, some 2, some 3, some 3, some 3] := by
  decide!

/-- Witness of C11: knots `[0,0,0,1/2,1,1,1]`, degree 2, `u = 1/4`. -/
theorem C11_FindSpan_postcondition_witness :
    ([0, 0, 0, 1/2, 1, 1, 1] : List ℚ).length = 4 + 2 + 1 ∧
    (∀ i, i + 1 < ([0, 0, 0, 1/2, 1, 1, 1] : List ℚ).length →
      GetTuple1 ([0, 0, 0, 1/2, 1, 1, 1] : List ℚ) i ≤
        GetTuple1 ([0, 0, 0, 1/2, 1, 1, 1] : List ℚ) (i + 1)) ∧
    4 - 2 < 3 ∧
    ((GetTuple1 ([0, 0, 0, 1/2, 1, 1, 1] : List ℚ) 2 ≤ 1/4 →
      (1/4 : ℚ) < GetTuple1 ([0, 0, 0, 1/2, 1, 1, 1] : List ℚ) 4 →
      ∃ span : ℕ, FindSpan 3 2 (1/4 : ℚ) [0, 0, 0, 1/2, 1, 1, 1] = some (span : ℤ) ∧
        2 ≤ span ∧ span < 4 ∧
        GetTuple1 ([0, 0, 0, 1/2, 1, 1, 1] : List ℚ) span ≤ 1/4 ∧
        (1/4 : ℚ) < GetTuple1 ([0, 0, 0, 1/2, 1, 1, 1] : List ℚ) (span + 1)) ∧
    ((1/4 : ℚ) = GetTuple1 ([0, 0, 0, 1/2, 1, 1, 1] : List ℚ) 4 →
      FindSpan 3 2 (1/4 : ℚ) [0, 0, 0, 1/2, 1, 1, 1] = some (((4 : ℕ) : ℤ) - 1))) :=
  ⟨by decide, scenarioA_knots_mono, by decide,
    C11_FindSpan_postcondition ([0, 0, 0, 1/2, 1, 1, 1] : List ℚ) 2 4 (1/4) 3 (by decide)
      scenarioA_knots_mono (by decide)⟩

/-- C12 (FindSpan monotonicity): for every non-decreasing knot vector of length
`nCon + p + 1` and `u1 < u2` both in the closed knot domain `[knots[p], knots[nCon]]`,
`FindSpan` returns for both, and the span of `u1` is at most the span of `u2`. -/
theorem C12_FindSpan_monotone (knots : List α) (p nCon : ℕ) (u1 u2 : α) (fuel : ℕ)
    (hlen : knots.length = nCon + p + 1)
    (hmono : ∀ i, i + 1 < knots.length → GetTuple1 knots i ≤ GetTuple1 knots (i + 1))
    (hfuel : nCon - p < fuel)
    (h1 : GetTuple1 knots p ≤ u1) (h12 : u1 < u2) (h2 : u2 ≤ GetTuple1 knots nCon) :
    ∃ s1 s2 : ℤ, FindSpan fuel p u1 knots = some s1 ∧ FindSpan fuel p u2 knots = some s2 ∧
      s1 ≤ s2 := by
  have hU := knots_window_mono knots (nCon + p) (by omega) hmono
  have hpn : p < nCon := by
    by_contra hc
    have := hU nCon p (by omega) (by omega)
    linarith
  obtain ⟨a, ha, ha1, ha2, ha3, ha4⟩ := FindSpan_interior knots p nCon u1 fuel hlen hpn hfuel
    h1 (lt_of_lt_of_le h12 h2)
  rcases eq_or_lt_of_le h2 with he | hl
  · refine ⟨a, (nCon : ℤ) - 1, ha, FindSpan_last knots p nCon u2 fuel hlen he, ?_⟩
    omega
  · obtain ⟨b, hb, hb1, hb2, hb3, hb4⟩ := FindSpan_interior knots p nCon u2 fuel hlen hpn
      hfuel (le_trans h1 (le_of_lt h12)) hl
    refine ⟨a, b, ha, hb, ?_⟩
    by_contra hc
    have hba : b + 1 ≤ a := by omega
    have := hU (b + 1) a hba (by omega)
    linarith

/-- Witness of C12: knots `[0,0,0,1/2,1,1,1]`, degree 2, `u1 = 1/4 < u2 = 1`. -/
theorem C12_FindSpan_monotone_witness :
    ([0, 0, 0, 1/2, 1, 1, 1] : List ℚ).length = 4 + 2 + 1 ∧
    (∀ i, i + 1 < ([0, 0, 0, 1/2, 1, 1, 1] : List ℚ).length →
      GetTuple1 ([0, 0, 0, 1/2, 1, 1, 1] : List ℚ) i ≤
        GetTuple1 ([0, 0, 0, 1/2, 1, 1, 1] : List ℚ) (i + 1)) ∧
    4 - 2 < 3 ∧ GetTuple1 ([0, 0, 0, 1/2, 1, 1, 1] : List ℚ) 2 ≤ 1/4 ∧ (1/4 : ℚ) < 1 ∧
    (1 : ℚ) ≤ GetTuple1 ([0, 0, 0, 1/2, 1, 1, 1] : List ℚ) 4 ∧
    ∃ s1 s2 : ℤ, FindSpan 3 2 (1/4 : ℚ) [0, 0, 0, 1/2, 1, 1, 1] = some s1 ∧
      FindSpan 3 2 (1 : ℚ) [0, 0, 0, 1/2, 1, 1, 1] = some s2 ∧ s1 ≤ s2 :=
  ⟨by decide, scenarioA_knots_mono, by decide, by decide!, by decide!, by decide!,
    C12_FindSpan_monotone ([0, 0, 0, 1/2, 1, 1, 1] : List ℚ) 2 4 (1/4) 1 3 (by decide)
      scenarioA_knots_mono (by decide) (by decide!) (by decide!) (by decide!)⟩

end FindSpanClaims


/-! ## Mesh connectivity -/

section MeshLemmas

/-- A doubly nested loop appending `f i j` to a list: the entry for `(i, j)` ends up at
position `i * m + j`. -/
theorem appendLoop2_spec {β : Type} (n m : ℕ) (f : ℕ → ℕ → β) :
    (forLoop 0 n (fun i acc => forLoop 0 m (fun j acc => acc ++ [f i j]) acc)
      ([] : List β)).length = n * m ∧
    ∀ i j, i < n → j < m →
      (forLoop 0 n (fun i acc => forLoop 0 m (fun j acc => acc ++ [f i j]) acc)
        ([] : List β))[i * m + j]? = some (f i j) := by
  have h := forLoop_inv 0 n
    (fun i (acc : List β) => forLoop 0 m (fun j acc => acc ++ [f i j]) acc) ([] : List β)
    (fun i acc => acc.length = i * m ∧
      ∀ i' j, i' < i → j < m → acc[i' * m + j]? = some (f i' j))
    (Nat.zero_le _) ⟨by simp, fun i' j hi' _ => absurd hi' (Nat.not_lt_zero _)⟩
    (by
      rintro i acc - hi ⟨hl, ha⟩
      have h2 := forLoop_inv 0 m (fun j (acc : List β) => acc ++ [f i j]) acc
        (fun j acc => acc.length = i * m + j ∧
          (∀ i' j', i' < i → j' < m → acc[i' * m + j']? = some (f i' j')) ∧
          ∀ j', j' < j → acc[i * m + j']? = some (f i j'))
        (Nat.zero_le _) ⟨by simpa using hl, ha, fun j' hj' => absurd hj' (Nat.not_lt_zero _)⟩
        (by
          rintro j acc2 - hj ⟨hl2, hb, hc⟩
          have hlt : ∀ i' j', i' < i → j' < m → i' * m + j' < acc2.length := by
            intro i' j' hi' hj'
            have : (i' + 1) * m ≤ i * m := Nat.mul_le_mul_right m (by omega)
            rw [Nat.add_mul] at this
            omega
          refine ⟨by simp [hl2]; omega, fun i' j' hi' hj' => ?_, fun j' hj' => ?_⟩
          · rw [List.getElem?_append_left (hlt i' j' hi' hj')]
            exact hb i' j' hi' hj'
          · by_cases hjj : j' = j
            · subst hjj
              rw [← hl2]
              simp
            · rw [List.getElem?_append_left (by omega)]
              exact hc j' (by omega))
      obtain ⟨l2, b2, c2⟩ := h2
      refine ⟨by rw [l2, Nat.add_mul]; omega, fun i' j hi' hj => ?_⟩
      by_cases hii : i' = i
      · subst hii
        exact c2 j hj
      · exact b2 i' j (by omega) hj)
  exact h

end MeshLemmas

/-! ## Mesh-connectivity claim -/

section MeshClaims

/-- C17 (quad connectivity): for `numX ≥ 1` and `numY ≥ 1`,
`GetStructuredGridConnectivity(numX, numY)` emits exactly `(numX-1)*(numY-1)` cells; the cell
of grid cell `(i, j)` has, in order, the point ids of the corners `(i,j)`, `(i+1,j)`,
`(i+1,j+1)`, `(i,j+1)` under the numbering `id(i,j) = i + j*numX` of `ComputePointId`; every
emitted id is non-negative and below `numX*numY`. -/
theorem C17_quad_connectivity (numX numY : ℕ) (hx : 1 ≤ numX) (hy : 1 ≤ numY)
    (connectivity : List (List ℤ)) :
    (GetStructuredGridConnectivity numX numY connectivity).length
      = (numX - 1) * (numY - 1) ∧
    (∀ i j, i < numX - 1 → j < numY - 1 →
      (GetStructuredGridConnectivity numX numY connectivity)[i * (numY - 1) + j]?
        = some [(ComputePointId (numX, numY, 1) (i, j, 0) : ℤ),
            (ComputePointId (numX, numY, 1) (i + 1, j, 0) : ℤ),
            (ComputePointId (numX, numY, 1) (i + 1, j + 1, 0) : ℤ),
            (ComputePointId (numX, numY, 1) (i, j + 1, 0) : ℤ)]) ∧
    (∀ i j, ComputePointId (numX, numY, 1) (i, j, 0) = i + j * numX) ∧
    (∀ cell, cell ∈ GetStructuredGridConnectivity numX numY connectivity →
      ∀ x, x ∈ cell → 0 ≤ x ∧ x < (numX : ℤ) * (numY : ℤ)) := by
  have ex : ((numX : ℤ) - 1).toNat = numX - 1 := by omega
  have ey : ((numY : ℤ) - 1).toNat = numY - 1 := by omega
  obtain ⟨hl, hc⟩ := appendLoop2_spec (numX - 1) (numY - 1)
    (fun i j => [(i : ℤ) + (j : ℤ) * (numX : ℤ), (i : ℤ) + (j : ℤ) * (numX : ℤ) + 1,
      (i : ℤ) + (j : ℤ) * (numX : ℤ) + (numX : ℤ) + 1,
      (i : ℤ) + (j : ℤ) * (numX : ℤ) + (numX : ℤ)])
  have hdef : GetStructuredGridConnectivity (numX : ℤ) (numY : ℤ) connectivity
      = forLoop 0 (numX - 1) (fun i acc => forLoop 0 (numY - 1) (fun j acc => acc ++
        [[(i : ℤ) + (j : ℤ) * (numX : ℤ), (i : ℤ) + (j : ℤ) * (numX : ℤ) + 1,
          (i : ℤ) + (j : ℤ) * (numX : ℤ) + (numX : ℤ) + 1,
          (i : ℤ) + (j : ℤ) * (numX : ℤ) + (numX : ℤ)]]) acc) ([] : List (List ℤ)) := by
    unfold GetStructuredGridConnectivity
    rw [ex, ey]
  rw [hdef]
  refine ⟨hl, fun i j hi hj => ?_, fun i j => ?_, fun cell hcell x hxc => ?_⟩
  · rw [hc i j hi hj]
    simp only [ComputePointId]
    congr 1
    push_cast
    simp only [List.cons.injEq, and_true]
    refine ⟨by ring, by ring, by ring, by ring⟩
  · simp only [ComputePointId]
    ring
  · obtain ⟨idx, hidx, hget⟩ := List.getElem_of_mem hcell
    rw [hl] at hidx
    have hm : 0 < numY - 1 := by
      by_contra hcon
      have : numY - 1 = 0 := by omega
      rw [this] at hidx
      simp at hidx
    have hj : idx % (numY - 1) < numY - 1 := Nat.mod_lt _ hm
    have hi : idx / (numY - 1) < numX - 1 := by
      rw [Nat.div_lt_iff_lt_mul hm]
      exact hidx
    have hsplit : idx / (numY - 1) * (numY - 1) + idx % (numY - 1) = idx := by
      rw [Nat.mul_comm]
      exact Nat.div_add_mod idx (numY - 1)
    generalize idx / (numY - 1) = a at hi hsplit
    generalize idx % (numY - 1) = b at hj hsplit
    have h2 := hc a b hi hj
    rw [hsplit, List.getElem?_eq_getElem (by rw [hl]; exact hidx), hget] at h2
    have hcell2 := Option.some.inj h2
    rw [hcell2] at hxc
    have hi' : (a : ℤ) + 1 ≤ (numX : ℤ) - 1 := by omega
    have hj' : (b : ℤ) + 1 ≤ (numY : ℤ) - 1 := by omega
    have hi0 : (0 : ℤ) ≤ (a : ℤ) := by omega
    have hj0 : (0 : ℤ) ≤ (b : ℤ) := by omega
    have hX : (1 : ℤ) ≤ (numX : ℤ) := by omega
    have hP : (0 : ℤ) ≤ (b : ℤ) * (numX : ℤ) := mul_nonneg hj0 (by omega)
    have hQ : ((b : ℤ) + 1) * (numX : ℤ) ≤ ((numY : ℤ) - 1) * (numX : ℤ) :=
      mul_le_mul_of_nonneg_right hj' (by omega)
    simp only [List.mem_cons, List.mem_singleton, List.not_mem_nil, or_false] at hxc
    rcases hxc with h | h | h | h <;> subst h <;> constructor <;> linarith

/-- Witness of C17: the 3 x 3 sample grid of Scenario B has four quads. -/
theorem C17_quad_connectivity_witness :
    1 ≤ 3 ∧ 1 ≤ 3 ∧
    ((GetStructuredGridConnectivity ((3 : ℕ) : ℤ) ((3 : ℕ) : ℤ) []).length
      = (3 - 1) * (3 - 1) ∧
    (∀ i j, i < 3 - 1 → j < 3 - 1 →
      (GetStructuredGridConnectivity ((3 : ℕ) : ℤ) ((3 : ℕ) : ℤ) [])[i * (3 - 1) + j]?
        = some [(ComputePointId (3, 3, 1) (i, j, 0) : ℤ),
            (ComputePointId (3, 3, 1) (i + 1, j, 0) : ℤ),
            (ComputePointId (3, 3, 1) (i + 1, j + 1, 0) : ℤ),
            (ComputePointId (3, 3, 1) (i, j + 1, 0) : ℤ)]) ∧
    (∀ i j, ComputePointId (3, 3, 1) (i, j, 0) = i + j * 3) ∧
    (∀ cell, cell ∈ GetStructuredGridConnectivity ((3 : ℕ) : ℤ) ((3 : ℕ) : ℤ) [] →
      ∀ x, x ∈ cell → 0 ≤ x ∧ x < ((3 : ℕ) : ℤ) * ((3 : ℕ) : ℤ))) :=
  ⟨by decide, by decide, C17_quad_connectivity 3 3 (by decide) (by decide) []⟩

/-- The four quads of the 3 x 3 sample grid. -/
theorem connectivity_example :
    GetStructuredGridConnectivity 3 3 []
      = [[0, 1, 4, 3], [3, 4, 7, 6], [1, 2, 5, 4], [4, 5, 8, 7]] := by
  decide

end MeshClaims


/-! ## Loops that write a keyed store -/

section StoreLemmas

theorem forLoopAux_succ {σ : Type} (body : ℕ → σ → σ) :
    ∀ (n i : ℕ) (s : σ), forLoopAux body (n + 1) i s = body (i + n) (forLoopAux body n i s) := by
  intro n
  induction n with
  | zero => intro i s; simp [forLoopAux]
  | succ n ih =>
    intro i s
    have h := ih (i + 1) (body i s)
    have e : i + 1 + n = i + (n + 1) := by omega
    rw [e] at h
    rw [forLoopAux, h, forLoopAux]

theorem forLoop_succ {σ : Type} (lo j : ℕ) (body : ℕ → σ → σ) (s : σ) (h : lo ≤ j) :
    forLoop lo (j + 1) body s = body j (forLoop lo j body s) := by
  unfold forLoop
  have e : j + 1 - lo = (j - lo) + 1 := by omega
  rw [e, forLoopAux_succ]
  have e2 : lo + (j - lo) = j := by omega
  rw [e2]

theorem forLoop_congr {σ : Type} (lo hi : ℕ) (b1 b2 : ℕ → σ → σ) (s : σ)
    (h : ∀ j, lo ≤ j → j < hi → ∀ t, b1 j t = b2 j t) :
    forLoop lo hi b1 s = forLoop lo hi b2 s := by
  rcases Nat.lt_or_ge hi lo with hlt | hge
  · rw [forLoop_empty b1 s (Nat.le_of_lt hlt), forLoop_empty b2 s (Nat.le_of_lt hlt)]
  · refine forLoop_inv lo hi b1 s (fun j t => t = forLoop lo j b2 s) hge ?_ ?_
    · exact (forLoop_empty b2 s (le_refl _)).symm
    · intro j t hj hj2 ht
      rw [forLoop_succ lo j b2 s hj, ← ht]
      exact h j hj hj2 t

theorem forLoop_id {σ : Type} (lo hi : ℕ) (body : ℕ → σ → σ) (s : σ)
    (h : ∀ j, lo ≤ j → j < hi → ∀ t, body j t = t) : forLoop lo hi body s = s := by
  refine forLoop_pres (fun t => t = s) rfl ?_
  intro j t hj hj2 ht
  rw [h j hj hj2 t]; exact ht

theorem forLoop_single {σ : Type} (n i0 : ℕ) (body : ℕ → σ → σ) (s : σ) (hi0 : i0 < n)
    (h : ∀ j, j < n → j ≠ i0 → ∀ t, body j t = t) : forLoop 0 n body s = body i0 s := by
  have key := forLoop_inv 0 n body s
    (fun j t => (j ≤ i0 → t = s) ∧ (i0 < j → t = body i0 s)) (Nat.zero_le _)
    ⟨fun _ => rfl, fun hh => absurd hh (Nat.not_lt_zero _)⟩
    (by
      intro j t _ hj ⟨h1, h2⟩
      refine ⟨fun hle => ?_, fun hlt => ?_⟩
      · rw [h j hj (by omega) t]; exact h1 (by omega)
      · rcases Nat.lt_or_ge i0 j with h3 | h3
        · rw [h j hj (by omega) t]; exact h2 h3
        · have e : j = i0 := by omega
          subst e
          rw [h1 (le_refl _)])
  exact key.2 hi0

/-- A loop whose body changes each key of a store as a function of that key's old value
does the same as a whole. -/
theorem forLoop_read {σ κ β : Type} (read : σ → κ → β) (body : ℕ → σ → σ)
    (F : ℕ → κ → β → β) (n : ℕ)
    (hbody : ∀ i, i < n → ∀ s k, read (body i s) k = F i k (read s k)) (s : σ) (k : κ) :
    read (forLoop 0 n body s) k = forLoop 0 n (fun i v => F i k v) (read s k) := by
  refine forLoop_inv 0 n body s
    (fun j t => read t k = forLoop 0 j (fun i v => F i k v) (read s k)) (Nat.zero_le _) ?_ ?_
  · exact (forLoop_empty _ _ (le_refl _)).symm
  · intro j t _ hj ht
    rw [forLoop_succ 0 j _ _ (Nat.zero_le _), hbody j hj, ht]

/-- Two nested loops that write one key per iteration, at pairwise distinct keys. -/
theorem forLoop2_write {σ κ β : Type} [DecidableEq κ] (read : σ → κ → β) (n m : ℕ)
    (key : ℕ → ℕ → κ) (T : ℕ → ℕ → β → β) (body : ℕ → ℕ → σ → σ)
    (hbody : ∀ i j, i < n → j < m → ∀ s k,
      read (body i j s) k = if k = key i j then T i j (read s k) else read s k)
    (hinj : ∀ i j i2 j2, i < n → j < m → i2 < n → j2 < m → key i j = key i2 j2 →
      i = i2 ∧ j = j2) (s : σ) :
    (∀ i j, i < n → j < m →
      read (forLoop 0 n (fun i s => forLoop 0 m (fun j s => body i j s) s) s) (key i j)
        = T i j (read s (key i j))) ∧
    (∀ k, (∀ i j, i < n → j < m → k ≠ key i j) →
      read (forLoop 0 n (fun i s => forLoop 0 m (fun j s => body i j s) s) s) k = read s k) := by
  have hin : ∀ i, i < n → ∀ s k, read (forLoop 0 m (fun j s => body i j s) s) k
      = forLoop 0 m (fun j v => if k = key i j then T i j v else v) (read s k) := by
    intro i hi s k
    exact forLoop_read read (fun j s => body i j s)
      (fun j k v => if k = key i j then T i j v else v) m (fun j hj s k => hbody i j hi hj s k) s k
  have hout : ∀ k, read (forLoop 0 n (fun i s => forLoop 0 m (fun j s => body i j s) s) s) k
      = forLoop 0 n (fun i v => forLoop 0 m (fun j v => if k = key i j then T i j v else v) v)
          (read s k) := by
    intro k
    exact forLoop_read read (fun i s => forLoop 0 m (fun j s => body i j s) s)
      (fun i k v => forLoop 0 m (fun j v => if k = key i j then T i j v else v) v) n hin s k
  constructor
  · intro i0 j0 hi0 hj0
    rw [hout, forLoop_single n i0 _ _ hi0, forLoop_single m j0 _ _ hj0, if_pos rfl]
    · intro j hj hne t
      rw [if_neg]
      intro he
      exact hne (hinj i0 j0 i0 j hi0 hj0 hi0 hj he).2.symm
    · intro i hi hne t
      apply forLoop_id
      intro j _ hj t
      rw [if_neg]
      intro he
      exact hne (hinj i0 j0 i j hi0 hj0 hi hj he).1.symm
  · intro k hk
    rw [hout]
    apply forLoop_id
    intro i _ hi t
    apply forLoop_id
    intro j _ hj t
    rw [if_neg (hk i j hi hj)]

/-- Three nested loops that write one key per iteration, at pairwise distinct keys. -/
theorem forLoop3_write {σ κ β : Type} [DecidableEq κ] (read : σ → κ → β) (n m q : ℕ)
    (key : ℕ → ℕ → ℕ → κ) (T : ℕ → ℕ → ℕ → β → β) (body : ℕ → ℕ → ℕ → σ → σ)
    (hbody : ∀ i j l, i < n → j < m → l < q → ∀ s k,
      read (body i j l s) k = if k = key i j l then T i j l (read s k) else read s k)
    (hinj : ∀ i j l i2 j2 l2, i < n → j < m → l < q → i2 < n → j2 < m → l2 < q →
      key i j l = key i2 j2 l2 → i = i2 ∧ j = j2 ∧ l = l2) (s : σ) :
    (∀ i j l, i < n → j < m → l < q →
      read (forLoop 0 n (fun i s => forLoop 0 m (fun j s =>
        forLoop 0 q (fun l s => body i j l s) s) s) s) (key i j l)
        = T i j l (read s (key i j l))) ∧
    (∀ k, (∀ i j l, i < n → j < m → l < q → k ≠ key i j l) →
      read (forLoop 0 n (fun i s => forLoop 0 m (fun j s =>
        forLoop 0 q (fun l s => body i j l s) s) s) s) k = read s k) := by
  have h1 : ∀ i j, i < n → j < m → ∀ s k, read (forLoop 0 q (fun l s => body i j l s) s) k
      = forLoop 0 q (fun l v => if k = key i j l then T i j l v else v) (read s k) := by
    intro i j hi hj s k
    exact forLoop_read read (fun l s => body i j l s)
      (fun l k v => if k = key i j l then T i j l v else v) q
      (fun l hl s k => hbody i j l hi hj hl s k) s k
  have h2 : ∀ i, i < n → ∀ s k,
      read (forLoop 0 m (fun j s => forLoop 0 q (fun l s => body i j l s) s) s) k
      = forLoop 0 m (fun j v =>
          forLoop 0 q (fun l v => if k = key i j l then T i j l v else v) v) (read s k) := by
    intro i hi s k
    exact forLoop_read read (fun j s => forLoop 0 q (fun l s => body i j l s) s)
      (fun j k v => forLoop 0 q (fun l v => if k = key i j l then T i j l v else v) v) m
      (fun j hj s k => h1 i j hi hj s k) s k
  have h3 : ∀ k, read (forLoop 0 n (fun i s => forLoop 0 m (fun j s =>
        forLoop 0 q (fun l s => body i j l s) s) s) s) k
      = forLoop 0 n (fun i v => forLoop 0 m (fun j v =>
          forLoop 0 q (fun l v => if k = key i j l then T i j l v else v) v) v) (read s k) := by
    intro k
    exact forLoop_read read
      (fun i s => forLoop 0 m (fun j s => forLoop 0 q (fun l s => body i j l s) s) s)
      (fun i k v => forLoop 0 m (fun j v =>
          forLoop 0 q (fun l v => if k = key i j l then T i j l v else v) v) v) n h2 s k
  constructor
  · intro i0 j0 l0 hi0 hj0 hl0
    rw [h3, forLoop_single n i0 _ _ hi0, forLoop_single m j0 _ _ hj0,
      forLoop_single q l0 _ _ hl0, if_pos rfl]
    · intro l hl hne t
      rw [if_neg]
      intro he
      exact hne (hinj i0 j0 l0 i0 j0 l hi0 hj0 hl0 hi0 hj0 hl he).2.2.symm
    · intro j hj hne t
      apply forLoop_id
      intro l _ hl t
      rw [if_neg]
      intro he
      exact hne (hinj i0 j0 l0 i0 j l hi0 hj0 hl0 hi0 hj hl he).2.1.symm
    · intro i hi hne t
      apply forLoop_id
      intro j _ hj t
      apply forLoop_id
      intro l _ hl t
      rw [if_neg]
      intro he
      exact hne (hinj i0 j0 l0 i j l hi0 hj0 hl0 hi hj hl he).1.symm
  · intro k hk
    rw [h3]
    apply forLoop_id
    intro i _ hi t
    apply forLoop_id
    intro j _ hj t
    apply forLoop_id
    intro l _ hl t
    rw [if_neg (hk i j l hi hj hl)]

/-- A loop that adds one term per iteration to an accumulator. -/
theorem forLoop_sum {β : Type} [AddCommMonoid β] (n : ℕ) (f : ℕ → β) (c : β) :
    forLoop 0 n (fun k acc => acc + f k) c = c + ∑ k in Finset.range n, f k := by
  induction n with
  | zero => simp [forLoop_empty]
  | succ n ih =>
    rw [forLoop_succ 0 n _ _ (Nat.zero_le _), ih, Finset.sum_range_succ, add_assoc]

end StoreLemmas

/-! ## Flattening, `DGEMM` and un-flattening -/

section MatrixLemmas

variable {α : Type} [LinearOrderedField α]

theorem colMajor_inj (nr i j i2 j2 : ℕ) (hj : j < nr) (hj2 : j2 < nr)
    (h : i * nr + j = i2 * nr + j2) : i = i2 ∧ j = j2 := by
  have h1 : (i * nr + j) % nr = j := by
    rw [Nat.mul_add_mod_of_lt hj]
  have h2 : (i2 * nr + j2) % nr = j2 := by
    rw [Nat.mul_add_mod_of_lt hj2]
  have hjj : j = j2 := by rw [← h1, ← h2, h]
  subst hjj
  have hpos : 0 < nr := by omega
  have h3 : i * nr = i2 * nr := by omega
  exact ⟨Nat.eq_of_mul_eq_mul_right hpos h3, rfl⟩

theorem colMajor_inj2 (nr i j i2 j2 : ℕ) (hi : i < nr) (hi2 : i2 < nr)
    (h : i + j * nr = i2 + j2 * nr) : i = i2 ∧ j = j2 := by
  have h3 := colMajor_inj nr j i j2 i2 hi hi2 (by omega)
  exact ⟨h3.2, h3.1⟩

theorem colMajor_lt (nr nc i j : ℕ) (hi : i < nr) (hj : j < nc) : i + j * nr < nr * nc := by
  have h1 : (j + 1) * nr ≤ nc * nr := Nat.mul_le_mul_right nr hj
  have h2 : (j + 1) * nr = j * nr + nr := by ring
  have h3 : nc * nr = nr * nc := Nat.mul_comm _ _
  omega

theorem MatrixToVector_spec (mat : NArray α) (matVec : ℕ → α) (i j : ℕ)
    (hi : i < mat.GetExtent 1) (hj : j < mat.GetExtent 0) :
    MatrixToVector mat matVec (i * mat.GetExtent 0 + j) = mat.GetValue2 j i := by
  have h := forLoop2_write (fun (v : ℕ → α) x => v x) (mat.GetExtent 1) (mat.GetExtent 0)
    (fun i j => i * mat.GetExtent 0 + j) (fun i j _ => mat.GetValue2 j i)
    (fun i j v => bufSet v (i * mat.GetExtent 0 + j) (mat.GetValue2 j i))
    (fun _ _ _ _ _ _ => rfl)
    (fun i j i2 j2 _ hj _ hj2 he => colMajor_inj _ i j i2 j2 hj hj2 he) matVec
  exact h.1 i j hi hj

theorem VectorToMatrix_extents (matVec : ℕ → α) (nr nc : ℕ) (mat : NArray α) :
    (VectorToMatrix matVec nr nc mat).extents = [nr, nc] := by
  unfold VectorToMatrix
  refine forLoop_pres (fun (t : NArray α) => t.extents = [nr, nc]) rfl ?_
  intro i t _ _ ht
  refine forLoop_pres (fun (t : NArray α) => t.extents = [nr, nc]) ht ?_
  intro j t _ _ ht
  exact ht

theorem VectorToMatrix_spec (matVec : ℕ → α) (nr nc : ℕ) (mat : NArray α) (i j : ℕ)
    (hi : i < nc) (hj : j < nr) :
    (VectorToMatrix matVec nr nc mat).GetValue2 j i = matVec (i * nr + j) := by
  have h := forLoop2_write (fun (m : NArray α) (k : ℕ × ℕ × ℕ) => m.val k.1 k.2.1 k.2.2) nc nr
    (fun i j => (j, i, 0)) (fun i j _ => matVec (i * nr + j))
    (fun i j m => m.SetValue2 j i (matVec (i * nr + j)))
    (by
      intro i j _ _ s k
      obtain ⟨a, b, c⟩ := k
      simp [NArray.SetValue2, NArray.SetValue3, Prod.mk.injEq])
    (by
      intro i j i2 j2 _ _ _ _ he
      simp only [Prod.mk.injEq] at he
      exact ⟨he.2.1, he.1⟩) (NArray.Resize [nr, nc])
  exact h.1 i j hi hj

theorem PointMatrixToVectors_spec (mat : NArray α) (matVecs : ℕ → ℕ → α)
    (hnp : mat.GetExtent 2 = 3) (i j k : ℕ)
    (hi : i < mat.GetExtent 1) (hj : j < mat.GetExtent 0) (hk : k < 3) :
    (PointMatrixToVectors mat matVecs).2 k (i * mat.GetExtent 0 + j) = mat.GetValue3 j i k := by
  unfold PointMatrixToVectors
  simp only [hnp, ne_eq, not_true_eq_false, if_false]
  have h := forLoop3_write (fun (v : ℕ → ℕ → α) (x : ℕ × ℕ) => v x.1 x.2)
    (mat.GetExtent 1) (mat.GetExtent 0) 3
    (fun i j k => (k, i * mat.GetExtent 0 + j)) (fun i j k _ => mat.GetValue3 j i k)
    (fun i j k v => bufSet2 v k (i * mat.GetExtent 0 + j) (mat.GetValue3 j i k))
    (by
      intro i j k _ _ _ s x
      obtain ⟨a, b⟩ := x
      simp [bufSet2, Prod.mk.injEq])
    (by
      intro i j l i2 j2 l2 _ hj _ _ hj2 _ he
      simp only [Prod.mk.injEq] at he
      have h2 := colMajor_inj _ i j i2 j2 hj hj2 he.2
      exact ⟨h2.1, h2.2, he.1⟩) matVecs
  exact h.1 i j k hi hj hk

theorem VectorsToPointMatrix_extents (matVecs : ℕ → ℕ → α) (nr nc : ℕ) (mat : NArray α) :
    (VectorsToPointMatrix matVecs nr nc mat).extents = mat.extents := by
  unfold VectorsToPointMatrix
  refine forLoop_pres (fun (t : NArray α) => t.extents = mat.extents) rfl ?_
  intro i t _ _ ht
  refine forLoop_pres (fun (t : NArray α) => t.extents = mat.extents) ht ?_
  intro j t _ _ ht
  refine forLoop_pres (fun (t : NArray α) => t.extents = mat.extents) ht ?_
  intro k t _ _ ht
  exact ht

theorem VectorsToPointMatrix_spec (matVecs : ℕ → ℕ → α) (nr nc : ℕ) (mat : NArray α)
    (i j k : ℕ) (hi : i < nc) (hj : j < nr) (hk : k < 3) :
    (VectorsToPointMatrix matVecs nr nc mat).GetValue3 j i k = matVecs k (i * nr + j) := by
  have h := forLoop3_write (fun (m : NArray α) (k : ℕ × ℕ × ℕ) => m.val k.1 k.2.1 k.2.2) nc nr 3
    (fun i j k => (j, i, k)) (fun i j k _ => matVecs k (i * nr + j))
    (fun i j k m => m.SetValue3 j i k (matVecs k (i * nr + j)))
    (by
      intro i j l _ _ _ s k
      obtain ⟨a, b, c⟩ := k
      simp [NArray.SetValue3, Prod.mk.injEq])
    (by
      intro i j l i2 j2 l2 _ _ _ _ _ _ he
      simp only [Prod.mk.injEq] at he
      exact ⟨he.2.1, he.1, he.2.2⟩) mat
  exact h.1 i j k hi hj hk

/-- The zeroing loop of `DGEMM` clears every entry below `nrA * ncB`. -/
theorem DGEMM_zero_loop (nrA ncB : ℕ) (C : ℕ → α) (x : ℕ) (hx : x < nrA * ncB) :
    forLoop 0 ncB (fun i C =>
      forLoop 0 nrA (fun j C => bufSet C (i + ncB * j) 0) C) C x = 0 := by
  have hpos : 0 < ncB := by
    rcases Nat.eq_zero_or_pos ncB with h | h
    · subst h; simp at hx
    · exact h
  have h := forLoop2_write (fun (v : ℕ → α) x => v x) ncB nrA
    (fun i j => i + ncB * j) (fun _ _ _ => (0 : α))
    (fun i j v => bufSet v (i + ncB * j) 0)
    (fun _ _ _ _ _ _ => rfl)
    (by
      intro i j i2 j2 hi _ hi2 _ he
      exact colMajor_inj2 ncB i j i2 j2 hi hi2 (by rw [Nat.mul_comm j, Nat.mul_comm j2]; exact he)) C
  have h1 := h.1 (x % ncB) (x / ncB) (Nat.mod_lt _ hpos)
    (by rw [Nat.div_lt_iff_lt_mul hpos]; exact hx)
  have e : x % ncB + ncB * (x / ncB) = x := Nat.mod_add_div x ncB
  simp only [e] at h1
  exact h1

theorem DGEMM_status (A : ℕ → α) (nrA ncA : ℕ) (B : ℕ → α) (nrB ncB : ℕ) (C : ℕ → α)
    (h : ncA = nrB) : (DGEMM A nrA ncA B nrB ncB C).1 = 1 := by
  unfold DGEMM
  simp [h]

theorem DGEMM_spec (A : ℕ → α) (nrA ncA : ℕ) (B : ℕ → α) (nrB ncB : ℕ) (C : ℕ → α)
    (h : ncA = nrB) (i j : ℕ) (hi : i < nrA) (hj : j < ncB) :
    (DGEMM A nrA ncA B nrB ncB C).2 (i + j * nrA)
      = ∑ k in Finset.range ncA, A (i + k * nrA) * B (k + j * nrB) := by
  unfold DGEMM
  simp only [h, ne_eq, not_true_eq_false, if_false]
  have hw := forLoop2_write (fun (v : ℕ → α) x => v x) nrA ncB
    (fun i j => i + j * nrA)
    (fun i j c => forLoop 0 nrB (fun k cij => cij + A (i + k * nrA) * B (k + j * nrB)) c)
    (fun i j C => bufSet C (i + j * nrA)
      (forLoop 0 nrB (fun k cij => cij + A (i + k * nrA) * B (k + j * nrB)) (C (i + j * nrA))))
    (by
      intro i j _ _ s k
      by_cases hk : k = i + j * nrA
      · subst hk; simp [bufSet]
      · simp [bufSet, hk])
    (by
      intro i j i2 j2 hi _ hi2 _ he
      exact colMajor_inj2 nrA i j i2 j2 hi hi2 he)
    (forLoop 0 ncB (fun i C => forLoop 0 nrA (fun j C => bufSet C (i + ncB * j) 0) C) C)
  have h1 := hw.1 i j hi hj
  rw [h1, DGEMM_zero_loop nrA ncB C _ (colMajor_lt nrA ncB i j hi hj), forLoop_sum, zero_add]

theorem dgemmComponents_spec (A : ℕ → ℕ → α) (nrA ncA : ℕ) (B : ℕ → ℕ → α) (nrB ncB : ℕ)
    (outVecs : ℕ → ℕ → α) (h : ncA = nrB) :
    (dgemmComponents A nrA ncA B nrB ncB outVecs).1 = 1 ∧
    ∀ c i j, c < 3 → i < nrA → j < ncB →
      (dgemmComponents A nrA ncA B nrB ncB outVecs).2 c (i + j * nrA)
        = ∑ k in Finset.range ncA, A c (i + k * nrA) * B c (k + j * nrB) := by
  unfold dgemmComponents
  have key := forLoop_inv 0 3
    (fun i (st : ℤ × (ℕ → ℕ → α)) =>
      if st.1 ≠ 1 then st
      else
        let r := DGEMM (A i) nrA ncA (B i) nrB ncB (st.2 i)
        if r.1 ≠ 1 then (0, st.2)
        else (1, fun c x => if c = i then r.2 x else st.2 c x)) (1, outVecs)
    (fun n st => st.1 = 1 ∧ ∀ c i j, c < n → i < nrA → j < ncB →
      st.2 c (i + j * nrA) = ∑ k in Finset.range ncA, A c (i + k * nrA) * B c (k + j * nrB))
    (by omega) ⟨rfl, fun c i j hc => absurd hc (Nat.not_lt_zero _)⟩
    (by
      intro n st _ _ ⟨h1, h2⟩
      have hs : (DGEMM (A n) nrA ncA (B n) nrB ncB (st.2 n)).1 = 1 := DGEMM_status _ _ _ _ _ _ _ h
      dsimp only
      rw [if_neg (by simp [h1]), if_neg (by simp [hs])]
      refine ⟨rfl, ?_⟩
      intro c i j hc hi hj
      dsimp only
      by_cases hcn : c = n
      · subst hcn
        rw [if_pos rfl]
        exact DGEMM_spec _ _ _ _ _ _ _ h i j hi hj
      · rw [if_neg hcn]
        exact h2 c i j (by omega) hi hj)
  exact ⟨key.1, fun c i j hc hi hj => key.2 c i j hc hi hj⟩

end MatrixLemmas

/-! ## The four matrix products -/

section ProductLemmas

variable {α : Type} [LinearOrderedField α]

theorem MatrixMatrixForDGEMM_spec (mat0 mat1 output : NArray α)
    (h : mat0.GetExtent 1 = mat1.GetExtent 0) :
    (MatrixMatrixForDGEMM mat0 mat1 output).1 = 1 ∧
    (MatrixMatrixForDGEMM mat0 mat1 output).2.extents = [mat0.GetExtent 0, mat1.GetExtent 1] ∧
    ∀ i j, i < mat0.GetExtent 0 → j < mat1.GetExtent 1 →
      (MatrixMatrixForDGEMM mat0 mat1 output).2.GetValue2 i j
        = ∑ l in Finset.range (mat0.GetExtent 1), mat0.GetValue2 i l * mat1.GetValue2 l j := by
  unfold MatrixMatrixForDGEMM
  have hs := DGEMM_status (MatrixToVector mat0 newBuf) (mat0.GetExtent 0) (mat0.GetExtent 1)
    (MatrixToVector mat1 newBuf) (mat1.GetExtent 0) (mat1.GetExtent 1) newBuf h
  dsimp only
  rw [if_neg (by simp [h]), if_neg (by simp [hs])]
  refine ⟨rfl, VectorToMatrix_extents _ _ _ output, ?_⟩
  intro i j hi hj
  dsimp only
  rw [VectorToMatrix_spec _ _ _ _ j i hj hi, Nat.add_comm, DGEMM_spec _ _ _ _ _ _ _ h i j hi hj]
  refine Finset.sum_congr rfl ?_
  intro l hl
  have hl2 : l < mat0.GetExtent 1 := Finset.mem_range.mp hl
  have e1 : i + l * mat0.GetExtent 0 = l * mat0.GetExtent 0 + i := Nat.add_comm _ _
  have e2 : l + j * mat1.GetExtent 0 = j * mat1.GetExtent 0 + l := Nat.add_comm _ _
  rw [e1, e2, MatrixToVector_spec mat0 _ l i hl2 hi,
    MatrixToVector_spec mat1 _ j l hj (by rw [← h]; exact hl2)]

theorem PointMatrixPointMatrixForDGEMM_spec (mat0 mat1 output : NArray α)
    (h : mat0.GetExtent 1 = mat1.GetExtent 0) (h0 : mat0.GetExtent 2 = 3)
    (h1 : mat1.GetExtent 2 = 3) :
    (PointMatrixPointMatrixForDGEMM mat0 mat1 output).1 = 1 ∧
    (PointMatrixPointMatrixForDGEMM mat0 mat1 output).2.extents = output.extents ∧
    ∀ i j k, i < mat0.GetExtent 0 → j < mat1.GetExtent 1 → k < 3 →
      (PointMatrixPointMatrixForDGEMM mat0 mat1 output).2.GetValue3 i j k
        = ∑ l in Finset.range (mat0.GetExtent 1),
            mat0.GetValue3 i l k * mat1.GetValue3 l j k := by
  unfold PointMatrixPointMatrixForDGEMM
  have hc := dgemmComponents_spec (PointMatrixToVectors mat0 (fun _ => newBuf)).2
    (mat0.GetExtent 0) (mat0.GetExtent 1) (PointMatrixToVectors mat1 (fun _ => newBuf)).2
    (mat1.GetExtent 0) (mat1.GetExtent 1) (fun _ => newBuf) h
  dsimp only
  rw [if_neg (by simp [h0]), if_neg (by simp [h]), if_neg (by simp [hc.1])]
  refine ⟨rfl, VectorsToPointMatrix_extents _ _ _ output, ?_⟩
  intro i j k hi hj hk
  dsimp only
  rw [VectorsToPointMatrix_spec _ _ _ _ j i k hj hi hk, Nat.add_comm, hc.2 k i j hk hi hj]
  refine Finset.sum_congr rfl ?_
  intro l hl
  have hl2 : l < mat0.GetExtent 1 := Finset.mem_range.mp hl
  have e1 : i + l * mat0.GetExtent 0 = l * mat0.GetExtent 0 + i := Nat.add_comm _ _
  have e2 : l + j * mat1.GetExtent 0 = j * mat1.GetExtent 0 + l := Nat.add_comm _ _
  rw [e1, e2, PointMatrixToVectors_spec mat0 _ h0 l i k hl2 hi hk,
    PointMatrixToVectors_spec mat1 _ h1 j l k hj (by rw [← h]; exact hl2) hk]

theorem PointMatrixMatrixForDGEMM_spec (mat0 mat1 output : NArray α)
    (h : mat0.GetExtent 1 = mat1.GetExtent 0) (h0 : mat0.GetExtent 2 = 3) :
    (PointMatrixMatrixForDGEMM mat0 mat1 output).1 = 1 ∧
    (PointMatrixMatrixForDGEMM mat0 mat1 output).2.extents = output.extents ∧
    ∀ i j k, i < mat0.GetExtent 0 → j < mat1.GetExtent 1 → k < 3 →
      (PointMatrixMatrixForDGEMM mat0 mat1 output).2.GetValue3 i j k
        = ∑ l in Finset.range (mat0.GetExtent 1),
            mat0.GetValue3 i l k * mat1.GetValue2 l j := by
  unfold PointMatrixMatrixForDGEMM
  have hc := dgemmComponents_spec (PointMatrixToVectors mat0 (fun _ => newBuf)).2
    (mat0.GetExtent 0) (mat0.GetExtent 1) (fun _ => MatrixToVector mat1 newBuf)
    (mat1.GetExtent 0) (mat1.GetExtent 1) (fun _ => newBuf) h
  dsimp only
  rw [if_neg (by simp [h0]), if_neg (by simp [h]), if_neg (by simp [hc.1])]
  refine ⟨rfl, VectorsToPointMatrix_extents _ _ _ output, ?_⟩
  intro i j k hi hj hk
  dsimp only
  rw [VectorsToPointMatrix_spec _ _ _ _ j i k hj hi hk, Nat.add_comm, hc.2 k i j hk hi hj]
  refine Finset.sum_congr rfl ?_
  intro l hl
  have hl2 : l < mat0.GetExtent 1 := Finset.mem_range.mp hl
  beta_reduce
  have e1 : i + l * mat0.GetExtent 0 = l * mat0.GetExtent 0 + i := Nat.add_comm _ _
  have e2 : l + j * mat1.GetExtent 0 = j * mat1.GetExtent 0 + l := Nat.add_comm _ _
  rw [e1, e2, PointMatrixToVectors_spec mat0 _ h0 l i k hl2 hi hk,
    MatrixToVector_spec mat1 _ j l hj (by rw [← h]; exact hl2)]

theorem MatrixPointMatrixForDGEMM_spec (mat0 mat1 output : NArray α)
    (h : mat0.GetExtent 1 = mat1.GetExtent 0) (h1 : mat1.GetExtent 2 = 3) :
    (MatrixPointMatrixForDGEMM mat0 mat1 output).1 = 1 ∧
    (MatrixPointMatrixForDGEMM mat0 mat1 output).2.extents = output.extents ∧
    ∀ i j k, i < mat0.GetExtent 0 → j < mat1.GetExtent 1 → k < 3 →
      (MatrixPointMatrixForDGEMM mat0 mat1 output).2.GetValue3 i j k
        = ∑ l in Finset.range (mat0.GetExtent 1),
            mat0.GetValue2 i l * mat1.GetValue3 l j k := by
  unfold MatrixPointMatrixForDGEMM
  have hc := dgemmComponents_spec (fun _ => MatrixToVector mat0 newBuf)
    (mat0.GetExtent 0) (mat0.GetExtent 1) (PointMatrixToVectors mat1 (fun _ => newBuf)).2
    (mat1.GetExtent 0) (mat1.GetExtent 1) (fun _ => newBuf) h
  dsimp only
  rw [if_neg (by simp [h1]), if_neg (by simp [h]), if_neg (by simp [hc.1])]
  refine ⟨rfl, VectorsToPointMatrix_extents _ _ _ output, ?_⟩
  intro i j k hi hj hk
  dsimp only
  rw [VectorsToPointMatrix_spec _ _ _ _ j i k hj hi hk, Nat.add_comm, hc.2 k i j hk hi hj]
  refine Finset.sum_congr rfl ?_
  intro l hl
  have hl2 : l < mat0.GetExtent 1 := Finset.mem_range.mp hl
  beta_reduce
  have e1 : i + l * mat0.GetExtent 0 = l * mat0.GetExtent 0 + i := Nat.add_comm _ _
  have e2 : l + j * mat1.GetExtent 0 = j * mat1.GetExtent 0 + l := Nat.add_comm _ _
  rw [e1, e2, MatrixToVector_spec mat0 _ l i hl2 hi,
    PointMatrixToVectors_spec mat1 _ h1 j l k hj (by rw [← h]; exact hl2) hk]

theorem GetExtent_Resize (ext : List ℕ) (d : ℕ) :
    (NArray.Resize ext : NArray α).GetExtent d = ext.getD d 0 := rfl

/-- Scalar times scalar. -/
theorem MatrixMatrixMultiply_scalar (A B out : NArray α)
    (h : A.GetExtent 1 = B.GetExtent 0) :
    (MatrixMatrixMultiply A 0 B 0 out).1 = 1 ∧
    (MatrixMatrixMultiply A 0 B 0 out).2.extents = [A.GetExtent 0, B.GetExtent 1] ∧
    ∀ i j, i < A.GetExtent 0 → j < B.GetExtent 1 →
      (MatrixMatrixMultiply A 0 B 0 out).2.GetValue2 i j
        = ∑ l in Finset.range (A.GetExtent 1), A.GetValue2 i l * B.GetValue2 l j := by
  have hm := MatrixMatrixForDGEMM_spec A B (NArray.Resize [A.GetExtent 0, B.GetExtent 1]) h
  have e : MatrixMatrixMultiply A 0 B 0 out
      = (1, (MatrixMatrixForDGEMM A B (NArray.Resize [A.GetExtent 0, B.GetExtent 1])).2) := by
    unfold MatrixMatrixMultiply
    simp [h]
  rw [e]
  exact ⟨rfl, hm.2.1, hm.2.2⟩

/-- Scalar times point-valued. -/
theorem MatrixMatrixMultiply_pointRight (A B out : NArray α) (fB : ℤ) (hB : fB ≠ 0)
    (h : A.GetExtent 1 = B.GetExtent 0) (h1 : B.GetExtent 2 = 3) :
    (MatrixMatrixMultiply A 0 B fB out).1 = 1 ∧
    (MatrixMatrixMultiply A 0 B fB out).2.extents = [A.GetExtent 0, B.GetExtent 1, 3] ∧
    ∀ i j k, i < A.GetExtent 0 → j < B.GetExtent 1 → k < 3 →
      (MatrixMatrixMultiply A 0 B fB out).2.GetValue3 i j k
        = ∑ l in Finset.range (A.GetExtent 1), A.GetValue2 i l * B.GetValue3 l j k := by
  have hm := MatrixPointMatrixForDGEMM_spec A B
    (NArray.Resize [A.GetExtent 0, B.GetExtent 1, 3]) h h1
  have e : MatrixMatrixMultiply A 0 B fB out
      = (1, (MatrixPointMatrixForDGEMM A B
          (NArray.Resize [A.GetExtent 0, B.GetExtent 1, 3])).2) := by
    unfold MatrixMatrixMultiply
    simp [h, h1, hB]
  rw [e]
  exact ⟨rfl, hm.2.1, hm.2.2⟩

/-- Point-valued times scalar. -/
theorem MatrixMatrixMultiply_pointLeft (A B out : NArray α) (fA : ℤ) (hA : fA ≠ 0)
    (h : A.GetExtent 1 = B.GetExtent 0) (h0 : A.GetExtent 2 = 3) :
    (MatrixMatrixMultiply A fA B 0 out).1 = 1 ∧
    (MatrixMatrixMultiply A fA B 0 out).2.extents = [A.GetExtent 0, B.GetExtent 1, 3] ∧
    ∀ i j k, i < A.GetExtent 0 → j < B.GetExtent 1 → k < 3 →
      (MatrixMatrixMultiply A fA B 0 out).2.GetValue3 i j k
        = ∑ l in Finset.range (A.GetExtent 1), A.GetValue3 i l k * B.GetValue2 l j := by
  have hm := PointMatrixMatrixForDGEMM_spec A B
    (NArray.Resize [A.GetExtent 0, B.GetExtent 1, 3]) h h0
  have e : MatrixMatrixMultiply A fA B 0 out
      = (1, (PointMatrixMatrixForDGEMM A B
          (NArray.Resize [A.GetExtent 0, B.GetExtent 1, 3])).2) := by
    unfold MatrixMatrixMultiply
    simp [h, h0, hA]
  rw [e]
  exact ⟨rfl, hm.2.1, hm.2.2⟩

/-- Point-valued times point-valued. -/
theorem MatrixMatrixMultiply_pointBoth (A B out : NArray α) (fA fB : ℤ) (hA : fA ≠ 0)
    (hB : fB ≠ 0) (h : A.GetExtent 1 = B.GetExtent 0) (h0 : A.GetExtent 2 = 3)
    (h1 : B.GetExtent 2 = 3) :
    (MatrixMatrixMultiply A fA B fB out).1 = 1 ∧
    (MatrixMatrixMultiply A fA B fB out).2.extents = [A.GetExtent 0, B.GetExtent 1, 3] ∧
    ∀ i j k, i < A.GetExtent 0 → j < B.GetExtent 1 → k < 3 →
      (MatrixMatrixMultiply A fA B fB out).2.GetValue3 i j k
        = ∑ l in Finset.range (A.GetExtent 1), A.GetValue3 i l k * B.GetValue3 l j k := by
  have hm := PointMatrixPointMatrixForDGEMM_spec A B
    (NArray.Resize [A.GetExtent 0, B.GetExtent 1, 3]) h h0 h1
  have e : MatrixMatrixMultiply A fA B fB out
      = (1, (PointMatrixPointMatrixForDGEMM A B
          (NArray.Resize [A.GetExtent 0, B.GetExtent 1, 3])).2) := by
    unfold MatrixMatrixMultiply
    simp [h, h0, h1, hA, hB]
  rw [e]
  exact ⟨rfl, hm.2.1, hm.2.2⟩

end ProductLemmas

/-! ## Claims on the matrix products and on shape validation -/

section MatrixClaims

variable {α : Type} [LinearOrderedField α]

/-- C18 (matrix multiply, four operand combinations): for conformable `A` (`r x m`) and `B`
(`m x c`), a point-valued operand having third extent 3, `MatrixMatrixMultiply` returns 1;
the result has extents `r x c` (scalar times scalar) or `r x c x 3` (otherwise), and its
entries are `sum_l A(i,l)*B(l,j)`, `sum_l A(i,l)*B(l,j,k)`, `sum_l A(i,l,k)*B(l,j)` and
`sum_l A(i,l,k)*B(l,j,k)` for the four combinations of flags. -/
theorem C18_matrix_multiply (A B out : NArray α) (fA fB : ℤ)
    (hconf : A.GetExtent 1 = B.GetExtent 0)
    (hA : fA ≠ 0 → A.GetExtent 2 = 3) (hB : fB ≠ 0 → B.GetExtent 2 = 3) :
    (MatrixMatrixMultiply A fA B fB out).1 = 1 ∧
    (fA = 0 → fB = 0 →
      (MatrixMatrixMultiply A fA B fB out).2.extents = [A.GetExtent 0, B.GetExtent 1] ∧
      ∀ i j, i < A.GetExtent 0 → j < B.GetExtent 1 →
        (MatrixMatrixMultiply A fA B fB out).2.GetValue2 i j
          = ∑ l in Finset.range (A.GetExtent 1), A.GetValue2 i l * B.GetValue2 l j) ∧
    (fA = 0 → fB ≠ 0 →
      (MatrixMatrixMultiply A fA B fB out).2.extents = [A.GetExtent 0, B.GetExtent 1, 3] ∧
      ∀ i j k, i < A.GetExtent 0 → j < B.GetExtent 1 → k < 3 →
        (MatrixMatrixMultiply A fA B fB out).2.GetValue3 i j k
          = ∑ l in Finset.range (A.GetExtent 1), A.GetValue2 i l * B.GetValue3 l j k) ∧
    (fA ≠ 0 → fB = 0 →
      (MatrixMatrixMultiply A fA B fB out).2.extents = [A.GetExtent 0, B.GetExtent 1, 3] ∧
      ∀ i j k, i < A.GetExtent 0 → j < B.GetExtent 1 → k < 3 →
        (MatrixMatrixMultiply A fA B fB out).2.GetValue3 i j k
          = ∑ l in Finset.range (A.GetExtent 1), A.GetValue3 i l k * B.GetValue2 l j) ∧
    (fA ≠ 0 → fB ≠ 0 →
      (MatrixMatrixMultiply A fA B fB out).2.extents = [A.GetExtent 0, B.GetExtent 1, 3] ∧
      ∀ i j k, i < A.GetExtent 0 → j < B.GetExtent 1 → k < 3 →
        (MatrixMatrixMultiply A fA B fB out).2.GetValue3 i j k
          = ∑ l in Finset.range (A.GetExtent 1), A.GetValue3 i l k * B.GetValue3 l j k) := by
  refine ⟨?_, ?_, ?_, ?_, ?_⟩
  · by_cases h0 : fA = 0 <;> by_cases h1 : fB = 0
    · subst h0; subst h1
      exact (MatrixMatrixMultiply_scalar A B out hconf).1
    · subst h0
      exact (MatrixMatrixMultiply_pointRight A B out fB h1 hconf (hB h1)).1
    · subst h1
      exact (MatrixMatrixMultiply_pointLeft A B out fA h0 hconf (hA h0)).1
    · exact (MatrixMatrixMultiply_pointBoth A B out fA fB h0 h1 hconf (hA h0) (hB h1)).1
  · intro h0 h1
    subst h0; subst h1
    exact (MatrixMatrixMultiply_scalar A B out hconf).2
  · intro h0 h1
    subst h0
    exact (MatrixMatrixMultiply_pointRight A B out fB h1 hconf (hB h1)).2
  · intro h0 h1
    subst h1
    exact (MatrixMatrixMultiply_pointLeft A B out fA h0 hconf (hA h0)).2
  · intro h0 h1
    exact (MatrixMatrixMultiply_pointBoth A B out fA fB h0 h1 hconf (hA h0) (hB h1)).2

/-- Witness of C18: a scalar 2 x 2 matrix times a point-valued 2 x 1 matrix. -/
theorem C18_matrix_multiply_witness :
    (({ extents := [2, 2], val := fun i j _ => (i : ℚ) + 2 * j } : NArray ℚ).GetExtent 1
      = ({ extents := [2, 1, 3], val := fun i _ k => (i : ℚ) + k } : NArray ℚ).GetExtent 0) ∧
    (MatrixMatrixMultiply
        ({ extents := [2, 2], val := fun i j _ => (i : ℚ) + 2 * j } : NArray ℚ) 0
        ({ extents := [2, 1, 3], val := fun i _ k => (i : ℚ) + k } : NArray ℚ) 1
        (NArray.Resize [])).1 = 1 :=
  ⟨by decide,
    (C18_matrix_multiply
      ({ extents := [2, 2], val := fun i j _ => (i : ℚ) + 2 * j } : NArray ℚ)
      ({ extents := [2, 1, 3], val := fun i _ k => (i : ℚ) + k } : NArray ℚ)
      (NArray.Resize []) 0 1 (by decide) (fun h => absurd rfl h) (fun _ => by decide)).1⟩

/-- The product of a scalar 2 x 2 matrix and a point-valued 2 x 1 matrix, entry by entry. -/
theorem matrix_multiply_example :
    (List.range 2).map (fun i => (List.range 3).map (fun k =>
      (MatrixMatrixMultiply
        ({ extents := [2, 2], val := fun i j _ => (i : ℚ) + 2 * j } : NArray ℚ) 0
        ({ extents := [2, 1, 3], val := fun i _ k => (i : ℚ) + k } : NArray ℚ) 1
        (NArray.Resize [])).2.GetValue3 i 0 k))
      = [[2, 4, 6], [3, 7, 11]] := by
  decide!

/-- C19 (shape validation): `InvertSystem` returns 0 on a matrix whose row and column counts
differ, `MatrixMatrixMultiply` and `MatrixVecMultiply` return 0 when the column count of the
left operand differs from the row count of the right operand, and in each case the output
array is the one passed in, unchanged. -/
theorem C19_shape_validation (InvertMatrix : (ℕ → ℕ → α) → ℕ → Option (ℕ → ℕ → α))
    (NP NPinv mat0 mat1 output mat vec out : NArray α) (f0 f1 fM fV : ℤ) :
    (NP.GetExtent 0 ≠ NP.GetExtent 1 → InvertSystem InvertMatrix NP NPinv = (0, NPinv)) ∧
    (mat0.GetExtent 1 ≠ mat1.GetExtent 0 →
      MatrixMatrixMultiply mat0 f0 mat1 f1 output = (0, output)) ∧
    (mat.GetExtent 1 ≠ vec.GetExtent 0 → MatrixVecMultiply mat fM vec fV out = (0, out)) := by
  refine ⟨?_, ?_, ?_⟩
  · intro h
    unfold InvertSystem
    simp only [h, ne_eq, not_false_eq_true, if_true]
  · intro h
    unfold MatrixMatrixMultiply
    dsimp only
    split_ifs <;> rfl
  · intro h
    unfold MatrixVecMultiply
    dsimp only
    split_ifs <;> rfl

/-- Witness of C19: a 2 x 3 matrix is rejected by the inversion, and a 2 x 3 left operand
with a 2-row right operand is rejected by both products; the output keeps its extents and
entries. -/
theorem C19_shape_validation_witness :
    InvertSystem (fun _ _ => some (fun _ _ => (1 : ℚ)))
        ({ extents := [2, 3], val := fun i j _ => (i : ℚ) + j } : NArray ℚ)
        ({ extents := [7], val := fun _ _ _ => 5 } : NArray ℚ)
      = (0, ({ extents := [7], val := fun _ _ _ => 5 } : NArray ℚ)) ∧
    MatrixMatrixMultiply ({ extents := [2, 3], val := fun i j _ => (i : ℚ) + j } : NArray ℚ) 0
        ({ extents := [2, 2], val := fun i j _ => (i : ℚ) + j } : NArray ℚ) 0
        ({ extents := [7], val := fun _ _ _ => 5 } : NArray ℚ)
      = (0, ({ extents := [7], val := fun _ _ _ => 5 } : NArray ℚ)) ∧
    MatrixVecMultiply ({ extents := [2, 3], val := fun i j _ => (i : ℚ) + j } : NArray ℚ) 0
        ({ extents := [2], val := fun i _ _ => (i : ℚ) } : NArray ℚ) 0
        ({ extents := [7], val := fun _ _ _ => 5 } : NArray ℚ)
      = (0, ({ extents := [7], val := fun _ _ _ => 5 } : NArray ℚ)) :=
  ⟨(C19_shape_validation (fun _ _ => some (fun _ _ => (1 : ℚ)))
      ({ extents := [2, 3], val := fun i j _ => (i : ℚ) + j } : NArray ℚ)
      ({ extents := [7], val := fun _ _ _ => 5 } : NArray ℚ)
      (NArray.Resize []) (NArray.Resize []) (NArray.Resize []) (NArray.Resize [])
      (NArray.Resize []) (NArray.Resize []) 0 0 0 0).1 (by decide),
   (C19_shape_validation (fun _ _ => none) (NArray.Resize []) (NArray.Resize [])
      ({ extents := [2, 3], val := fun i j _ => (i : ℚ) + j } : NArray ℚ)
      ({ extents := [2, 2], val := fun i j _ => (i : ℚ) + j } : NArray ℚ)
      ({ extents := [7], val := fun _ _ _ => 5 } : NArray ℚ)
      (NArray.Resize []) (NArray.Resize []) (NArray.Resize []) 0 0 0 0).2.1 (by decide),
   (C19_shape_validation (fun _ _ => none) (NArray.Resize []) (NArray.Resize [])
      (NArray.Resize []) (NArray.Resize []) (NArray.Resize [])
      ({ extents := [2, 3], val := fun i j _ => (i : ℚ) + j } : NArray ℚ)
      ({ extents := [2], val := fun i _ _ => (i : ℚ) } : NArray ℚ)
      ({ extents := [7], val := fun _ _ _ => 5 } : NArray ℚ) 0 0 0 0).2.2 (by decide)⟩

end MatrixClaims

/-! ## Conversions, copies and the matrix-vector product -/

section FitLemmas

variable {α : Type} [LinearOrderedField α]

/-- One loop that writes one key per iteration, at pairwise distinct keys. -/
theorem forLoop1_write {σ κ β : Type} [DecidableEq κ] (read : σ → κ → β) (n : ℕ)
    (key : ℕ → κ) (T : ℕ → β → β) (body : ℕ → σ → σ)
    (hbody : ∀ i, i < n → ∀ s k,
      read (body i s) k = if k = key i then T i (read s k) else read s k)
    (hinj : ∀ i i2, i < n → i2 < n → key i = key i2 → i = i2) (s : σ) :
    (∀ i, i < n → read (forLoop 0 n body s) (key i) = T i (read s (key i))) ∧
    (∀ k, (∀ i, i < n → k ≠ key i) → read (forLoop 0 n body s) k = read s k) := by
  have hout : ∀ k, read (forLoop 0 n body s) k
      = forLoop 0 n (fun i v => if k = key i then T i v else v) (read s k) := by
    intro k
    exact forLoop_read read body (fun i k v => if k = key i then T i v else v) n hbody s k
  constructor
  · intro i0 hi0
    rw [hout, forLoop_single n i0 _ _ hi0, if_pos rfl]
    intro j hj hne t
    rw [if_neg]
    intro he
    exact hne (hinj i0 j hi0 hj he).symm
  · intro k hk
    rw [hout]
    apply forLoop_id
    intro i _ hi t
    rw [if_neg (hk i hi)]

theorem NArray_read_SetValue3 (m : NArray α) (i j l : ℕ) (v : α) (k : ℕ × ℕ × ℕ) :
    (m.SetValue3 i j l v).val k.1 k.2.1 k.2.2
      = if k = (i, j, l) then v else m.val k.1 k.2.1 k.2.2 := by
  obtain ⟨a, b, c⟩ := k
  simp [NArray.SetValue3, Prod.mk.injEq]

theorem NArray_read_SetValue2 (m : NArray α) (i j : ℕ) (v : α) (k : ℕ × ℕ × ℕ) :
    (m.SetValue2 i j v).val k.1 k.2.1 k.2.2
      = if k = (i, j, 0) then v else m.val k.1 k.2.1 k.2.2 :=
  NArray_read_SetValue3 m i j 0 v k

theorem NArray_read_SetValue1 (m : NArray α) (i : ℕ) (v : α) (k : ℕ × ℕ × ℕ) :
    (m.SetValue1 i v).val k.1 k.2.1 k.2.2
      = if k = (i, 0, 0) then v else m.val k.1 k.2.1 k.2.2 :=
  NArray_read_SetValue3 m i 0 0 v k

@[simp] theorem extents_SetValue3 (m : NArray α) (i j l : ℕ) (v : α) :
    (m.SetValue3 i j l v).extents = m.extents := rfl

@[simp] theorem extents_SetValue2 (m : NArray α) (i j : ℕ) (v : α) :
    (m.SetValue2 i j v).extents = m.extents := rfl

@[simp] theorem extents_SetValue1 (m : NArray α) (i : ℕ) (v : α) :
    (m.SetValue1 i v).extents = m.extents := rfl

theorem GetExtent_of_extents (m : NArray α) (ext : List ℕ) (h : m.extents = ext) (d : ℕ) :
    m.GetExtent d = ext.getD d 0 := by
  unfold NArray.GetExtent
  rw [h]

/-- A two-level loop of `SetValue(i, j, f i j)` fills the entries `(i, j)`. -/
theorem fill2_spec (n m : ℕ) (f : ℕ → ℕ → α) (s : NArray α) :
    (forLoop 0 n (fun i s => forLoop 0 m (fun j s => s.SetValue2 i j (f i j)) s) s).extents
      = s.extents ∧
    ∀ i j, i < n → j < m →
      (forLoop 0 n (fun i s => forLoop 0 m (fun j s => s.SetValue2 i j (f i j)) s) s).GetValue2 i j
        = f i j := by
  constructor
  · refine forLoop_pres (fun (t : NArray α) => t.extents = s.extents) rfl ?_
    intro i t _ _ ht
    refine forLoop_pres (fun (t : NArray α) => t.extents = s.extents) ht ?_
    intro j t _ _ ht
    exact ht
  · have h := forLoop2_write (fun (m : NArray α) (k : ℕ × ℕ × ℕ) => m.val k.1 k.2.1 k.2.2) n m
      (fun i j => (i, j, 0)) (fun i j _ => f i j) (fun i j s => s.SetValue2 i j (f i j))
      (fun i j _ _ s k => NArray_read_SetValue2 s i j (f i j) k)
      (by
        intro i j i2 j2 _ _ _ _ he
        simp only [Prod.mk.injEq] at he
        exact ⟨he.1, he.2.1⟩) s
    intro i j hi hj
    exact h.1 i j hi hj

/-- A three-level loop of `SetValue(i, j, k, f i j k)` fills the entries `(i, j, k)`. -/
theorem fill3_spec (n m q : ℕ) (f : ℕ → ℕ → ℕ → α) (s : NArray α) :
    (forLoop 0 n (fun i s => forLoop 0 m (fun j s =>
      forLoop 0 q (fun k s => s.SetValue3 i j k (f i j k)) s) s) s).extents = s.extents ∧
    ∀ i j k, i < n → j < m → k < q →
      (forLoop 0 n (fun i s => forLoop 0 m (fun j s =>
        forLoop 0 q (fun k s => s.SetValue3 i j k (f i j k)) s) s) s).GetValue3 i j k
        = f i j k := by
  constructor
  · refine forLoop_pres (fun (t : NArray α) => t.extents = s.extents) rfl ?_
    intro i t _ _ ht
    refine forLoop_pres (fun (t : NArray α) => t.extents = s.extents) ht ?_
    intro j t _ _ ht
    refine forLoop_pres (fun (t : NArray α) => t.extents = s.extents) ht ?_
    intro k t _ _ ht
    exact ht
  · have h := forLoop3_write (fun (m : NArray α) (k : ℕ × ℕ × ℕ) => m.val k.1 k.2.1 k.2.2) n m q
      (fun i j k => (i, j, k)) (fun i j k _ => f i j k)
      (fun i j k s => s.SetValue3 i j k (f i j k))
      (fun i j l _ _ _ s k => NArray_read_SetValue3 s i j l (f i j l) k)
      (by
        intro i j l i2 j2 l2 _ _ _ _ _ _ he
        simp only [Prod.mk.injEq] at he
        exact ⟨he.1, he.2.1, he.2.2⟩) s
    intro i j k hi hj hk
    exact h.1 i j k hi hj hk

theorem PointsToTypedArray_spec (points : List (α × α × α)) (output : NArray α) :
    (PointsToTypedArray points output).extents = [points.length, 3] ∧
    ∀ i j, i < points.length → j < 3 →
      (PointsToTypedArray points output).GetValue2 i j = ptComp (GetPoint points i) j := by
  unfold PointsToTypedArray
  exact fill2_spec points.length 3 (fun i j => ptComp (GetPoint points i) j)
    (NArray.Resize [points.length, 3])

theorem DeepCopy_spec2 (input output : NArray α) (a b : ℕ) (h : input.extents = [a, b]) :
    (DeepCopy input output).extents = [a, b] ∧
    ∀ i j, i < a → j < b → (DeepCopy input output).GetValue2 i j = input.GetValue2 i j := by
  have e0 : input.GetExtent 0 = a := by rw [GetExtent_of_extents input _ h]; rfl
  have e1 : input.GetExtent 1 = b := by rw [GetExtent_of_extents input _ h]; rfl
  have ed : input.GetDimensions = 2 := by unfold NArray.GetDimensions; rw [h]; rfl
  have e : DeepCopy input output
      = forLoop 0 a (fun i s => forLoop 0 b (fun j s =>
          s.SetValue2 i j (input.GetValue2 i j)) s) (NArray.Resize [a, b]) := by
    unfold DeepCopy
    simp [ed, e0, e1]
  rw [e]
  exact fill2_spec a b (fun i j => input.GetValue2 i j) (NArray.Resize [a, b])

theorem DeepCopy_spec3 (input output : NArray α) (a b c : ℕ) (h : input.extents = [a, b, c]) :
    (DeepCopy input output).extents = [a, b, c] ∧
    ∀ i j k, i < a → j < b → k < c →
      (DeepCopy input output).GetValue3 i j k = input.GetValue3 i j k := by
  have e0 : input.GetExtent 0 = a := by rw [GetExtent_of_extents input _ h]; rfl
  have e1 : input.GetExtent 1 = b := by rw [GetExtent_of_extents input _ h]; rfl
  have e2 : input.GetExtent 2 = c := by rw [GetExtent_of_extents input _ h]; rfl
  have ed : input.GetDimensions = 3 := by unfold NArray.GetDimensions; rw [h]; rfl
  have e : DeepCopy input output
      = forLoop 0 a (fun i s => forLoop 0 b (fun j s => forLoop 0 c (fun k s =>
          s.SetValue3 i j k (input.GetValue3 i j k)) s) s) (NArray.Resize [a, b, c]) := by
    unfold DeepCopy
    simp [ed, e0, e1, e2]
  rw [e]
  exact fill3_spec a b c (fun i j k => input.GetValue3 i j k) (NArray.Resize [a, b, c])

theorem TypedArrayToPoints_spec (array : NArray α) (output : List (α × α × α)) :
    (TypedArrayToPoints array output).length = array.GetExtent 0 ∧
    ∀ i, i < array.GetExtent 0 →
      GetPoint (TypedArrayToPoints array output) i
        = (array.GetValue2 i 0, array.GetValue2 i 1, array.GetValue2 i 2) := by
  unfold TypedArrayToPoints
  have hpt : ∀ i, forLoop 0 3 (fun j pt => bufSet pt j (array.GetValue2 i j)) (newBuf : ℕ → α)
      = fun x => if x = 2 then array.GetValue2 i 2 else if x = 1 then array.GetValue2 i 1
          else if x = 0 then array.GetValue2 i 0 else 0 := by
    intro i
    funext x
    simp [forLoop, forLoopAux, bufSet, newBuf]
  have key := forLoop_inv 0 (array.GetExtent 0)
    (fun i (output : List (α × α × α)) =>
      let pt : ℕ → α := forLoop 0 3 (fun j pt => bufSet pt j (array.GetValue2 i j)) newBuf
      output.set i (pt 0, pt 1, pt 2)) (List.replicate (array.GetExtent 0) (0, 0, 0))
    (fun n out => out.length = array.GetExtent 0 ∧ ∀ i, i < n →
      GetPoint out i = (array.GetValue2 i 0, array.GetValue2 i 1, array.GetValue2 i 2))
    (Nat.zero_le _) ⟨by simp, fun i hi => absurd hi (Nat.not_lt_zero _)⟩
    (by
      intro n out _ hn ⟨h1, h2⟩
      refine ⟨by simp [h1], ?_⟩
      intro i hi
      dsimp only
      rw [hpt n]
      by_cases hin : i = n
      · subst hin
        simp [GetPoint, List.getD_eq_getElem?_getD, h1, hn]
      · have h3 := h2 i (by omega)
        have hne : n ≠ i := fun h => hin h.symm
        simp only [GetPoint, List.getD_eq_getElem?_getD, List.getElem?_set_ne hne] at h3 ⊢
        exact h3)
  exact ⟨key.1, fun i hi => key.2 i hi⟩

end FitLemmas

section SolveLemmas

variable {α : Type} [LinearOrderedField α]

theorem GetZeroBasisFunctions_status (U knots : List α) (N0 : NArray α) :
    (GetZeroBasisFunctions U knots N0).1 = 1 := rfl

theorem GetPBasisFunctions_status (U knots : List α) (p : ℕ) (NP : NArray α) :
    (GetPBasisFunctions U knots p NP).1 = 1 := by
  unfold GetPBasisFunctions
  simp [GetZeroBasisFunctions_status]

theorem GetPBasisFunctions_extents (U knots : List α) (p : ℕ) (NP : NArray α) :
    (GetPBasisFunctions U knots p NP).2.extents
      = [U.length, ((knots.length : ℤ) - (p : ℤ) - 1).toNat] := by
  unfold GetPBasisFunctions
  simp only [GetZeroBasisFunctions_status, ne_eq, not_true_eq_false, if_false]
  generalize htmp : (forLoop 0 U.length (fun i tmpN =>
      forLoop 0 (knots.length - 1) (fun j tmpN =>
        bufSet2 tmpN i j ((GetZeroBasisFunctions U knots
          (NArray.Resize [U.length, knots.length - 1])).2.GetValue2 i j)) tmpN)
      (fun _ => (newBuf : ℕ → α))) = tmpN0
  generalize hst : forLoop 1 (p + 1) _ ((knots.length : ℤ), tmpN0) = st
  have h1 : st.1 = (knots.length : ℤ) - (p : ℤ) := by
    rw [← hst]
    have e : (knots.length : ℤ) - (p : ℤ) = (knots.length : ℤ) - (((p + 1 : ℕ) : ℤ) - 1) := by
      push_cast
      ring
    rw [e]
    exact forLoop_inv 1 (p + 1) _ ((knots.length : ℤ), tmpN0)
      (fun j (st : ℤ × (ℕ → ℕ → α)) => st.1 = (knots.length : ℤ) - ((j : ℤ) - 1))
      (by omega) (by simp) (by
        intro j t _ _ ht
        show t.1 - 1 = (knots.length : ℤ) - (((j + 1 : ℕ) : ℤ) - 1)
        rw [ht]
        push_cast
        ring)
  have h2 := (fill2_spec U.length (st.1 - 1).toNat (fun i j => st.2 i j)
    (NArray.Resize [U.length, (st.1 - 1).toNat])).1
  rw [h2, h1]
  rfl

theorem InvertSystem_ok (InvertMatrix : (ℕ → ℕ → α) → ℕ → Option (ℕ → ℕ → α))
    (NP NPinv : NArray α) (h : (InvertSystem InvertMatrix NP NPinv).1 = 1) :
    NP.GetExtent 0 = NP.GetExtent 1 ∧
    ∃ inMat outMat,
      (∀ i j, i < NP.GetExtent 0 → j < NP.GetExtent 0 → inMat i j = NP.GetValue2 i j) ∧
      InvertMatrix inMat (NP.GetExtent 0) = some outMat ∧
      (InvertSystem InvertMatrix NP NPinv).2.extents = [NP.GetExtent 0, NP.GetExtent 0] ∧
      ∀ i j, i < NP.GetExtent 0 → j < NP.GetExtent 0 →
        (InvertSystem InvertMatrix NP NPinv).2.GetValue2 i j = outMat i j := by
  by_cases hsq : NP.GetExtent 0 = NP.GetExtent 1
  · refine ⟨hsq, ?_⟩
    unfold InvertSystem at h ⊢
    simp only [← hsq, ne_eq, not_true_eq_false, if_false] at h ⊢
    generalize hin : (forLoop 0 (NP.GetExtent 0) (fun i inMat =>
      forLoop 0 (NP.GetExtent 0) (fun j inMat => bufSet2 inMat i j (NP.GetValue2 i j)) inMat)
      (fun _ => (newBuf : ℕ → α))) = inMat at h ⊢
    have hval : ∀ i j, i < NP.GetExtent 0 → j < NP.GetExtent 0 →
        inMat i j = NP.GetValue2 i j := by
      intro i j hi hj
      rw [← hin]
      have hw := forLoop2_write (fun (v : ℕ → ℕ → α) (x : ℕ × ℕ) => v x.1 x.2)
        (NP.GetExtent 0) (NP.GetExtent 0) (fun i j => (i, j)) (fun i j _ => NP.GetValue2 i j)
        (fun i j v => bufSet2 v i j (NP.GetValue2 i j))
        (by
          intro i j _ _ s x
          obtain ⟨a, b⟩ := x
          simp [bufSet2, Prod.mk.injEq])
        (by
          intro i j i2 j2 _ _ _ _ he
          simp only [Prod.mk.injEq] at he
          exact he) (fun _ => (newBuf : ℕ → α))
      exact hw.1 i j hi hj
    cases hres : InvertMatrix inMat (NP.GetExtent 0) with
    | none =>
      rw [hres] at h
      simp at h
    | some outMat =>
      refine ⟨inMat, outMat, hval, hres, ?_⟩
      have hf := fill2_spec (NP.GetExtent 0) (NP.GetExtent 0) (fun i j => outMat i j)
        (NArray.Resize [NP.GetExtent 0, NP.GetExtent 0])
      exact ⟨hf.1, hf.2⟩
  · exfalso
    unfold InvertSystem at h
    simp [hsq] at h

theorem InvertSystem_fail (InvertMatrix : (ℕ → ℕ → α) → ℕ → Option (ℕ → ℕ → α))
    (NP NPinv : NArray α)
    (hfail : ∀ inMat : ℕ → ℕ → α,
      (∀ i j, i < NP.GetExtent 0 → j < NP.GetExtent 0 → inMat i j = NP.GetValue2 i j) →
      InvertMatrix inMat (NP.GetExtent 0) = none) :
    InvertSystem InvertMatrix NP NPinv = (0, NPinv) := by
  by_cases h1 : (InvertSystem InvertMatrix NP NPinv).1 = 1
  · obtain ⟨_, inMat, outMat, hv, hs, _⟩ := InvertSystem_ok InvertMatrix NP NPinv h1
    rw [hfail inMat hv] at hs
    exact absurd hs (by simp)
  · unfold InvertSystem at h1 ⊢
    by_cases hsq : NP.GetExtent 0 = NP.GetExtent 1
    · simp only [hsq, ne_eq, not_true_eq_false, if_false] at h1 ⊢
      split at h1
      · rfl
      · exact absurd rfl h1
    · simp [hsq]

/-- The accumulation of one output row of `MatrixVecMultiply`, scalar matrix and
point-valued vector. -/
theorem rowAccum_spec (mat vec : NArray α) (i ncM : ℕ) (k : ℕ) (hk : k < 3) :
    forLoop 0 ncM (fun j updateVal =>
      forLoop 0 3 (fun k updateVal =>
        bufSet updateVal k (updateVal k +
          (forLoop 0 3 (fun k (mv : (ℕ → α) × (ℕ → α)) =>
            (bufSet mv.1 k (mat.GetValue2 i j), bufSet mv.2 k (vec.GetValue2 j k)))
            (newBuf, newBuf)).1 k *
          (forLoop 0 3 (fun k (mv : (ℕ → α) × (ℕ → α)) =>
            (bufSet mv.1 k (mat.GetValue2 i j), bufSet mv.2 k (vec.GetValue2 j k)))
            (newBuf, newBuf)).2 k)) updateVal)
      (forLoop 0 3 (fun j updateVal => bufSet updateVal j 0) newBuf) k
      = ∑ j in Finset.range ncM, mat.GetValue2 i j * vec.GetValue2 j k := by
  have key := forLoop_inv 0 ncM (fun j updateVal =>
      forLoop 0 3 (fun k updateVal =>
        bufSet updateVal k (updateVal k +
          (forLoop 0 3 (fun k (mv : (ℕ → α) × (ℕ → α)) =>
            (bufSet mv.1 k (mat.GetValue2 i j), bufSet mv.2 k (vec.GetValue2 j k)))
            (newBuf, newBuf)).1 k *
          (forLoop 0 3 (fun k (mv : (ℕ → α) × (ℕ → α)) =>
            (bufSet mv.1 k (mat.GetValue2 i j), bufSet mv.2 k (vec.GetValue2 j k)))
            (newBuf, newBuf)).2 k)) updateVal)
      (forLoop 0 3 (fun j updateVal => bufSet updateVal j 0) (newBuf : ℕ → α))
      (fun n uv => ∀ k, k < 3 →
        uv k = ∑ j in Finset.range n, mat.GetValue2 i j * vec.GetValue2 j k)
      (Nat.zero_le _)
      (by
        intro k hk
        interval_cases k <;> simp [forLoop, forLoopAux, bufSet])
      (by
        intro n uv _ _ huv k hk
        rw [Finset.sum_range_succ, ← huv k hk]
        interval_cases k <;> simp [forLoop, forLoopAux, bufSet])
  exact key k hk

theorem MatrixVecMultiply_points (mat vec out : NArray α) (fV : ℤ) (hV : fV ≠ 0)
    (h : mat.GetExtent 1 = vec.GetExtent 0) (h3 : vec.GetExtent 1 = 3) :
    (MatrixVecMultiply mat 0 vec fV out).1 = 1 ∧
    (MatrixVecMultiply mat 0 vec fV out).2.extents = [mat.GetExtent 0, 3] ∧
    ∀ i k, i < mat.GetExtent 0 → k < 3 →
      (MatrixVecMultiply mat 0 vec fV out).2.GetValue2 i k
        = ∑ j in Finset.range (mat.GetExtent 1), mat.GetValue2 i j * vec.GetValue2 j k := by
  have h00 : ¬ ((0 : ℤ) ≠ 0) := by simp
  unfold MatrixVecMultiply
  dsimp only
  rw [if_neg (show ¬((0 : ℤ) ≠ 0 ∧ mat.GetExtent 2 ≠ 3) by simp),
    if_neg (show ¬(fV ≠ 0 ∧ vec.GetExtent 1 ≠ 3) by simp [h3]),
    if_neg (show ¬(mat.GetExtent 1 ≠ vec.GetExtent 0) by simp [h])]
  simp only [if_pos hV, if_neg h00, if_true]
  refine ⟨trivial, (fill2_spec _ _ _ _).1, ?_⟩
  intro i k hi hk
  refine Eq.trans ((fill2_spec _ _ _ _).2 i k hi hk) ?_
  exact rowAccum_spec mat vec i _ k hk

end SolveLemmas

section CurveFitLemmas

variable {α : Type} [LinearOrderedField α]

theorem ptComp_mk (f : ℕ → α) (k : ℕ) (hk : k < 3) : ptComp (f 0, f 1, f 2) k = f k := by
  interval_cases k <;> simp [ptComp]

/-- With knots that are not of the derivative kind, `GetControlPointsOfCurve` copies the
fixed-up basis matrix and the points, inverts and multiplies. -/
theorem GetControlPointsOfCurve_plain
    (InvertMatrix : (ℕ → ℕ → α) → ℕ → Option (ℕ → ℕ → α))
    (points : List (α × α × α)) (U weights knots : List α) (p : ℕ) (ktype : String)
    (D0 DN : ℕ → α) (cPoints : List (α × α × α))
    (hk : strncmpEq ktype "derivative" = false) (N NPFinal pF : NArray α)
    (hN : N = (GetPBasisFunctions U knots p (NArray.Resize [])).2.SetValue2
      ((GetPBasisFunctions U knots p (NArray.Resize [])).2.GetExtent 0 - 1)
      ((GetPBasisFunctions U knots p (NArray.Resize [])).2.GetExtent 1 - 1) 1)
    (hF : NPFinal = DeepCopy N (NArray.Resize []))
    (hP : pF = DeepCopy (PointsToTypedArray points (NArray.Resize [])) (NArray.Resize [])) :
    GetControlPointsOfCurve InvertMatrix points U weights knots p ktype D0 DN cPoints
      = if (InvertSystem InvertMatrix NPFinal (NArray.Resize [])).1 ≠ 1 then some (0, cPoints)
        else if (MatrixVecMultiply (InvertSystem InvertMatrix NPFinal (NArray.Resize [])).2 0
            pF 1 (NArray.Resize [])).1 ≠ 1 then some (0, cPoints)
        else some (1, TypedArrayToPoints
          (MatrixVecMultiply (InvertSystem InvertMatrix NPFinal (NArray.Resize [])).2 0
            pF 1 (NArray.Resize [])).2 cPoints) := by
  unfold GetControlPointsOfCurve
  rw [if_neg (by simp [GetPBasisFunctions_status])]
  dsimp only
  rw [hk, hF, hP, hN]
  rfl

/-- The algebra behind the fit: if `N * M = I` and `C = M * P`, then `N * C = P`. -/
theorem solve_interpolates (n : ℕ) (N M : ℕ → ℕ → α) (P C : ℕ → α)
    (hinv : ∀ i k, i < n → k < n →
      ∑ j in Finset.range n, N i j * M j k = if i = k then 1 else 0)
    (hC : ∀ j, j < n → C j = ∑ l in Finset.range n, M j l * P l) (i : ℕ) (hi : i < n) :
    ∑ j in Finset.range n, N i j * C j = P i := by
  have h1 : ∑ j in Finset.range n, N i j * C j
      = ∑ j in Finset.range n, ∑ l in Finset.range n, N i j * M j l * P l := by
    refine Finset.sum_congr rfl ?_
    intro j hj
    rw [hC j (Finset.mem_range.mp hj), Finset.mul_sum]
    refine Finset.sum_congr rfl ?_
    intro l _
    ring
  rw [h1, Finset.sum_comm]
  have h2 : ∀ l, l ∈ Finset.range n →
      ∑ j in Finset.range n, N i j * M j l * P l = (if i = l then 1 else 0) * P l := by
    intro l hl
    rw [← Finset.sum_mul, hinv i l hi (Finset.mem_range.mp hl)]
  rw [Finset.sum_congr rfl h2]
  simp [Finset.sum_ite_eq, hi]

end CurveFitLemmas

section CurveFitClaims

variable {α : Type} [LinearOrderedField α]

/-- C13 (interpolation exactness, curve, non-derivative knots): whenever
`GetControlPointsOfCurve` returns 1 on `n` points with knots of length `n + p + 1`, and the
inversion step returns a true inverse, the returned control points `C` are `n` in number and
satisfy `sum_j N(i,j) * C[j] = P[i]` for every row `i` and each of the three coordinates,
where `N` is the matrix of `GetPBasisFunctions(U, knots, p)` with its last diagonal entry
set to 1. -/
theorem C13_curve_interpolation
    (InvertMatrix : (ℕ → ℕ → α) → ℕ → Option (ℕ → ℕ → α))
    (points : List (α × α × α)) (U weights knots : List α) (p : ℕ) (ktype : String)
    (D0 DN : ℕ → α) (cPoints C : List (α × α × α))
    (hk : strncmpEq ktype "derivative" = false)
    (hlen : knots.length = points.length + p + 1)
    (hinv : ∀ (inMat outMat : ℕ → ℕ → α) (n : ℕ), InvertMatrix inMat n = some outMat →
      ∀ i k, i < n → k < n →
        ∑ j in Finset.range n, inMat i j * outMat j k = if i = k then 1 else 0)
    (hres : GetControlPointsOfCurve InvertMatrix points U weights knots p ktype D0 DN cPoints
      = some (1, C)) :
    C.length = points.length ∧
    ∀ i c, i < points.length → c < 3 →
      ∑ j in Finset.range points.length,
        ((GetPBasisFunctions U knots p (NArray.Resize [])).2.SetValue2
          (points.length - 1) (points.length - 1) 1).GetValue2 i j
          * ptComp (GetPoint C j) c
        = ptComp (GetPoint points i) c := by
  have hext := GetPBasisFunctions_extents U knots p (NArray.Resize [])
  have hcols : ((knots.length : ℤ) - (p : ℤ) - 1).toNat = points.length := by
    rw [hlen]; push_cast; omega
  rw [hcols] at hext
  have hg0 : (GetPBasisFunctions U knots p (NArray.Resize [])).2.GetExtent 0 = U.length := by
    rw [GetExtent_of_extents _ _ hext]; rfl
  have hg1 : (GetPBasisFunctions U knots p (NArray.Resize [])).2.GetExtent 1
      = points.length := by
    rw [GetExtent_of_extents _ _ hext]; rfl
  rw [GetControlPointsOfCurve_plain InvertMatrix points U weights knots p ktype D0 DN cPoints hk
    _ _ _ rfl rfl rfl, hg0, hg1] at hres
  generalize hN : (GetPBasisFunctions U knots p (NArray.Resize [])).2.SetValue2
    (U.length - 1) (points.length - 1) 1 = N at hres
  have hNext : N.extents = [U.length, points.length] := by rw [← hN]; exact hext
  obtain ⟨hFext, hFval⟩ := DeepCopy_spec2 N (NArray.Resize []) _ _ hNext
  obtain ⟨hPext0, hPval0⟩ := PointsToTypedArray_spec points (NArray.Resize [])
  obtain ⟨hPext, hPval⟩ := DeepCopy_spec2 (PointsToTypedArray points (NArray.Resize []))
    (NArray.Resize []) _ _ hPext0
  generalize DeepCopy N (NArray.Resize []) = NPFinal at hres hFext hFval
  generalize DeepCopy (PointsToTypedArray points (NArray.Resize [])) (NArray.Resize [])
    = pF at hres hPext hPval
  by_cases h1 : (InvertSystem InvertMatrix NPFinal (NArray.Resize [])).1 = 1
  swap
  · rw [if_pos h1] at hres
    simp at hres
  rw [if_neg (by simp [h1])] at hres
  obtain ⟨hsq, inMat, outMat, hin, hsome, hIext, hIval⟩ :=
    InvertSystem_ok InvertMatrix NPFinal (NArray.Resize []) h1
  generalize (InvertSystem InvertMatrix NPFinal (NArray.Resize [])).2 = NPinv
    at hres hIext hIval
  have hF0 : NPFinal.GetExtent 0 = U.length := by
    rw [GetExtent_of_extents _ _ hFext]; rfl
  have hF1 : NPFinal.GetExtent 1 = points.length := by
    rw [GetExtent_of_extents _ _ hFext]; rfl
  have hUn : U.length = points.length := by rw [← hF0, ← hF1]; exact hsq
  rw [hF0, hUn] at hin hsome hIext hIval
  rw [hUn] at hN hFval
  have hI0 : NPinv.GetExtent 0 = points.length := by
    rw [GetExtent_of_extents _ _ hIext]; rfl
  have hI1 : NPinv.GetExtent 1 = points.length := by
    rw [GetExtent_of_extents _ _ hIext]; rfl
  have hP0 : pF.GetExtent 0 = points.length := by
    rw [GetExtent_of_extents _ _ hPext]; rfl
  have hP1 : pF.GetExtent 1 = 3 := by
    rw [GetExtent_of_extents _ _ hPext]; rfl
  obtain ⟨hm1, hmext, hmval⟩ := MatrixVecMultiply_points NPinv pF (NArray.Resize []) 1
    (by decide) (by rw [hI1, hP0]) hP1
  rw [if_neg (by simp [hm1])] at hres
  have hC : C = TypedArrayToPoints (MatrixVecMultiply NPinv 0 pF 1 (NArray.Resize [])).2
      cPoints := by
    have h2 := Option.some.inj hres
    exact (congrArg Prod.snd h2).symm
  obtain ⟨hTlen, hTval⟩ := TypedArrayToPoints_spec
    (MatrixVecMultiply NPinv 0 pF 1 (NArray.Resize [])).2 cPoints
  have hM0 : (MatrixVecMultiply NPinv 0 pF 1 (NArray.Resize [])).2.GetExtent 0
      = points.length := by
    rw [GetExtent_of_extents _ _ hmext, hI0]; rfl
  rw [hM0] at hTlen hTval
  rw [hI0, hI1] at hmval
  rw [← hC] at hTlen hTval
  refine ⟨hTlen, ?_⟩
  intro i c hi hc
  have hsolve := solve_interpolates points.length (fun i j => N.GetValue2 i j) outMat
    (fun l => ptComp (GetPoint points l) c) (fun j => ptComp (GetPoint C j) c)
    (by
      intro i k hi hk
      rw [← hinv inMat outMat points.length hsome i k hi hk]
      refine Finset.sum_congr rfl ?_
      intro j hj
      rw [hin i j hi (Finset.mem_range.mp hj), hFval i j hi (Finset.mem_range.mp hj)])
    (by
      intro j hj
      show ptComp (GetPoint C j) c = _
      rw [hTval j hj]
      rw [ptComp_mk (fun k => (MatrixVecMultiply NPinv 0 pF 1 (NArray.Resize [])).2.GetValue2 j k)
        c hc, hmval j c hj hc]
      refine Finset.sum_congr rfl ?_
      intro l hl
      rw [hIval j l hj (Finset.mem_range.mp hl), hPval l c (Finset.mem_range.mp hl) hc,
        hPval0 l c (Finset.mem_range.mp hl) hc])
    i hi
  rw [hN]
  exact hsolve

end CurveFitClaims

section CurveFitWitness

theorem InvertMatrix2_inverse {α : Type} [LinearOrderedField α] (inMat outMat : ℕ → ℕ → α)
    (n : ℕ) (h : InvertMatrix2 inMat n = some outMat) (i k : ℕ) (hi : i < n) (hk : k < n) :
    ∑ j in Finset.range n, inMat i j * outMat j k = if i = k then 1 else 0 := by
  unfold InvertMatrix2 at h
  by_cases hn : n = 2
  · subst hn
    rw [if_pos rfl] at h
    dsimp only at h
    by_cases hdet : inMat 0 0 * inMat 1 1 - inMat 0 1 * inMat 1 0 = 0
    · rw [if_pos hdet] at h
      exact absurd h (by simp)
    · rw [if_neg hdet] at h
      have ho := (Option.some.inj h).symm
      subst ho
      interval_cases i <;> interval_cases k <;>
        simp [Finset.sum_range_succ] <;> field_simp <;> ring
  · rw [if_neg hn] at h
    exact absurd h (by simp)

end CurveFitWitness

section CurveFitWitness2

/-- A two-point fit of degree 1 with parameters `0` and `1/2`: the fixed-up basis matrix is
`[[1, 0], [1/2, 1]]` and the control points are `P0` and `P1 - P0/2`. -/
theorem curve_fit_example :
    GetControlPointsOfCurve InvertMatrix2 [((2 : ℚ), 0, 4), (2, 4, 6)] [0, 1 / 2] []
        [0, 0, 1, 1] 1 "equal" (fun _ => 0) (fun _ => 0) []
      = some (1, [(2, 0, 4), (1, 4, 4)]) := by
  decide!

/-- Witness of C13: the two-point fit above. -/
theorem C13_curve_interpolation_witness :
    GetControlPointsOfCurve InvertMatrix2 [((2 : ℚ), 0, 4), (2, 4, 6)] [0, 1 / 2] []
        [0, 0, 1, 1] 1 "equal" (fun _ => 0) (fun _ => 0) []
      = some (1, [(2, 0, 4), (1, 4, 4)]) ∧
    ([((2 : ℚ), 0, 4), (1, 4, 4)].length = [((2 : ℚ), 0, 4), (2, 4, 6)].length ∧
    ∀ i c, i < [((2 : ℚ), 0, 4), (2, 4, 6)].length → c < 3 →
      ∑ j in Finset.range [((2 : ℚ), 0, 4), (2, 4, 6)].length,
        ((GetPBasisFunctions [(0 : ℚ), 1 / 2] [0, 0, 1, 1] 1 (NArray.Resize [])).2.SetValue2
          ([((2 : ℚ), 0, 4), (2, 4, 6)].length - 1)
          ([((2 : ℚ), 0, 4), (2, 4, 6)].length - 1) 1).GetValue2 i j
          * ptComp (GetPoint [((2 : ℚ), 0, 4), (1, 4, 4)] j) c
        = ptComp (GetPoint [((2 : ℚ), 0, 4), (2, 4, 6)] i) c) :=
  ⟨by decide!,
    C13_curve_interpolation InvertMatrix2 [((2 : ℚ), 0, 4), (2, 4, 6)] [0, 1 / 2] []
      [0, 0, 1, 1] 1 "equal" (fun _ => 0) (fun _ => 0) [] [(2, 0, 4), (1, 4, 4)]
      (by decide) (by decide) InvertMatrix2_inverse (by decide!)⟩

end CurveFitWitness2

/-! ## Grids, transposes and the surface fit -/

section SurfaceFitLemmas

variable {α : Type} [LinearOrderedField α]

/-- The rule `forLoop_read` for a body that behaves pointwise only on the states that
satisfy an invariant `P`. -/
theorem forLoop_read_inv {σ κ β : Type} (P : σ → Prop) (read : σ → κ → β) (body : ℕ → σ → σ)
    (F : ℕ → κ → β → β) (n : ℕ)
    (hP : ∀ i, i < n → ∀ s, P s → P (body i s))
    (hbody : ∀ i, i < n → ∀ s, P s → ∀ k, read (body i s) k = F i k (read s k))
    (s : σ) (hs : P s) :
    P (forLoop 0 n body s) ∧
    ∀ k, read (forLoop 0 n body s) k = forLoop 0 n (fun i v => F i k v) (read s k) := by
  refine forLoop_inv 0 n body s
    (fun j t => P t ∧ ∀ k, read t k = forLoop 0 j (fun i v => F i k v) (read s k))
    (Nat.zero_le _) ?_ ?_
  · exact ⟨hs, fun k => (forLoop_empty _ _ (le_refl _)).symm⟩
  · intro j t _ hj ⟨hPt, ht⟩
    refine ⟨hP j hj t hPt, fun k => ?_⟩
    rw [forLoop_succ 0 j _ _ (Nat.zero_le _), hbody j hj t hPt, ht]

/-- The rule `forLoop2_write` under a state invariant. -/
theorem forLoop2_write_inv {σ κ β : Type} [DecidableEq κ] (P : σ → Prop) (read : σ → κ → β)
    (n m : ℕ) (key : ℕ → ℕ → κ) (T : ℕ → ℕ → β → β) (body : ℕ → ℕ → σ → σ)
    (hP : ∀ i j, i < n → j < m → ∀ s, P s → P (body i j s))
    (hbody : ∀ i j, i < n → j < m → ∀ s, P s → ∀ k,
      read (body i j s) k = if k = key i j then T i j (read s k) else read s k)
    (hinj : ∀ i j i2 j2, i < n → j < m → i2 < n → j2 < m → key i j = key i2 j2 →
      i = i2 ∧ j = j2) (s : σ) (hs : P s) :
    P (forLoop 0 n (fun i s => forLoop 0 m (fun j s => body i j s) s) s) ∧
    (∀ i j, i < n → j < m →
      read (forLoop 0 n (fun i s => forLoop 0 m (fun j s => body i j s) s) s) (key i j)
        = T i j (read s (key i j))) := by
  have hin : ∀ i, i < n → ∀ s, P s → P (forLoop 0 m (fun j s => body i j s) s) ∧
      ∀ k, read (forLoop 0 m (fun j s => body i j s) s) k
        = forLoop 0 m (fun j v => if k = key i j then T i j v else v) (read s k) := by
    intro i hi s hs
    exact forLoop_read_inv P read (fun j s => body i j s)
      (fun j k v => if k = key i j then T i j v else v) m
      (fun j hj s hs => hP i j hi hj s hs) (fun j hj s hs k => hbody i j hi hj s hs k) s hs
  have hout := forLoop_read_inv P read (fun i s => forLoop 0 m (fun j s => body i j s) s)
    (fun i k v => forLoop 0 m (fun j v => if k = key i j then T i j v else v) v) n
    (fun i hi s hs => (hin i hi s hs).1) (fun i hi s hs k => (hin i hi s hs).2 k) s hs
  refine ⟨hout.1, ?_⟩
  intro i0 j0 hi0 hj0
  rw [hout.2]
  beta_reduce
  rw [forLoop_single n i0 _ _ hi0, forLoop_single m j0 _ _ hj0, if_pos rfl]
  · intro j hj hne t
    rw [if_neg]
    intro he
    exact hne (hinj i0 j0 i0 j hi0 hj0 hi0 hj he).2.symm
  · intro i hi hne t
    apply forLoop_id
    intro j _ hj t
    rw [if_neg]
    intro he
    exact hne (hinj i0 j0 i j hi0 hj0 hi hj he).1.symm

theorem ComputePointId_plane (d0 d1 d2 i j : ℕ) :
    ComputePointId (d0, d1, d2) (i, j, 0) = i + j * d0 := by
  simp only [ComputePointId]
  ring

theorem StructuredGridToTypedArray_spec (grid : StructuredGrid α) (output : NArray α)
    (h : grid.dims.2.2 = 1) :
    (StructuredGridToTypedArray grid output).1 = 1 ∧
    (StructuredGridToTypedArray grid output).2.extents = [grid.dims.1, grid.dims.2.1, 3] ∧
    ∀ i j k, i < grid.dims.1 → j < grid.dims.2.1 → k < 3 →
      (StructuredGridToTypedArray grid output).2.GetValue3 i j k
        = ptComp (GetPoint grid.points (ComputePointId grid.dims (i, j, 0))) k := by
  unfold StructuredGridToTypedArray
  dsimp only
  rw [if_neg (by simp [h])]
  have hf := fill3_spec grid.dims.1 grid.dims.2.1 3
    (fun i j k => ptComp (GetPoint grid.points (ComputePointId grid.dims (i, j, 0))) k)
    (NArray.Resize [grid.dims.1, grid.dims.2.1, 3])
  exact ⟨rfl, hf.1, hf.2⟩

theorem MatrixTranspose_points (mat newMat : NArray α) (f : ℤ) (hf : f ≠ 0)
    (h3 : mat.GetExtent 2 = 3) :
    (MatrixTranspose mat f newMat).1 = 1 ∧
    (MatrixTranspose mat f newMat).2.extents = [mat.GetExtent 1, mat.GetExtent 0, 3] ∧
    ∀ i j k, i < mat.GetExtent 0 → j < mat.GetExtent 1 → k < 3 →
      (MatrixTranspose mat f newMat).2.GetValue3 j i k = mat.GetValue3 i j k := by
  unfold MatrixTranspose
  dsimp only
  rw [if_neg (by simp [h3])]
  simp only [if_pos hf]
  refine ⟨trivial, ?_, ?_⟩
  · refine forLoop_pres (fun (t : NArray α) => t.extents = [mat.GetExtent 1, mat.GetExtent 0, 3])
      rfl ?_
    intro i t _ _ ht
    refine forLoop_pres (fun (t : NArray α) => t.extents = [mat.GetExtent 1, mat.GetExtent 0, 3])
      ht ?_
    intro j t _ _ ht
    refine forLoop_pres (fun (t : NArray α) => t.extents = [mat.GetExtent 1, mat.GetExtent 0, 3])
      ht ?_
    intro k t _ _ ht
    exact ht
  · have h := forLoop3_write (fun (m : NArray α) (k : ℕ × ℕ × ℕ) => m.val k.1 k.2.1 k.2.2)
      (mat.GetExtent 0) (mat.GetExtent 1) 3
      (fun i j k => (j, i, k)) (fun i j k _ => mat.GetValue3 i j k)
      (fun i j k s => s.SetValue3 j i k (mat.GetValue3 i j k))
      (fun i j l _ _ _ s k => NArray_read_SetValue3 s j i l (mat.GetValue3 i j l) k)
      (by
        intro i j l i2 j2 l2 _ _ _ _ _ _ he
        simp only [Prod.mk.injEq] at he
        exact ⟨he.2.1, he.1, he.2.2⟩) (NArray.Resize [mat.GetExtent 1, mat.GetExtent 0, 3])
    intro i j k hi hj hk
    exact h.1 i j k hi hj hk

theorem TypedArrayToStructuredGrid_spec (array : NArray α) (output : StructuredGrid α)
    (a b : ℕ) (h : array.extents = [a, b, 3]) :
    (TypedArrayToStructuredGrid array output).1 = 1 ∧
    (TypedArrayToStructuredGrid array output).2.dims = (a, b, 1) ∧
    (TypedArrayToStructuredGrid array output).2.points.length = a * b ∧
    ∀ i j, i < a → j < b →
      GetPoint (TypedArrayToStructuredGrid array output).2.points (i + j * a)
        = (array.GetValue3 i j 0, array.GetValue3 i j 1, array.GetValue3 i j 2) := by
  have e0 : array.GetExtent 0 = a := by rw [GetExtent_of_extents array _ h]; rfl
  have e1 : array.GetExtent 1 = b := by rw [GetExtent_of_extents array _ h]; rfl
  have e2 : array.GetExtent 2 = 3 := by rw [GetExtent_of_extents array _ h]; rfl
  have ed : array.GetDimensions = 3 := by unfold NArray.GetDimensions; rw [h]; rfl
  have hpt : ∀ i j, forLoop 0 3 (fun k pt => bufSet pt k (array.GetValue3 i j k))
      (newBuf : ℕ → α)
      = fun x => if x = 2 then array.GetValue3 i j 2 else if x = 1 then array.GetValue3 i j 1
          else if x = 0 then array.GetValue3 i j 0 else 0 := by
    intro i j
    funext x
    simp [forLoop, forLoopAux, bufSet, newBuf]
  unfold TypedArrayToStructuredGrid
  dsimp only
  rw [if_neg (by rw [ed]; decide), if_neg (by simp [e2]), e0, e1, e2]
  have hw := forLoop2_write_inv
    (fun (g : StructuredGrid α) => g.dims = (a, b, 1) ∧ g.points.length = a * b)
    (fun (g : StructuredGrid α) (k : ℕ) => GetPoint g.points k) a b
    (fun i j => i + j * a)
    (fun i j _ => (array.GetValue3 i j 0, array.GetValue3 i j 1, array.GetValue3 i j 2))
    (fun i j (output : StructuredGrid α) =>
      StructuredGrid.mk output.dims (output.points.set (ComputePointId (a, b, 3) (i, j, 0))
          ((forLoop 0 3 (fun k pt => bufSet pt k (array.GetValue3 i j k)) newBuf) 0,
           (forLoop 0 3 (fun k pt => bufSet pt k (array.GetValue3 i j k)) newBuf) 1,
           (forLoop 0 3 (fun k pt => bufSet pt k (array.GetValue3 i j k)) newBuf) 2)))
    (by
      intro i j _ _ s ⟨h1, h2⟩
      exact ⟨h1, by simp [h2]⟩)
    (by
      intro i j hi hj s ⟨h1, h2⟩ k
      have hlt : i + j * a < s.points.length := by
        rw [h2]; exact colMajor_lt a b i j hi hj
      beta_reduce
      rw [ComputePointId_plane, hpt i j]
      by_cases hk : k = i + j * a
      · subst hk
        simp [GetPoint, List.getD_eq_getElem?_getD, hlt]
      · have hne : i + j * a ≠ k := fun h => hk h.symm
        simp [GetPoint, List.getD_eq_getElem?_getD, List.getElem?_set_ne hne, hk])
    (by
      intro i j i2 j2 hi _ hi2 _ he
      exact colMajor_inj2 a i j i2 j2 hi hi2 he)
    ({ dims := (a, b, 1), points := List.replicate (a * b) (0, 0, 0) } : StructuredGrid α)
    ⟨rfl, by simp⟩
  exact ⟨rfl, hw.1.1, hw.1.2, hw.2⟩

end SurfaceFitLemmas

section SurfaceFitLemmas2

variable {α : Type} [LinearOrderedField α]

theorem MatrixMatrixMultiply_status (A B out : NArray α) (fA fB : ℤ)
    (h : (MatrixMatrixMultiply A fA B fB out).1 = 1) :
    A.GetExtent 1 = B.GetExtent 0 ∧ (fA ≠ 0 → A.GetExtent 2 = 3) ∧
    (fB ≠ 0 → B.GetExtent 2 = 3) := by
  unfold MatrixMatrixMultiply at h
  dsimp only at h
  by_cases h0 : fA ≠ 0 ∧ A.GetExtent 2 ≠ 3
  · rw [if_pos h0] at h
    exact absurd h (by simp)
  · rw [if_neg h0] at h
    by_cases h1 : fB ≠ 0 ∧ B.GetExtent 2 ≠ 3
    · rw [if_pos h1] at h
      exact absurd h (by simp)
    · rw [if_neg h1] at h
      by_cases h2 : A.GetExtent 1 ≠ B.GetExtent 0
      · rw [if_pos h2] at h
        exact absurd h (by simp)
      · refine ⟨not_not.mp h2, ?_, ?_⟩
        · intro hA
          by_contra hc
          exact h0 ⟨hA, hc⟩
        · intro hB
          by_contra hc
          exact h1 ⟨hB, hc⟩

/-- With knots that are not of the derivative kind in either direction,
`GetControlPointsOfSurface` copies the two fixed-up basis matrices and the point matrix,
inverts, multiplies, transposes, multiplies and transposes back. -/
theorem GetControlPointsOfSurface_plain
    (InvertMatrix : (ℕ → ℕ → α) → ℕ → Option (ℕ → ℕ → α))
    (points : StructuredGrid α) (U V uWeights vWeights uKnots vKnots : List α) (p q : ℕ)
    (kutype kvtype : String) (DU0 DUN DV0 DVN : TupleArray α) (cPoints : StructuredGrid α)
    (hku : strncmpEq kutype "derivative" = false)
    (hkv : strncmpEq kvtype "derivative" = false) (NUF NVF pF : NArray α)
    (hU : NUF = DeepCopy ((GetPBasisFunctions U uKnots p (NArray.Resize [])).2.SetValue2
      ((GetPBasisFunctions U uKnots p (NArray.Resize [])).2.GetExtent 0 - 1)
      ((GetPBasisFunctions U uKnots p (NArray.Resize [])).2.GetExtent 1 - 1) 1)
      (NArray.Resize []))
    (hV : NVF = DeepCopy ((GetPBasisFunctions V vKnots q (NArray.Resize [])).2.SetValue2
      ((GetPBasisFunctions V vKnots q (NArray.Resize [])).2.GetExtent 0 - 1)
      ((GetPBasisFunctions V vKnots q (NArray.Resize [])).2.GetExtent 1 - 1) 1)
      (NArray.Resize []))
    (hP : pF = DeepCopy (StructuredGridToTypedArray points (NArray.Resize [])).2
      (NArray.Resize [])) :
    GetControlPointsOfSurface InvertMatrix points U V uWeights vWeights uKnots vKnots p q
        kutype kvtype DU0 DUN DV0 DVN cPoints
      = if (InvertSystem InvertMatrix NUF (NArray.Resize [])).1 ≠ 1 then some (0, cPoints)
        else if (InvertSystem InvertMatrix NVF (NArray.Resize [])).1 ≠ 1 then some (0, cPoints)
        else if (MatrixMatrixMultiply (InvertSystem InvertMatrix NUF (NArray.Resize [])).2 0
            pF 1 (NArray.Resize [])).1 ≠ 1 then some (0, cPoints)
        else if (MatrixMatrixMultiply (InvertSystem InvertMatrix NVF (NArray.Resize [])).2 0
            (MatrixTranspose (MatrixMatrixMultiply
              (InvertSystem InvertMatrix NUF (NArray.Resize [])).2 0 pF 1
              (NArray.Resize [])).2 1 (NArray.Resize [])).2 1 (NArray.Resize [])).1 ≠ 1
          then some (0, cPoints)
        else some (1, (TypedArrayToStructuredGrid
          (MatrixTranspose (MatrixMatrixMultiply
            (InvertSystem InvertMatrix NVF (NArray.Resize [])).2 0
            (MatrixTranspose (MatrixMatrixMultiply
              (InvertSystem InvertMatrix NUF (NArray.Resize [])).2 0 pF 1
              (NArray.Resize [])).2 1 (NArray.Resize [])).2 1 (NArray.Resize [])).2 1
            (NArray.Resize [])).2
          (StructuredGrid.mk cPoints.dims [])).2) := by
  unfold GetControlPointsOfSurface
  rw [if_neg (by simp [GetPBasisFunctions_status])]
  dsimp only
  rw [if_neg (by simp [GetPBasisFunctions_status])]
  rw [if_neg (by simp [hku, hkv]), hU, hV, hP]
  rfl

end SurfaceFitLemmas2

section SurfaceFitClaims

variable {α : Type} [LinearOrderedField α]

/-- C14 (tensor-product surface fit): whenever `GetControlPointsOfSurface` returns 1 with
knots that are not of the derivative kind on an `nU x nV` point grid `P`, the returned grid
`C` is again `nU x nV` and, with `Uinv` and `Vinv` the matrices that the inversion step
returned for the fixed-up U- and V-direction basis matrices,
`C(a,b,k) = sum_i sum_j Uinv(a,i) * P(i,j,k) * Vinv(b,j)` for every `(a,b)` and every
coordinate `k`. -/
theorem C14_surface_tensor_fit
    (InvertMatrix : (ℕ → ℕ → α) → ℕ → Option (ℕ → ℕ → α))
    (points : StructuredGrid α) (U V uWeights vWeights uKnots vKnots : List α) (p q : ℕ)
    (kutype kvtype : String) (DU0 DUN DV0 DVN : TupleArray α) (cPoints C : StructuredGrid α)
    (nU nV : ℕ)
    (hku : strncmpEq kutype "derivative" = false)
    (hkv : strncmpEq kvtype "derivative" = false)
    (hdims : points.dims = (nU, nV, 1))
    (hres : GetControlPointsOfSurface InvertMatrix points U V uWeights vWeights uKnots vKnots
      p q kutype kvtype DU0 DUN DV0 DVN cPoints = some (1, C)) :
    C.dims = (nU, nV, 1) ∧ C.points.length = nU * nV ∧
    ∃ inU Uinv inV Vinv : ℕ → ℕ → α,
      (∀ i j, i < nU → j < nU → inU i j =
        ((GetPBasisFunctions U uKnots p (NArray.Resize [])).2.SetValue2
          ((GetPBasisFunctions U uKnots p (NArray.Resize [])).2.GetExtent 0 - 1)
          ((GetPBasisFunctions U uKnots p (NArray.Resize [])).2.GetExtent 1 - 1) 1).GetValue2
          i j) ∧
      InvertMatrix inU nU = some Uinv ∧
      (∀ i j, i < nV → j < nV → inV i j =
        ((GetPBasisFunctions V vKnots q (NArray.Resize [])).2.SetValue2
          ((GetPBasisFunctions V vKnots q (NArray.Resize [])).2.GetExtent 0 - 1)
          ((GetPBasisFunctions V vKnots q (NArray.Resize [])).2.GetExtent 1 - 1) 1).GetValue2
          i j) ∧
      InvertMatrix inV nV = some Vinv ∧
      ∀ a b k, a < nU → b < nV → k < 3 →
        ptComp (GetPoint C.points (ComputePointId C.dims (a, b, 0))) k
          = ∑ i in Finset.range nU, ∑ j in Finset.range nV,
              Uinv a i * ptComp (GetPoint points.points (ComputePointId points.dims (i, j, 0))) k
                * Vinv b j := by
  rw [GetControlPointsOfSurface_plain InvertMatrix points U V uWeights vWeights uKnots vKnots
    p q kutype kvtype DU0 DUN DV0 DVN cPoints hku hkv _ _ _ rfl rfl rfl] at hres
  -- the two fixed-up basis matrices and their copies
  have hextU : ((GetPBasisFunctions U uKnots p (NArray.Resize [])).2.SetValue2
      ((GetPBasisFunctions U uKnots p (NArray.Resize [])).2.GetExtent 0 - 1)
      ((GetPBasisFunctions U uKnots p (NArray.Resize [])).2.GetExtent 1 - 1) 1).extents
      = [U.length, ((uKnots.length : ℤ) - (p : ℤ) - 1).toNat] :=
    GetPBasisFunctions_extents U uKnots p (NArray.Resize [])
  have hextV : ((GetPBasisFunctions V vKnots q (NArray.Resize [])).2.SetValue2
      ((GetPBasisFunctions V vKnots q (NArray.Resize [])).2.GetExtent 0 - 1)
      ((GetPBasisFunctions V vKnots q (NArray.Resize [])).2.GetExtent 1 - 1) 1).extents
      = [V.length, ((vKnots.length : ℤ) - (q : ℤ) - 1).toNat] :=
    GetPBasisFunctions_extents V vKnots q (NArray.Resize [])
  generalize ((GetPBasisFunctions U uKnots p (NArray.Resize [])).2.SetValue2
      ((GetPBasisFunctions U uKnots p (NArray.Resize [])).2.GetExtent 0 - 1)
      ((GetPBasisFunctions U uKnots p (NArray.Resize [])).2.GetExtent 1 - 1) 1) = NU
    at hres hextU ⊢
  generalize ((GetPBasisFunctions V vKnots q (NArray.Resize [])).2.SetValue2
      ((GetPBasisFunctions V vKnots q (NArray.Resize [])).2.GetExtent 0 - 1)
      ((GetPBasisFunctions V vKnots q (NArray.Resize [])).2.GetExtent 1 - 1) 1) = NV
    at hres hextV ⊢
  generalize ((uKnots.length : ℤ) - (p : ℤ) - 1).toNat = mU at hextU
  generalize ((vKnots.length : ℤ) - (q : ℤ) - 1).toNat = mV at hextV
  obtain ⟨hFUext, hFUval⟩ := DeepCopy_spec2 NU (NArray.Resize []) _ _ hextU
  obtain ⟨hFVext, hFVval⟩ := DeepCopy_spec2 NV (NArray.Resize []) _ _ hextV
  generalize DeepCopy NU (NArray.Resize []) = NUF at hres hFUext hFUval
  generalize DeepCopy NV (NArray.Resize []) = NVF at hres hFVext hFVval
  -- the point matrix and its copy
  have hd0 : points.dims.1 = nU := by rw [hdims]
  have hd1 : points.dims.2.1 = nV := by rw [hdims]
  obtain ⟨_, hPext0, hPval0⟩ := StructuredGridToTypedArray_spec points (NArray.Resize [])
    (by rw [hdims])
  rw [hd0, hd1] at hPext0 hPval0
  obtain ⟨hPext, hPval⟩ := DeepCopy_spec3 (StructuredGridToTypedArray points (NArray.Resize [])).2
    (NArray.Resize []) _ _ _ hPext0
  generalize DeepCopy (StructuredGridToTypedArray points (NArray.Resize [])).2
    (NArray.Resize []) = pF at hres hPext hPval
  have hP0 : pF.GetExtent 0 = nU := by rw [GetExtent_of_extents _ _ hPext]; rfl
  have hP1 : pF.GetExtent 1 = nV := by rw [GetExtent_of_extents _ _ hPext]; rfl
  have hP2 : pF.GetExtent 2 = 3 := by rw [GetExtent_of_extents _ _ hPext]; rfl
  -- the two inversions
  by_cases h1 : (InvertSystem InvertMatrix NUF (NArray.Resize [])).1 = 1
  swap
  · rw [if_pos h1] at hres
    simp at hres
  rw [if_neg (by simp [h1])] at hres
  by_cases h2 : (InvertSystem InvertMatrix NVF (NArray.Resize [])).1 = 1
  swap
  · rw [if_pos h2] at hres
    simp at hres
  rw [if_neg (by simp [h2])] at hres
  obtain ⟨hsqU, inU, Uinv, hinU, hsomeU, hIUext, hIUval⟩ :=
    InvertSystem_ok InvertMatrix NUF (NArray.Resize []) h1
  obtain ⟨hsqV, inV, Vinv, hinV, hsomeV, hIVext, hIVval⟩ :=
    InvertSystem_ok InvertMatrix NVF (NArray.Resize []) h2
  generalize (InvertSystem InvertMatrix NUF (NArray.Resize [])).2 = NUinv
    at hres hIUext hIUval
  generalize (InvertSystem InvertMatrix NVF (NArray.Resize [])).2 = NVinv
    at hres hIVext hIVval
  have hFU0 : NUF.GetExtent 0 = U.length := by rw [GetExtent_of_extents _ _ hFUext]; rfl
  have hFV0 : NVF.GetExtent 0 = V.length := by rw [GetExtent_of_extents _ _ hFVext]; rfl
  rw [hFU0] at hinU hsomeU hIUext hIUval
  rw [hFV0] at hinV hsomeV hIVext hIVval
  have hIU0 : NUinv.GetExtent 0 = U.length := by rw [GetExtent_of_extents _ _ hIUext]; rfl
  have hIU1 : NUinv.GetExtent 1 = U.length := by rw [GetExtent_of_extents _ _ hIUext]; rfl
  have hIV0 : NVinv.GetExtent 0 = V.length := by rw [GetExtent_of_extents _ _ hIVext]; rfl
  have hIV1 : NVinv.GetExtent 1 = V.length := by rw [GetExtent_of_extents _ _ hIVext]; rfl
  -- the first product and its transpose
  by_cases h3 : (MatrixMatrixMultiply NUinv 0 pF 1 (NArray.Resize [])).1 = 1
  swap
  · rw [if_pos h3] at hres
    simp at hres
  rw [if_neg (by simp [h3])] at hres
  have hc1 := (MatrixMatrixMultiply_status NUinv pF (NArray.Resize []) 0 1 h3).1
  rw [hIU1, hP0] at hc1
  rw [hc1] at hinU hsomeU hIUext hIUval hIU0 hIU1
  obtain ⟨_, hG1ext, hG1val⟩ := MatrixMatrixMultiply_pointRight NUinv pF (NArray.Resize []) 1
    (by decide) (by rw [hIU1, hP0]) hP2
  rw [hIU0, hP1] at hG1ext
  rw [hIU0, hIU1, hP1] at hG1val
  generalize (MatrixMatrixMultiply NUinv 0 pF 1 (NArray.Resize [])).2 = G1
    at hres hG1ext hG1val
  have hG10 : G1.GetExtent 0 = nU := by rw [GetExtent_of_extents _ _ hG1ext]; rfl
  have hG11 : G1.GetExtent 1 = nV := by rw [GetExtent_of_extents _ _ hG1ext]; rfl
  have hG12 : G1.GetExtent 2 = 3 := by rw [GetExtent_of_extents _ _ hG1ext]; rfl
  obtain ⟨_, hT1ext, hT1val⟩ := MatrixTranspose_points G1 (NArray.Resize []) 1 (by decide) hG12
  rw [hG10, hG11] at hT1ext hT1val
  generalize (MatrixTranspose G1 1 (NArray.Resize [])).2 = T1 at hres hT1ext hT1val
  have hT10 : T1.GetExtent 0 = nV := by rw [GetExtent_of_extents _ _ hT1ext]; rfl
  have hT11 : T1.GetExtent 1 = nU := by rw [GetExtent_of_extents _ _ hT1ext]; rfl
  have hT12 : T1.GetExtent 2 = 3 := by rw [GetExtent_of_extents _ _ hT1ext]; rfl
  -- the second product and its transpose
  by_cases h4 : (MatrixMatrixMultiply NVinv 0 T1 1 (NArray.Resize [])).1 = 1
  swap
  · rw [if_pos h4] at hres
    simp at hres
  rw [if_neg (by simp [h4])] at hres
  have hc2 := (MatrixMatrixMultiply_status NVinv T1 (NArray.Resize []) 0 1 h4).1
  rw [hIV1, hT10] at hc2
  rw [hc2] at hinV hsomeV hIVext hIVval hIV0 hIV1
  obtain ⟨_, hG2ext, hG2val⟩ := MatrixMatrixMultiply_pointRight NVinv T1 (NArray.Resize []) 1
    (by decide) (by rw [hIV1, hT10]) hT12
  rw [hIV0, hT11] at hG2ext
  rw [hIV0, hIV1, hT11] at hG2val
  generalize (MatrixMatrixMultiply NVinv 0 T1 1 (NArray.Resize [])).2 = G2
    at hres hG2ext hG2val
  have hG20 : G2.GetExtent 0 = nV := by rw [GetExtent_of_extents _ _ hG2ext]; rfl
  have hG21 : G2.GetExtent 1 = nU := by rw [GetExtent_of_extents _ _ hG2ext]; rfl
  have hG22 : G2.GetExtent 2 = 3 := by rw [GetExtent_of_extents _ _ hG2ext]; rfl
  obtain ⟨_, hT2ext, hT2val⟩ := MatrixTranspose_points G2 (NArray.Resize []) 1 (by decide) hG22
  rw [hG20, hG21] at hT2ext hT2val
  generalize (MatrixTranspose G2 1 (NArray.Resize [])).2 = T2 at hres hT2ext hT2val
  -- the grid
  obtain ⟨_, hCdims, hClen, hCval⟩ := TypedArrayToStructuredGrid_spec T2
    (StructuredGrid.mk cPoints.dims []) nU nV hT2ext
  have hC : C = (TypedArrayToStructuredGrid T2 (StructuredGrid.mk cPoints.dims [])).2 := by
    have h5 := Option.some.inj hres
    exact (congrArg Prod.snd h5).symm
  rw [← hC] at hCdims hClen hCval
  refine ⟨hCdims, hClen, inU, Uinv, inV, Vinv, ?_, hsomeU, ?_, hsomeV, ?_⟩
  · intro i j hi hj
    rw [hinU i j hi hj, hFUval i j (by rw [hc1]; exact hi) ?_]
    have e : NUF.GetExtent 1 = mU := by rw [GetExtent_of_extents _ _ hFUext]; rfl
    rw [← e, ← hsqU, hFU0, hc1]
    exact hj
  · intro i j hi hj
    rw [hinV i j hi hj, hFVval i j (by rw [hc2]; exact hi) ?_]
    have e : NVF.GetExtent 1 = mV := by rw [GetExtent_of_extents _ _ hFVext]; rfl
    rw [← e, ← hsqV, hFV0, hc2]
    exact hj
  · intro a b k ha hb hk
    rw [hCdims, hdims, ComputePointId_plane, hCval a b ha hb,
      ptComp_mk (fun k => T2.GetValue3 a b k) k hk, hT2val b a k hb ha hk,
      hG2val b a k hb ha hk, Finset.sum_comm]
    refine Finset.sum_congr rfl ?_
    intro j hj
    have hj2 : j < nV := Finset.mem_range.mp hj
    rw [hT1val a j k ha hj2 hk, hG1val a j k ha hj2 hk, Finset.mul_sum]
    refine Finset.sum_congr rfl ?_
    intro i hi
    have hi2 : i < nU := Finset.mem_range.mp hi
    rw [hIVval b j hb hj2, hIUval a i ha hi2, hPval i j k hi2 hj2 hk, hPval0 i j k hi2 hj2 hk]
    rw [ComputePointId_plane, ComputePointId_plane, hd0]
    ring

end SurfaceFitClaims

section SingularLemmas

variable {α : Type} [LinearOrderedField α]

/-- If the inversion step fails on the matrix `N`, `InvertSystem` fails on its copy. -/
theorem InvertSystem_fail_copy (InvertMatrix : (ℕ → ℕ → α) → ℕ → Option (ℕ → ℕ → α))
    (N out NPinv : NArray α) (a b : ℕ) (hext : N.extents = [a, b])
    (hfail : ∀ inMat : ℕ → ℕ → α,
      (∀ i j, i < N.GetExtent 0 → j < N.GetExtent 0 → inMat i j = N.GetValue2 i j) →
      InvertMatrix inMat (N.GetExtent 0) = none) :
    InvertSystem InvertMatrix (DeepCopy N out) NPinv = (0, NPinv) := by
  obtain ⟨hcext, hcval⟩ := DeepCopy_spec2 N out a b hext
  have hN0 : N.GetExtent 0 = a := by rw [GetExtent_of_extents _ _ hext]; rfl
  have hc0 : (DeepCopy N out).GetExtent 0 = a := by rw [GetExtent_of_extents _ _ hcext]; rfl
  have hc1 : (DeepCopy N out).GetExtent 1 = b := by rw [GetExtent_of_extents _ _ hcext]; rfl
  by_cases hab : a = b
  · subst hab
    apply InvertSystem_fail
    intro inMat hin
    rw [hc0] at hin ⊢
    rw [hN0] at hfail
    apply hfail inMat
    intro i j hi hj
    rw [hin i j hi hj, hcval i j hi hj]
  · unfold InvertSystem
    rw [hc0, hc1]
    simp [hab]

end SingularLemmas

section SingularGeneral

variable {α : Type} [LinearOrderedField α]

/-- `GetControlPointsOfCurve` after the assembly of its linear system `sys` (the copies of the
fixed-up basis matrix and of the points, or their derivative-augmented versions). -/
theorem GetControlPointsOfCurve_sys
    (InvertMatrix : (ℕ → ℕ → α) → ℕ → Option (ℕ → ℕ → α))
    (points : List (α × α × α)) (U weights knots : List α) (p : ℕ) (ktype : String)
    (D0 DN : ℕ → α) (cPoints : List (α × α × α)) (sys : NArray α × NArray α)
    (hsys : (if strncmpEq ktype "derivative" then
        SetCurveEndDerivatives
          ((GetPBasisFunctions U knots p (NArray.Resize [])).2.SetValue2
            ((GetPBasisFunctions U knots p (NArray.Resize [])).2.GetExtent 0 - 1)
            ((GetPBasisFunctions U knots p (NArray.Resize [])).2.GetExtent 1 - 1) 1)
          (PointsToTypedArray points (NArray.Resize [])) p D0 DN U knots
          (NArray.Resize []) (NArray.Resize [])
      else
        some (DeepCopy ((GetPBasisFunctions U knots p (NArray.Resize [])).2.SetValue2
            ((GetPBasisFunctions U knots p (NArray.Resize [])).2.GetExtent 0 - 1)
            ((GetPBasisFunctions U knots p (NArray.Resize [])).2.GetExtent 1 - 1) 1)
            (NArray.Resize []),
          DeepCopy (PointsToTypedArray points (NArray.Resize [])) (NArray.Resize [])))
      = some sys) :
    GetControlPointsOfCurve InvertMatrix points U weights knots p ktype D0 DN cPoints
      = if (InvertSystem InvertMatrix sys.1 (NArray.Resize [])).1 ≠ 1 then some (0, cPoints)
        else if (MatrixVecMultiply (InvertSystem InvertMatrix sys.1 (NArray.Resize [])).2 0
            sys.2 1 (NArray.Resize [])).1 ≠ 1 then some (0, cPoints)
        else some (1, TypedArrayToPoints
          (MatrixVecMultiply (InvertSystem InvertMatrix sys.1 (NArray.Resize [])).2 0
            sys.2 1 (NArray.Resize [])).2 cPoints) := by
  unfold GetControlPointsOfCurve
  rw [if_neg (by simp [GetPBasisFunctions_status])]
  dsimp only
  rw [hsys]
  rfl

/-- `GetControlPointsOfSurface` up to its second inversion, after the assembly of its linear
systems `sys`: a failed inversion in either direction makes it return 0 with `cPoints` as it
was. -/
theorem GetControlPointsOfSurface_fail
    (InvertMatrix : (ℕ → ℕ → α) → ℕ → Option (ℕ → ℕ → α))
    (points : StructuredGrid α) (U V uWeights vWeights uKnots vKnots : List α) (p q : ℕ)
    (kutype kvtype : String) (DU0 DUN DV0 DVN : TupleArray α) (cPoints : StructuredGrid α)
    (sys : NArray α × NArray α × NArray α)
    (hsys : (if strncmpEq kvtype "derivative" ∨ strncmpEq kutype "derivative" then
        SetSurfaceEndDerivatives
          ((GetPBasisFunctions U uKnots p (NArray.Resize [])).2.SetValue2
            ((GetPBasisFunctions U uKnots p (NArray.Resize [])).2.GetExtent 0 - 1)
            ((GetPBasisFunctions U uKnots p (NArray.Resize [])).2.GetExtent 1 - 1) 1)
          ((GetPBasisFunctions V vKnots q (NArray.Resize [])).2.SetValue2
            ((GetPBasisFunctions V vKnots q (NArray.Resize [])).2.GetExtent 0 - 1)
            ((GetPBasisFunctions V vKnots q (NArray.Resize [])).2.GetExtent 1 - 1) 1)
          (StructuredGridToTypedArray points (NArray.Resize [])).2 p q kutype kvtype
          (DoubleArrayToTypedArray DU0 (NArray.Resize []))
          (DoubleArrayToTypedArray DUN (NArray.Resize []))
          (DoubleArrayToTypedArray DV0 (NArray.Resize []))
          (DoubleArrayToTypedArray DVN (NArray.Resize [])) U V uKnots vKnots
          (NArray.Resize []) (NArray.Resize []) (NArray.Resize [])
      else
        some (DeepCopy ((GetPBasisFunctions U uKnots p (NArray.Resize [])).2.SetValue2
            ((GetPBasisFunctions U uKnots p (NArray.Resize [])).2.GetExtent 0 - 1)
            ((GetPBasisFunctions U uKnots p (NArray.Resize [])).2.GetExtent 1 - 1) 1)
            (NArray.Resize []),
          DeepCopy ((GetPBasisFunctions V vKnots q (NArray.Resize [])).2.SetValue2
            ((GetPBasisFunctions V vKnots q (NArray.Resize [])).2.GetExtent 0 - 1)
            ((GetPBasisFunctions V vKnots q (NArray.Resize [])).2.GetExtent 1 - 1) 1)
            (NArray.Resize []),
          DeepCopy (StructuredGridToTypedArray points (NArray.Resize [])).2 (NArray.Resize [])))
      = some sys)
    (hfail : (InvertSystem InvertMatrix sys.1 (NArray.Resize [])).1 ≠ 1 ∨
      (InvertSystem InvertMatrix sys.2.1 (NArray.Resize [])).1 ≠ 1) :
    GetControlPointsOfSurface InvertMatrix points U V uWeights vWeights uKnots vKnots p q
      kutype kvtype DU0 DUN DV0 DVN cPoints = some (0, cPoints) := by
  unfold GetControlPointsOfSurface
  rw [if_neg (by simp [GetPBasisFunctions_status])]
  dsimp only
  rw [if_neg (by simp [GetPBasisFunctions_status])]
  rw [hsys]
  simp only [Option.some_bind]
  by_cases h1 : (InvertSystem InvertMatrix sys.1 (NArray.Resize [])).1 ≠ 1
  · rw [if_pos h1]
  · rw [if_neg h1]
    rcases hfail with h | h
    · exact absurd h h1
    · rw [if_pos h]

end SingularGeneral

section SingularClaims

variable {α : Type} [LinearOrderedField α]

/-- C20 (singular system propagation): when the inversion step reports failure on a matrix,
`InvertSystem` returns 0 and leaves its output as it was; when it reports failure on the
system matrix that `GetControlPointsOfCurve` assembled (the copy of the fixed-up basis
matrix, or its derivative-augmented version), that function returns 0, and when it reports
failure on the system matrix of the U or of the V direction, `GetControlPointsOfSurface`
returns 0; in both cases `cPoints` is unchanged. -/
theorem C20_singular_system
    (InvertMatrix : (ℕ → ℕ → α) → ℕ → Option (ℕ → ℕ → α)) (NP NPinv : NArray α)
    (cpoints : List (α × α × α)) (Uc weights knots : List α) (pc : ℕ) (ktype : String)
    (D0 DN : ℕ → α) (cPointsCurve : List (α × α × α)) (sysC : NArray α × NArray α)
    (points : StructuredGrid α) (U V uWeights vWeights uKnots vKnots : List α) (p q : ℕ)
    (kutype kvtype : String) (DU0 DUN DV0 DVN : TupleArray α) (cPoints : StructuredGrid α)
    (sysS : NArray α × NArray α × NArray α)
    (hNP : ∀ inMat : ℕ → ℕ → α,
        (∀ i j, i < NP.GetExtent 0 → j < NP.GetExtent 0 → inMat i j = NP.GetValue2 i j) →
        InvertMatrix inMat (NP.GetExtent 0) = none)
    (hsysC : (if strncmpEq ktype "derivative" then
        SetCurveEndDerivatives
          ((GetPBasisFunctions Uc knots pc (NArray.Resize [])).2.SetValue2
            ((GetPBasisFunctions Uc knots pc (NArray.Resize [])).2.GetExtent 0 - 1)
            ((GetPBasisFunctions Uc knots pc (NArray.Resize [])).2.GetExtent 1 - 1) 1)
          (PointsToTypedArray cpoints (NArray.Resize [])) pc D0 DN Uc knots
          (NArray.Resize []) (NArray.Resize [])
      else
        some (DeepCopy ((GetPBasisFunctions Uc knots pc (NArray.Resize [])).2.SetValue2
          ((GetPBasisFunctions Uc knots pc (NArray.Resize [])).2.GetExtent 0 - 1)
          ((GetPBasisFunctions Uc knots pc (NArray.Resize [])).2.GetExtent 1 - 1) 1)
            (NArray.Resize []),
          DeepCopy (PointsToTypedArray cpoints (NArray.Resize [])) (NArray.Resize [])))
      = some sysC)
    (hfailC : ∀ inMat : ℕ → ℕ → α,
        (∀ i j, i < sysC.1.GetExtent 0 → j < sysC.1.GetExtent 0 → inMat i j = sysC.1.GetValue2 i j) →
        InvertMatrix inMat (sysC.1.GetExtent 0) = none)
    (hsysS : (if strncmpEq kvtype "derivative" ∨ strncmpEq kutype "derivative" then
        SetSurfaceEndDerivatives
          ((GetPBasisFunctions U uKnots p (NArray.Resize [])).2.SetValue2
            ((GetPBasisFunctions U uKnots p (NArray.Resize [])).2.GetExtent 0 - 1)
            ((GetPBasisFunctions U uKnots p (NArray.Resize [])).2.GetExtent 1 - 1) 1)
          ((GetPBasisFunctions V vKnots q (NArray.Resize [])).2.SetValue2
            ((GetPBasisFunctions V vKnots q (NArray.Resize [])).2.GetExtent 0 - 1)
            ((GetPBasisFunctions V vKnots q (NArray.Resize [])).2.GetExtent 1 - 1) 1)
          (StructuredGridToTypedArray points (NArray.Resize [])).2 p q kutype kvtype
          (DoubleArrayToTypedArray DU0 (NArray.Resize []))
          (DoubleArrayToTypedArray DUN (NArray.Resize []))
          (DoubleArrayToTypedArray DV0 (NArray.Resize []))
          (DoubleArrayToTypedArray DVN (NArray.Resize [])) U V uKnots vKnots
          (NArray.Resize []) (NArray.Resize []) (NArray.Resize [])
      else
        some (DeepCopy ((GetPBasisFunctions U uKnots p (NArray.Resize [])).2.SetValue2
          ((GetPBasisFunctions U uKnots p (NArray.Resize [])).2.GetExtent 0 - 1)
          ((GetPBasisFunctions U uKnots p (NArray.Resize [])).2.GetExtent 1 - 1) 1)
            (NArray.Resize []),
          DeepCopy ((GetPBasisFunctions V vKnots q (NArray.Resize [])).2.SetValue2
          ((GetPBasisFunctions V vKnots q (NArray.Resize [])).2.GetExtent 0 - 1)
          ((GetPBasisFunctions V vKnots q (NArray.Resize [])).2.GetExtent 1 - 1) 1)
            (NArray.Resize []),
          DeepCopy (StructuredGridToTypedArray points (NArray.Resize [])).2 (NArray.Resize [])))
      = some sysS)
    (hfailS :
      (∀ inMat : ℕ → ℕ → α,
        (∀ i j, i < sysS.1.GetExtent 0 → j < sysS.1.GetExtent 0 → inMat i j = sysS.1.GetValue2 i j) →
        InvertMatrix inMat (sysS.1.GetExtent 0) = none) ∨
      (∀ inMat : ℕ → ℕ → α,
        (∀ i j, i < sysS.2.1.GetExtent 0 → j < sysS.2.1.GetExtent 0 → inMat i j = sysS.2.1.GetValue2 i j) →
        InvertMatrix inMat (sysS.2.1.GetExtent 0) = none)) :
    InvertSystem InvertMatrix NP NPinv = (0, NPinv) ∧
    GetControlPointsOfCurve InvertMatrix cpoints Uc weights knots pc ktype D0 DN cPointsCurve
      = some (0, cPointsCurve) ∧
    GetControlPointsOfSurface InvertMatrix points U V uWeights vWeights uKnots vKnots p q
      kutype kvtype DU0 DUN DV0 DVN cPoints = some (0, cPoints) := by
  refine ⟨InvertSystem_fail InvertMatrix NP NPinv hNP, ?_, ?_⟩
  · rw [GetControlPointsOfCurve_sys InvertMatrix cpoints Uc weights knots pc ktype D0 DN
      cPointsCurve sysC hsysC, InvertSystem_fail InvertMatrix sysC.1 (NArray.Resize []) hfailC]
    simp
  · refine GetControlPointsOfSurface_fail InvertMatrix points U V uWeights vWeights uKnots
      vKnots p q kutype kvtype DU0 DUN DV0 DVN cPoints sysS hsysS ?_
    rcases hfailS with h | h
    · left
      rw [InvertSystem_fail InvertMatrix sysS.1 (NArray.Resize []) h]
      simp
    · right
      rw [InvertSystem_fail InvertMatrix sysS.2.1 (NArray.Resize []) h]
      simp

end SingularClaims

section SurfaceFitWitness

/-- A 2 x 2 surface fit of degree (1,1) with parameters `0` and `1/2` in both directions. -/
theorem surface_fit_example :
    (GetControlPointsOfSurface InvertMatrix2 exampleGrid [0, 1 / 2] [0, 1 / 2] [] []
        [0, 0, 1, 1] [0, 0, 1, 1] 1 1 "equal" "equal" noDerivatives noDerivatives
        noDerivatives noDerivatives { dims := (0, 0, 0), points := [] }).map
      (fun r => (r.1, r.2.dims, r.2.points))
      = some (1, (2, 2, 1), [(0, 0, 0), (2, 0, 4), (0, 2, 2), (1, 3, 3)]) := by
  decide!

/-- Witness of C14: the 2 x 2 fit above. -/
theorem C14_surface_tensor_fit_witness :
    GetControlPointsOfSurface InvertMatrix2 exampleGrid [0, 1 / 2] [0, 1 / 2] [] []
        [0, 0, 1, 1] [0, 0, 1, 1] 1 1 "equal" "equal" noDerivatives noDerivatives
        noDerivatives noDerivatives { dims := (0, 0, 0), points := [] }
      = some (1, ({ dims := (2, 2, 1), points := [(0, 0, 0), (2, 0, 4), (0, 2, 2), (1, 3, 3)] } :
        StructuredGrid ℚ)) ∧
    (({ dims := (2, 2, 1), points := [(0, 0, 0), (2, 0, 4), (0, 2, 2), (1, 3, 3)] } :
        StructuredGrid ℚ).dims = (2, 2, 1) ∧
    ({ dims := (2, 2, 1), points := [(0, 0, 0), (2, 0, 4), (0, 2, 2), (1, 3, 3)] } :
        StructuredGrid ℚ).points.length = 2 * 2 ∧
    ∃ inU Uinv inV Vinv : ℕ → ℕ → ℚ,
      (∀ i j, i < 2 → j < 2 → inU i j =
        ((GetPBasisFunctions [(0 : ℚ), 1 / 2] [0, 0, 1, 1] 1 (NArray.Resize [])).2.SetValue2
          ((GetPBasisFunctions [(0 : ℚ), 1 / 2] [0, 0, 1, 1] 1 (NArray.Resize [])).2.GetExtent 0 - 1)
          ((GetPBasisFunctions [(0 : ℚ), 1 / 2] [0, 0, 1, 1] 1 (NArray.Resize [])).2.GetExtent 1 - 1) 1).GetValue2 i j) ∧
      InvertMatrix2 inU 2 = some Uinv ∧
      (∀ i j, i < 2 → j < 2 → inV i j =
        ((GetPBasisFunctions [(0 : ℚ), 1 / 2] [0, 0, 1, 1] 1 (NArray.Resize [])).2.SetValue2
          ((GetPBasisFunctions [(0 : ℚ), 1 / 2] [0, 0, 1, 1] 1 (NArray.Resize [])).2.GetExtent 0 - 1)
          ((GetPBasisFunctions [(0 : ℚ), 1 / 2] [0, 0, 1, 1] 1 (NArray.Resize [])).2.GetExtent 1 - 1) 1).GetValue2 i j) ∧
      InvertMatrix2 inV 2 = some Vinv ∧
      ∀ a b k, a < 2 → b < 2 → k < 3 →
        ptComp (GetPoint ({ dims := (2, 2, 1), points := [(0, 0, 0), (2, 0, 4), (0, 2, 2), (1, 3, 3)] } :
        StructuredGrid ℚ).points
          (ComputePointId ({ dims := (2, 2, 1), points := [(0, 0, 0), (2, 0, 4), (0, 2, 2), (1, 3, 3)] } :
        StructuredGrid ℚ).dims (a, b, 0))) k
          = ∑ i in Finset.range 2, ∑ j in Finset.range 2,
              Uinv a i * ptComp (GetPoint exampleGrid.points
                (ComputePointId exampleGrid.dims (i, j, 0))) k * Vinv b j) :=
  ⟨by decide!,
    C14_surface_tensor_fit InvertMatrix2 exampleGrid [0, 1 / 2] [0, 1 / 2] [] []
      [0, 0, 1, 1] [0, 0, 1, 1] 1 1 "equal" "equal" noDerivatives noDerivatives
      noDerivatives noDerivatives { dims := (0, 0, 0), points := [] }
      { dims := (2, 2, 1), points := [(0, 0, 0), (2, 0, 4), (0, 2, 2), (1, 3, 3)] } 2 2
      (by decide) (by decide) rfl (by decide!)⟩

/-- The 2 x 2 inversion reports failure on every matrix with a zero first row. -/
theorem zero_row_fails (M : NArray ℚ) (h2 : M.GetExtent 0 = 2) (h00 : M.GetValue2 0 0 = 0)
    (h01 : M.GetValue2 0 1 = 0) (inMat : ℕ → ℕ → ℚ)
    (h : ∀ i j, i < M.GetExtent 0 → j < M.GetExtent 0 → inMat i j = M.GetValue2 i j) :
    InvertMatrix2 inMat (M.GetExtent 0) = none := by
  rw [h2] at h ⊢
  have e00 := h 0 0 (by decide) (by decide)
  have e01 := h 0 1 (by decide) (by decide)
  rw [h00] at e00
  rw [h01] at e01
  unfold InvertMatrix2
  rw [if_pos rfl]
  dsimp only
  rw [if_pos (by rw [e00, e01]; ring)]

/-- The fixed-up basis matrix of the parameters `[1, 1]` on the knots `[0, 0, 1, 1]` is
`[[0, 0], [0, 1]]`: it has a zero row, and so has its copy. -/
theorem singular_example :
    (DeepCopy ((GetPBasisFunctions [(1 : ℚ), 1] [0, 0, 1, 1] 1 (NArray.Resize [])).2.SetValue2
        ((GetPBasisFunctions [(1 : ℚ), 1] [0, 0, 1, 1] 1 (NArray.Resize [])).2.GetExtent 0 - 1)
        ((GetPBasisFunctions [(1 : ℚ), 1] [0, 0, 1, 1] 1 (NArray.Resize [])).2.GetExtent 1 - 1) 1)
      (NArray.Resize [])).GetExtent 0 = 2 ∧
    (DeepCopy ((GetPBasisFunctions [(1 : ℚ), 1] [0, 0, 1, 1] 1 (NArray.Resize [])).2.SetValue2
        ((GetPBasisFunctions [(1 : ℚ), 1] [0, 0, 1, 1] 1 (NArray.Resize [])).2.GetExtent 0 - 1)
        ((GetPBasisFunctions [(1 : ℚ), 1] [0, 0, 1, 1] 1 (NArray.Resize [])).2.GetExtent 1 - 1) 1)
      (NArray.Resize [])).GetValue2 0 0 = 0 ∧
    (DeepCopy ((GetPBasisFunctions [(1 : ℚ), 1] [0, 0, 1, 1] 1 (NArray.Resize [])).2.SetValue2
        ((GetPBasisFunctions [(1 : ℚ), 1] [0, 0, 1, 1] 1 (NArray.Resize [])).2.GetExtent 0 - 1)
        ((GetPBasisFunctions [(1 : ℚ), 1] [0, 0, 1, 1] 1 (NArray.Resize [])).2.GetExtent 1 - 1) 1)
      (NArray.Resize [])).GetValue2 0 1 = 0 := by
  decide!

/-- Witness of C20: the parameters `[1, 1]` on the knots `[0, 0, 1, 1]`, whose fixed-up basis
matrix has a zero row. -/
theorem C20_singular_system_witness :
    InvertSystem InvertMatrix2
      (DeepCopy ((GetPBasisFunctions [(1 : ℚ), 1] [0, 0, 1, 1] 1 (NArray.Resize [])).2.SetValue2
        ((GetPBasisFunctions [(1 : ℚ), 1] [0, 0, 1, 1] 1 (NArray.Resize [])).2.GetExtent 0 - 1)
        ((GetPBasisFunctions [(1 : ℚ), 1] [0, 0, 1, 1] 1 (NArray.Resize [])).2.GetExtent 1 - 1) 1)
      (NArray.Resize []))
      ({ extents := [7], val := fun _ _ _ => 5 } : NArray ℚ)
      = (0, ({ extents := [7], val := fun _ _ _ => 5 } : NArray ℚ)) ∧
    GetControlPointsOfCurve InvertMatrix2 [((2 : ℚ), 0, 4), (2, 4, 6)] [1, 1] []
        [0, 0, 1, 1] 1 "equal" (fun _ => 0) (fun _ => 0) [(1, 1, 1)]
      = some (0, [(1, 1, 1)]) ∧
    GetControlPointsOfSurface InvertMatrix2 exampleGrid [1, 1] [0, 1 / 2] [] []
        [0, 0, 1, 1] [0, 0, 1, 1] 1 1 "equal" "equal" noDerivatives noDerivatives
        noDerivatives noDerivatives { dims := (5, 0, 0), points := [(1, 1, 1)] }
      = some (0, { dims := (5, 0, 0), points := [(1, 1, 1)] }) :=
  C20_singular_system InvertMatrix2
    (DeepCopy ((GetPBasisFunctions [(1 : ℚ), 1] [0, 0, 1, 1] 1 (NArray.Resize [])).2.SetValue2
        ((GetPBasisFunctions [(1 : ℚ), 1] [0, 0, 1, 1] 1 (NArray.Resize [])).2.GetExtent 0 - 1)
        ((GetPBasisFunctions [(1 : ℚ), 1] [0, 0, 1, 1] 1 (NArray.Resize [])).2.GetExtent 1 - 1) 1)
      (NArray.Resize []))
    ({ extents := [7], val := fun _ _ _ => 5 } : NArray ℚ)
    [((2 : ℚ), 0, 4), (2, 4, 6)] [1, 1] [] [0, 0, 1, 1] 1 "equal" (fun _ => 0) (fun _ => 0)
    [(1, 1, 1)]
    ((DeepCopy ((GetPBasisFunctions [(1 : ℚ), 1] [0, 0, 1, 1] 1 (NArray.Resize [])).2.SetValue2
        ((GetPBasisFunctions [(1 : ℚ), 1] [0, 0, 1, 1] 1 (NArray.Resize [])).2.GetExtent 0 - 1)
        ((GetPBasisFunctions [(1 : ℚ), 1] [0, 0, 1, 1] 1 (NArray.Resize [])).2.GetExtent 1 - 1) 1)
      (NArray.Resize [])),
      DeepCopy (PointsToTypedArray [((2 : ℚ), 0, 4), (2, 4, 6)] (NArray.Resize []))
        (NArray.Resize []))
    exampleGrid [1, 1] [0, 1 / 2] [] [] [0, 0, 1, 1] [0, 0, 1, 1] 1 1 "equal" "equal"
    noDerivatives noDerivatives noDerivatives noDerivatives
    { dims := (5, 0, 0), points := [(1, 1, 1)] }
    ((DeepCopy ((GetPBasisFunctions [(1 : ℚ), 1] [0, 0, 1, 1] 1 (NArray.Resize [])).2.SetValue2
        ((GetPBasisFunctions [(1 : ℚ), 1] [0, 0, 1, 1] 1 (NArray.Resize [])).2.GetExtent 0 - 1)
        ((GetPBasisFunctions [(1 : ℚ), 1] [0, 0, 1, 1] 1 (NArray.Resize [])).2.GetExtent 1 - 1) 1)
      (NArray.Resize [])),
      DeepCopy ((GetPBasisFunctions [(0 : ℚ), 1 / 2] [0, 0, 1, 1] 1 (NArray.Resize [])).2.SetValue2
        ((GetPBasisFunctions [(0 : ℚ), 1 / 2] [0, 0, 1, 1] 1 (NArray.Resize [])).2.GetExtent 0 - 1)
        ((GetPBasisFunctions [(0 : ℚ), 1 / 2] [0, 0, 1, 1] 1 (NArray.Resize [])).2.GetExtent 1 - 1) 1)
        (NArray.Resize []),
      DeepCopy (StructuredGridToTypedArray exampleGrid (NArray.Resize [])).2 (NArray.Resize []))
    (zero_row_fails _ singular_example.1 singular_example.2.1 singular_example.2.2)
    (if_neg (by decide))
    (zero_row_fails _ singular_example.1 singular_example.2.1 singular_example.2.2)
    (if_neg (by decide))
    (Or.inl (zero_row_fails _ singular_example.1 singular_example.2.1 singular_example.2.2))

end SurfaceFitWitness

/-! ## The rational basis matrix of the tessellation -/

section RationalLemmas

variable {α : Type} [LinearOrderedField α]

theorem GetValue2_SetValue2 (m : NArray α) (i j : ℕ) (v : α) (a b : ℕ) :
    (m.SetValue2 i j v).GetValue2 a b = if a = i ∧ b = j then v else m.GetValue2 a b := by
  simp [NArray.GetValue2, NArray.SetValue2, NArray.SetValue3]

theorem LinSpaceChecked_eq (min max : α) (num : ℕ) (h : num ≠ 1) :
    LinSpaceChecked min max num = some (LinSpace min max num) := by
  have hne : (((num : ℤ) - 1 : ℤ) : α) ≠ 0 := by
    have : (num : ℤ) - 1 ≠ 0 := by omega
    exact_mod_cast this
  unfold LinSpaceChecked LinSpace divChecked
  simp only [if_neg hne, Option.map_some']

theorem rationalSums_spec (weights : List α) (nCon numDiv : ℕ) (M : NArray α) :
    (rationalSums weights nCon numDiv M).length = numDiv ∧
    ∀ i, i < numDiv → GetTuple1 (rationalSums weights nCon numDiv M) i
      = ∑ j in Finset.range nCon, M.GetValue2 i j * GetTuple1 weights j := by
  unfold rationalSums
  have key := forLoop_inv 0 numDiv
    (fun i (Nrational : List α) =>
      let ratVal : α := forLoop 0 nCon (fun j ratVal =>
        let val := M.GetValue2 i j
        let ratWeight := GetTuple1 weights j
        ratVal + val * ratWeight) 0
      SetTuple1 Nrational i ratVal) (List.replicate numDiv (0 : α))
    (fun n r => r.length = numDiv ∧ ∀ i, i < n → GetTuple1 r i
      = ∑ j in Finset.range nCon, M.GetValue2 i j * GetTuple1 weights j)
    (Nat.zero_le _) ⟨by simp, fun i hi => absurd hi (Nat.not_lt_zero _)⟩
    (by
      intro n r _ hn ⟨h1, h2⟩
      refine ⟨by simp [h1], ?_⟩
      intro i hi
      dsimp only
      rw [GetTuple1_SetTuple1]
      by_cases hin : n = i
      · subst hin
        rw [if_pos ⟨rfl, by omega⟩]
        rw [forLoop_sum nCon (fun j => M.GetValue2 n j * GetTuple1 weights j) 0, zero_add]
      · rw [if_neg (fun h => hin h.1)]
        exact h2 i (by omega))
  exact key

theorem rationalNormalize_spec (weights : List α) (nCon numDiv : ℕ) (R : List α)
    (M : NArray α) (hR : ∀ i, i < numDiv → GetTuple1 R i ≠ 0) :
    ∃ N, rationalNormalize weights nCon numDiv R M = some N ∧ N.extents = M.extents ∧
      ∀ i j, i < numDiv → j < nCon →
        N.GetValue2 i j = M.GetValue2 i j * GetTuple1 weights j / GetTuple1 R i := by
  unfold rationalNormalize
  obtain ⟨N, hN, hI⟩ := forLoopM_inv 0 numDiv
    (fun i Nfinal =>
      forLoopM 0 nCon (fun j (Nfinal : NArray α) =>
        let val := Nfinal.GetValue2 i j
        let ratVal := GetTuple1 R i
        let ratWeight := GetTuple1 weights j
        (divChecked (val * ratWeight) ratVal).map (fun v => Nfinal.SetValue2 i j v)) Nfinal) M
    (fun n t => t.extents = M.extents ∧
      (∀ r c, r < n → c < nCon →
        t.GetValue2 r c = M.GetValue2 r c * GetTuple1 weights c / GetTuple1 R r) ∧
      (∀ r c, n ≤ r → t.GetValue2 r c = M.GetValue2 r c))
    (Nat.zero_le _) ⟨rfl, fun r c hr => absurd hr (Nat.not_lt_zero _), fun r c _ => rfl⟩
    (by
      intro i t _ hi ⟨h1, h2, h3⟩
      obtain ⟨t', ht', hI'⟩ := forLoopM_inv 0 nCon
        (fun j (Nfinal : NArray α) =>
          let val := Nfinal.GetValue2 i j
          let ratVal := GetTuple1 R i
          let ratWeight := GetTuple1 weights j
          (divChecked (val * ratWeight) ratVal).map (fun v => Nfinal.SetValue2 i j v)) t
        (fun m s => s.extents = M.extents ∧
          (∀ r c, r < i → c < nCon →
            s.GetValue2 r c = M.GetValue2 r c * GetTuple1 weights c / GetTuple1 R r) ∧
          (∀ c, c < m →
            s.GetValue2 i c = M.GetValue2 i c * GetTuple1 weights c / GetTuple1 R i) ∧
          (∀ c, m ≤ c → s.GetValue2 i c = M.GetValue2 i c) ∧
          (∀ r c, i < r → s.GetValue2 r c = M.GetValue2 r c))
        (Nat.zero_le _)
        ⟨h1, h2, fun c hc => absurd hc (Nat.not_lt_zero _), fun c _ => h3 i c (le_refl _),
          fun r c hr => h3 r c (by omega)⟩
        (by
          intro j s _ hj ⟨a1, a2, a3, a4, a5⟩
          refine ⟨s.SetValue2 i j (s.GetValue2 i j * GetTuple1 weights j / GetTuple1 R i), ?_,
            a1, ?_, ?_, ?_, ?_⟩
          · simp only [divChecked, if_neg (hR i hi), Option.map_some']
          · intro r c hr hc
            rw [GetValue2_SetValue2, if_neg (by omega)]
            exact a2 r c hr hc
          · intro c hc
            rw [GetValue2_SetValue2]
            by_cases hcj : c = j
            · subst hcj
              rw [if_pos ⟨rfl, rfl⟩, a4 c (le_refl _)]
            · rw [if_neg (fun h => hcj h.2)]
              exact a3 c (by omega)
          · intro c hc
            rw [GetValue2_SetValue2, if_neg (by omega)]
            exact a4 c (by omega)
          · intro r c hr
            rw [GetValue2_SetValue2, if_neg (by omega)]
            exact a5 r c hr)
      refine ⟨t', ht', hI'.1, ?_, ?_⟩
      · intro r c hr hc
        by_cases hri : r = i
        · subst hri
          exact hI'.2.2.1 c hc
        · exact hI'.2.1 r c (by omega) hc
      · intro r c hr
        exact hI'.2.2.2.2 r c (by omega))
  exact ⟨N, hN, hI.1, fun i j hi hj => hI.2.1 i j hi hj⟩

end RationalLemmas

section SampledLemmas

variable {α : Type} [LinearOrderedField α] [FloorRing α]

/-- The sampled basis matrix: entry `(i, j)` is the Cox-de Boor value `N_{j,p}(u_i)` at the
sample `u_i = i / (numDiv - 1)`, except the last entry of the last row, which is 1. -/
theorem sampledBasis_spec (knots : List α) (nCon p : ℕ) (spacing : α) (numDiv : ℕ)
    (hlen : knots.length = nCon + p + 1)
    (hmono : ∀ i, i + 1 < knots.length → GetTuple1 knots i ≤ GetTuple1 knots (i + 1))
    (hs : spacing ≠ 0) (hceil : Int.ceil (1 / spacing) = (numDiv : ℤ)) (h2 : 2 ≤ numDiv) :
    ∃ M, sampledBasis knots nCon (p : ℤ) spacing = some (numDiv, M) ∧
      M.extents = [numDiv, nCon] ∧
      ∀ i j, i < numDiv → j < nCon → M.GetValue2 i j
        = if i = numDiv - 1 ∧ j = nCon - 1 then 1
          else coxDeBoor (fun i => GetTuple1 knots i) p j ((i : α) / ((numDiv : α) - 1)) := by
  obtain ⟨hLlen, hLval⟩ := @LinSpace_spec α _ numDiv
  have hU := knots_window_mono knots (nCon + p) (by omega) hmono
  have hp : ¬ ((p : ℤ) < 0) := by omega
  obtain ⟨st, hst, hI⟩ := forLoopM_inv 0 nCon
    (fun i (st : TypedArray α × NArray α) =>
      (if (p : ℤ) < 0 then some st.1
        else BasisEvaluationVec knots (p : ℤ).toNat i (LinSpace 0 1 numDiv) st.1).bind
        (fun Nus =>
          some (Nus, forLoop 0 numDiv (fun j Nfinal =>
            Nfinal.SetValue2 j i (Nus.GetValue j 0)) st.2)))
    (({ nr := numDiv, nc := ((p : ℤ) + 2).toNat, val := fun _ _ => 0 } : TypedArray α),
      (NArray.Resize [numDiv, nCon] : NArray α))
    (fun c st => st.2.extents = [numDiv, nCon] ∧
      ∀ r j, r < numDiv → j < c → st.2.GetValue2 r j
        = coxDeBoor (fun i => GetTuple1 knots i) p j ((r : α) / ((numDiv : α) - 1)))
    (Nat.zero_le _) ⟨rfl, fun r j _ hj => absurd hj (Nat.not_lt_zero _)⟩
    (by
      intro c st _ hc ⟨h1, h3⟩
      obtain ⟨out, hout, hoval⟩ := BasisEvaluationVec_spec knots (nCon + p) hU p c
        (LinSpace 0 1 numDiv) st.1 (by omega)
      have hw := forLoop1_write (fun (m : NArray α) (k : ℕ × ℕ × ℕ) => m.val k.1 k.2.1 k.2.2)
        numDiv (fun r => (r, c, 0)) (fun r _ => out.GetValue r 0)
        (fun r (s : NArray α) => s.SetValue2 r c (out.GetValue r 0))
        (fun r _ s k => NArray_read_SetValue2 s r c (out.GetValue r 0) k)
        (by
          intro r r2 _ _ he
          simp only [Prod.mk.injEq] at he
          exact he.1) st.2
      refine ⟨(out, forLoop 0 numDiv (fun j Nfinal =>
        Nfinal.SetValue2 j c (out.GetValue j 0)) st.2), ?_, ?_, ?_⟩
      · simp only [if_neg hp, Int.toNat_ofNat, hout, Option.some_bind]
      · refine forLoop_pres (fun (t : NArray α) => t.extents = [numDiv, nCon]) h1 ?_
        intro j t _ _ ht
        exact ht
      · intro r j hr hj
        by_cases hjc : j = c
        · subst hjc
          have h4 := hw.1 r hr
          have h5 := hoval r (by rw [hLlen]; exact hr)
          rw [hLval r hr] at h5
          show (forLoop 0 numDiv (fun j_1 Nfinal =>
            Nfinal.SetValue2 j_1 j (out.GetValue j_1 0)) st.2).val r j 0 = _
          rw [← h5]
          exact h4
        · have h4 := hw.2 (r, j, 0) (by
            intro r2 _ he
            simp only [Prod.mk.injEq] at he
            exact hjc he.2.1)
          show (forLoop 0 numDiv (fun j_1 Nfinal =>
            Nfinal.SetValue2 j_1 c (out.GetValue j_1 0)) st.2).val r j 0 = _
          rw [← h3 r j hr (by omega)]
          exact h4)
  have e1 : divChecked 1 spacing = some (1 / spacing) := by simp [divChecked, hs]
  have e2 : idxChecked (Int.ceil (1 / spacing)) = some numDiv := by
    rw [hceil]
    simp [idxChecked]
  have e3 := LinSpaceChecked_eq (0 : α) 1 numDiv (by omega)
  have e4 : idxChecked ((numDiv : ℤ) - 1) = some (numDiv - 1) := by
    unfold idxChecked
    rw [if_neg (by omega)]
    congr 1
    omega
  refine ⟨st.2.SetValue2 (numDiv - 1) (nCon - 1) 1, ?_, hI.1, ?_⟩
  · unfold sampledBasis
    simp only [e1, e2, e3, Option.some_bind, hst, e4]
  · intro i j hi hj
    rw [GetValue2_SetValue2]
    by_cases hc : i = numDiv - 1 ∧ j = nCon - 1
    · rw [if_pos hc, if_pos hc]
    · rw [if_neg hc, if_neg hc]
      exact hI.2 i j hi hj

end SampledLemmas

section RationalClaims

variable {α : Type} [LinearOrderedField α] [FloorRing α]

/-- The weighted sum of a row of the sampled basis matrix is positive when the knot domain
covers the samples and the weights are positive. -/
theorem rationalSum_pos (knots weights : List α) (nCon p numDiv : ℕ)
    (hlen : knots.length = nCon + p + 1)
    (hmono : ∀ i, i + 1 < knots.length → GetTuple1 knots i ≤ GetTuple1 knots (i + 1))
    (hn : 1 ≤ nCon) (hw : ∀ j, j < nCon → 0 < GetTuple1 weights j)
    (hlo : GetTuple1 knots p ≤ 0) (hhi : 1 ≤ GetTuple1 knots nCon) (h2 : 2 ≤ numDiv)
    (i : ℕ) (hi : i < numDiv) :
    0 < ∑ j in Finset.range nCon,
      (if i = numDiv - 1 ∧ j = nCon - 1 then (1 : α)
        else coxDeBoor (fun i => GetTuple1 knots i) p j ((i : α) / ((numDiv : α) - 1)))
        * GetTuple1 weights j := by
  have hU := knots_window_mono knots (nCon + p) (by omega) hmono
  have hnn : ∀ j, j < nCon → 0 ≤ coxDeBoor (fun i => GetTuple1 knots i) p j
      ((i : α) / ((numDiv : α) - 1)) := fun j hj =>
    coxDeBoor_nonneg (fun i => GetTuple1 knots i) (nCon + p) hU _ p j (by omega)
  have hterm : ∀ j, j ∈ Finset.range nCon → 0 ≤
      (if i = numDiv - 1 ∧ j = nCon - 1 then (1 : α)
        else coxDeBoor (fun i => GetTuple1 knots i) p j ((i : α) / ((numDiv : α) - 1)))
        * GetTuple1 weights j := by
    intro j hj
    have hj2 := Finset.mem_range.mp hj
    refine mul_nonneg ?_ (le_of_lt (hw j hj2))
    split
    · exact zero_le_one
    · exact hnn j hj2
  by_cases hlast : i = numDiv - 1
  · refine Finset.sum_pos' hterm ⟨nCon - 1, Finset.mem_range.mpr (by omega), ?_⟩
    rw [if_pos ⟨hlast, rfl⟩, one_mul]
    exact hw (nCon - 1) (by omega)
  · have hd : (0 : α) < (numDiv : α) - 1 := by
      have : (2 : α) ≤ (numDiv : α) := by exact_mod_cast h2
      linarith
    have hu0 : (0 : α) ≤ (i : α) / ((numDiv : α) - 1) :=
      div_nonneg (Nat.cast_nonneg i) (le_of_lt hd)
    have hu1 : (i : α) / ((numDiv : α) - 1) < 1 := by
      rw [div_lt_one hd]
      have h3 : i + 1 < numDiv := by omega
      have : ((i + 1 : ℕ) : α) < (numDiv : α) := by exact_mod_cast h3
      push_cast at this
      linarith
    have hsum := sum_coxDeBoor_all (fun i => GetTuple1 knots i) p nCon hU
      ((i : α) / ((numDiv : α) - 1)) ⟨le_trans hlo hu0, lt_of_lt_of_le hu1 hhi⟩
    have hex : ∃ j, j ∈ Finset.range nCon ∧ 0 < coxDeBoor (fun i => GetTuple1 knots i) p j
        ((i : α) / ((numDiv : α) - 1)) := by
      by_contra hc
      push_neg at hc
      have hz : ∑ j in Finset.range nCon, coxDeBoor (fun i => GetTuple1 knots i) p j
          ((i : α) / ((numDiv : α) - 1)) = 0 :=
        Finset.sum_eq_zero (fun j hj =>
          le_antisymm (hc j hj) (hnn j (Finset.mem_range.mp hj)))
      rw [hz] at hsum
      exact zero_ne_one hsum
    obtain ⟨j, hj, hpos⟩ := hex
    refine Finset.sum_pos' hterm ⟨j, hj, ?_⟩
    rw [if_neg (fun h => hlast h.1)]
    exact mul_pos hpos (hw j (Finset.mem_range.mp hj))

/-- The rational basis matrix: under the hypotheses of `sampledBasis_spec`, a knot domain
that covers the unit interval and positive weights, no division by zero occurs, every
weighted row sum is positive and the rows of the result sum to 1. -/
theorem rationalBasis_spec (knots weights : List α) (nCon p : ℕ) (spacing : α) (numDiv : ℕ)
    (hlen : knots.length = nCon + p + 1)
    (hmono : ∀ i, i + 1 < knots.length → GetTuple1 knots i ≤ GetTuple1 knots (i + 1))
    (hn : 1 ≤ nCon) (hw : ∀ j, j < nCon → 0 < GetTuple1 weights j)
    (hlo : GetTuple1 knots p ≤ 0) (hhi : 1 ≤ GetTuple1 knots nCon)
    (hs : spacing ≠ 0) (hceil : Int.ceil (1 / spacing) = (numDiv : ℤ)) (h2 : 2 ≤ numDiv) :
    ∃ (M N : NArray α),
      sampledBasis knots nCon (p : ℤ) spacing = some (numDiv, M) ∧
      rationalBasis knots weights nCon (p : ℤ) spacing = some (numDiv, N) ∧
      N.extents = [numDiv, nCon] ∧
      ∀ i, i < numDiv →
        (∀ j, j < nCon → M.GetValue2 i j
          = if i = numDiv - 1 ∧ j = nCon - 1 then 1
            else coxDeBoor (fun i => GetTuple1 knots i) p j ((i : α) / ((numDiv : α) - 1))) ∧
        0 < ∑ k in Finset.range nCon, M.GetValue2 i k * GetTuple1 weights k ∧
        (∀ j, j < nCon → N.GetValue2 i j = M.GetValue2 i j * GetTuple1 weights j
          / ∑ k in Finset.range nCon, M.GetValue2 i k * GetTuple1 weights k) ∧
        ∑ j in Finset.range nCon, N.GetValue2 i j = 1 := by
  obtain ⟨M, hM, hMext, hMval⟩ := sampledBasis_spec knots nCon p spacing numDiv hlen hmono hs
    hceil h2
  obtain ⟨hRlen, hRval⟩ := rationalSums_spec weights nCon numDiv M
  have hSpos : ∀ i, i < numDiv →
      0 < ∑ k in Finset.range nCon, M.GetValue2 i k * GetTuple1 weights k := by
    intro i hi
    have h := rationalSum_pos knots weights nCon p numDiv hlen hmono hn hw hlo hhi h2 i hi
    have e : ∑ k in Finset.range nCon, M.GetValue2 i k * GetTuple1 weights k
        = ∑ j in Finset.range nCon,
          (if i = numDiv - 1 ∧ j = nCon - 1 then (1 : α)
            else coxDeBoor (fun i => GetTuple1 knots i) p j ((i : α) / ((numDiv : α) - 1)))
            * GetTuple1 weights j := by
      refine Finset.sum_congr rfl ?_
      intro j hj
      rw [hMval i j hi (Finset.mem_range.mp hj)]
    rw [e]
    exact h
  obtain ⟨N, hN, hNext, hNval⟩ := rationalNormalize_spec weights nCon numDiv
    (rationalSums weights nCon numDiv M) M
    (fun i hi => by rw [hRval i hi]; exact ne_of_gt (hSpos i hi))
  refine ⟨M, N, hM, ?_, by rw [hNext, hMext], ?_⟩
  · unfold rationalBasis
    rw [hM]
    simp only [Option.some_bind, hN, Option.map_some']
  · intro i hi
    have hval : ∀ j, j < nCon → N.GetValue2 i j = M.GetValue2 i j * GetTuple1 weights j
        / ∑ k in Finset.range nCon, M.GetValue2 i k * GetTuple1 weights k := by
      intro j hj
      rw [hNval i j hi hj, hRval i hi]
    refine ⟨fun j hj => hMval i j hi hj, hSpos i hi, hval, ?_⟩
    rw [Finset.sum_congr rfl (fun j hj => hval j (Finset.mem_range.mp hj)), ← Finset.sum_div]
    exact div_self (ne_of_gt (hSpos i hi))

/-- The knot vector `[0,0,1/3,2/3,1,1]` of Scenario B is non-decreasing. -/
theorem scenarioB_knots_mono :
    ∀ i, i + 1 < ([0, 0, 1 / 3, 2 / 3, 1, 1] : List ℚ).length →
      GetTuple1 ([0, 0, 1 / 3, 2 / 3, 1, 1] : List ℚ) i ≤
        GetTuple1 ([0, 0, 1 / 3, 2 / 3, 1, 1] : List ℚ) (i + 1) := by
  intro i hi
  have hi5 : i < 5 := by simp at hi; omega
  interval_cases i <;> decide!

/-- The knot vector `[0,0,1/2,1/2]` is non-decreasing. -/
theorem halfKnots_mono :
    ∀ i, i + 1 < ([0, 0, 1 / 2, 1 / 2] : List ℚ).length →
      GetTuple1 ([0, 0, 1 / 2, 1 / 2] : List ℚ) i ≤
        GetTuple1 ([0, 0, 1 / 2, 1 / 2] : List ℚ) (i + 1) := by
  intro i hi
  have hi3 : i < 3 := by simp at hi; omega
  interval_cases i <;> decide!

/-- C16 counterexample: the knots `[0, 0, 1/2, 1/2]` are non-decreasing and the weights
`[1, 1]` are positive, yet with three samples `0, 1/2, 1` the row of the sample `1/2` is zero,
its weighted sum is `0`, and the normalisation divides by zero. -/
theorem C16_counterexample_uncovered_sample :
    (∀ i, i + 1 < [(0 : ℚ), 0, 1 / 2, 1 / 2].length →
      GetTuple1 [(0 : ℚ), 0, 1 / 2, 1 / 2] i ≤ GetTuple1 [(0 : ℚ), 0, 1 / 2, 1 / 2] (i + 1)) ∧
    (∀ j, j < 2 → 0 < GetTuple1 [(1 : ℚ), 1] j) ∧
    (sampledBasis [(0 : ℚ), 0, 1 / 2, 1 / 2] 2 1 (1 / 3)).map
      (fun r => (r.1, rationalSums [1, 1] 2 r.1 r.2)) = some (3, [1, 0, 1]) ∧
    rationalBasis [(0 : ℚ), 0, 1 / 2, 1 / 2] [1, 1] 2 1 (1 / 3) = none := by
  refine ⟨halfKnots_mono, by decide!, by decide!, ?_⟩
  have h : (rationalBasis [(0 : ℚ), 0, 1 / 2, 1 / 2] [1, 1] 2 1 (1 / 3)).isSome = false := by
    decide!
  exact Option.not_isSome_iff_eq_none.mp (by rw [h]; decide)

/-- C16 (rational normalisation, amended): for a non-decreasing knot vector of length
`nCon + p + 1` whose domain covers the unit interval (`knots[p] ≤ 0` and `1 ≤ knots[nCon]`),
positive weights and a spacing in `(0, 1)`, so that there are `numDiv ≥ 2` samples
`u_i = i / (numDiv - 1)`: the sampled matrix `M` has `M(i,j) = N_{j,p}(u_i)` except its last
entry, which is 1; every weighted row sum `S_i = sum_k M(i,k) * w_k` is positive; the
normalised entry is `M(i,j) * w_j / S_i`; and every row of the normalised matrix sums to 1. -/
theorem C16_rational_normalization_amended (knots weights : List α) (nCon p : ℕ)
    (spacing : α)
    (hlen : knots.length = nCon + p + 1)
    (hmono : ∀ i, i + 1 < knots.length → GetTuple1 knots i ≤ GetTuple1 knots (i + 1))
    (hn : 1 ≤ nCon) (hw : ∀ j, j < nCon → 0 < GetTuple1 weights j)
    (hlo : GetTuple1 knots p ≤ 0) (hhi : 1 ≤ GetTuple1 knots nCon)
    (hs0 : 0 < spacing) (hs1 : spacing < 1) :
    ∃ (numDiv : ℕ) (M N : NArray α),
      (numDiv : ℤ) = Int.ceil (1 / spacing) ∧ 2 ≤ numDiv ∧
      sampledBasis knots nCon (p : ℤ) spacing = some (numDiv, M) ∧
      rationalBasis knots weights nCon (p : ℤ) spacing = some (numDiv, N) ∧
      ∀ i, i < numDiv →
        (∀ j, j < nCon → M.GetValue2 i j
          = if i = numDiv - 1 ∧ j = nCon - 1 then 1
            else coxDeBoor (fun i => GetTuple1 knots i) p j ((i : α) / ((numDiv : α) - 1))) ∧
        0 < ∑ k in Finset.range nCon, M.GetValue2 i k * GetTuple1 weights k ∧
        (∀ j, j < nCon → N.GetValue2 i j = M.GetValue2 i j * GetTuple1 weights j
          / ∑ k in Finset.range nCon, M.GetValue2 i k * GetTuple1 weights k) ∧
        ∑ j in Finset.range nCon, N.GetValue2 i j = 1 := by
  have hc1 : (1 : ℤ) < Int.ceil (1 / spacing) := by
    rw [Int.lt_ceil]
    push_cast
    rw [lt_div_iff₀ hs0]
    linarith
  have hcast : ((Int.ceil (1 / spacing)).toNat : ℤ) = Int.ceil (1 / spacing) :=
    Int.toNat_of_nonneg (by omega)
  have h2 : 2 ≤ (Int.ceil (1 / spacing)).toNat := by omega
  obtain ⟨M, N, hM, hN, _, hrows⟩ := rationalBasis_spec knots weights nCon p spacing
    (Int.ceil (1 / spacing)).toNat hlen hmono hn hw hlo hhi (ne_of_gt hs0) hcast.symm h2
  exact ⟨(Int.ceil (1 / spacing)).toNat, M, N, hcast, h2, hM, hN, hrows⟩

/-- Witness of the amended C16: the clamped knots of Scenario B with unit weights and
spacing `1/3`. -/
theorem C16_rational_normalization_amended_witness :
    ∃ (numDiv : ℕ) (M N : NArray ℚ),
      (numDiv : ℤ) = Int.ceil (1 / (1 / 3 : ℚ)) ∧ 2 ≤ numDiv ∧
      sampledBasis [(0 : ℚ), 0, 1 / 3, 2 / 3, 1, 1] 4 ((1 : ℕ) : ℤ) (1 / 3)
        = some (numDiv, M) ∧
      rationalBasis [(0 : ℚ), 0, 1 / 3, 2 / 3, 1, 1] [1, 1, 1, 1] 4 ((1 : ℕ) : ℤ) (1 / 3)
        = some (numDiv, N) ∧
      ∀ i, i < numDiv →
        (∀ j, j < 4 → M.GetValue2 i j
          = if i = numDiv - 1 ∧ j = 4 - 1 then 1
            else coxDeBoor (fun i => GetTuple1 [(0 : ℚ), 0, 1 / 3, 2 / 3, 1, 1] i) 1 j
              ((i : ℚ) / ((numDiv : ℚ) - 1))) ∧
        0 < ∑ k in Finset.range 4, M.GetValue2 i k * GetTuple1 [(1 : ℚ), 1, 1, 1] k ∧
        (∀ j, j < 4 → N.GetValue2 i j = M.GetValue2 i j * GetTuple1 [(1 : ℚ), 1, 1, 1] j
          / ∑ k in Finset.range 4, M.GetValue2 i k * GetTuple1 [(1 : ℚ), 1, 1, 1] k) ∧
        ∑ j in Finset.range 4, N.GetValue2 i j = 1 :=
  C16_rational_normalization_amended [(0 : ℚ), 0, 1 / 3, 2 / 3, 1, 1] [1, 1, 1, 1] 4 1 (1 / 3)
    (by decide) scenarioB_knots_mono (by decide) (by decide!) (by decide!) (by decide!)
    (by decide!) (by decide!)

end RationalClaims

/-! ## Scenario B: bilinear evaluation -/

section ScenarioB

variable {α : Type} [LinearOrderedField α] [FloorRing α]

theorem MatrixTranspose_scalar (mat newMat : NArray α) :
    (MatrixTranspose mat 0 newMat).1 = 1 ∧
    (MatrixTranspose mat 0 newMat).2.extents = [mat.GetExtent 1, mat.GetExtent 0] ∧
    ∀ i j, i < mat.GetExtent 0 → j < mat.GetExtent 1 →
      (MatrixTranspose mat 0 newMat).2.GetValue2 j i = mat.GetValue2 i j := by
  have h00 : ¬ ((0 : ℤ) ≠ 0) := by simp
  unfold MatrixTranspose
  dsimp only
  rw [if_neg (show ¬((0 : ℤ) ≠ 0 ∧ mat.GetExtent 2 ≠ 3) by simp)]
  simp only [if_neg h00]
  refine ⟨trivial, ?_, ?_⟩
  · refine forLoop_pres (fun (t : NArray α) => t.extents = [mat.GetExtent 1, mat.GetExtent 0])
      rfl ?_
    intro i t _ _ ht
    refine forLoop_pres (fun (t : NArray α) => t.extents = [mat.GetExtent 1, mat.GetExtent 0])
      ht ?_
    intro j t _ _ ht
    exact ht
  · have h := forLoop2_write (fun (m : NArray α) (k : ℕ × ℕ × ℕ) => m.val k.1 k.2.1 k.2.2)
      (mat.GetExtent 0) (mat.GetExtent 1)
      (fun i j => (j, i, 0)) (fun i j _ => mat.GetValue2 i j)
      (fun i j s => s.SetValue2 j i (mat.GetValue2 i j))
      (fun i j _ _ s k => NArray_read_SetValue2 s j i (mat.GetValue2 i j) k)
      (by
        intro i j i2 j2 _ _ _ _ he
        simp only [Prod.mk.injEq] at he
        exact ⟨he.2.1, he.1⟩) (NArray.Resize [mat.GetExtent 1, mat.GetExtent 0])
    intro i j hi hj
    exact h.1 i j hi hj

/-- The rational basis matrix of Scenario B: knots `[0,0,1/3,2/3,1,1]`, unit weights and
degree 1. With an odd number `2a + 1` of samples the sample `a` is `1/2`, and its row is
`[0, 1/2, 1/2, 0]`. -/
theorem scenarioB_row (spacing : α) (a : ℕ) (hs0 : 0 < spacing) (hs1 : spacing < 1)
    (ha : Int.ceil (1 / spacing) = ((2 * a + 1 : ℕ) : ℤ)) :
    1 ≤ a ∧ GetTuple1 (LinSpace (0 : α) 1 (2 * a + 1)) a = 1 / 2 ∧
    ∃ N : NArray α,
      rationalBasis [(0 : α), 0, 1 / 3, 2 / 3, 1, 1] [1, 1, 1, 1] 4 ((1 : ℕ) : ℤ) spacing
        = some (2 * a + 1, N) ∧
      N.extents = [2 * a + 1, 4] ∧ N.GetValue2 a 0 = 0 ∧ N.GetValue2 a 1 = 1 / 2 ∧
      N.GetValue2 a 2 = 1 / 2 ∧ N.GetValue2 a 3 = 0 := by
  have hmono : ∀ i, i + 1 < [(0 : α), 0, 1 / 3, 2 / 3, 1, 1].length →
      GetTuple1 [(0 : α), 0, 1 / 3, 2 / 3, 1, 1] i
        ≤ GetTuple1 [(0 : α), 0, 1 / 3, 2 / 3, 1, 1] (i + 1) := by
    intro i hi
    have hi5 : i < 5 := by simp at hi; omega
    interval_cases i <;> norm_num [GetTuple1]
  have hw : ∀ j, j < 4 → (0 : α) < GetTuple1 [(1 : α), 1, 1, 1] j := by
    intro j hj
    interval_cases j <;> norm_num [GetTuple1]
  have hc1 : (1 : ℤ) < Int.ceil (1 / spacing) := by
    rw [Int.lt_ceil]
    push_cast
    rw [lt_div_iff₀ hs0]
    linarith
  have ha1 : 1 ≤ a := by
    rw [ha] at hc1
    push_cast at hc1
    omega
  have hapos : (0 : α) < (a : α) := by exact_mod_cast ha1
  have hu : (a : α) / (((2 * a + 1 : ℕ) : α) - 1) = 1 / 2 := by
    push_cast
    field_simp
    ring
  obtain ⟨M, N, _, hN, hNext, hrows⟩ := rationalBasis_spec [(0 : α), 0, 1 / 3, 2 / 3, 1, 1]
    [1, 1, 1, 1] 4 1 spacing (2 * a + 1) (by simp) hmono (by norm_num) hw
    (by norm_num [GetTuple1]) (by norm_num [GetTuple1]) (ne_of_gt hs0) ha (by omega)
  obtain ⟨hMv, _, hNv, _⟩ := hrows a (by omega)
  have hnl : ¬ (a = 2 * a + 1 - 1) := by omega
  have m0 : M.GetValue2 a 0 = 0 := by
    rw [hMv 0 (by norm_num), if_neg (fun h => hnl h.1), hu]
    norm_num [coxDeBoor, GetTuple1]
  have m1 : M.GetValue2 a 1 = 1 / 2 := by
    rw [hMv 1 (by norm_num), if_neg (fun h => hnl h.1), hu]
    norm_num [coxDeBoor, GetTuple1]
  have m2 : M.GetValue2 a 2 = 1 / 2 := by
    rw [hMv 2 (by norm_num), if_neg (fun h => hnl h.1), hu]
    norm_num [coxDeBoor, GetTuple1]
  have m3 : M.GetValue2 a 3 = 0 := by
    rw [hMv 3 (by norm_num), if_neg (fun h => hnl h.1), hu]
    norm_num [coxDeBoor, GetTuple1]
  have hS : ∑ k in Finset.range 4, M.GetValue2 a k * GetTuple1 [(1 : α), 1, 1, 1] k = 1 := by
    simp only [Finset.sum_range_succ, Finset.sum_range_zero, m0, m1, m2, m3]
    norm_num [GetTuple1]
  refine ⟨ha1, ?_, N, hN, hNext, ?_, ?_, ?_, ?_⟩
  · rw [(@LinSpace_spec α _ (2 * a + 1)).2 a (by omega)]
    rw [← hu]
  · rw [hNv 0 (by norm_num), hS, m0]; norm_num
  · rw [hNv 1 (by norm_num), hS, m1]; norm_num [GetTuple1]
  · rw [hNv 2 (by norm_num), hS, m2]; norm_num [GetTuple1]
  · rw [hNv 3 (by norm_num), hS, m3]; norm_num

end ScenarioB

section ScenarioBClaims

variable {α : Type} [LinearOrderedField α] [FloorRing α]

/-- When both rational basis matrices are produced and both products succeed,
`GeneratePolyDataRepresentation` returns 1 and stores the vertices and the quads. -/
theorem GeneratePolyDataRepresentation_ok (self : NURBSSurface α) (uSpacing vSpacing : α)
    (numU numV : ℕ) (NU NV : NArray α)
    (hnu : self.NumberOfUControlPoints ≠ 0) (hnv : self.NumberOfVControlPoints ≠ 0)
    (hku : self.NumberOfUKnotPoints ≠ 0) (hkv : self.NumberOfVKnotPoints ≠ 0)
    (hU : rationalBasis self.UKnotVector self.UWeights self.NumberOfUControlPoints
      ((self.NumberOfUKnotPoints : ℤ) - (self.NumberOfUControlPoints : ℤ) - 1) uSpacing
      = some (numU, NU))
    (hV : rationalBasis self.VKnotVector self.VWeights self.NumberOfVControlPoints
      ((self.NumberOfVKnotPoints : ℤ) - (self.NumberOfVControlPoints : ℤ) - 1) vSpacing
      = some (numV, NV))
    (h1 : (MatrixMatrixMultiply NU 0
      (StructuredGridToTypedArray self.ControlPointGrid (NArray.Resize [])).2 1
      (NArray.Resize [])).1 = 1)
    (h2 : (MatrixMatrixMultiply (MatrixMatrixMultiply NU 0
      (StructuredGridToTypedArray self.ControlPointGrid (NArray.Resize [])).2 1
      (NArray.Resize [])).2 1 (MatrixTranspose NV 0 (NArray.Resize [])).2 0
      (NArray.Resize [])).1 = 1) :
    GeneratePolyDataRepresentation self uSpacing vSpacing
      = some (1, { self with SurfaceRepresentation :=
          { points := (TypedArrayToStructuredGrid
              (MatrixMatrixMultiply (MatrixMatrixMultiply NU 0
                (StructuredGridToTypedArray self.ControlPointGrid (NArray.Resize [])).2 1
                (NArray.Resize [])).2 1 (MatrixTranspose NV 0 (NArray.Resize [])).2 0
                (NArray.Resize [])).2
              ({ dims := (0, 0, 0), points := [] } : StructuredGrid α)).2.points,
            polys := GetStructuredGridConnectivity (numU : ℤ) (numV : ℤ) [] } }) := by
  unfold GeneratePolyDataRepresentation
  dsimp only
  rw [if_neg (by simp [hnu, hnv]), if_neg (by simp [hku, hkv]), hU]
  simp only [Option.some_bind]
  rw [hV]
  simp only [Option.some_bind]
  rw [if_neg (by simp [h1]), if_neg (by simp [h2])]

/-- C15 (Scenario B, bilinear evaluation): for every 4 x 4 control grid with unit weights
and the knot vector `[0,0,1/3,2/3,1,1]` in both directions (degree 1), and spacings in
`(0, 1)` that give odd numbers `2a + 1` and `2b + 1` of samples, so that the samples `a` and
`b` are `1/2`: `GeneratePolyDataRepresentation` returns 1 and leaves `(2a+1) * (2b+1)`
vertices, and each coordinate of the vertex of the sample pair `(a, b)`, i.e. of
`(u, v) = (1/2, 1/2)`, is the arithmetic mean of that coordinate of the control points
`C(1,1)`, `C(1,2)`, `C(2,1)`, `C(2,2)`. With both spacings `1/3` this is vertex 4 of 9. -/
theorem C15_bilinear_centroid (self : NURBSSurface α) (uSpacing vSpacing : α) (a b : ℕ)
    (hnu : self.NumberOfUControlPoints = 4) (hnv : self.NumberOfVControlPoints = 4)
    (hku : self.NumberOfUKnotPoints = 6) (hkv : self.NumberOfVKnotPoints = 6)
    (hUK : self.UKnotVector = [0, 0, 1 / 3, 2 / 3, 1, 1])
    (hVK : self.VKnotVector = [0, 0, 1 / 3, 2 / 3, 1, 1])
    (hUW : self.UWeights = [1, 1, 1, 1]) (hVW : self.VWeights = [1, 1, 1, 1])
    (hdims : self.ControlPointGrid.dims = (4, 4, 1))
    (hu0 : 0 < uSpacing) (hu1 : uSpacing < 1) (hv0 : 0 < vSpacing) (hv1 : vSpacing < 1)
    (ha : Int.ceil (1 / uSpacing) = ((2 * a + 1 : ℕ) : ℤ))
    (hb : Int.ceil (1 / vSpacing) = ((2 * b + 1 : ℕ) : ℤ)) :
    ∃ out, GeneratePolyDataRepresentation self uSpacing vSpacing = some (1, out) ∧
      out.SurfaceRepresentation.points.length = (2 * a + 1) * (2 * b + 1) ∧
      GetTuple1 (LinSpace (0 : α) 1 (2 * a + 1)) a = 1 / 2 ∧
      GetTuple1 (LinSpace (0 : α) 1 (2 * b + 1)) b = 1 / 2 ∧
      ∀ k, k < 3 → ptComp (GetPoint out.SurfaceRepresentation.points
          (ComputePointId (2 * a + 1, 2 * b + 1, 1) (a, b, 0))) k
        = (ptComp (GetPoint self.ControlPointGrid.points (ComputePointId (4, 4, 1) (1, 1, 0))) k
          + ptComp (GetPoint self.ControlPointGrid.points (ComputePointId (4, 4, 1) (1, 2, 0))) k
          + ptComp (GetPoint self.ControlPointGrid.points (ComputePointId (4, 4, 1) (2, 1, 0))) k
          + ptComp (GetPoint self.ControlPointGrid.points (ComputePointId (4, 4, 1) (2, 2, 0))) k)
          / 4 := by
  obtain ⟨_, hsa, NU, hNU, hUext, u0, u1, u2, u3⟩ := scenarioB_row uSpacing a hu0 hu1 ha
  obtain ⟨_, hsb, NV, hNV, hVext, v0, v1, v2, v3⟩ := scenarioB_row vSpacing b hv0 hv1 hb
  have hU0 : NU.GetExtent 0 = 2 * a + 1 := by rw [GetExtent_of_extents _ _ hUext]; rfl
  have hU1 : NU.GetExtent 1 = 4 := by rw [GetExtent_of_extents _ _ hUext]; rfl
  have hV0 : NV.GetExtent 0 = 2 * b + 1 := by rw [GetExtent_of_extents _ _ hVext]; rfl
  have hV1 : NV.GetExtent 1 = 4 := by rw [GetExtent_of_extents _ _ hVext]; rfl
  -- the transposed V matrix and the control grid
  obtain ⟨_, hText, hTval⟩ := MatrixTranspose_scalar NV (NArray.Resize [])
  rw [hV0, hV1] at hText hTval
  obtain ⟨_, hGext, hGval⟩ := StructuredGridToTypedArray_spec self.ControlPointGrid
    (NArray.Resize []) (by rw [hdims])
  have hd0 : self.ControlPointGrid.dims.1 = 4 := by rw [hdims]
  have hd1 : self.ControlPointGrid.dims.2.1 = 4 := by rw [hdims]
  rw [hd0, hd1] at hGext hGval
  rw [hdims] at hGval
  have hG0 : (StructuredGridToTypedArray self.ControlPointGrid (NArray.Resize [])).2.GetExtent 0
      = 4 := by rw [GetExtent_of_extents _ _ hGext]; rfl
  have hG1 : (StructuredGridToTypedArray self.ControlPointGrid (NArray.Resize [])).2.GetExtent 1
      = 4 := by rw [GetExtent_of_extents _ _ hGext]; rfl
  have hG2 : (StructuredGridToTypedArray self.ControlPointGrid (NArray.Resize [])).2.GetExtent 2
      = 3 := by rw [GetExtent_of_extents _ _ hGext]; rfl
  -- the first product
  obtain ⟨h1s, h1ext, h1val⟩ := MatrixMatrixMultiply_pointRight NU
    (StructuredGridToTypedArray self.ControlPointGrid (NArray.Resize [])).2 (NArray.Resize []) 1
    (by decide) (by rw [hU1, hG0]) hG2
  rw [hU0, hG1] at h1ext
  rw [hU0, hU1, hG1] at h1val
  have hT0 : (MatrixTranspose NV 0 (NArray.Resize [])).2.GetExtent 0 = 4 := by
    rw [GetExtent_of_extents _ _ hText]; rfl
  have hT1 : (MatrixTranspose NV 0 (NArray.Resize [])).2.GetExtent 1 = 2 * b + 1 := by
    rw [GetExtent_of_extents _ _ hText]; rfl
  have hR0 : (MatrixMatrixMultiply NU 0
      (StructuredGridToTypedArray self.ControlPointGrid (NArray.Resize [])).2 1
      (NArray.Resize [])).2.GetExtent 0 = 2 * a + 1 := by
    rw [GetExtent_of_extents _ _ h1ext]; rfl
  have hR1 : (MatrixMatrixMultiply NU 0
      (StructuredGridToTypedArray self.ControlPointGrid (NArray.Resize [])).2 1
      (NArray.Resize [])).2.GetExtent 1 = 4 := by
    rw [GetExtent_of_extents _ _ h1ext]; rfl
  have hR2 : (MatrixMatrixMultiply NU 0
      (StructuredGridToTypedArray self.ControlPointGrid (NArray.Resize [])).2 1
      (NArray.Resize [])).2.GetExtent 2 = 3 := by
    rw [GetExtent_of_extents _ _ h1ext]; rfl
  -- the second product
  obtain ⟨h2s, h2ext, h2val⟩ := MatrixMatrixMultiply_pointLeft
    (MatrixMatrixMultiply NU 0
      (StructuredGridToTypedArray self.ControlPointGrid (NArray.Resize [])).2 1
      (NArray.Resize [])).2
    (MatrixTranspose NV 0 (NArray.Resize [])).2 (NArray.Resize []) 1
    (by decide) (by rw [hR1, hT0]) hR2
  rw [hR0, hT1] at h2ext
  rw [hR0, hR1, hT1] at h2val
  -- the grid of vertices
  obtain ⟨_, _, hClen, hCval⟩ := TypedArrayToStructuredGrid_spec
    (MatrixMatrixMultiply
      (MatrixMatrixMultiply NU 0
      (StructuredGridToTypedArray self.ControlPointGrid (NArray.Resize [])).2 1
      (NArray.Resize [])).2 1
      (MatrixTranspose NV 0 (NArray.Resize [])).2 0 (NArray.Resize [])).2
    ({ dims := (0, 0, 0), points := [] } : StructuredGrid α) (2 * a + 1) (2 * b + 1) h2ext
  have hp : ((6 : ℕ) : ℤ) - ((4 : ℕ) : ℤ) - 1 = ((1 : ℕ) : ℤ) := by norm_num
  have hgen := GeneratePolyDataRepresentation_ok self uSpacing vSpacing (2 * a + 1) (2 * b + 1)
    NU NV (by rw [hnu]; decide) (by rw [hnv]; decide) (by rw [hku]; decide)
    (by rw [hkv]; decide)
    (by rw [hUK, hUW, hnu, hku, hp]; exact hNU) (by rw [hVK, hVW, hnv, hkv, hp]; exact hNV)
    h1s h2s
  refine ⟨_, hgen, hClen, hsa, hsb, ?_⟩
  intro k hk
  have h4 := hCval a b (by omega) (by omega)
  rw [ComputePointId_plane]
  show ptComp (GetPoint (TypedArrayToStructuredGrid
      (MatrixMatrixMultiply
        (MatrixMatrixMultiply NU 0
      (StructuredGridToTypedArray self.ControlPointGrid (NArray.Resize [])).2 1
      (NArray.Resize [])).2 1
        (MatrixTranspose NV 0 (NArray.Resize [])).2 0 (NArray.Resize [])).2
      ({ dims := (0, 0, 0), points := [] } : StructuredGrid α)).2.points
      (a + b * (2 * a + 1))) k = _
  rw [h4, ptComp_mk (fun k => (MatrixMatrixMultiply
    (MatrixMatrixMultiply NU 0
      (StructuredGridToTypedArray self.ControlPointGrid (NArray.Resize [])).2 1
      (NArray.Resize [])).2 1
    (MatrixTranspose NV 0 (NArray.Resize [])).2 0 (NArray.Resize [])).2.GetValue3 a b k) k hk,
    h2val a b k (by omega) (by omega) hk]
  simp only [Finset.sum_range_succ, Finset.sum_range_zero, zero_add]
  rw [hTval b 0 (by omega) (by norm_num), hTval b 1 (by omega) (by norm_num),
    hTval b 2 (by omega) (by norm_num), hTval b 3 (by omega) (by norm_num),
    h1val a 0 k (by omega) (by norm_num) hk, h1val a 1 k (by omega) (by norm_num) hk,
    h1val a 2 k (by omega) (by norm_num) hk, h1val a 3 k (by omega) (by norm_num) hk]
  simp only [Finset.sum_range_succ, Finset.sum_range_zero, zero_add, u0, u1, u2, u3, v0, v1,
    v2, v3]
  rw [hGval 1 1 k (by norm_num) (by norm_num) hk, hGval 1 2 k (by norm_num) (by norm_num) hk,
    hGval 2 1 k (by norm_num) (by norm_num) hk, hGval 2 2 k (by norm_num) (by norm_num) hk]
  ring

end ScenarioBClaims

section ScenarioBWitness

/-- The tessellation of the surface of Scenario B with spacing `1/3` in both directions:
nine vertices, vertex 4 being the centroid `(3/2, 3/2, 9/4)` of the four central control
points, and four quads. -/
theorem scenarioB_example :
    (GeneratePolyDataRepresentation scenarioBSurface (1 / 3) (1 / 3)).map
      (fun r => (r.1, r.2.SurfaceRepresentation.points, r.2.SurfaceRepresentation.polys))
      = some (1, [(0, 0, 0), (3 / 2, 0, 0), (3, 0, 0), (0, 3 / 2, 0), (3 / 2, 3 / 2, 9 / 4),
          (3, 3 / 2, 9 / 2), (0, 3, 0), (3 / 2, 3, 9 / 2), (3, 3, 9)],
        [[0, 1, 4, 3], [3, 4, 7, 6], [1, 2, 5, 4], [4, 5, 8, 7]]) := by
  decide!

/-- Witness of C15: the surface of Scenario B with both spacings `1/3`, three samples per
direction, vertex 4. -/
theorem C15_bilinear_centroid_witness :
    ∃ out, GeneratePolyDataRepresentation scenarioBSurface (1 / 3) (1 / 3) = some (1, out) ∧
      out.SurfaceRepresentation.points.length = (2 * 1 + 1) * (2 * 1 + 1) ∧
      GetTuple1 (LinSpace (0 : ℚ) 1 (2 * 1 + 1)) 1 = 1 / 2 ∧
      GetTuple1 (LinSpace (0 : ℚ) 1 (2 * 1 + 1)) 1 = 1 / 2 ∧
      ∀ k, k < 3 → ptComp (GetPoint out.SurfaceRepresentation.points
          (ComputePointId (2 * 1 + 1, 2 * 1 + 1, 1) (1, 1, 0))) k
        = (ptComp (GetPoint scenarioBSurface.ControlPointGrid.points
              (ComputePointId (4, 4, 1) (1, 1, 0))) k
          + ptComp (GetPoint scenarioBSurface.ControlPointGrid.points
              (ComputePointId (4, 4, 1) (1, 2, 0))) k
          + ptComp (GetPoint scenarioBSurface.ControlPointGrid.points
              (ComputePointId (4, 4, 1) (2, 1, 0))) k
          + ptComp (GetPoint scenarioBSurface.ControlPointGrid.points
              (ComputePointId (4, 4, 1) (2, 2, 0))) k) / 4 :=
  C15_bilinear_centroid scenarioBSurface (1 / 3) (1 / 3) 1 1 rfl rfl rfl rfl rfl rfl rfl rfl
    rfl (by decide!) (by decide!) (by decide!) (by decide!) (by decide!) (by decide!)

end ScenarioBWitness

/-! ## Input validation of the samplers, the knot builders and the tessellation -/

section SamplerShapeLemmas
variable {α : Type} [LinearOrderedField α]

/-- Both samplers resize `U` to `num` tuples. -/
theorem length_GetChordSpacedUs (sqrt : α → α) (xyz : List (α × α × α)) (num : ℕ) :
    (GetChordSpacedUs sqrt xyz num).length = num := by
  unfold GetChordSpacedUs
  simp only [SetTuple1, List.length_set]
  refine forLoop_pres (fun (un : List α × α) => un.1.length = num) (by simp) ?_
  intro j t _ _ ht
  simp [SetTuple1, ht]

theorem length_GetCentripetalSpacedUs (sqrt : α → α) (xyz : List (α × α × α)) (num : ℕ) :
    (GetCentripetalSpacedUs sqrt xyz num).length = num := by
  unfold GetCentripetalSpacedUs
  simp only [SetTuple1, List.length_set]
  refine forLoop_pres (fun (un : List α × α) => un.1.length = num) (by simp) ?_
  intro j t _ _ ht
  simp [SetTuple1, ht]

/-- A single point: `U[0]` is set to 0, no interior parameter is written, and `U[num-1] = U[0]`
is set to 1. -/
theorem GetChordSpacedUs_one (sqrt : α → α) (xyz : List (α × α × α)) :
    GetChordSpacedUs sqrt xyz 1 = [1] := by
  simp [GetChordSpacedUs, forLoop, forLoopAux, SetTuple1, SetNumberOfTuples]

theorem GetCentripetalSpacedUs_one (sqrt : α → α) (xyz : List (α × α × α)) :
    GetCentripetalSpacedUs sqrt xyz 1 = [1] := by
  simp [GetCentripetalSpacedUs, forLoop, forLoopAux, SetTuple1, SetNumberOfTuples]

end SamplerShapeLemmas

section ValidationClaims

variable {α : Type} [LinearOrderedField α]

/-- C21, counterexample to the claim as stated: under the "chord" strategy a single point
(fewer than 2 points) makes `GetUs` return 1 with `U = [1]`, and under the "centripetal"
strategy two coincident points (total chord length zero) make it return 1 with
`U = [0, 1]`; neither run executes a division. -/
theorem C21_counterexample_degenerate_accepted :
    (([(0, 0, 0)] : List (ℚ × ℚ × ℚ)).length < 2 ∧
      GetUs Rat.sqrt ([(0, 0, 0)] : List (ℚ × ℚ × ℚ)) "chord" [] = (1, [1])) ∧
    (∑ k in Finset.range 1,
        segLength Rat.sqrt ([(1, 2, 3), (1, 2, 3)] : List (ℚ × ℚ × ℚ)) k = 0 ∧
      GetUs Rat.sqrt ([(1, 2, 3), (1, 2, 3)] : List (ℚ × ℚ × ℚ)) "centripetal" []
        = (1, [0, 1])) ∧
    ¬ ((GetUs Rat.sqrt ([(0, 0, 0)] : List (ℚ × ℚ × ℚ)) "chord" []).1 = 0) ∧
    ¬ ((GetUs Rat.sqrt ([(1, 2, 3), (1, 2, 3)] : List (ℚ × ℚ × ℚ)) "centripetal" []).1 = 0) := by
  decide!

/-- C21 as amended (degenerate input in the parameter sampler): `GetUs` has no check of the
points. For every sequence of exactly one point, and for every non-empty point sequence whose
total chord length is zero, it returns success (1) under the strategies "chord" and
"centripetal", with an array `U` of as many entries as there are points, `U = [1]` for one
point; for every such sequence its status is 0 exactly when none of the names
"equal", "chord", "centripetal" starts the strategy string. The empty sequence is left out:
there the two samplers write `U[0]` and `U[-1]` of an array of no tuples. -/
theorem C21_degenerate_input_amended (sqrt : α → α) (xyz : List (α × α × α)) (type : String)
    (U : List α) (hne : 1 ≤ xyz.length)
    (hdeg : xyz.length < 2 ∨
      ∑ k in Finset.range (xyz.length - 1), segLength sqrt xyz k = 0) :
    ((type = "chord" ∨ type = "centripetal") →
      (GetUs sqrt xyz type U).1 = 1 ∧ (GetUs sqrt xyz type U).2.length = xyz.length ∧
      (xyz.length = 1 → (GetUs sqrt xyz type U).2 = [1])) ∧
    ((GetUs sqrt xyz type U).1 = 0 ↔
      (strncmpEq type "equal" = false ∧ strncmpEq type "chord" = false ∧
        strncmpEq type "centripetal" = false)) := by
  constructor
  · rintro (h | h)
    · rw [h, GetUs_chord]
      refine ⟨rfl, length_GetChordSpacedUs sqrt xyz _, fun h1 => ?_⟩
      dsimp only
      rw [h1]
      exact GetChordSpacedUs_one sqrt xyz
    · rw [h, GetUs_centripetal]
      refine ⟨rfl, length_GetCentripetalSpacedUs sqrt xyz _, fun h1 => ?_⟩
      dsimp only
      rw [h1]
      exact GetCentripetalSpacedUs_one sqrt xyz
  · unfold GetUs
    by_cases h1 : strncmpEq type "equal" = true
    · simp [h1]
    · by_cases h2 : strncmpEq type "chord" = true
      · simp [h1, h2]
      · by_cases h3 : strncmpEq type "centripetal" = true
        · simp [h1, h2, h3]
        · simp [h1, h2, h3]

/-- Witness of C21 as amended: the two coincident points `(1,2,3), (1,2,3)` under
"centripetal". -/
theorem C21_degenerate_input_amended_witness :
    1 ≤ ([(1, 2, 3), (1, 2, 3)] : List (ℚ × ℚ × ℚ)).length ∧
    (([(1, 2, 3), (1, 2, 3)] : List (ℚ × ℚ × ℚ)).length < 2 ∨
      ∑ k in Finset.range (([(1, 2, 3), (1, 2, 3)] : List (ℚ × ℚ × ℚ)).length - 1),
        segLength Rat.sqrt ([(1, 2, 3), (1, 2, 3)] : List (ℚ × ℚ × ℚ)) k = 0) ∧
    ((("centripetal" = "chord" ∨ "centripetal" = "centripetal") →
        (GetUs Rat.sqrt ([(1, 2, 3), (1, 2, 3)] : List (ℚ × ℚ × ℚ)) "centripetal" []).1 = 1 ∧
        (GetUs Rat.sqrt ([(1, 2, 3), (1, 2, 3)] : List (ℚ × ℚ × ℚ)) "centripetal" []).2.length
          = ([(1, 2, 3), (1, 2, 3)] : List (ℚ × ℚ × ℚ)).length ∧
        (([(1, 2, 3), (1, 2, 3)] : List (ℚ × ℚ × ℚ)).length = 1 →
          (GetUs Rat.sqrt ([(1, 2, 3), (1, 2, 3)] : List (ℚ × ℚ × ℚ)) "centripetal" []).2
            = [1])) ∧
      ((GetUs Rat.sqrt ([(1, 2, 3), (1, 2, 3)] : List (ℚ × ℚ × ℚ)) "centripetal" []).1 = 0 ↔
        (strncmpEq "centripetal" "equal" = false ∧ strncmpEq "centripetal" "chord" = false ∧
          strncmpEq "centripetal" "centripetal" = false))) :=
  ⟨by decide, by decide!,
    C21_degenerate_input_amended Rat.sqrt ([(1, 2, 3), (1, 2, 3)] : List (ℚ × ℚ × ℚ))
      "centripetal" [] (by decide) (by decide!)⟩

/-- C22, counterexample to the claim as stated: for the parameter array `[0, 1]` (`n = 2`)
and the degree `p = 3 ≥ n`, `GetKnots` returns 1 under each of the three strategies and
leaves a knot vector; none of the three runs executes a division by zero. -/
theorem C22_counterexample_degree_accepted :
    ([(0 : ℚ), 1].length ≤ 3) ∧
    GetKnots [(0 : ℚ), 1] 3 "equal" [] = (1, [0, 0, 1, 1, 1, 1]) ∧
    GetKnots [(0 : ℚ), 1] 3 "average" [] = (1, [0, 0, 1, 1, 1, 1]) ∧
    GetKnots [(0 : ℚ), 1] 3 "derivative" [] = (1, [0, 0, 0, 0, 1, 1, 1, 1]) ∧
    ¬ ((GetKnots [(0 : ℚ), 1] 3 "equal" []).1 = 0) := by
  decide!

/-- C22 as amended (degree not validated): `GetKnots` has no check of the degree. For every
parameter array `U` of length `n` and every degree `p ≥ n`, it returns success (1) under each
of the three strategies and leaves a vector of `n + p + 1` entries ("equal", "average") or
`n + p + 3` entries ("derivative"). -/
theorem C22_invalid_degree_amended (U : List α) (p : ℕ) (knots : List α)
    (hp : U.length ≤ p) :
    ((GetKnots U p "equal" knots).1 = 1 ∧
      (GetKnots U p "equal" knots).2.length = U.length + p + 1) ∧
    ((GetKnots U p "average" knots).1 = 1 ∧
      (GetKnots U p "average" knots).2.length = U.length + p + 1) ∧
    ((GetKnots U p "derivative" knots).1 = 1 ∧
      (GetKnots U p "derivative" knots).2.length = U.length + p + 3) := by
  rw [GetKnots_equal, GetKnots_average, GetKnots_derivative]
  dsimp only
  exact ⟨⟨rfl, length_LinSpaceClamp 0 1 _ _⟩, ⟨rfl, length_GetAvgKnots 0 1 _ _ _⟩,
    ⟨rfl, length_GetEndDerivKnots 0 1 _ _ _⟩⟩

/-- Witness of C22 as amended: `U = [0, 1]` and `p = 3`. -/
theorem C22_invalid_degree_amended_witness :
    [(0 : ℚ), 1].length ≤ 3 ∧
    (((GetKnots [(0 : ℚ), 1] 3 "equal" []).1 = 1 ∧
      (GetKnots [(0 : ℚ), 1] 3 "equal" []).2.length = [(0 : ℚ), 1].length + 3 + 1) ∧
    ((GetKnots [(0 : ℚ), 1] 3 "average" []).1 = 1 ∧
      (GetKnots [(0 : ℚ), 1] 3 "average" []).2.length = [(0 : ℚ), 1].length + 3 + 1) ∧
    ((GetKnots [(0 : ℚ), 1] 3 "derivative" []).1 = 1 ∧
      (GetKnots [(0 : ℚ), 1] 3 "derivative" []).2.length = [(0 : ℚ), 1].length + 3 + 3)) :=
  ⟨by decide, C22_invalid_degree_amended [(0 : ℚ), 1] 3 [] (by decide)⟩

/-- C23, counterexample to the claim as stated: the strings "equally" and "averaged" are none
of the recognised names, yet `GetUs` accepts "equally" as "equal" and `GetKnots` accepts
"averaged" as "average": both return 1 and overwrite the output array `[5]`. -/
theorem C23_counterexample_prefix_accepted :
    ("equally" ≠ "equal" ∧ "equally" ≠ "chord" ∧ "equally" ≠ "centripetal") ∧
    GetUs Rat.sqrt ([(0, 0, 0), (1, 0, 0)] : List (ℚ × ℚ × ℚ)) "equally" [5] = (1, [0, 1]) ∧
    ("averaged" ≠ "equal" ∧ "averaged" ≠ "average" ∧ "averaged" ≠ "derivative") ∧
    GetKnots [(0 : ℚ), 1] 1 "averaged" [5] = (1, [0, 0, 1, 1]) := by
  decide!

/-- C23 as amended (unknown strategy): the names are compared by `strncmp` over the length
of the name, that is as prefixes. For every strategy string that none of "equal", "chord",
"centripetal" starts, `GetUs` returns 0 and leaves `U` as it was; for every strategy string
that none of "equal", "average", "derivative" starts, `GetKnots` returns 0 and leaves `knots`
as it was. -/
theorem C23_unknown_strategy_amended (sqrt : α → α) (xyz : List (α × α × α)) (p : ℕ)
    (type : String) (U knots : List α) :
    ((strncmpEq type "equal" = false ∧ strncmpEq type "chord" = false ∧
        strncmpEq type "centripetal" = false) → GetUs sqrt xyz type U = (0, U)) ∧
    ((strncmpEq type "equal" = false ∧ strncmpEq type "average" = false ∧
        strncmpEq type "derivative" = false) → GetKnots U p type knots = (0, knots)) := by
  constructor
  · rintro ⟨h1, h2, h3⟩
    simp [GetUs, h1, h2, h3]
  · rintro ⟨h1, h2, h3⟩
    simp [GetKnots, h1, h2, h3]

/-- Witness of C23 as amended: the strategy string "linear". -/
theorem C23_unknown_strategy_amended_witness :
    (strncmpEq "linear" "equal" = false ∧ strncmpEq "linear" "chord" = false ∧
        strncmpEq "linear" "centripetal" = false) ∧
    GetUs Rat.sqrt ([(0, 0, 0), (1, 0, 0)] : List (ℚ × ℚ × ℚ)) "linear" [5] = (0, [5]) ∧
    (strncmpEq "linear" "equal" = false ∧ strncmpEq "linear" "average" = false ∧
        strncmpEq "linear" "derivative" = false) ∧
    GetKnots [(5 : ℚ)] 1 "linear" [5] = (0, [5]) :=
  ⟨by decide,
    (C23_unknown_strategy_amended Rat.sqrt ([(0, 0, 0), (1, 0, 0)] : List (ℚ × ℚ × ℚ)) 1
      "linear" [5] [5]).1 (by decide),
    by decide,
    (C23_unknown_strategy_amended Rat.sqrt ([(0, 0, 0), (1, 0, 0)] : List (ℚ × ℚ × ℚ)) 1
      "linear" [5] [5]).2 (by decide)⟩

end ValidationClaims

section TessellationClaims

variable {α : Type} [LinearOrderedField α] [FloorRing α]

/-- C24 (tessellation precondition failure): if the surface has zero control points in
either direction or zero knots in either direction, `GeneratePolyDataRepresentation` returns
0 and the surface, with its `SurfaceRepresentation` and every other member, is unchanged. -/
theorem C24_tessellation_precondition (self : NURBSSurface α) (uSpacing vSpacing : α)
    (h : self.NumberOfUControlPoints = 0 ∨ self.NumberOfVControlPoints = 0 ∨
      self.NumberOfUKnotPoints = 0 ∨ self.NumberOfVKnotPoints = 0) :
    GeneratePolyDataRepresentation self uSpacing vSpacing = some (0, self) := by
  unfold GeneratePolyDataRepresentation
  by_cases h1 : self.NumberOfUControlPoints = 0 ∨ self.NumberOfVControlPoints = 0
  · simp only [if_pos h1]
  · have h2 : self.NumberOfUKnotPoints = 0 ∨ self.NumberOfVKnotPoints = 0 := by
      rcases h with h | h | h | h
      · exact absurd (Or.inl h) h1
      · exact absurd (Or.inr h) h1
      · exact Or.inl h
      · exact Or.inr h
    simp only [if_neg h1, if_pos h2]

end TessellationClaims

section TessellationWitness

/-- Witness of C24: the surface of Scenario B with its number of V knots set to 0. -/
theorem C24_tessellation_precondition_witness :
    (({ scenarioBSurface with NumberOfVKnotPoints := 0 } : NURBSSurface ℚ).NumberOfUControlPoints
        = 0 ∨
      ({ scenarioBSurface with NumberOfVKnotPoints := 0 } : NURBSSurface ℚ).NumberOfVControlPoints
        = 0 ∨
      ({ scenarioBSurface with NumberOfVKnotPoints := 0 } : NURBSSurface ℚ).NumberOfUKnotPoints
        = 0 ∨
      ({ scenarioBSurface with NumberOfVKnotPoints := 0 } : NURBSSurface ℚ).NumberOfVKnotPoints
        = 0) ∧
    GeneratePolyDataRepresentation
      ({ scenarioBSurface with NumberOfVKnotPoints := 0 } : NURBSSurface ℚ) (1 / 3) (1 / 3)
      = some (0, { scenarioBSurface with NumberOfVKnotPoints := 0 }) :=
  ⟨Or.inr (Or.inr (Or.inr rfl)),
    C24_tessellation_precondition _ (1 / 3) (1 / 3) (Or.inr (Or.inr (Or.inr rfl)))⟩

end TessellationWitness

/-! ## Termination of `FindSpan` -/

section FindSpanTermination

variable {α : Type} [LinearOrderedField α]

/-- Total-correctness rule for the run of a `while` loop: with an invariant and a measure
that strictly decreases in every iteration, the loop is left within `fuel` evaluations of its
condition; every state of the run satisfies the invariant, the measure strictly decreases
from each state to the next, and the last state is the one `whileLoop` returns. -/
theorem whileTrace_inv {σ : Type} (cond : σ → Bool) (body : σ → σ) (Inv : σ → Prop)
    (measure : σ → ℕ)
    (hstep : ∀ s, Inv s → cond s = true → Inv (body s) ∧ measure (body s) < measure s) :
    ∀ (fuel : ℕ) (s : σ), Inv s → measure s < fuel →
      ∃ t tr, whileLoop cond body fuel s = some t ∧ whileTrace cond body fuel s = some tr ∧
        tr[0]? = some s ∧ tr[tr.length - 1]? = some t ∧ tr.length ≤ measure s + 1 ∧
        cond t = false ∧ (∀ x, x ∈ tr → Inv x) ∧
        (∀ k a b, tr[k]? = some a → tr[k + 1]? = some b →
          cond a = true ∧ b = body a ∧ measure b < measure a) := by
  intro fuel
  induction fuel with
  | zero => intro s _ h; exact absurd h (Nat.not_lt_zero _)
  | succ fuel ih =>
    intro s hI hm
    by_cases hc : cond s = true
    · obtain ⟨h1, h2⟩ := hstep s hI hc
      obtain ⟨t, tr, ht, htr, hhd, hlast, hlen, hct, hall, hch⟩ := ih (body s) h1 (by omega)
      have hpos : 0 < tr.length := by
        rcases tr with _ | ⟨x, tr⟩
        · simp at hhd
        · simp
      refine ⟨t, s :: tr, by simp [whileLoop, hc, ht], by simp [whileTrace, hc, htr], by simp,
        ?_, by simp; omega, hct, ?_, ?_⟩
      · have e : (s :: tr).length - 1 = (tr.length - 1) + 1 := by simp; omega
        rw [e, List.getElem?_cons_succ]
        exact hlast
      · intro x hx
        rcases List.mem_cons.mp hx with h | h
        · rw [h]; exact hI
        · exact hall x h
      · intro k a b ha hb
        rcases k with _ | k
        · simp only [List.getElem?_cons_zero, Option.some.injEq] at ha
          rw [zero_add, List.getElem?_cons_succ, hhd] at hb
          simp only [Option.some.injEq] at hb
          subst ha; subst hb
          exact ⟨hc, rfl, h2⟩
        · rw [List.getElem?_cons_succ] at ha hb
          exact hch k a b ha hb
    · have hc2 : cond s = false := by simpa using hc
      refine ⟨s, [s], by simp [whileLoop, hc2], by simp [whileTrace, hc2], by simp, by simp,
        by simp, hc2, ?_, ?_⟩
      · intro x hx
        rw [List.mem_singleton.mp hx]; exact hI
      · intro k a b ha hb
        simp at hb

end FindSpanTermination

section FindSpanTerminationClaims

variable {α : Type} [LinearOrderedField α]

/-- C29 (FindSpan terminates on its domain): for every non-decreasing knot vector of length
`nCon + p + 1` with `p < nCon` and every `u` with `knots[p] ≤ u ≤ knots[nCon]`, `FindSpan`
returns a span once it is given more than `nCon - p` evaluations of the loop condition. The
index `nCon` of the early test lies inside the knot vector; the run of the search loop has at
most `nCon - p` states, in each of them `p ≤ low ≤ mid < high ≤ nCon`, so that the indices
`mid` and `mid + 1` read by the loop lie inside the knot vector; from each state to the next
`high - low` strictly decreases; and the loop is left at a state with
`knots[mid] ≤ u < knots[mid+1]`, whose `mid` is the span returned. -/
theorem C29_FindSpan_terminates (knots : List α) (p nCon : ℕ) (u : α) (fuel : ℕ)
    (hlen : knots.length = nCon + p + 1)
    (hmono : ∀ i, i + 1 < knots.length → GetTuple1 knots i ≤ GetTuple1 knots (i + 1))
    (hpn : p < nCon) (h1 : GetTuple1 knots p ≤ u) (h2 : u ≤ GetTuple1 knots nCon)
    (hfuel : nCon - p < fuel) :
    ∃ span tr, FindSpan fuel p u knots = some span ∧
      FindSpanTrace fuel p u knots = some tr ∧
      nCon < knots.length ∧ tr.length ≤ nCon - p ∧
      (∀ st, st ∈ tr → p ≤ st.1 ∧ st.1 ≤ st.2.2 ∧ st.2.2 < st.2.1 ∧ st.2.1 ≤ nCon ∧
        st.2.2 + 1 < knots.length) ∧
      (∀ k a b, tr[k]? = some a → tr[k + 1]? = some b → b.2.1 - b.1 < a.2.1 - a.1) ∧
      (∀ t, tr[tr.length - 1]? = some t → span = (t.2.2 : ℤ) ∧
        GetTuple1 knots t.2.2 ≤ u ∧ u < GetTuple1 knots (t.2.2 + 1)) := by
  have hn : knots.length - p - 1 = nCon := by omega
  rcases eq_or_lt_of_le h2 with he | hl
  · refine ⟨(nCon : ℤ) - 1, [], FindSpan_last knots p nCon u fuel hlen he, ?_, by omega,
      by simp, by simp, by simp, by simp⟩
    unfold FindSpanTrace
    simp only [hn]
    rw [if_pos he]
  · obtain ⟨t, tr, ht, htr, hhd, hlast, hlen2, hc, hall, hch⟩ := whileTrace_inv
      (fun (st : ℕ × ℕ × ℕ) =>
        decide (u < GetTuple1 knots st.2.2 ∨ u ≥ GetTuple1 knots (st.2.2 + 1)))
      (fun (st : ℕ × ℕ × ℕ) =>
        ((if u < GetTuple1 knots st.2.2 then (st.1, st.2.2) else (st.2.2, st.2.1) : ℕ × ℕ).1,
          (if u < GetTuple1 knots st.2.2 then (st.1, st.2.2) else (st.2.2, st.2.1) : ℕ × ℕ).2,
          ((if u < GetTuple1 knots st.2.2 then (st.1, st.2.2)
              else (st.2.2, st.2.1) : ℕ × ℕ).1 +
            (if u < GetTuple1 knots st.2.2 then (st.1, st.2.2)
              else (st.2.2, st.2.1) : ℕ × ℕ).2) / 2))
      (fun st => p ≤ st.1 ∧ st.1 < st.2.1 ∧ st.2.1 ≤ nCon ∧ st.2.2 = (st.1 + st.2.1) / 2 ∧
        GetTuple1 knots st.1 ≤ u ∧ u < GetTuple1 knots st.2.1)
      (fun st => st.2.1 - st.1 - 1)
      (by
        rintro ⟨low, high, mid⟩ ⟨a1, a2, a3, a4, a5, a6⟩ hc
        dsimp only at a1 a2 a3 a4 a5 a6 hc ⊢
        have hc2 : u < GetTuple1 knots mid ∨ u ≥ GetTuple1 knots (mid + 1) := by
          simpa using hc
        by_cases hlt : u < GetTuple1 knots mid
        · rw [if_pos hlt]
          have hne : mid ≠ low := by
            intro e
            rw [e] at hlt
            exact absurd a5 (not_le.mpr hlt)
          refine ⟨⟨a1, by omega, by omega, rfl, a5, hlt⟩, by omega⟩
        · rw [if_neg hlt]
          have hge : GetTuple1 knots (mid + 1) ≤ u := by
            rcases hc2 with h | h
            · exact absurd h hlt
            · exact h
          have hne : mid ≠ low := by
            intro e
            have e2 : high = low + 1 := by omega
            rw [e, ← e2] at hge
            exact absurd hge (not_le.mpr a6)
          refine ⟨⟨by omega, by omega, a3, rfl, not_lt.mp hlt, a6⟩, by omega⟩)
      fuel (p, nCon, (p + nCon) / 2) ⟨le_refl _, hpn, le_refl _, rfl, h1, hl⟩
      (by dsimp only; omega)
    refine ⟨(t.2.2 : ℤ), tr, ?_, ?_, by omega, by dsimp only at hlen2; omega, ?_, ?_, ?_⟩
    · unfold FindSpan
      simp only [hn]
      rw [if_neg (ne_of_lt hl)]
      exact congrArg (Option.map (fun st : ℕ × ℕ × ℕ => (st.2.2 : ℤ))) ht
    · unfold FindSpanTrace
      simp only [hn]
      rw [if_neg (ne_of_lt hl)]
      exact htr
    · intro st hst
      obtain ⟨a1, a2, a3, a4, a5, a6⟩ := hall st hst
      refine ⟨a1, by omega, by omega, a3, by omega⟩
    · intro k a b ha hb
      obtain ⟨-, -, hm⟩ := hch k a b ha hb
      obtain ⟨a1, a2, a3, a4, a5, a6⟩ := hall a (List.getElem?_mem ha)
      obtain ⟨b1, b2, b3, b4, b5, b6⟩ := hall b (List.getElem?_mem hb)
      omega
    · intro t2 ht2
      rw [hlast] at ht2
      simp only [Option.some.injEq] at ht2
      subst ht2
      have hc2 : ¬ (u < GetTuple1 knots t.2.2 ∨ u ≥ GetTuple1 knots (t.2.2 + 1)) := by
        simpa using hc
      push_neg at hc2
      exact ⟨rfl, hc2.1, hc2.2⟩

/-- Witness of C29: knots `[0,0,0,1/2,1,1,1]`, degree 2, `u = 3/4`, three evaluations. -/
theorem C29_FindSpan_terminates_witness :
    ∃ span tr, FindSpan 3 2 (3/4 : ℚ) [0, 0, 0, 1/2, 1, 1, 1] = some span ∧
      FindSpanTrace 3 2 (3/4 : ℚ) [0, 0, 0, 1/2, 1, 1, 1] = some tr ∧
      4 < ([0, 0, 0, 1/2, 1, 1, 1] : List ℚ).length ∧ tr.length ≤ 4 - 2 ∧
      (∀ st, st ∈ tr → 2 ≤ st.1 ∧ st.1 ≤ st.2.2 ∧ st.2.2 < st.2.1 ∧ st.2.1 ≤ 4 ∧
        st.2.2 + 1 < ([0, 0, 0, 1/2, 1, 1, 1] : List ℚ).length) ∧
      (∀ k a b, tr[k]? = some a → tr[k + 1]? = some b → b.2.1 - b.1 < a.2.1 - a.1) ∧
      (∀ t, tr[tr.length - 1]? = some t → span = (t.2.2 : ℤ) ∧
        GetTuple1 ([0, 0, 0, 1/2, 1, 1, 1] : List ℚ) t.2.2 ≤ 3/4 ∧
        (3/4 : ℚ) < GetTuple1 ([0, 0, 0, 1/2, 1, 1, 1] : List ℚ) (t.2.2 + 1)) :=
  C29_FindSpan_terminates ([0, 0, 0, 1/2, 1, 1, 1] : List ℚ) 2 4 (3/4) 3 (by decide)
    scenarioA_knots_mono (by decide) (by decide!) (by decide!) (by decide)

/-- The run of `FindSpan` on the knots `[0,0,0,1/2,1,1,1]` with degree 2 at `u = 1/4`: the
states `(low, high, mid)` are `(2, 4, 3)` and `(2, 3, 2)`. -/
theorem FindSpanTrace_example :
    FindSpanTrace 3 2 (1/4 : ℚ) [0, 0, 0, 1/2, 1, 1, 1] = some [(2, 4, 3), (2, 3, 2)] ∧
    FindSpan 3 2 (1/4 : ℚ) [0, 0, 0, 1/2, 1, 1, 1] = some 2 := by
  decide!

end FindSpanTerminationClaims

/-! ## Loops whose body cannot fail -/

section CheckedLoops

/-- A loop whose fallible body succeeds on every state that satisfies an invariant is the
plain loop. -/
theorem forLoopM_eq_forLoop {σ : Type} (lo hi : ℕ) (bodyM : ℕ → σ → Option σ)
    (body : ℕ → σ → σ) (P : σ → Prop) (s : σ) (hs : P s)
    (h : ∀ j t, lo ≤ j → j < hi → P t → bodyM j t = some (body j t) ∧ P (body j t)) :
    forLoopM lo hi bodyM s = some (forLoop lo hi body s) ∧ P (forLoop lo hi body s) := by
  rcases Nat.lt_or_ge hi lo with hlt | hge
  · have e : hi - lo = 0 := by omega
    rw [forLoop_empty body s (Nat.le_of_lt hlt)]
    refine ⟨?_, hs⟩
    simp [forLoopM, e, forLoopMAux]
  · obtain ⟨t, ht, he, hP⟩ := forLoopM_inv lo hi bodyM s
      (fun j t => t = forLoop lo j body s ∧ P t) hge
      ⟨(forLoop_empty body s (le_refl _)).symm, hs⟩
      (fun j t hj hj2 ⟨h1, h2⟩ => by
        obtain ⟨a, b⟩ := h j t hj hj2 h2
        refine ⟨body j t, a, ?_, b⟩
        rw [forLoop_succ lo j body s hj, ← h1])
    rw [← he]
    exact ⟨ht, hP⟩

end CheckedLoops

section TransposeLemmas

variable {α : Type} [LinearOrderedField α]

/-- On a square grid `StructuredGridTranspose` is a transpose: every write is inside the
points, and the point at position `(j, i)` of the output is the point at position `(i, j)` of
the input. -/
theorem StructuredGridTranspose_square (sg newSg : StructuredGrid α) (d : ℕ)
    (hd : sg.dims = (d, d, 1)) (hlen : sg.points.length = d * d) :
    ∃ out, StructuredGridTranspose sg newSg = some out ∧ out.dims = (d, d, 1) ∧
      out.points.length = d * d ∧
      ∀ i j, i < d → j < d →
        GetPoint out.points (ComputePointId (d, d, 1) (j, i, 0))
          = GetPoint sg.points (ComputePointId (d, d, 1) (i, j, 0)) := by
  have hin : ∀ i, i < d → ∀ t : List (α × α × α), t.length = d * d →
      forLoopM 0 d (fun j tmpPoints =>
        SetPointChecked tmpPoints (ComputePointId (d, d, 1) (j, i, 0))
          (GetPoint sg.points (ComputePointId (d, d, 1) (i, j, 0)))) t
        = some (forLoop 0 d (fun j (tmpPoints : List (α × α × α)) =>
            tmpPoints.set (j + i * d) (GetPoint sg.points (i + j * d))) t) ∧
      (forLoop 0 d (fun j (tmpPoints : List (α × α × α)) =>
            tmpPoints.set (j + i * d) (GetPoint sg.points (i + j * d))) t).length = d * d := by
    intro i hi t ht
    refine forLoopM_eq_forLoop 0 d _ _ (fun (t : List (α × α × α)) => t.length = d * d) t ht ?_
    intro j t _ hj ht
    rw [ComputePointId_plane, ComputePointId_plane]
    have hlt : j + i * d < t.length := by rw [ht]; exact colMajor_lt d d j i hj hi
    exact ⟨by simp [SetPointChecked, hlt], by simp [ht]⟩
  have hout := forLoopM_eq_forLoop 0 d
    (fun i tmpPoints => forLoopM 0 d (fun j tmpPoints =>
        SetPointChecked tmpPoints (ComputePointId (d, d, 1) (j, i, 0))
          (GetPoint sg.points (ComputePointId (d, d, 1) (i, j, 0)))) tmpPoints)
    (fun i tmpPoints => forLoop 0 d (fun j (tmpPoints : List (α × α × α)) =>
        tmpPoints.set (j + i * d) (GetPoint sg.points (i + j * d))) tmpPoints)
    (fun (t : List (α × α × α)) => t.length = d * d)
    (List.replicate (d * d) (0, 0, 0)) (by simp)
    (fun i t _ hi ht => hin i hi t ht)
  have hw := forLoop2_write_inv
    (fun (t : List (α × α × α)) => t.length = d * d)
    (fun (t : List (α × α × α)) (k : ℕ) => GetPoint t k) d d
    (fun i j => j + i * d)
    (fun i j _ => GetPoint sg.points (i + j * d))
    (fun i j (t : List (α × α × α)) => t.set (j + i * d) (GetPoint sg.points (i + j * d)))
    (by
      intro i j _ _ s h
      simp [h])
    (by
      intro i j hi hj s h k
      have hlt : j + i * d < s.length := by rw [h]; exact colMajor_lt d d j i hj hi
      beta_reduce
      by_cases hk : k = j + i * d
      · subst hk
        simp [GetPoint, List.getD_eq_getElem?_getD, hlt]
      · have hne : j + i * d ≠ k := fun h => hk h.symm
        simp [GetPoint, List.getD_eq_getElem?_getD, List.getElem?_set_ne hne, hk])
    (by
      intro i j i2 j2 _ hj _ hj2 he
      have := colMajor_inj2 d j i j2 i2 hj hj2 he
      exact ⟨this.2, this.1⟩)
    (List.replicate (d * d) (0, 0, 0)) (by simp)
  refine ⟨StructuredGrid.mk (d, d, 1) (forLoop 0 d (fun i tmpPoints =>
      forLoop 0 d (fun j (tmpPoints : List (α × α × α)) =>
        tmpPoints.set (j + i * d) (GetPoint sg.points (i + j * d))) tmpPoints)
      (List.replicate (d * d) (0, 0, 0))), ?_, rfl, hw.1, ?_⟩
  · unfold StructuredGridTranspose
    simp only [hd, hlen]
    rw [hout.1]
    rfl
  · intro i j hi hj
    rw [ComputePointId_plane, ComputePointId_plane]
    exact hw.2 i j hi hj

end TransposeLemmas

/-! ## `StructuredGridTranspose` -/

section TransposeClaims

variable {α : Type} [LinearOrderedField α]

/-- The transpose of the `(2, 3, 1)` grid as the code computes it. -/
theorem transpose_example :
    StructuredGridTranspose grid2x3 { dims := (0, 0, 0), points := [] }
      = some { dims := (3, 2, 1)
               points := [(0, 0, 0), (0, 1, 0), (1, 0, 0), (1, 1, 0), (1, 2, 0), (0, 0, 0)] } := by
  decide!

/-- C30 (the code is not a transpose of a non-square grid): on the `(2, 3, 1)` grid with the
points `(i, j, 0)`, `StructuredGridTranspose` sets the dimensions `(3, 2, 1)`, but the point
at position `(2, 0)` of the output (id `2 + 0*3 = 2`) is `(1, 0, 0)`, not the point `(0, 2, 0)`
at position `(0, 2)` of the input (id `0 + 2*2 = 4`), and point id 5 is never written; on the
`(3, 2, 1)` grid, of 6 points, the pair `i = 2, j = 1` is written at the point id
`1 + 2*3 = 7 > 5`, outside the points of the output. -/
theorem C30_StructuredGridTranspose_not_transpose :
    (∃ out, StructuredGridTranspose grid2x3 { dims := (0, 0, 0), points := [] } = some out ∧
      out.dims = (3, 2, 1) ∧
      GetPoint grid2x3.points (ComputePointId (2, 3, 1) (0, 2, 0)) = (0, 2, 0) ∧
      GetPoint out.points (ComputePointId (3, 2, 1) (2, 0, 0)) = (1, 0, 0) ∧
      GetPoint out.points (ComputePointId (3, 2, 1) (2, 0, 0))
        ≠ GetPoint grid2x3.points (ComputePointId (2, 3, 1) (0, 2, 0))) ∧
    (ComputePointId grid3x2.dims (1, 2, 0) = 7 ∧ grid3x2.points.length = 6 ∧
      StructuredGridTranspose grid3x2 { dims := (0, 0, 0), points := [] } = none) := by
  refine ⟨⟨_, transpose_example, ?_⟩, ?_⟩
  · decide!
  · decide!

end TransposeClaims

/-! ## The derivative-constrained system -/

section DerivativeLemmas

variable {α : Type} [LinearOrderedField α]

/-- A loop of `SetValue(r, j, f j)` over `j < n` writes row `r` and nothing else. -/
theorem rowLoop_read (n r : ℕ) (f : ℕ → α) (s : NArray α) :
    (forLoop 0 n (fun j (s : NArray α) => s.SetValue2 r j (f j)) s).extents = s.extents ∧
    ∀ a b, (forLoop 0 n (fun j (s : NArray α) => s.SetValue2 r j (f j)) s).GetValue2 a b
      = if a = r ∧ b < n then f b else s.GetValue2 a b := by
  refine forLoop_inv 0 n (fun j (s : NArray α) => s.SetValue2 r j (f j)) s
    (fun i t => t.extents = s.extents ∧
      ∀ a b, t.GetValue2 a b = if a = r ∧ b < i then f b else s.GetValue2 a b)
    (Nat.zero_le _) ⟨rfl, fun a b => by simp⟩ ?_
  rintro i t - hi ⟨he, hv⟩
  refine ⟨he, fun a b => ?_⟩
  rw [GetValue2_SetValue2, hv]
  by_cases h1 : a = r ∧ b = i
  · rw [if_pos h1, if_pos ⟨h1.1, by omega⟩, h1.2]
  · rw [if_neg h1]
    by_cases h2 : a = r ∧ b < i
    · rw [if_pos h2, if_pos ⟨h2.1, by omega⟩]
    · rw [if_neg h2, if_neg]
      rintro ⟨h3, h4⟩
      rcases Nat.lt_succ_iff_lt_or_eq.mp h4 with h5 | h5
      · exact h2 ⟨h3, h5⟩
      · exact h1 ⟨h3, h5⟩

/-- A loop over the rows `lo ≤ i < hi` of loops of `SetValue(i, j, f i j)` over `j < n` writes
that block of rows and nothing else. -/
theorem blockLoop_read (lo hi n : ℕ) (f : ℕ → ℕ → α) (s : NArray α) :
    (forLoop lo hi (fun i (s : NArray α) =>
      forLoop 0 n (fun j (s : NArray α) => s.SetValue2 i j (f i j)) s) s).extents = s.extents ∧
    ∀ a b, (forLoop lo hi (fun i (s : NArray α) =>
      forLoop 0 n (fun j (s : NArray α) => s.SetValue2 i j (f i j)) s) s).GetValue2 a b
      = if lo ≤ a ∧ a < hi ∧ b < n then f a b else s.GetValue2 a b := by
  rcases Nat.lt_or_ge hi lo with hlt | hge
  · rw [forLoop_empty _ s (Nat.le_of_lt hlt)]
    refine ⟨rfl, fun a b => ?_⟩
    rw [if_neg]
    rintro ⟨h1, h2, -⟩
    omega
  · refine forLoop_inv lo hi _ s
      (fun i t => t.extents = s.extents ∧
        ∀ a b, t.GetValue2 a b = if lo ≤ a ∧ a < i ∧ b < n then f a b else s.GetValue2 a b)
      hge ⟨rfl, fun a b => ?_⟩ ?_
    · rw [if_neg]
      rintro ⟨h1, h2, -⟩
      omega
    · rintro i t hlo hi2 ⟨he, hv⟩
      obtain ⟨r1, r2⟩ := rowLoop_read n i (f i) t
      refine ⟨r1.trans he, fun a b => ?_⟩
      rw [r2, hv]
      by_cases h1 : a = i ∧ b < n
      · rw [if_pos h1, if_pos ⟨by omega, by omega, h1.2⟩, h1.1]
      · rw [if_neg h1]
        by_cases h2 : lo ≤ a ∧ a < i ∧ b < n
        · rw [if_pos h2, if_pos ⟨h2.1, by omega, h2.2.2⟩]
        · rw [if_neg h2, if_neg]
          rintro ⟨h3, h4, h5⟩
          rcases Nat.lt_succ_iff_lt_or_eq.mp h4 with h6 | h6
          · exact h2 ⟨h3, h6, h5⟩
          · exact h1 ⟨h6, h5⟩

theorem idxChecked_natCast (k : ℕ) : idxChecked (k : ℤ) = some k := by
  simp [idxChecked]

/-- The matrix that `AddDerivativeRows` assembles, entry by entry, for `n = nKnot - p - 1`
at least 4. -/
theorem AddDerivativeRows_spec (NP newNP : NArray α) (p n : ℕ) (knots : List α)
    (hlen : knots.length = n + p + 1) (hn : 4 ≤ n) :
    ∃ M, AddDerivativeRows NP newNP p knots = some M ∧ M.extents = [n, n] ∧
      ∀ a b, M.GetValue2 a b
        = if a = n - 1 ∧ b < n then NP.GetValue2 (n - 3) b
          else if a = n - 2 ∧ b = n - 1 then 1
          else if a = n - 2 ∧ b = n - 2 then -1
          else if 2 ≤ a ∧ a < n - 2 ∧ b < n then NP.GetValue2 (a - 1) b
          else if a = 1 ∧ b = 1 then 1
          else if a = 1 ∧ b = 0 then -1
          else if a = 0 ∧ b < n then NP.GetValue2 0 b
          else 0 := by
  have e0 : ((knots.length : ℤ) - ((p : ℤ) + 1)) = (n : ℤ) := by rw [hlen]; push_cast; ring
  have e2 : ((n : ℤ) - 2) = ((n - 2 : ℕ) : ℤ) := by omega
  have e1 : ((n : ℤ) - 1) = ((n - 1 : ℕ) : ℤ) := by omega
  have e3 : ((n : ℤ) - 3) = ((n - 3 : ℕ) : ℤ) := by omega
  unfold AddDerivativeRows
  simp only [e0, Int.toNat_ofNat, e2, e1, e3, idxChecked_natCast, Option.some_bind]
  refine ⟨_, rfl, ?_, fun a b => ?_⟩
  · rw [(rowLoop_read n (n - 1) _ _).1]
    simp only [extents_SetValue2]
    rw [(blockLoop_read 2 (n - 2) n (fun i j => NP.GetValue2 (i - 1) j) _).1]
    simp only [extents_SetValue2]
    rw [(rowLoop_read n 0 _ _).1]
    rfl
  · rw [(rowLoop_read n (n - 1) _ _).2, GetValue2_SetValue2, GetValue2_SetValue2,
      (blockLoop_read 2 (n - 2) n (fun i j => NP.GetValue2 (i - 1) j) _).2,
      GetValue2_SetValue2, GetValue2_SetValue2, (rowLoop_read n 0 _ _).2]
    rfl

/-- The point vector that `AddDerivativePoints` assembles, entry by entry, for a degree
`p ≥ 1` and `n = nKnot - p - 1` at least `p + 4`. -/
theorem AddDerivativePoints_spec (points newPoints : NArray α) (p n : ℕ) (D0 DN : ℕ → α)
    (U knots : List α) (hlen : knots.length = n + p + 1) (hp : 1 ≤ p) (hn : p + 4 ≤ n) :
    ∃ P, AddDerivativePoints points p D0 DN U knots newPoints = some P ∧
      P.extents = [n, 3] ∧
      ∀ a b, P.GetValue2 a b
        = if a = n - 1 ∧ b < 3 then points.GetValue2 (n - 3) b
          else if a = n - 2 ∧ b < 3 then (1 - GetTuple1 U (n - p - 4)) / (p : α) * DN b
          else if 2 ≤ a ∧ a < n - 2 ∧ b < 3 then points.GetValue2 (a - 1) b
          else if a = 1 ∧ b < 3 then GetTuple1 U (p + 1) / (p : α) * D0 b
          else if a = 0 ∧ b < 3 then points.GetValue2 0 b
          else 0 := by
  have e0 : ((knots.length : ℤ) - ((p : ℤ) + 1)) = (n : ℤ) := by rw [hlen]; push_cast; ring
  have e2 : ((n : ℤ) - 2) = ((n - 2 : ℕ) : ℤ) := by omega
  have e1 : ((n : ℤ) - 1) = ((n - 1 : ℕ) : ℤ) := by omega
  have e3 : ((n : ℤ) - 3) = ((n - 3 : ℕ) : ℤ) := by omega
  have e4 : ((n : ℤ) - (p : ℤ) - 4) = ((n - p - 4 : ℕ) : ℤ) := by omega
  have hp0 : (p : α) ≠ 0 := by
    have : p ≠ 0 := by omega
    exact_mod_cast this
  unfold AddDerivativePoints
  simp only [e0, Int.toNat_ofNat, e2, e1, e3, e4, idxChecked_natCast, Option.some_bind,
    divChecked_of_ne _ _ hp0]
  refine ⟨_, rfl, ?_, fun a b => ?_⟩
  · rw [(rowLoop_read 3 (n - 1) _ _).1, (rowLoop_read 3 (n - 2) _ _).1,
      (blockLoop_read 2 (n - 2) 3 (fun i j => points.GetValue2 (i - 1) j) _).1,
      (rowLoop_read 3 1 _ _).1, (rowLoop_read 3 0 _ _).1]
    rfl
  · rw [(rowLoop_read 3 (n - 1) _ _).2, (rowLoop_read 3 (n - 2) _ _).2,
      (blockLoop_read 2 (n - 2) 3 (fun i j => points.GetValue2 (i - 1) j) _).2,
      (rowLoop_read 3 1 _ _).2, (rowLoop_read 3 0 _ _).2]
    rfl

end DerivativeLemmas

section DerivativeClaims

variable {α : Type} [LinearOrderedField α]

/-- C27 (derivative-constrained system assembly): for a knot vector with
`n = nKnot - p - 1 = m + 2` and `m ≥ p + 2`, `AddDerivativeRows` produces an `n x n` matrix
whose row 0 is row 0 of the basis matrix `NP`, whose row 1 is `(-1, 1, 0, ..., 0)`, whose
rows `i = 2..n-3` are the rows `i - 1` of `NP`, whose row `n - 2` is `(0, ..., 0, -1, 1)` and
whose row `n - 1` is row `m - 1` of `NP`; and for a degree `p ≥ 1`, `SetCurveEndDerivatives`
returns that matrix together with an `n x 3` point vector whose row 0 is `P[0]`, row 1 is
`d0 * D0` with `d0 = U[p+1] / p`, rows `i = 2..n-3` are `P[i-1]`, row `n - 2` is `dN * DN`
with `dN = (1 - U[n-p-4]) / p`, and row `n - 1` is `P[m-1]`. The zero entries of the rows 1
and `n - 2` are entries that no statement writes after `Resize`. -/
theorem C27_derivative_system (NP points newNP newPoints : NArray α) (p m : ℕ)
    (D0 DN : ℕ → α) (U knots : List α)
    (hlen : knots.length = (m + 2) + p + 1) (hm : p + 2 ≤ m) :
    ∃ M, AddDerivativeRows NP newNP p knots = some M ∧ M.extents = [m + 2, m + 2] ∧
      (∀ j, j < m + 2 → M.GetValue2 0 j = NP.GetValue2 0 j) ∧
      (M.GetValue2 1 0 = -1 ∧ M.GetValue2 1 1 = 1 ∧
        ∀ j, 2 ≤ j → j < m + 2 → M.GetValue2 1 j = 0) ∧
      (∀ i j, 2 ≤ i → i ≤ m - 1 → j < m + 2 → M.GetValue2 i j = NP.GetValue2 (i - 1) j) ∧
      ((∀ j, j < m → M.GetValue2 m j = 0) ∧ M.GetValue2 m m = -1 ∧
        M.GetValue2 m (m + 1) = 1) ∧
      (∀ j, j < m + 2 → M.GetValue2 (m + 1) j = NP.GetValue2 (m - 1) j) ∧
      (1 ≤ p →
        ∃ P, SetCurveEndDerivatives NP points p D0 DN U knots newNP newPoints = some (M, P) ∧
          P.extents = [m + 2, 3] ∧
          ∀ c, c < 3 →
            P.GetValue2 0 c = points.GetValue2 0 c ∧
            P.GetValue2 1 c = GetTuple1 U (p + 1) / (p : α) * D0 c ∧
            (∀ i, 2 ≤ i → i ≤ m - 1 → P.GetValue2 i c = points.GetValue2 (i - 1) c) ∧
            P.GetValue2 m c = (1 - GetTuple1 U (m - p - 2)) / (p : α) * DN c ∧
            P.GetValue2 (m + 1) c = points.GetValue2 (m - 1) c) := by
  obtain ⟨M, hM, hext, hval⟩ := AddDerivativeRows_spec NP newNP p (m + 2) knots hlen (by omega)
  have e1 : m + 2 - 1 = m + 1 := by omega
  have e2 : m + 2 - 2 = m := by omega
  have e3 : m + 2 - 3 = m - 1 := by omega
  rw [e1, e2, e3] at hval
  refine ⟨M, hM, hext, ?_, ⟨?_, ?_, ?_⟩, ?_, ⟨?_, ?_, ?_⟩, ?_, ?_⟩
  · intro j hj
    rw [hval, if_neg (by omega), if_neg (by omega), if_neg (by omega), if_neg (by omega),
      if_neg (by omega), if_neg (by omega), if_pos ⟨rfl, hj⟩]
  · rw [hval, if_neg (by omega), if_neg (by omega), if_neg (by omega), if_neg (by omega),
      if_neg (by omega), if_pos ⟨rfl, rfl⟩]
  · rw [hval, if_neg (by omega), if_neg (by omega), if_neg (by omega), if_neg (by omega),
      if_pos ⟨rfl, rfl⟩]
  · intro j hj1 hj2
    rw [hval, if_neg (by omega), if_neg (by omega), if_neg (by omega), if_neg (by omega),
      if_neg (by omega), if_neg (by omega), if_neg (by omega)]
  · intro i j hi1 hi2 hj
    rw [hval, if_neg (by omega), if_neg (by omega), if_neg (by omega),
      if_pos ⟨hi1, by omega, hj⟩]
  · intro j hj
    rw [hval, if_neg (by omega), if_neg (by omega), if_neg (by omega), if_neg (by omega),
      if_neg (by omega), if_neg (by omega), if_neg (by omega)]
  · rw [hval, if_neg (by omega), if_neg (by omega), if_pos ⟨rfl, rfl⟩]
  · rw [hval, if_neg (by omega), if_pos ⟨rfl, rfl⟩]
  · intro j hj
    rw [hval, if_pos ⟨rfl, hj⟩]
  · intro hp
    obtain ⟨P, hP, hPext, hPval⟩ := AddDerivativePoints_spec points newPoints p (m + 2) D0 DN U
      knots hlen hp (by omega)
    have e4 : m + 2 - p - 4 = m - p - 2 := by omega
    rw [e1, e2, e3, e4] at hPval
    refine ⟨P, ?_, hPext, fun c hc => ⟨?_, ?_, ?_, ?_, ?_⟩⟩
    · simp only [SetCurveEndDerivatives, hM, hP, Option.some_bind]
    · rw [hPval, if_neg (by omega), if_neg (by omega), if_neg (by omega), if_neg (by omega),
        if_pos ⟨rfl, hc⟩]
    · rw [hPval, if_neg (by omega), if_neg (by omega), if_neg (by omega), if_pos ⟨rfl, hc⟩]
    · intro i hi1 hi2
      rw [hPval, if_neg (by omega), if_neg (by omega), if_pos ⟨hi1, by omega, hc⟩]
    · rw [hPval, if_neg (by omega), if_pos ⟨rfl, hc⟩]
    · rw [hPval, if_pos ⟨rfl, hc⟩]

/-- C28 as amended (the derivative scale factors come from the parameter array): the knot
vector enters `AddDerivativePoints` through its length only, so for fixed `U`, degree,
points, `D0` and `DN` the output is the same for any two knot vectors of the same length;
and for a degree `p ≥ 1` and `n = nKnot - p - 1 ≥ p + 4` row 1 of the output is `d0 * D0`
with `d0 = U[p+1] / p` and row `n - 2` is `dN * DN` with `dN = (1 - U[n-p-4]) / p`. -/
theorem C28_derivative_scale_amended (points newPoints newPoints2 : NArray α) (p n : ℕ)
    (D0 DN : ℕ → α) (U knots knots2 : List α)
    (hlen : knots.length = n + p + 1) (hlen2 : knots2.length = knots.length) (hp : 1 ≤ p)
    (hn : p + 4 ≤ n) :
    AddDerivativePoints points p D0 DN U knots2 newPoints2
      = AddDerivativePoints points p D0 DN U knots newPoints ∧
    ∃ P, AddDerivativePoints points p D0 DN U knots newPoints = some P ∧
      ∀ c, c < 3 →
        P.GetValue2 1 c = GetTuple1 U (p + 1) / (p : α) * D0 c ∧
        P.GetValue2 (n - 2) c = (1 - GetTuple1 U (n - p - 4)) / (p : α) * DN c := by
  constructor
  · unfold AddDerivativePoints
    rw [hlen2]
  · obtain ⟨P, hP, -, hPval⟩ := AddDerivativePoints_spec points newPoints p n D0 DN U knots
      hlen hp hn
    refine ⟨P, hP, fun c hc => ⟨?_, ?_⟩⟩
    · rw [hPval, if_neg (by omega), if_neg (by omega), if_neg (by omega), if_pos ⟨rfl, hc⟩]
    · rw [hPval, if_neg (by omega), if_pos ⟨rfl, hc⟩]

end DerivativeClaims

section DerivativeWitness

/-- The example knot vector is the one `GetKnots` builds. -/
theorem derivExampleKnots_eq :
    GetKnots derivExampleU 1 "derivative" [] = (1, derivExampleKnots) := by
  decide!

/-- Witness of C27: four data points, degree 1, the basis matrix of the example. -/
theorem C27_derivative_system_witness :
    derivExampleKnots.length = (4 + 2) + 1 + 1 ∧ 1 + 2 ≤ 4 ∧
    ∃ M, AddDerivativeRows derivExampleNP (NArray.Resize []) 1 derivExampleKnots = some M ∧
      M.extents = [4 + 2, 4 + 2] ∧
      (∀ j, j < 4 + 2 → M.GetValue2 0 j = derivExampleNP.GetValue2 0 j) ∧
      (M.GetValue2 1 0 = -1 ∧ M.GetValue2 1 1 = 1 ∧
        ∀ j, 2 ≤ j → j < 4 + 2 → M.GetValue2 1 j = 0) ∧
      (∀ i j, 2 ≤ i → i ≤ 4 - 1 → j < 4 + 2 →
        M.GetValue2 i j = derivExampleNP.GetValue2 (i - 1) j) ∧
      ((∀ j, j < 4 → M.GetValue2 4 j = 0) ∧ M.GetValue2 4 4 = -1 ∧
        M.GetValue2 4 (4 + 1) = 1) ∧
      (∀ j, j < 4 + 2 → M.GetValue2 (4 + 1) j
        = derivExampleNP.GetValue2 (4 - 1) j) ∧
      (1 ≤ 1 →
        ∃ P, SetCurveEndDerivatives derivExampleNP derivExamplePoints 1 derivExampleD derivExampleD
            derivExampleU derivExampleKnots (NArray.Resize []) (NArray.Resize [])
            = some (M, P) ∧
          P.extents = [4 + 2, 3] ∧
          ∀ c, c < 3 →
            P.GetValue2 0 c = derivExamplePoints.GetValue2 0 c ∧
            P.GetValue2 1 c = GetTuple1 derivExampleU (1 + 1) / ((1 : ℕ) : ℚ) * derivExampleD c ∧
            (∀ i, 2 ≤ i → i ≤ 4 - 1 →
              P.GetValue2 i c = derivExamplePoints.GetValue2 (i - 1) c) ∧
            P.GetValue2 4 c
              = (1 - GetTuple1 derivExampleU (4 - 1 - 2)) / ((1 : ℕ) : ℚ) * derivExampleD c ∧
            P.GetValue2 (4 + 1) c = derivExamplePoints.GetValue2 (4 - 1) c) :=
  ⟨by decide, by decide,
    C27_derivative_system derivExampleNP derivExamplePoints (NArray.Resize []) (NArray.Resize []) 1 4
      derivExampleD derivExampleD derivExampleU derivExampleKnots (by decide) (by decide)⟩

/-- The system of the example, read off entry by entry: the `6 x 6` matrix and the first
coordinate of the six points. -/
theorem derivative_system_example :
    (SetCurveEndDerivatives derivExampleNP derivExamplePoints 1 derivExampleD derivExampleD
        derivExampleU derivExampleKnots (NArray.Resize []) (NArray.Resize [])).map
      (fun r => ((List.range 6).map (fun i => (List.range 6).map (fun j => r.1.GetValue2 i j)),
        (List.range 6).map (fun i => r.2.GetValue2 i 0)))
      = some ([[0, 1, 0, 0, 0, 0], [-1, 1, 0, 0, 0, 0], [0, 0, 1, 0, 0, 0],
          [0, 0, 0, 1, 0, 0], [0, 0, 0, 0, -1, 1], [0, 0, 0, 0, 0, 1]],
        [0, 2 / 3, 1, 2, 2 / 3, 3]) := by
  decide!

/-- C28, counterexample to the claim as stated: with the knots, the degree 1, the points and
`D0 = DN = (1, 0, 0)` fixed, the parameter arrays `[0, 1/3, 2/3, 1]` and `[0, 1/4, 3/4, 1]`
give different point vectors, `d0 * D0[0]` being `U[2] = 2/3` and `3/4`, and `dN * DN[0]`
being `1 - U[1] = 2/3` and `3/4`; the values `knots[p+1] / p = 0` and
`(1 - knots[nKnot-p-2]) / p = 0` of the claim are neither. -/
theorem C28_counterexample_scale_from_parameters :
    (AddDerivativePoints derivExamplePoints 1 derivExampleD derivExampleD [0, 1 / 3, 2 / 3, 1]
        derivExampleKnots (NArray.Resize [])).map
      (fun P => (P.GetValue2 1 0, P.GetValue2 4 0)) = some (2 / 3, 2 / 3) ∧
    (AddDerivativePoints derivExamplePoints 1 derivExampleD derivExampleD [0, 1 / 4, 3 / 4, 1]
        derivExampleKnots (NArray.Resize [])).map
      (fun P => (P.GetValue2 1 0, P.GetValue2 4 0)) = some (3 / 4, 3 / 4) ∧
    GetTuple1 derivExampleKnots (1 + 1) / ((1 : ℕ) : ℚ) * derivExampleD 0 = 0 ∧
    (1 - GetTuple1 derivExampleKnots (derivExampleKnots.length - 1 - 2)) / ((1 : ℕ) : ℚ)
      * derivExampleD 0 = 0 ∧
    ¬ ((AddDerivativePoints derivExamplePoints 1 derivExampleD derivExampleD
          [0, 1 / 3, 2 / 3, 1] derivExampleKnots (NArray.Resize [])).map
        (fun P => (P.GetValue2 1 0, P.GetValue2 4 0))
      = (AddDerivativePoints derivExamplePoints 1 derivExampleD derivExampleD
          [0, 1 / 4, 3 / 4, 1] derivExampleKnots (NArray.Resize [])).map
        (fun P => (P.GetValue2 1 0, P.GetValue2 4 0))) := by
  decide!

/-- Witness of C28 as amended: the example with a second knot vector of the same length. -/
theorem C28_derivative_scale_amended_witness :
    derivExampleKnots.length = 6 + 1 + 1 ∧
    ([0, 0, 1 / 5, 2 / 5, 3 / 5, 4 / 5, 1, 1] : List ℚ).length = derivExampleKnots.length ∧
    1 ≤ 1 ∧ 1 + 4 ≤ 6 ∧
    (AddDerivativePoints derivExamplePoints 1 derivExampleD derivExampleD derivExampleU
        [0, 0, 1 / 5, 2 / 5, 3 / 5, 4 / 5, 1, 1] (NArray.Resize [])
      = AddDerivativePoints derivExamplePoints 1 derivExampleD derivExampleD derivExampleU
        derivExampleKnots (NArray.Resize []) ∧
    ∃ P, AddDerivativePoints derivExamplePoints 1 derivExampleD derivExampleD derivExampleU
        derivExampleKnots (NArray.Resize []) = some P ∧
      ∀ c, c < 3 →
        P.GetValue2 1 c = GetTuple1 derivExampleU (1 + 1) / ((1 : ℕ) : ℚ) * derivExampleD c ∧
        P.GetValue2 (6 - 2) c
          = (1 - GetTuple1 derivExampleU (6 - 1 - 4)) / ((1 : ℕ) : ℚ) * derivExampleD c) :=
  ⟨by decide, by decide, by decide, by decide,
    C28_derivative_scale_amended derivExamplePoints (NArray.Resize []) (NArray.Resize []) 1 6
      derivExampleD derivExampleD derivExampleU derivExampleKnots
      [0, 0, 1 / 5, 2 / 5, 3 / 5, 4 / 5, 1, 1] (by decide) (by decide) (by decide)
      (by decide)⟩

end DerivativeWitness

/-! ## The basis matrix of `GetPBasisFunctions` -/

section BasisMatrixLemmas

variable {α : Type} [LinearOrderedField α]

theorem readTerm_zero (term : List α) (k : ℕ) : readTerm term 0 k = GetTuple1 term k := rfl

theorem readTerm_of_lt (term : List α) (stale : α) (k : ℕ) (h : k < term.length) :
    readTerm term stale k = GetTuple1 term k := by
  simp [readTerm, GetTuple1, List.getD_eq_getElem?_getD, h]

/-- The two divisions of `GetPBasisFunctions` stand behind the tests `denom != 0.0`: with
reads past the end of `term0` and `term1` returning 0, the checked run never fails and is the
plain one. -/
theorem GetPBasisFunctionsChecked_zero (U knots : List α) (p : ℕ) (NP : NArray α) :
    GetPBasisFunctionsChecked (fun _ _ _ => 0) (fun _ _ _ => 0) U knots p NP
      = some (GetPBasisFunctions U knots p NP) := by
  unfold GetPBasisFunctionsChecked GetPBasisFunctions
  simp only [GetZeroBasisFunctions_status, ne_eq, not_true_eq_false, if_false]
  have hout := forLoopM_eq_forLoop 1 (p + 1)
    (fun i (st : ℤ × (ℕ → ℕ → α)) =>
      (forLoopM 0 (st.1 - 1 - 1).toNat (fun j tmpN =>
        (if ¬ GetTuple1 knots (i + j) - GetTuple1 knots j = 0 then
            (divChecked 1 (GetTuple1 knots (i + j) - GetTuple1 knots j)).map
              (fun q => MultiplyVal1D (AddVal1DArrVal U (GetTuple1 knots j) (-1)) q)
          else some (List.replicate (st.1 - 1 - 1).toNat 0)).bind (fun term0 =>
        (if ¬ GetTuple1 knots (i + j + 1) - GetTuple1 knots (j + 1) = 0 then
            (divChecked 1 (GetTuple1 knots (i + j + 1) - GetTuple1 knots (j + 1))).map
              (fun q => MultiplyVal1D (AddVal1DValArr (GetTuple1 knots (i + j + 1)) U (-1)) q)
          else some (List.replicate (st.1 - 1 - 1).toNat 0)).bind (fun term1 =>
          some (forLoop 0 U.length (fun k tmpN =>
            bufSet2 tmpN k j (readTerm term0 0 k * tmpN k j
              + readTerm term1 0 k * tmpN k (j + 1))) tmpN)))) st.2).map
        (fun tmpN => (st.1 - 1, tmpN)))
    (fun i (st : ℤ × (ℕ → ℕ → α)) =>
      (st.1 - 1, forLoop 0 (st.1 - 1 - 1).toNat (fun j tmpN =>
        forLoop 0 U.length (fun k tmpN =>
          bufSet2 tmpN k j
            (GetTuple1 (if ¬ GetTuple1 knots (i + j) - GetTuple1 knots j = 0 then
                MultiplyVal1D (AddVal1DArrVal U (GetTuple1 knots j) (-1))
                  (1 / (GetTuple1 knots (i + j) - GetTuple1 knots j))
              else List.replicate (st.1 - 1 - 1).toNat 0) k * tmpN k j
            + GetTuple1 (if ¬ GetTuple1 knots (i + j + 1) - GetTuple1 knots (j + 1) = 0 then
                MultiplyVal1D (AddVal1DValArr (GetTuple1 knots (i + j + 1)) U (-1))
                  (1 / (GetTuple1 knots (i + j + 1) - GetTuple1 knots (j + 1)))
              else List.replicate (st.1 - 1 - 1).toNat 0) k * tmpN k (j + 1))) tmpN) st.2))
    (fun _ => True)
    ((knots.length : ℤ), forLoop 0 U.length (fun i tmpN =>
      forLoop 0 (knots.length - 1) (fun j tmpN =>
        bufSet2 tmpN i j ((GetZeroBasisFunctions U knots
          (NArray.Resize [U.length, knots.length - 1])).2.GetValue2 i j)) tmpN)
      (fun _ => newBuf))
    trivial
    (fun i st _ _ _ => by
      refine ⟨?_, trivial⟩
      have hin := forLoopM_eq_forLoop 0 (st.1 - 1 - 1).toNat
        (fun j tmpN =>
          (if ¬ GetTuple1 knots (i + j) - GetTuple1 knots j = 0 then
              (divChecked 1 (GetTuple1 knots (i + j) - GetTuple1 knots j)).map
                (fun q => MultiplyVal1D (AddVal1DArrVal U (GetTuple1 knots j) (-1)) q)
            else some (List.replicate (st.1 - 1 - 1).toNat 0)).bind (fun term0 =>
          (if ¬ GetTuple1 knots (i + j + 1) - GetTuple1 knots (j + 1) = 0 then
              (divChecked 1 (GetTuple1 knots (i + j + 1) - GetTuple1 knots (j + 1))).map
                (fun q => MultiplyVal1D (AddVal1DValArr (GetTuple1 knots (i + j + 1)) U (-1)) q)
            else some (List.replicate (st.1 - 1 - 1).toNat 0)).bind (fun term1 =>
            some (forLoop 0 U.length (fun k tmpN =>
              bufSet2 tmpN k j (readTerm term0 0 k * tmpN k j
                + readTerm term1 0 k * tmpN k (j + 1))) tmpN))))
        (fun j tmpN =>
          forLoop 0 U.length (fun k tmpN =>
            bufSet2 tmpN k j
              (GetTuple1 (if ¬ GetTuple1 knots (i + j) - GetTuple1 knots j = 0 then
                  MultiplyVal1D (AddVal1DArrVal U (GetTuple1 knots j) (-1))
                    (1 / (GetTuple1 knots (i + j) - GetTuple1 knots j))
                else List.replicate (st.1 - 1 - 1).toNat 0) k * tmpN k j
              + GetTuple1 (if ¬ GetTuple1 knots (i + j + 1) - GetTuple1 knots (j + 1) = 0 then
                  MultiplyVal1D (AddVal1DValArr (GetTuple1 knots (i + j + 1)) U (-1))
                    (1 / (GetTuple1 knots (i + j + 1) - GetTuple1 knots (j + 1)))
                else List.replicate (st.1 - 1 - 1).toNat 0) k * tmpN k (j + 1))) tmpN)
        (fun _ => True) st.2 trivial
        (fun j t _ _ _ => by
          refine ⟨?_, trivial⟩
          by_cases h0 : GetTuple1 knots (i + j) - GetTuple1 knots j = 0
          · by_cases h1 : GetTuple1 knots (i + j + 1) - GetTuple1 knots (j + 1) = 0
            · simp only [h0, h1, not_true_eq_false, if_false, Option.some_bind, readTerm_zero]
            · simp only [h0, h1, not_true_eq_false, not_false_eq_true, if_false, if_true,
                Option.some_bind, readTerm_zero, divChecked_of_ne _ _ h1, Option.map_some']
          · by_cases h1 : GetTuple1 knots (i + j + 1) - GetTuple1 knots (j + 1) = 0
            · simp only [h0, h1, not_true_eq_false, not_false_eq_true, if_false, if_true,
                Option.some_bind, readTerm_zero, divChecked_of_ne _ _ h0, Option.map_some']
            · simp only [h0, h1, not_false_eq_true, if_true,
                Option.some_bind, readTerm_zero, divChecked_of_ne _ _ h0,
                divChecked_of_ne _ _ h1, Option.map_some'])
      beta_reduce
      rw [hin.1]
      rfl)
  rw [hout.1]
  rfl

end BasisMatrixLemmas

section BasisMatrixLemmas2

variable {α : Type} [LinearOrderedField α]

theorem WhereGreaterEqual_spec (val : α) (inp : List α) :
    (WhereGreaterEqual val inp).length = inp.length ∧
    ∀ j, j < inp.length →
      (WhereGreaterEqual val inp).getD j 0 = if val ≥ GetTuple1 inp j then 1 else 0 := by
  unfold WhereGreaterEqual
  exact setLoop_spec inp.length (fun j => if val ≥ GetTuple1 inp j then 1 else 0) _
    (fun i r => by dsimp only; split <;> rfl) _ (by simp)

theorem WhereLess_spec (val : α) (inp : List α) :
    (WhereLess val inp).length = inp.length ∧
    ∀ j, j < inp.length →
      (WhereLess val inp).getD j 0 = if val < GetTuple1 inp j then 1 else 0 := by
  unfold WhereLess
  exact setLoop_spec inp.length (fun j => if val < GetTuple1 inp j then 1 else 0) _
    (fun i r => by dsimp only; split <;> rfl) _ (by simp)

theorem MultiplyVal1D_spec (v0 : List α) (val : α) :
    (MultiplyVal1D v0 val).length = v0.length ∧
    ∀ j, j < v0.length → GetTuple1 (MultiplyVal1D v0 val) j = GetTuple1 v0 j * val := by
  unfold MultiplyVal1D
  exact setLoopD_spec v0.length (fun j => GetTuple1 v0 j * val) _ (by simp)

/-- The shifted knot vector of `GetZeroBasisFunctions`: entry `j` is `knots[j+1]`. -/
theorem knotsShift_spec (knots : List α) :
    (forLoop 0 (knots.length - 1) (fun i knotsShift =>
        SetTuple1 knotsShift i (GetTuple1 knots (i + 1)))
      (SetTuple1 (SetNumberOfTuples knots.length) (knots.length - 1) (-1))).length
      = knots.length ∧
    ∀ j, j + 1 < knots.length →
      GetTuple1 (forLoop 0 (knots.length - 1) (fun i knotsShift =>
          SetTuple1 knotsShift i (GetTuple1 knots (i + 1)))
        (SetTuple1 (SetNumberOfTuples knots.length) (knots.length - 1) (-1))) j
        = GetTuple1 knots (j + 1) := by
  have h := forLoop_inv 0 (knots.length - 1)
    (fun i (r : List α) => SetTuple1 r i (GetTuple1 knots (i + 1)))
    (SetTuple1 (SetNumberOfTuples knots.length) (knots.length - 1) (-1))
    (fun i r => r.length = knots.length ∧ ∀ j, j < i → GetTuple1 r j = GetTuple1 knots (j + 1))
    (Nat.zero_le _) ⟨by simp [SetTuple1], fun j hj => absurd hj (Nat.not_lt_zero _)⟩
    (by
      rintro i r - hi ⟨hl, hr⟩
      refine ⟨by simp [SetTuple1, hl], fun j hj => ?_⟩
      by_cases hji : j = i
      · subst hji
        rw [GetTuple1_SetTuple1_self _ _ _ (by omega)]
      · rw [GetTuple1_SetTuple1_ne _ _ _ _ (fun e => hji e.symm)]
        exact hr j (by omega))
  exact ⟨h.1, fun j hj => h.2 j (by omega)⟩

/-- `GetZeroBasisFunctions` fills `N0(k, c)` with the indicator of
`knots[c] ≤ U[k] < knots[c+1]`, the basis function of degree 0. -/
theorem GetZeroBasisFunctions_spec (U knots : List α) (N0 : NArray α) (k c : ℕ)
    (hk : k < U.length) (hc : c + 1 < knots.length) :
    (GetZeroBasisFunctions U knots N0).2.GetValue2 k c
      = coxDeBoor (fun i => GetTuple1 knots i) 0 c (GetTuple1 U k) := by
  unfold GetZeroBasisFunctions
  obtain ⟨sl, sv⟩ := knotsShift_spec knots
  dsimp only
  generalize hS : forLoop 0 (knots.length - 1) (fun i knotsShift =>
      SetTuple1 knotsShift i (GetTuple1 knots (i + 1)))
    (SetTuple1 (SetNumberOfTuples knots.length) (knots.length - 1) (-1)) = shift at sl sv ⊢
  have h := forLoop_inv 0 U.length
    (fun i (st : List ℤ × NArray α) =>
      ((Intersect1D (WhereGreaterEqual (GetTuple1 U i) knots)
          (WhereLess (GetTuple1 U i) shift) st.1).2,
        forLoop 0 (knots.length - 1) (fun j (N0 : NArray α) =>
          N0.SetValue2 i j ((((Intersect1D (WhereGreaterEqual (GetTuple1 U i) knots)
            (WhereLess (GetTuple1 U i) shift) st.1).2.getD j 0 : ℤ)) : α)) st.2))
    (([] : List ℤ), N0)
    (fun i st => ∀ a b, st.2.GetValue2 a b
      = if a < i ∧ b < knots.length - 1 then
          coxDeBoor (fun i => GetTuple1 knots i) 0 b (GetTuple1 U a)
        else N0.GetValue2 a b)
    (Nat.zero_le _) (fun a b => by simp)
    (by
      rintro i ⟨fs, T⟩ - hi hT a b
      dsimp only at hT ⊢
      rw [(rowLoop_read (knots.length - 1) i _ T).2, hT a b]
      obtain ⟨gl, gv⟩ := WhereGreaterEqual_spec (GetTuple1 U i) knots
      obtain ⟨ll, lv⟩ := WhereLess_spec (GetTuple1 U i) shift
      obtain ⟨-, iv⟩ := Intersect1D_spec (WhereGreaterEqual (GetTuple1 U i) knots)
        (WhereLess (GetTuple1 U i) shift) fs (by rw [gl, ll, sl])
      by_cases hai : a = i
      · subst hai
        by_cases hb : b < knots.length - 1
        · rw [if_pos ⟨rfl, hb⟩, if_pos ⟨by omega, hb⟩, iv b (by rw [ll, sl]; omega),
            gv b (by omega), lv b (by rw [sl]; omega), sv b (by omega), coxDeBoor_zero]
          by_cases h1 : GetTuple1 knots b ≤ GetTuple1 U a
          · by_cases h2 : GetTuple1 U a < GetTuple1 knots (b + 1)
            · have h3 : GetTuple1 U a ≥ GetTuple1 knots b := h1
              simp [h1, h2, h3]
            · have h3 : GetTuple1 U a ≥ GetTuple1 knots b := h1
              simp [h1, h2, h3]
          · have h3 : ¬ GetTuple1 U a ≥ GetTuple1 knots b := h1
            simp [h1, h3]
        · rw [if_neg (fun hc => hb hc.2), if_neg (fun hc => hb hc.2),
            if_neg (fun hc => hb hc.2)]
      · rw [if_neg (fun hc => hai hc.1)]
        have e : (a < i + 1 ∧ b < knots.length - 1) ↔ (a < i ∧ b < knots.length - 1) := by
          omega
        simp only [e])
  rw [h k c, if_pos ⟨hk, by omega⟩]

/-- The copy of a matrix into the work matrix `tmpN`. -/
theorem tmpN_init_spec (n m : ℕ) (f : ℕ → ℕ → α) (t0 : ℕ → ℕ → α) (k c : ℕ) (hk : k < n)
    (hc : c < m) :
    (forLoop 0 n (fun i tmpN =>
      forLoop 0 m (fun j tmpN => bufSet2 tmpN i j (f i j)) tmpN) t0) k c = f k c := by
  have h := forLoop2_write (fun (t : ℕ → ℕ → α) (x : ℕ × ℕ) => t x.1 x.2) n m
    (fun i j => (i, j)) (fun i j _ => f i j) (fun i j t => bufSet2 t i j (f i j))
    (by
      intro i j _ _ s x
      simp only [bufSet2]
      by_cases hx : x = (i, j)
      · rw [if_pos hx, if_pos ⟨by rw [hx], by rw [hx]⟩]
      · rw [if_neg hx, if_neg]
        rintro ⟨h1, h2⟩
        exact hx (Prod.ext h1 h2))
    (by
      intro i j i2 j2 _ _ _ _ he
      exact ⟨congrArg Prod.fst he, congrArg Prod.snd he⟩)
    t0
  exact h.1 k c hk hc

/-- The loop over the samples in `GetPBasisFunctions`: column `j` of `tmpN` becomes
`a k * tmpN[k][j] + b k * tmpN[k][j+1]` in every row `k < n`. -/
theorem colUpdate_read (n j : ℕ) (a b : ℕ → α) (t0 : ℕ → ℕ → α) (x y : ℕ) :
    (forLoop 0 n (fun k (t : ℕ → ℕ → α) =>
      bufSet2 t k j (a k * t k j + b k * t k (j + 1))) t0) x y
      = if x < n ∧ y = j then a x * t0 x j + b x * t0 x (j + 1) else t0 x y := by
  have h := forLoop_inv 0 n
    (fun k (t : ℕ → ℕ → α) => bufSet2 t k j (a k * t k j + b k * t k (j + 1))) t0
    (fun i t => ∀ x y, t x y
      = if x < i ∧ y = j then a x * t0 x j + b x * t0 x (j + 1) else t0 x y)
    (Nat.zero_le _) (fun x y => by simp)
    (by
      intro i t _ hi ht x y
      simp only [bufSet2]
      by_cases h1 : x = i ∧ y = j
      · rw [if_pos h1, if_pos ⟨by omega, h1.2⟩, ht i j, ht i (j + 1),
          if_neg (by omega), if_neg (by omega), h1.1]
      · rw [if_neg h1, ht x y]
        by_cases h2 : x < i ∧ y = j
        · rw [if_pos h2, if_pos ⟨by omega, h2.2⟩]
        · rw [if_neg h2, if_neg]
          rintro ⟨h3, h4⟩
          rcases Nat.lt_succ_iff_lt_or_eq.mp h3 with h5 | h5
          · exact h2 ⟨h5, h4⟩
          · exact h1 ⟨h5, h4⟩)
  exact h x y

/-- A basis function whose knot span is empty vanishes. -/
theorem coxDeBoor_eq_zero_of_empty (U : ℕ → α) (K : ℕ)
    (hU : ∀ a b, a ≤ b → b ≤ K → U a ≤ U b) (u : α) (d i : ℕ) (hi : i + d + 1 ≤ K)
    (h : U (i + d + 1) - U i = 0) : coxDeBoor U d i u = 0 := by
  by_contra hc
  obtain ⟨h1, h2⟩ := coxDeBoor_support U K hU u d i hi hc
  have e : U (i + d + 1) = U i := sub_eq_zero.mp h
  rw [e] at h2
  exact absurd h1 (not_le.mpr h2)

end BasisMatrixLemmas2

section BasisMatrixLevel

variable {α : Type} [LinearOrderedField α]

/-- The first factor of the recurrence as `GetPBasisFunctions` computes it: `term0` exists,
and its entry `k` times the basis value of degree `d` is the first term of the Cox-de Boor
recurrence, whatever a read past the end of `term0` returns. -/
theorem term0_spec (U knots : List α) (K : ℕ)
    (hU : ∀ a b, a ≤ b → b ≤ K → GetTuple1 knots a ≤ GetTuple1 knots b)
    (d j L : ℕ) (hj : j + d + 1 ≤ K) (stale : ℕ → α) :
    ∃ T0, (if ¬ GetTuple1 knots (d + 1 + j) - GetTuple1 knots j = 0 then
          (divChecked 1 (GetTuple1 knots (d + 1 + j) - GetTuple1 knots j)).map
            (fun q => MultiplyVal1D (AddVal1DArrVal U (GetTuple1 knots j) (-1)) q)
        else some (List.replicate L 0)) = some T0 ∧
      ∀ k, k < U.length →
        readTerm T0 (stale k) k
            * coxDeBoor (fun i => GetTuple1 knots i) d j (GetTuple1 U k)
          = cdbLeft (fun i => GetTuple1 knots i) d j (GetTuple1 U k) := by
  have e1 : d + 1 + j = j + d + 1 := by omega
  rw [e1]
  by_cases h0 : GetTuple1 knots (j + d + 1) - GetTuple1 knots j = 0
  · refine ⟨List.replicate L 0, by simp only [h0, not_true_eq_false, if_false], ?_⟩
    intro k hk
    rw [coxDeBoor_eq_zero_of_empty (fun i => GetTuple1 knots i) K hU _ d j hj h0, mul_zero]
    unfold cdbLeft
    rw [if_pos h0]
  · refine ⟨MultiplyVal1D (AddVal1DArrVal U (GetTuple1 knots j) (-1))
        (1 / (GetTuple1 knots (j + d + 1) - GetTuple1 knots j)), ?_, ?_⟩
    · simp only [h0, not_false_eq_true, if_true, divChecked_of_ne _ _ h0, Option.map_some']
    · intro k hk
      obtain ⟨ml, mv⟩ := MultiplyVal1D_spec (AddVal1DArrVal U (GetTuple1 knots j) (-1))
        (1 / (GetTuple1 knots (j + d + 1) - GetTuple1 knots j))
      obtain ⟨al, av⟩ := AddVal1DArrVal_spec U (GetTuple1 knots j) (-1)
      rw [readTerm_of_lt _ _ _ (by rw [ml, al]; exact hk), mv k (by rw [al]; exact hk),
        av k hk]
      unfold cdbLeft
      rw [if_neg h0]
      ring

/-- The second factor of the recurrence as `GetPBasisFunctions` computes it. -/
theorem term1_spec (U knots : List α) (K : ℕ)
    (hU : ∀ a b, a ≤ b → b ≤ K → GetTuple1 knots a ≤ GetTuple1 knots b)
    (d j L : ℕ) (hj : j + d + 2 ≤ K) (stale : ℕ → α) :
    ∃ T1, (if ¬ GetTuple1 knots (d + 1 + j + 1) - GetTuple1 knots (j + 1) = 0 then
          (divChecked 1 (GetTuple1 knots (d + 1 + j + 1) - GetTuple1 knots (j + 1))).map
            (fun q => MultiplyVal1D (AddVal1DValArr (GetTuple1 knots (d + 1 + j + 1)) U (-1)) q)
        else some (List.replicate L 0)) = some T1 ∧
      ∀ k, k < U.length →
        readTerm T1 (stale k) k
            * coxDeBoor (fun i => GetTuple1 knots i) d (j + 1) (GetTuple1 U k)
          = cdbRight (fun i => GetTuple1 knots i) d j (GetTuple1 U k) := by
  have e1 : d + 1 + j + 1 = j + d + 2 := by omega
  rw [e1]
  by_cases h0 : GetTuple1 knots (j + d + 2) - GetTuple1 knots (j + 1) = 0
  · refine ⟨List.replicate L 0, by simp only [h0, not_true_eq_false, if_false], ?_⟩
    intro k hk
    have e2 : j + 1 + d + 1 = j + d + 2 := by omega
    rw [coxDeBoor_eq_zero_of_empty (fun i => GetTuple1 knots i) K hU _ d (j + 1) (by omega)
      (by rw [e2]; exact h0), mul_zero]
    unfold cdbRight
    rw [if_pos h0]
  · refine ⟨MultiplyVal1D (AddVal1DValArr (GetTuple1 knots (j + d + 2)) U (-1))
        (1 / (GetTuple1 knots (j + d + 2) - GetTuple1 knots (j + 1))), ?_, ?_⟩
    · simp only [h0, not_false_eq_true, if_true, divChecked_of_ne _ _ h0, Option.map_some']
    · intro k hk
      obtain ⟨ml, mv⟩ := MultiplyVal1D_spec (AddVal1DValArr (GetTuple1 knots (j + d + 2)) U (-1))
        (1 / (GetTuple1 knots (j + d + 2) - GetTuple1 knots (j + 1)))
      obtain ⟨al, av⟩ := AddVal1DValArr_spec (GetTuple1 knots (j + d + 2)) U (-1)
      rw [readTerm_of_lt _ _ _ (by rw [ml, al]; exact hk), mv k (by rw [al]; exact hk),
        av k hk]
      unfold cdbRight
      rw [if_neg h0]
      ring

/-- One level of `GetPBasisFunctions`: from the basis values of degree `d` in `tmpN` to
those of degree `d + 1`, without a division by zero and whatever the reads past the end of
`term0` and `term1` return. -/
theorem basisMatrixLevel_spec (stale0 stale1 : ℕ → ℕ → ℕ → α) (U knots : List α) (K : ℕ)
    (hK : knots.length ≤ K + 1)
    (hU : ∀ a b, a ≤ b → b ≤ K → GetTuple1 knots a ≤ GetTuple1 knots b)
    (d B L : ℕ) (hB : B = knots.length - d - 2) (t : ℕ → ℕ → α)
    (ht : ∀ k, k < U.length → ∀ c, c + d + 1 < knots.length →
      t k c = coxDeBoor (fun i => GetTuple1 knots i) d c (GetTuple1 U k)) :
    ∃ t', forLoopM 0 B (fun j tmpN =>
        (if ¬ GetTuple1 knots (d + 1 + j) - GetTuple1 knots j = 0 then
            (divChecked 1 (GetTuple1 knots (d + 1 + j) - GetTuple1 knots j)).map
              (fun q => MultiplyVal1D (AddVal1DArrVal U (GetTuple1 knots j) (-1)) q)
          else some (List.replicate L 0)).bind (fun term0 =>
        (if ¬ GetTuple1 knots (d + 1 + j + 1) - GetTuple1 knots (j + 1) = 0 then
            (divChecked 1 (GetTuple1 knots (d + 1 + j + 1) - GetTuple1 knots (j + 1))).map
              (fun q =>
                MultiplyVal1D (AddVal1DValArr (GetTuple1 knots (d + 1 + j + 1)) U (-1)) q)
          else some (List.replicate L 0)).bind (fun term1 =>
          some (forLoop 0 U.length (fun k tmpN =>
            bufSet2 tmpN k j (readTerm term0 (stale0 (d + 1) j k) k * tmpN k j
              + readTerm term1 (stale1 (d + 1) j k) k * tmpN k (j + 1))) tmpN)))) t
        = some t' ∧
      ∀ k, k < U.length → ∀ c, c + d + 2 < knots.length →
        t' k c = coxDeBoor (fun i => GetTuple1 knots i) (d + 1) c (GetTuple1 U k) := by
  obtain ⟨t', ht', hI⟩ := forLoopM_inv 0 B (fun j tmpN =>
        (if ¬ GetTuple1 knots (d + 1 + j) - GetTuple1 knots j = 0 then
            (divChecked 1 (GetTuple1 knots (d + 1 + j) - GetTuple1 knots j)).map
              (fun q => MultiplyVal1D (AddVal1DArrVal U (GetTuple1 knots j) (-1)) q)
          else some (List.replicate L 0)).bind (fun term0 =>
        (if ¬ GetTuple1 knots (d + 1 + j + 1) - GetTuple1 knots (j + 1) = 0 then
            (divChecked 1 (GetTuple1 knots (d + 1 + j + 1) - GetTuple1 knots (j + 1))).map
              (fun q =>
                MultiplyVal1D (AddVal1DValArr (GetTuple1 knots (d + 1 + j + 1)) U (-1)) q)
          else some (List.replicate L 0)).bind (fun term1 =>
          some (forLoop 0 U.length (fun k tmpN =>
            bufSet2 tmpN k j (readTerm term0 (stale0 (d + 1) j k) k * tmpN k j
              + readTerm term1 (stale1 (d + 1) j k) k * tmpN k (j + 1))) tmpN)))) t
    (fun j t' => ∀ k, k < U.length → ∀ c,
      (c < j → t' k c = coxDeBoor (fun i => GetTuple1 knots i) (d + 1) c (GetTuple1 U k)) ∧
      (j ≤ c → c + d + 1 < knots.length →
        t' k c = coxDeBoor (fun i => GetTuple1 knots i) d c (GetTuple1 U k)))
    (Nat.zero_le _)
    (fun k hk c => ⟨fun h => absurd h (Nat.not_lt_zero _), fun _ hc => ht k hk c hc⟩)
    (by
      intro j s _ hj hs
      obtain ⟨T0, hT0, hv0⟩ := term0_spec U knots K hU d j L (by omega)
        (fun k => stale0 (d + 1) j k)
      obtain ⟨T1, hT1, hv1⟩ := term1_spec U knots K hU d j L (by omega)
        (fun k => stale1 (d + 1) j k)
      refine ⟨forLoop 0 U.length (fun k tmpN =>
          bufSet2 tmpN k j (readTerm T0 (stale0 (d + 1) j k) k * tmpN k j
            + readTerm T1 (stale1 (d + 1) j k) k * tmpN k (j + 1))) s,
        by simp only [hT0, hT1, Option.some_bind], ?_⟩
      intro k hk c
      rw [colUpdate_read U.length j (fun k => readTerm T0 (stale0 (d + 1) j k) k)
        (fun k => readTerm T1 (stale1 (d + 1) j k) k) s k c]
      by_cases hc : c = j
      · subst hc
        rw [if_pos ⟨hk, rfl⟩]
        refine ⟨fun _ => ?_, fun h => absurd h (by omega)⟩
        rw [(hs k hk c).2 (le_refl _) (by omega), (hs k hk (c + 1)).2 (by omega) (by omega),
          hv0 k hk, hv1 k hk, coxDeBoor_succ]
      · rw [if_neg (fun h => hc h.2)]
        exact ⟨fun h => (hs k hk c).1 (by omega), fun h h2 => (hs k hk c).2 (by omega) h2⟩)
  exact ⟨t', ht', fun k hk c hc => (hI k hk c).1 (by omega)⟩

end BasisMatrixLevel

section BasisMatrixSpec

variable {α : Type} [LinearOrderedField α]

/-- `GetPBasisFunctions` on a non-decreasing knot vector executes no division by zero and
leaves in `NP(k, c)` the Cox-de Boor basis value `N_{c,p}(U[k])`, whatever the reads past
the end of `term0` and `term1` return. -/
theorem GetPBasisFunctionsChecked_spec (stale0 stale1 : ℕ → ℕ → ℕ → α) (U knots : List α)
    (K : ℕ) (hK : knots.length ≤ K + 1)
    (hU : ∀ a b, a ≤ b → b ≤ K → GetTuple1 knots a ≤ GetTuple1 knots b)
    (p : ℕ) (NP : NArray α) :
    ∃ out, GetPBasisFunctionsChecked stale0 stale1 U knots p NP = some (1, out) ∧
      out.extents = [U.length, knots.length - p - 1] ∧
      ∀ k, k < U.length → ∀ c, c + p + 1 < knots.length →
        out.GetValue2 k c
          = coxDeBoor (fun i => GetTuple1 knots i) p c (GetTuple1 U k) := by
  obtain ⟨st', hst, hI1, hI2⟩ := forLoopM_inv 1 (p + 1)
    (fun i (st : ℤ × (ℕ → ℕ → α)) =>
      (forLoopM 0 (st.1 - 1 - 1).toNat (fun j tmpN =>
        (if ¬ GetTuple1 knots (i + j) - GetTuple1 knots j = 0 then
            (divChecked 1 (GetTuple1 knots (i + j) - GetTuple1 knots j)).map
              (fun q => MultiplyVal1D (AddVal1DArrVal U (GetTuple1 knots j) (-1)) q)
          else some (List.replicate (st.1 - 1 - 1).toNat 0)).bind (fun term0 =>
        (if ¬ GetTuple1 knots (i + j + 1) - GetTuple1 knots (j + 1) = 0 then
            (divChecked 1 (GetTuple1 knots (i + j + 1) - GetTuple1 knots (j + 1))).map
              (fun q => MultiplyVal1D (AddVal1DValArr (GetTuple1 knots (i + j + 1)) U (-1)) q)
          else some (List.replicate (st.1 - 1 - 1).toNat 0)).bind (fun term1 =>
          some (forLoop 0 U.length (fun k tmpN =>
            bufSet2 tmpN k j (readTerm term0 (stale0 i j k) k * tmpN k j
              + readTerm term1 (stale1 i j k) k * tmpN k (j + 1))) tmpN)))) st.2).map
        (fun tmpN => (st.1 - 1, tmpN)))
    ((knots.length : ℤ), forLoop 0 U.length (fun i tmpN =>
      forLoop 0 (knots.length - 1) (fun j tmpN =>
        bufSet2 tmpN i j ((GetZeroBasisFunctions U knots
          (NArray.Resize [U.length, knots.length - 1])).2.GetValue2 i j)) tmpN)
      (fun _ => newBuf))
    (fun i st => st.1 = (knots.length : ℤ) - (i : ℤ) + 1 ∧
      ∀ d, i = d + 1 → ∀ k, k < U.length → ∀ c, c + d + 1 < knots.length →
        st.2 k c = coxDeBoor (fun i => GetTuple1 knots i) d c (GetTuple1 U k))
    (by omega)
    ⟨by simp, fun d hd k hk c hc => by
      have hd0 : d = 0 := by omega
      subst hd0
      dsimp only
      rw [tmpN_init_spec U.length (knots.length - 1) _ _ k c hk (by omega),
        GetZeroBasisFunctions_spec U knots _ k c hk (by omega)]⟩
    (by
      rintro i ⟨bl, t⟩ hi1 hi2 ⟨a1, a2⟩
      obtain ⟨d, rfl⟩ : ∃ d, i = d + 1 := ⟨i - 1, by omega⟩
      dsimp only at a1 a2 ⊢
      obtain ⟨t', ht', hv⟩ := basisMatrixLevel_spec stale0 stale1 U knots K hK hU d
        (bl - 1 - 1).toNat (bl - 1 - 1).toNat (by rw [a1]; push_cast; omega) t
        (a2 d rfl)
      refine ⟨(bl - 1, t'), by rw [ht']; rfl, by rw [a1]; push_cast; ring, ?_⟩
      intro d2 hd2 k hk c hc
      have e : d2 = d + 1 := by omega
      subst e
      exact hv k hk c (by omega))
  have hbl : (st'.1 - 1).toNat = knots.length - p - 1 := by
    rw [hI1]; push_cast; omega
  refine ⟨forLoop 0 U.length (fun i NP =>
      forLoop 0 (st'.1 - 1).toNat (fun j (NP : NArray α) => NP.SetValue2 i j (st'.2 i j)) NP)
      (NArray.Resize [U.length, (st'.1 - 1).toNat]), ?_, ?_, ?_⟩
  · unfold GetPBasisFunctionsChecked
    simp only [GetZeroBasisFunctions_status, ne_eq, not_true_eq_false, if_false]
    rw [hst]
    rfl
  · rw [(fill2_spec U.length (st'.1 - 1).toNat (fun i j => st'.2 i j) _).1, hbl]
    rfl
  · intro k hk c hc
    rw [(fill2_spec U.length (st'.1 - 1).toNat (fun i j => st'.2 i j) _).2 k c hk
      (by rw [hbl]; omega)]
    exact hI2 p rfl k hk c hc

/-- The basis matrix of `GetPBasisFunctions` on a non-decreasing knot vector: `NP(k, c)` is
the Cox-de Boor basis value `N_{c,p}(U[k])`. -/
theorem GetPBasisFunctions_spec (U knots : List α) (K : ℕ) (hK : knots.length ≤ K + 1)
    (hU : ∀ a b, a ≤ b → b ≤ K → GetTuple1 knots a ≤ GetTuple1 knots b)
    (p : ℕ) (NP : NArray α) (k c : ℕ) (hk : k < U.length) (hc : c + p + 1 < knots.length) :
    (GetPBasisFunctions U knots p NP).2.GetValue2 k c
      = coxDeBoor (fun i => GetTuple1 knots i) p c (GetTuple1 U k) := by
  obtain ⟨out, h1, -, h3⟩ := GetPBasisFunctionsChecked_spec (fun _ _ _ => 0) (fun _ _ _ => 0)
    U knots K hK hU p NP
  rw [GetPBasisFunctionsChecked_zero] at h1
  have e : GetPBasisFunctions U knots p NP = (1, out) := Option.some.inj h1
  rw [e]
  exact h3 k hk c hc

/-- A non-decreasing knot vector is non-decreasing on the window of all its indices. -/
theorem knots_mono_window (knots : List α)
    (hmono : ∀ i, i + 1 < knots.length → GetTuple1 knots i ≤ GetTuple1 knots (i + 1)) :
    ∀ a b, a ≤ b → b ≤ knots.length - 1 → GetTuple1 knots a ≤ GetTuple1 knots b := by
  intro a b hab hb
  rcases Nat.eq_zero_or_pos knots.length with h0 | hpos
  · have e : a = b := by omega
    rw [e]
  · exact knots_window_mono knots (knots.length - 1) (by omega) hmono a b hab hb

end BasisMatrixSpec

section BasisMatrixClaims

variable {α : Type} [LinearOrderedField α]

/-- C25 (the two basis-matrix builders agree): for every non-decreasing knot vector of
length `nCon + p + 1`, every degree `p`, every array `U` of evaluation values and every
control-point index `j < nCon`, `GetPBasisFunctions(U, knots, p)` succeeds with a matrix of
`U.length` rows and `nCon` columns, `BasisEvaluationVec(knots, p, j, U)` returns, and entry
`(i, j)` of the former equals entry `(i, 0)` of the latter for every sample `i`. -/
theorem C25_basis_builders_agree (knots U : List α) (nCon p j : ℕ)
    (hlen : knots.length = nCon + p + 1)
    (hmono : ∀ i, i + 1 < knots.length → GetTuple1 knots i ≤ GetTuple1 knots (i + 1))
    (hj : j < nCon) (Nus : TypedArray α) (NP : NArray α) :
    (GetPBasisFunctions U knots p NP).1 = 1 ∧
    (GetPBasisFunctions U knots p NP).2.extents = [U.length, nCon] ∧
    ∃ out, BasisEvaluationVec knots p j U Nus = some out ∧
      ∀ i, i < U.length →
        (GetPBasisFunctions U knots p NP).2.GetValue2 i j = out.GetValue i 0 := by
  have hU := knots_mono_window knots hmono
  obtain ⟨out, ho, hv⟩ := BasisEvaluationVec_spec knots (knots.length - 1) hU p j U Nus
    (by omega)
  refine ⟨GetPBasisFunctions_status U knots p NP, ?_, out, ho, fun i hi => ?_⟩
  · rw [GetPBasisFunctions_extents, hlen]
    congr 2
    push_cast
    omega
  · rw [GetPBasisFunctions_spec U knots (knots.length - 1) (by omega) hU p NP i j hi (by omega)]
    exact (hv i hi).symm

/-- C26 (no division by a zero knot-span width): for every non-decreasing knot vector, every
degree `p` and all evaluation values `U`, `GetPBasisFunctions` with its divisions checked
returns, whatever its reads past the end of `term0` and `term1` return, and so does
`BasisEvaluationVec` for every index `kEval` with `kEval + p + 1 < nKnot`; the values they
leave are the Cox-de Boor values, in whose recurrence a term with a knot span of zero width
is exactly 0. -/
theorem C26_no_zero_division (knots U : List α) (p : ℕ)
    (hmono : ∀ i, i + 1 < knots.length → GetTuple1 knots i ≤ GetTuple1 knots (i + 1)) :
    (∀ (stale0 stale1 : ℕ → ℕ → ℕ → α) (NP : NArray α),
      ∃ out, GetPBasisFunctionsChecked stale0 stale1 U knots p NP = some (1, out) ∧
        ∀ k, k < U.length → ∀ c, c + p + 1 < knots.length →
          out.GetValue2 k c
            = coxDeBoor (fun i => GetTuple1 knots i) p c (GetTuple1 U k)) ∧
    (∀ (kEval : ℕ) (Nus : TypedArray α), kEval + p + 1 < knots.length →
      ∃ out, BasisEvaluationVec knots p kEval U Nus = some out ∧
        ∀ k, k < U.length →
          out.GetValue k 0
            = coxDeBoor (fun i => GetTuple1 knots i) p kEval (GetTuple1 U k)) ∧
    (∀ (d c : ℕ) (u : α),
      coxDeBoor (fun i => GetTuple1 knots i) (d + 1) c u
        = cdbLeft (fun i => GetTuple1 knots i) d c u
          + cdbRight (fun i => GetTuple1 knots i) d c u ∧
      (GetTuple1 knots (c + d + 1) - GetTuple1 knots c = 0 →
        cdbLeft (fun i => GetTuple1 knots i) d c u = 0) ∧
      (GetTuple1 knots (c + d + 2) - GetTuple1 knots (c + 1) = 0 →
        cdbRight (fun i => GetTuple1 knots i) d c u = 0)) := by
  have hU := knots_mono_window knots hmono
  refine ⟨fun stale0 stale1 NP => ?_, fun kEval Nus hk => ?_, fun d c u => ⟨rfl, ?_, ?_⟩⟩
  · obtain ⟨out, h1, -, h3⟩ := GetPBasisFunctionsChecked_spec stale0 stale1 U knots
      (knots.length - 1) (by omega) hU p NP
    exact ⟨out, h1, h3⟩
  · obtain ⟨out, ho, hv⟩ := BasisEvaluationVec_spec knots (knots.length - 1) hU p kEval U Nus
      (by omega)
    exact ⟨out, ho, hv⟩
  · intro h
    unfold cdbLeft
    rw [if_pos h]
  · intro h
    unfold cdbRight
    rw [if_pos h]

/-- The degree-2 basis matrix of `GetPBasisFunctions` on the knots `[0,0,0,1/2,1,1,1]` at
the values `0, 1/4, 1/2, 1`. -/
theorem basis_matrix_example :
    (List.range 4).map (fun i => (List.range 4).map (fun j =>
      (GetPBasisFunctions [(0 : ℚ), 1/4, 1/2, 1] [0, 0, 0, 1/2, 1, 1, 1] 2
        (NArray.Resize [])).2.GetValue2 i j))
      = [[1, 0, 0, 0], [1/4, 5/8, 1/8, 0], [0, 1/2, 1/2, 0], [0, 0, 0, 0]] := by
  decide!

/-- Witness of C25: knots `[0,0,0,1/2,1,1,1]`, degree 2, the values `0, 1/4, 1/2, 1`,
control point 1. -/
theorem C25_basis_builders_agree_witness :
    ([0, 0, 0, 1/2, 1, 1, 1] : List ℚ).length = 4 + 2 + 1 ∧ 1 < 4 ∧
    (GetPBasisFunctions [(0 : ℚ), 1/4, 1/2, 1] [0, 0, 0, 1/2, 1, 1, 1] 2
      (NArray.Resize [])).1 = 1 ∧
    (GetPBasisFunctions [(0 : ℚ), 1/4, 1/2, 1] [0, 0, 0, 1/2, 1, 1, 1] 2
      (NArray.Resize [])).2.extents = [[(0 : ℚ), 1/4, 1/2, 1].length, 4] ∧
    ∃ out, BasisEvaluationVec ([0, 0, 0, 1/2, 1, 1, 1] : List ℚ) 2 1 [(0 : ℚ), 1/4, 1/2, 1]
        ⟨4, 4, fun _ _ => 0⟩ = some out ∧
      ∀ i, i < [(0 : ℚ), 1/4, 1/2, 1].length →
        (GetPBasisFunctions [(0 : ℚ), 1/4, 1/2, 1] [0, 0, 0, 1/2, 1, 1, 1] 2
          (NArray.Resize [])).2.GetValue2 i 1 = out.GetValue i 0 :=
  ⟨by decide, by decide,
    C25_basis_builders_agree ([0, 0, 0, 1/2, 1, 1, 1] : List ℚ) [(0 : ℚ), 1/4, 1/2, 1] 4 2 1
      (by decide) scenarioA_knots_mono (by decide) ⟨4, 4, fun _ _ => 0⟩ (NArray.Resize [])⟩

/-- Witness of C26: knots `[0,0,0,1/2,1,1,1]` with their repeated end knots, degree 2, the
values `0, 1/4, 1/2, 1`. -/
theorem C26_no_zero_division_witness :
    (∀ (stale0 stale1 : ℕ → ℕ → ℕ → ℚ) (NP : NArray ℚ),
      ∃ out, GetPBasisFunctionsChecked stale0 stale1 [(0 : ℚ), 1/4, 1/2, 1]
          [0, 0, 0, 1/2, 1, 1, 1] 2 NP = some (1, out) ∧
        ∀ k, k < [(0 : ℚ), 1/4, 1/2, 1].length →
          ∀ c, c + 2 + 1 < ([0, 0, 0, 1/2, 1, 1, 1] : List ℚ).length →
          out.GetValue2 k c
            = coxDeBoor (fun i => GetTuple1 ([0, 0, 0, 1/2, 1, 1, 1] : List ℚ) i) 2 c
              (GetTuple1 [(0 : ℚ), 1/4, 1/2, 1] k)) ∧
    (∀ (kEval : ℕ) (Nus : TypedArray ℚ),
      kEval + 2 + 1 < ([0, 0, 0, 1/2, 1, 1, 1] : List ℚ).length →
      ∃ out, BasisEvaluationVec ([0, 0, 0, 1/2, 1, 1, 1] : List ℚ) 2 kEval
          [(0 : ℚ), 1/4, 1/2, 1] Nus = some out ∧
        ∀ k, k < [(0 : ℚ), 1/4, 1/2, 1].length →
          out.GetValue k 0
            = coxDeBoor (fun i => GetTuple1 ([0, 0, 0, 1/2, 1, 1, 1] : List ℚ) i) 2 kEval
              (GetTuple1 [(0 : ℚ), 1/4, 1/2, 1] k)) ∧
    (∀ (d c : ℕ) (u : ℚ),
      coxDeBoor (fun i => GetTuple1 ([0, 0, 0, 1/2, 1, 1, 1] : List ℚ) i) (d + 1) c u
        = cdbLeft (fun i => GetTuple1 ([0, 0, 0, 1/2, 1, 1, 1] : List ℚ) i) d c u
          + cdbRight (fun i => GetTuple1 ([0, 0, 0, 1/2, 1, 1, 1] : List ℚ) i) d c u ∧
      (GetTuple1 ([0, 0, 0, 1/2, 1, 1, 1] : List ℚ) (c + d + 1)
          - GetTuple1 ([0, 0, 0, 1/2, 1, 1, 1] : List ℚ) c = 0 →
        cdbLeft (fun i => GetTuple1 ([0, 0, 0, 1/2, 1, 1, 1] : List ℚ) i) d c u = 0) ∧
      (GetTuple1 ([0, 0, 0, 1/2, 1, 1, 1] : List ℚ) (c + d + 2)
          - GetTuple1 ([0, 0, 0, 1/2, 1, 1, 1] : List ℚ) (c + 1) = 0 →
        cdbRight (fun i => GetTuple1 ([0, 0, 0, 1/2, 1, 1, 1] : List ℚ) i) d c u = 0)) :=
  C26_no_zero_division ([0, 0, 0, 1/2, 1, 1, 1] : List ℚ) [(0 : ℚ), 1/4, 1/2, 1] 2
    scenarioA_knots_mono

end BasisMatrixClaims

section BasisMatrixExample

/-- Three samples on the knots `[0,0,1,1]` with degree 1: at level 1 and column 0 the
denominator `knots[1] - knots[0]` is zero, `term0` has two tuples and is read at `k = 2`;
with the value 7 for such reads the matrix is still the matrix of basis values. -/
theorem stale_read_example :
    (GetPBasisFunctionsChecked (fun _ _ _ => 7) (fun _ _ _ => 7) [(0 : ℚ), 1/2, 1]
        [0, 0, 1, 1] 1 (NArray.Resize [])).map
      (fun r => (r.1, (List.range 3).map (fun i => (List.range 2).map (fun j =>
        r.2.GetValue2 i j))))
      = some (1, [[1, 0], [1/2, 1/2], [0, 0]]) := by
  decide!

end BasisMatrixExample

end vtkNURBSUtils
